import Mathlib

/-!
# Embedded publish/subscribe core: allocator, topic registry, subscribers, publish path

Shallow embedding of `memory_pool.c`, `topic_manager.c`, `subscriber_manager.c` and
`publisher.c`.

Conventions of the embedding.
* The target is the ESP32 (ILP32): `size_t` and `uint32_t` are 32 bits wide, so arithmetic on
  them is taken modulo `2 ^ 32` where it can wrap; `sizeof(block_header_t)` and
  `sizeof(subscriber_t)` are both 12.
* A pointer into the pool is the byte offset from the pool base; `none` is `NULL`.
* The `next` chain starting at `first_block` is a list of headers.  Every block the code ever
  creates starts right after the payload of its predecessor, so the offset of a block is the sum
  of `header + size` over the blocks before it.
* A C string is the list of its bytes (terminator excluded).
* Mutexes are taken and given inside each operation; an operation is one atomic step.
* An operation returns `none` where the C code leaves defined behaviour (a `memcpy` that runs
  past its source or destination, `memory_pool_free` of an address that is not a block payload,
  a queue call on a `NULL` handle).
-/

namespace PubSub

/-! ## Constants (`pubsub_core.h`, `memory_pool.h`) -/

def MAX_TOPICS : Nat := 50
def MAX_TOPIC_NAME_LENGTH : Nat := 64
def MAX_SUBSCRIBERS_PER_TOPIC : Nat := 20
def MAX_MSG_SIZE : Nat := 1024
def MAX_QUEUE_SIZE : Nat := 100
def MEMORY_BLOCK_SIZE : Nat := 128
def MEMORY_POOL_BLOCKS : Nat := 100

/-- Modulus of `size_t` and `uint32_t` arithmetic. -/
def SIZE_MOD : Nat := 2 ^ 32
/-- Largest `size_t` value. -/
def SIZE_MAX : Nat := 2 ^ 32 - 1
/-- Value of `sizeof(block_header_t)`: pointer, `size_t`, `bool` padded to 4. -/
def HEADER_SIZE : Nat := 12
/-- Value of `sizeof(subscriber_t)`: function pointer, `void *`, pointer. -/
def SIZEOF_SUBSCRIBER : Nat := 12

/-! ## Block allocator (`memory_pool.c`) -/

/-- Header of one block; `next` is the tail of the list the header sits in. -/
structure block_header_t where
  size : Nat
  is_free : Bool
deriving DecidableEq, Repr

/-- The allocator singleton `g_memory_pool`. -/
structure memory_pool_t where
  first_block : List block_header_t
  total_size : Nat
  used_size : Nat
  peak_use : Nat
deriving DecidableEq, Repr

/-- State of `g_memory_pool` before `memory_pool_init` (zeroed static storage). -/
def memory_pool_zero : memory_pool_t :=
  { first_block := [], total_size := 0, used_size := 0, peak_use := 0 }

/-- Result of a successful `memory_pool_init`: one free block spanning the region. -/
def memory_pool_init : memory_pool_t :=
  { first_block := [{ size := MEMORY_POOL_BLOCKS * MEMORY_BLOCK_SIZE - HEADER_SIZE, is_free := true }],
    total_size := MEMORY_POOL_BLOCKS * MEMORY_BLOCK_SIZE,
    used_size := 0,
    peak_use := 0 }

/-- Rounding `(size + 7) & ~7` on a 32-bit `size_t`. -/
def align8 (size : Nat) : Nat := (size + 7) % SIZE_MOD / 8 * 8

/-- Offset of the header of the block at the head of `bs.drop i`, the list starting at `off`. -/
def block_offset : List block_header_t → Nat → Nat → Nat
  | [], _, off => off
  | _ :: _, 0, off => off
  | b :: rest, i + 1, off => block_offset rest i (off + HEADER_SIZE + b.size)

/-- The best-fit loop of `memory_pool_alloc`: `i` is the index of `current`, `best` the index of
`best_fit`, `min_diff` the running `min_size_diff`; the scan stops at an exact fit. -/
def best_fit_scan (size : Nat) : List block_header_t → Nat → Option Nat → Nat → Option Nat × Nat
  | [], _, best, min_diff => (best, min_diff)
  | b :: rest, i, best, min_diff =>
    if b.is_free = true ∧ size ≤ b.size then
      if b.size - size < min_diff then
        if b.size - size = 0 then (some i, 0)
        else best_fit_scan size rest (i + 1) (some i) (b.size - size)
      else best_fit_scan size rest (i + 1) best min_diff
    else best_fit_scan size rest (i + 1) best min_diff

/-- Marks the block at index `i` allocated, splitting it when the remainder `diff` can hold a
header and 8 bytes; returns the new list and the payload size of the allocated block. -/
def take_block (size diff : Nat) : List block_header_t → Nat → List block_header_t × Nat
  | [], _ => ([], 0)
  | b :: rest, 0 =>
    if HEADER_SIZE + 8 ≤ diff then
      ({ size := size, is_free := false } :: { size := diff - HEADER_SIZE, is_free := true } :: rest, size)
    else
      ({ size := b.size, is_free := false } :: rest, b.size)
  | b :: rest, i + 1 => ((b :: (take_block size diff rest i).1), (take_block size diff rest i).2)

/-- Embedding of `memory_pool_alloc`: the returned pointer (payload offset) and the new pool. -/
def memory_pool_alloc (p : memory_pool_t) (size : Nat) : Option Nat × memory_pool_t :=
  if size = 0 then (none, p)
  else
    match best_fit_scan (align8 size) p.first_block 0 none SIZE_MAX with
    | (none, _) => (none, p)
    | (some i, diff) =>
      let r := take_block (align8 size) diff p.first_block i
      let used := (p.used_size + (r.2 + HEADER_SIZE)) % SIZE_MOD
      (some (block_offset p.first_block i 0 + HEADER_SIZE),
        { first_block := r.1,
          total_size := p.total_size,
          used_size := used,
          peak_use := if p.peak_use < used then used else p.peak_use })

/-- Finds the block whose payload starts at `ptr` (the list starts at offset `off`), sets its
`is_free` flag and returns its payload size; `none` when no header sits at `ptr - header`. -/
def mark_free (ptr : Nat) : List block_header_t → Nat → Option (Nat × List block_header_t)
  | [], _ => none
  | b :: rest, off =>
    if off + HEADER_SIZE = ptr then some (b.size, { size := b.size, is_free := true } :: rest)
    else
      match mark_free ptr rest (off + HEADER_SIZE + b.size) with
      | none => none
      | some (sz, rest') => some (sz, b :: rest')

/-- The coalescing loop of `memory_pool_free` with `current = cur` and `cur.next = rest`: a free
block absorbs a free successor and is examined again, otherwise the walk moves on. -/
def coalesce_from (cur : block_header_t) : List block_header_t → List block_header_t
  | [] => [cur]
  | nxt :: rest =>
    if cur.is_free = true ∧ nxt.is_free = true then
      coalesce_from { size := cur.size + (nxt.size + HEADER_SIZE), is_free := cur.is_free } rest
    else cur :: coalesce_from nxt rest

/-- The coalescing pass started at `first_block`. -/
def coalesce : List block_header_t → List block_header_t
  | [] => []
  | b :: rest => coalesce_from b rest

/-- Embedding of `memory_pool_free`; `ptr = none` is the `NULL` no-op. -/
def memory_pool_free (p : memory_pool_t) (ptr : Option Nat) : Option memory_pool_t :=
  match ptr with
  | none => some p
  | some a =>
    match mark_free a p.first_block 0 with
    | none => none
    | some (sz, bs) =>
      some { first_block := coalesce bs,
             total_size := p.total_size,
             used_size := (p.used_size + SIZE_MOD - (sz + HEADER_SIZE) % SIZE_MOD) % SIZE_MOD,
             peak_use := p.peak_use }

/-- Payload size of the block whose payload starts at `ptr`, 0 when there is none. -/
def block_capacity (ptr : Nat) : List block_header_t → Nat → Nat
  | [], _ => 0
  | b :: rest, off =>
    if off + HEADER_SIZE = ptr then b.size else block_capacity ptr rest (off + HEADER_SIZE + b.size)

/-! ## Data model (`pubsub_core.h`, `topic_manager.c`) -/

inductive msg_priority_t where
  | MSG_PRIORITY_LOW
  | MSG_PRIORITY_NORMAL
  | MSG_PRIORITY_HIGH
  | MSG_PRIORITY_CRITICAL
deriving DecidableEq, Repr

inductive pubsub_err_t where
  | PUBSUB_OK
  | PUBSUB_ERR_INVALID_PARAM
  | PUBSUB_ERR_NO_MEMORY
  | PUBSUB_ERR_TOPIC_EXISTS
  | PUBSUB_ERR_TOPIC_NOT_FOUND
  | PUBSUB_ERR_QUEUE_FULL
  | PUBSUB_ERR_MAX_SUBSCRIBERS
deriving DecidableEq, Repr

open msg_priority_t pubsub_err_t

/-- A pool buffer: the address `memory_pool_alloc` returned and the bytes `memcpy` stored there. -/
structure buffer_t where
  addr : Nat
  bytes : List Nat
deriving DecidableEq, Repr

/-- The message descriptor `pubsub_msg_t`; `data = none` is the `NULL` payload. -/
structure pubsub_msg_t where
  topic : List Nat
  data : Option buffer_t
  data_len : Nat
  priority : msg_priority_t
  timestamp : Nat
  user_data : Option Nat
deriving DecidableEq, Repr

/-- A subscriber node: `callback` is the function pointer, `user_data` the cookie, `addr` the
pool address of the node itself. -/
structure subscriber_t where
  callback : Nat
  user_data : Option Nat
  addr : Nat
deriving DecidableEq, Repr

/-- A FreeRTOS queue: the queued items, head first, and the length given to `xQueueCreate`. -/
structure queue_t where
  items : List pubsub_msg_t
  length : Nat
deriving DecidableEq, Repr

/-- One slot of the `topics` array; `msg_queue = none` is a `NULL` (or deleted) handle and
`lock` tells whether the mutex handle is live. -/
structure topic_t where
  name : List Nat
  subscribers : List subscriber_t
  msg_queue : Option queue_t
  subscriber_count : Nat
  lock : Bool
deriving DecidableEq, Repr

/-- The file-scope state of the core together with the allocator singleton. -/
structure pubsub_state where
  topics : List topic_t
  topic_count : Nat
  topics_lock : Bool
  pool : memory_pool_t
deriving DecidableEq, Repr

/-- A zeroed slot. -/
def topic_zero : topic_t :=
  { name := [], subscribers := [], msg_queue := none, subscriber_count := 0, lock := false }

/-- Static storage at program start. -/
def boot_state : pubsub_state :=
  { topics := List.replicate MAX_TOPICS topic_zero, topic_count := 0, topics_lock := false,
    pool := memory_pool_zero }

/-- Embedding of `pubsub_init`; `mutex_ok` tells whether `xSemaphoreCreateMutex` succeeds. -/
def pubsub_init (s : pubsub_state) (mutex_ok : Bool) : pubsub_err_t × pubsub_state :=
  if s.topics_lock then (PUBSUB_OK, s)
  else if !mutex_ok then (PUBSUB_ERR_NO_MEMORY, s)
  else (PUBSUB_OK, { s with topics_lock := true, topics := List.replicate MAX_TOPICS topic_zero })

/-- The state after a successful `pubsub_init` and a successful `memory_pool_init`. (The
allocator is taken as initialised before the first allocation; `app_main` itself only calls
`pubsub_init`.) -/
def init_state : pubsub_state :=
  { (pubsub_init boot_state true).2 with pool := memory_pool_init }

/-- The lookup loop `for (i = 0; i < topic_count; i++) if (strcmp(topics[i].name, name) == 0)`:
the first index among the first `n` slots whose name equals `name`, with the slot. -/
def find_topic (name : List Nat) : List topic_t → Nat → Option (Nat × topic_t)
  | [], _ => none
  | _ :: _, 0 => none
  | t :: ts, n + 1 =>
    if t.name = name then some (0, t)
    else
      match find_topic name ts n with
      | none => none
      | some (i, u) => some (i + 1, u)

/-- The effect of `strncpy(dst, src, MAX_TOPIC_NAME_LENGTH - 1)` followed by the terminator. -/
def copy_name (src : List Nat) : List Nat := src.take (MAX_TOPIC_NAME_LENGTH - 1)

/-- Embedding of `pubsub_create_topic`; the three flags tell whether `xQueueCreate`,
`xSemaphoreCreateMutex` and `xTaskCreate` succeed. -/
def pubsub_create_topic (s : pubsub_state) (topic_name : Option (List Nat))
    (queue_ok mutex_ok task_ok : Bool) : pubsub_err_t × pubsub_state :=
  match topic_name with
  | none => (PUBSUB_ERR_INVALID_PARAM, s)
  | some name =>
    if MAX_TOPIC_NAME_LENGTH ≤ name.length then (PUBSUB_ERR_INVALID_PARAM, s)
    else
      match find_topic name s.topics s.topic_count with
      | some _ => (PUBSUB_ERR_TOPIC_EXISTS, s)
      | none =>
        if MAX_TOPICS ≤ s.topic_count then (PUBSUB_ERR_NO_MEMORY, s)
        else
          let slot := s.topics.getD s.topic_count topic_zero
          let t1 := { slot with name := copy_name name }
          if !queue_ok then
            (PUBSUB_ERR_NO_MEMORY,
              { s with topics := s.topics.set s.topic_count { t1 with msg_queue := none } })
          else
            let t2 := { t1 with msg_queue := some { items := [], length := MAX_QUEUE_SIZE } }
            if !mutex_ok then
              (PUBSUB_ERR_NO_MEMORY,
                { s with topics := s.topics.set s.topic_count { t2 with msg_queue := none, lock := false } })
            else
              let t3 := { t2 with lock := true, subscribers := [], subscriber_count := 0 }
              if !task_ok then
                (PUBSUB_ERR_NO_MEMORY,
                  { s with topics := s.topics.set s.topic_count { t3 with msg_queue := none, lock := false } })
              else
                (PUBSUB_OK,
                  { s with topics := s.topics.set s.topic_count t3, topic_count := s.topic_count + 1 })

/-! ## Subscriber management (`subscriber_manager.c`) -/

/-- The duplicate check: does some node of the list carry `callback`? -/
def has_callback (callback : Nat) : List subscriber_t → Bool
  | [] => false
  | x :: xs => if x.callback = callback then true else has_callback callback xs

/-- Embedding of `pubsub_subscribe`. -/
def pubsub_subscribe (s : pubsub_state) (topic_name : Option (List Nat)) (callback : Option Nat)
    (user_data : Option Nat) : pubsub_err_t × pubsub_state :=
  match topic_name, callback with
  | none, _ => (PUBSUB_ERR_INVALID_PARAM, s)
  | some _, none => (PUBSUB_ERR_INVALID_PARAM, s)
  | some name, some cb =>
    match find_topic name s.topics s.topic_count with
    | none => (PUBSUB_ERR_TOPIC_NOT_FOUND, s)
    | some (i, topic) =>
      if has_callback cb topic.subscribers then (PUBSUB_ERR_INVALID_PARAM, s)
      else if MAX_SUBSCRIBERS_PER_TOPIC ≤ topic.subscriber_count then (PUBSUB_ERR_MAX_SUBSCRIBERS, s)
      else
        match memory_pool_alloc s.pool SIZEOF_SUBSCRIBER with
        | (none, _) => (PUBSUB_ERR_NO_MEMORY, s)
        | (some a, pool') =>
          (PUBSUB_OK,
            { s with
              pool := pool',
              topics := s.topics.set i
                { topic with
                  subscribers := { callback := cb, user_data := user_data, addr := a } :: topic.subscribers,
                  subscriber_count := (topic.subscriber_count + 1) % SIZE_MOD } })

/-- The unlink loop of `pubsub_unsubscribe`: removes the first node carrying `callback` and
returns it with the remaining list. -/
def unlink_subscriber (callback : Nat) : List subscriber_t → Option (subscriber_t × List subscriber_t)
  | [] => none
  | x :: xs =>
    if x.callback = callback then some (x, xs)
    else
      match unlink_subscriber callback xs with
      | none => none
      | some (r, xs') => some (r, x :: xs')

/-- Embedding of `pubsub_unsubscribe`. -/
def pubsub_unsubscribe (s : pubsub_state) (topic_name : Option (List Nat)) (callback : Option Nat) :
    Option (pubsub_err_t × pubsub_state) :=
  match topic_name, callback with
  | none, _ => some (PUBSUB_ERR_INVALID_PARAM, s)
  | some _, none => some (PUBSUB_ERR_INVALID_PARAM, s)
  | some name, some cb =>
    match find_topic name s.topics s.topic_count with
    | none => some (PUBSUB_ERR_TOPIC_NOT_FOUND, s)
    | some (i, topic) =>
      match unlink_subscriber cb topic.subscribers with
      | none => some (PUBSUB_ERR_INVALID_PARAM, s)
      | some (node, rest) =>
        match memory_pool_free s.pool (some node.addr) with
        | none => none
        | some pool' =>
          some (PUBSUB_OK,
            { s with
              pool := pool',
              topics := s.topics.set i
                { topic with
                  subscribers := rest,
                  subscriber_count := (topic.subscriber_count + SIZE_MOD - 1) % SIZE_MOD } })

/-! ## Publish path (`publisher.c`) and topic worker (`topic_manager.c`) -/

/-- FreeRTOS `xQueueSend` with a zero timeout (library call, after its documented behaviour):
the item is appended at the tail when fewer than `length` items are queued, otherwise the call
fails at once and the queue is unchanged. -/
def xQueueSend (q : queue_t) (m : pubsub_msg_t) : Option queue_t :=
  if q.items.length < q.length then some { q with items := q.items ++ [m] } else none

/-- FreeRTOS `xQueueSendToFront` with a zero timeout (library call, after its documented
behaviour): the item is put at the head when fewer than `length` items are queued, otherwise
the call fails at once and the queue is unchanged. -/
def xQueueSendToFront (q : queue_t) (m : pubsub_msg_t) : Option queue_t :=
  if q.items.length < q.length then some { q with items := m :: q.items } else none

/-- The enqueue of `pubsub_publish` (lines 51 to 69): front insert for `CRITICAL`, tail insert
otherwise; on a full queue the payload copy is freed. `s` already holds the pool after the
payload allocation. -/
def publish_enqueue (s : pubsub_state) (i : Nat) (topic : topic_t) (msg : pubsub_msg_t) :
    Option (pubsub_err_t × pubsub_state) :=
  match topic.msg_queue with
  | none => none
  | some q =>
    match (if msg.priority = MSG_PRIORITY_CRITICAL then xQueueSendToFront q msg else xQueueSend q msg) with
    | some q' =>
      some (PUBSUB_OK, { s with topics := s.topics.set i { topic with msg_queue := some q' } })
    | none =>
      match msg.data with
      | none => some (PUBSUB_ERR_QUEUE_FULL, s)
      | some buf =>
        match memory_pool_free s.pool (some buf.addr) with
        | none => none
        | some pool' => some (PUBSUB_ERR_QUEUE_FULL, { s with pool := pool' })

/-- Embedding of `pubsub_publish`; `now` is the value of `esp_timer_get_time()`. -/
def pubsub_publish (s : pubsub_state) (topic_name : Option (List Nat)) (data : Option (List Nat))
    (data_len : Nat) (priority : msg_priority_t) (now : Nat) : Option (pubsub_err_t × pubsub_state) :=
  match topic_name with
  | none => some (PUBSUB_ERR_INVALID_PARAM, s)
  | some name =>
    if data = none ∧ 0 < data_len then some (PUBSUB_ERR_INVALID_PARAM, s)
    else
      match find_topic name s.topics s.topic_count with
      | none => some (PUBSUB_ERR_TOPIC_NOT_FOUND, s)
      | some (i, topic) =>
        if 0 < data_len then
          match memory_pool_alloc s.pool data_len with
          | (none, _) => some (PUBSUB_ERR_NO_MEMORY, s)
          | (some a, pool') =>
            match data with
            | none => none
            | some src =>
              if data_len ≤ src.length ∧ data_len ≤ block_capacity a pool'.first_block 0 then
                publish_enqueue { s with pool := pool' } i topic
                  { topic := copy_name name, data := some { addr := a, bytes := src.take data_len },
                    data_len := data_len, priority := priority, timestamp := now, user_data := none }
              else none
        else
          publish_enqueue s i topic
            { topic := copy_name name, data := none, data_len := data_len, priority := priority,
              timestamp := now, user_data := none }

/-- One callback invocation made by the worker: `callback(&msg, user_data)`. -/
structure delivery_t where
  callback : Nat
  msg : pubsub_msg_t
  user_data : Option Nat
deriving DecidableEq, Repr

/-- The fan-out loop of `topic_task`: one call per node, in list order. -/
def fan_out (msg : pubsub_msg_t) : List subscriber_t → List delivery_t
  | [] => []
  | x :: xs => { callback := x.callback, msg := msg, user_data := x.user_data } :: fan_out msg xs

/-- One iteration of the `topic_task` loop for the topic in slot `i`: receive the head of the
queue, call every subscriber, free the payload. `none` when the iteration does not complete:
the queue is empty (the task stays blocked in `xQueueReceive`) or the call leaves defined
behaviour. -/
def topic_task (s : pubsub_state) (i : Nat) : Option (List delivery_t × pubsub_state) :=
  match s.topics[i]? with
  | none => none
  | some topic =>
    match topic.msg_queue with
    | none => none
    | some q =>
      match q.items with
      | [] => none
      | msg :: rest =>
        match memory_pool_free s.pool (msg.data.map buffer_t.addr) with
        | none => none
        | some pool' =>
          some (fan_out msg topic.subscribers,
            { s with
              pool := pool',
              topics := s.topics.set i { topic with msg_queue := some { q with items := rest } } })

/-- Text of a C string literal as bytes. -/
def cstr (s : String) : List Nat := s.data.map Char.toNat

/-- Payload addresses of the allocated (non-free) blocks of a list that starts at `off`. -/
def allocated_ptrs : List block_header_t → Nat → List Nat
  | [], _ => []
  | b :: rest, off =>
    if b.is_free = true then allocated_ptrs rest (off + HEADER_SIZE + b.size)
    else (off + HEADER_SIZE) :: allocated_ptrs rest (off + HEADER_SIZE + b.size)

/-! ## Invariants and reachable states -/

/-- Callbacks registered on a slot, in list order. -/
def callbacks (t : topic_t) : List Nat := t.subscribers.map subscriber_t.callback

/-- Payload addresses of the messages of a queue handle. -/
def queue_ptrs : Option queue_t → List Nat
  | none => []
  | some q => q.items.filterMap (fun m => m.data.map buffer_t.addr)

/-- Pool addresses a slot holds: its subscriber nodes and the payloads of its queued messages. -/
def topic_ptrs (t : topic_t) : List Nat :=
  t.subscribers.map subscriber_t.addr ++ queue_ptrs t.msg_queue

/-- Pool addresses held by the slots of the registry. -/
def owned_ptrs : List topic_t → List Nat
  | [] => []
  | t :: ts => topic_ptrs t ++ owned_ptrs ts

/-- Ownership invariant: the addresses held by the registry are pairwise distinct and each is
the payload address of an allocated block. -/
def heap_inv (s : pubsub_state) : Prop :=
  (owned_ptrs s.topics).Nodup ∧ ∀ a ∈ owned_ptrs s.topics, a ∈ allocated_ptrs s.pool.first_block 0

instance (s : pubsub_state) : Decidable (heap_inv s) := by
  unfold heap_inv
  infer_instance

/-- Per-slot consistency: the counter equals the list length, no callback is registered twice,
the name fits `char name[MAX_TOPIC_NAME_LENGTH]`, and the counter is within the ceiling. -/
def topic_ok (t : topic_t) : Prop :=
  t.subscriber_count = t.subscribers.length ∧ (callbacks t).Nodup ∧
    t.name.length < MAX_TOPIC_NAME_LENGTH ∧ t.subscriber_count ≤ MAX_SUBSCRIBERS_PER_TOPIC

instance (t : topic_t) : Decidable (topic_ok t) := by
  unfold topic_ok
  infer_instance

/-- Every slot of the registry is consistent. -/
def topics_ok (s : pubsub_state) : Prop := ∀ t ∈ s.topics, topic_ok t

instance (s : pubsub_state) : Decidable (topics_ok s) := by
  unfold topics_ok
  infer_instance

/-- States the core can be in: `init_state` and every state an API call or a worker iteration
produces from such a state. -/
inductive Reachable : pubsub_state → Prop where
  | init : Reachable init_state
  | create_topic {s : pubsub_state} (name : Option (List Nat)) (queue_ok mutex_ok task_ok : Bool) :
      Reachable s → Reachable (pubsub_create_topic s name queue_ok mutex_ok task_ok).2
  | subscribe {s : pubsub_state} (name : Option (List Nat)) (cb ud : Option Nat) :
      Reachable s → Reachable (pubsub_subscribe s name cb ud).2
  | unsubscribe {s s' : pubsub_state} (name : Option (List Nat)) (cb : Option Nat) (e : pubsub_err_t) :
      Reachable s → pubsub_unsubscribe s name cb = some (e, s') → Reachable s'
  | publish {s s' : pubsub_state} (name : Option (List Nat)) (data : Option (List Nat)) (len : Nat)
      (p : msg_priority_t) (now : Nat) (e : pubsub_err_t) :
      Reachable s → pubsub_publish s name data len p now = some (e, s') → Reachable s'
  | topic_task {s s' : pubsub_state} (i : Nat) (ds : List delivery_t) :
      Reachable s → i < s.topic_count → topic_task s i = some (ds, s') → Reachable s'

/-- Runs `n` iterations of the worker of slot `i`, collecting what each iteration hands to the
subscribers; `none` when one of the iterations does not complete. -/
def topic_task_run (i : Nat) : Nat → pubsub_state → Option (List (List delivery_t) × pubsub_state)
  | 0, s => some ([], s)
  | n + 1, s =>
    match topic_task s i with
    | none => none
    | some (d, s1) =>
      match topic_task_run i n s1 with
      | none => none
      | some (ds, s2) => some (d :: ds, s2)

/-! ## A concrete run: the calls `app_main` makes on `"sensor/temperature"`, from `init_state` -/

/-- The topic name `"sensor/temperature"`. -/
def sensor_topic : List Nat := cstr "sensor/temperature"

/-- Address of the function `message_callback`. -/
def message_callback : Nat := 1

/-- The state after `pubsub_create_topic("sensor/temperature")`. -/
def state_created : pubsub_state :=
  (pubsub_create_topic init_state (some sensor_topic) true true true).2

/-- The state after `pubsub_subscribe("sensor/temperature", message_callback, NULL)`. -/
def state_subscribed : pubsub_state :=
  (pubsub_subscribe state_created (some sensor_topic) (some message_callback) none).2

/-- The payload `"25.5"` of `temp_msg`. -/
def temp_msg : List Nat := cstr "25.5"

/-- The state after `pubsub_publish("sensor/temperature", "25.5", 4, MSG_PRIORITY_NORMAL)` at
time 1000. -/
def state_published : pubsub_state :=
  match pubsub_publish state_subscribed (some sensor_topic) (some temp_msg) 4
      MSG_PRIORITY_NORMAL 1000 with
  | some (_, s) => s
  | none => state_subscribed

/-- Publishes `"25.5"` with `MSG_PRIORITY_NORMAL` `n` times, at times `t`, `t + 1`, ... -/
def publish_normal_times : Nat → Nat → pubsub_state → pubsub_state
  | 0, _, s => s
  | n + 1, t, s =>
    match pubsub_publish s (some sensor_topic) (some temp_msg) 4 MSG_PRIORITY_NORMAL t with
    | some (_, s') => publish_normal_times n (t + 1) s'
    | none => s

/-- The subscribed topic with its queue filled to `MAX_QUEUE_SIZE` by `NORMAL` publishes. -/
def state_full : pubsub_state := publish_normal_times MAX_QUEUE_SIZE 0 state_subscribed

/-- The state after one more `NORMAL` publish on the full queue. -/
def state_full_normal : pubsub_state :=
  match pubsub_publish state_full (some sensor_topic) (some temp_msg) 4 MSG_PRIORITY_NORMAL 100 with
  | some (_, s) => s
  | none => state_full

/-- The state after a `CRITICAL` publish that follows the rejected `NORMAL` publish. -/
def state_full_critical : pubsub_state :=
  match pubsub_publish state_full_normal (some sensor_topic) (some temp_msg) 4
      MSG_PRIORITY_CRITICAL 101 with
  | some (_, s) => s
  | none => state_full_normal

/-- The state after publishing `"A"` with `MSG_PRIORITY_CRITICAL` at time 1. -/
def state_critical_a : pubsub_state :=
  match pubsub_publish state_subscribed (some sensor_topic) (some (cstr "A")) 1
      MSG_PRIORITY_CRITICAL 1 with
  | some (_, s) => s
  | none => state_subscribed

/-- The state after then publishing `"B"` with `MSG_PRIORITY_CRITICAL` at time 2. -/
def state_critical_b : pubsub_state :=
  match pubsub_publish state_critical_a (some sensor_topic) (some (cstr "B")) 1
      MSG_PRIORITY_CRITICAL 2 with
  | some (_, s) => s
  | none => state_critical_a

/-- Payload bytes handed out by each iteration of a worker run. -/
def delivered_payloads (r : Option (List (List delivery_t) × pubsub_state)) :
    Option (List (List (Option (List Nat)))) :=
  r.map (fun x => x.1.map (fun ds => ds.map (fun d => d.msg.data.map buffer_t.bytes)))

/-- The message queued by the publish of `"25.5"` in `state_published`. -/
def temp_queued_msg : pubsub_msg_t :=
  { topic := sensor_topic, data := some { addr := 40, bytes := temp_msg }, data_len := 4,
    priority := MSG_PRIORITY_NORMAL, timestamp := 1000, user_data := none }

/-- The state after a second `NORMAL` publish of `"25.5"`, at time 2000. -/
def state_published_twice : pubsub_state :=
  match pubsub_publish state_published (some sensor_topic) (some temp_msg) 4
      MSG_PRIORITY_NORMAL 2000 with
  | some (_, s) => s
  | none => state_published

/-- The queue of the subscribed topic in `state_full`. -/
def state_full_queue : queue_t :=
  ((state_full.topics.getD 0 topic_zero).msg_queue).getD { items := [], length := 0 }

/-- Subscribes the callbacks `n`, `n - 1`, ..., `1` with a `NULL` cookie on
`"sensor/temperature"`. -/
def subscribe_callbacks : Nat → pubsub_state → pubsub_state
  | 0, s => s
  | n + 1, s => subscribe_callbacks n (pubsub_subscribe s (some sensor_topic) (some (n + 1)) none).2

/-- The created topic with `MAX_SUBSCRIBERS_PER_TOPIC` subscribers. -/
def state_twenty_subscribers : pubsub_state :=
  subscribe_callbacks MAX_SUBSCRIBERS_PER_TOPIC state_created

/-- Payload address and payload size of every allocated (non-free) block of a list that starts
at `off`. -/
def allocated_blocks : List block_header_t → Nat → List (Nat × Nat)
  | [], _ => []
  | b :: rest, off =>
    if b.is_free = true then allocated_blocks rest (off + HEADER_SIZE + b.size)
    else (off + HEADER_SIZE, b.size) :: allocated_blocks rest (off + HEADER_SIZE + b.size)

/-- Every registered topic (a slot below `topic_count`) has a live queue handle. -/
def queues_live (s : pubsub_state) : Prop :=
  ∀ (i : Nat) (t : topic_t), i < s.topic_count → s.topics[i]? = some t → t.msg_queue ≠ none

/-! ## Error reports (`error_handler.h`, `error_handler.c`) -/

def ERROR_QUEUE_SIZE : Nat := 20

inductive error_level_t where
  | ERROR_LEVEL_INFO
  | ERROR_LEVEL_WARNING
  | ERROR_LEVEL_ERROR
  | ERROR_LEVEL_FATAL
deriving DecidableEq, Repr

inductive error_code_t where
  | ERROR_CODE_SUCCESS
  | ERROR_CODE_WIFI_INIT_FAILED
  | ERROR_CODE_MQTT_INIT_FAILED
  | ERROR_CODE_MEMORY_ALLOCATION_FAILED
  | ERROR_CODE_QUEUE_FULL
  | ERROR_CODE_INVALID_PARAMETER
  | ERROR_CODE_TIMEOUT
  | ERROR_CODE_SYSTEM_ERROR
deriving DecidableEq, Repr

open error_level_t error_code_t

/-- One `error_info_t` as `error_handler_report` builds it for the two reports of
`message_handler.c`: level, code, the two arguments of the format string (message id and topic)
and the clock value; file, line and function are constants of the call site. -/
structure error_info_t where
  level : error_level_t
  code : error_code_t
  msg_id : Nat
  topic : List Nat
  timestamp : Nat
deriving DecidableEq, Repr

/-- Embedding of `error_handler_report` on the handle `error_queue`: nothing happens on a `NULL`
handle; otherwise the report is queued, or dropped when `ERROR_QUEUE_SIZE` reports wait. -/
def error_handler_report (error_queue : Option (List error_info_t)) (error : error_info_t) :
    Option (List error_info_t) :=
  match error_queue with
  | none => none
  | some q => if q.length < ERROR_QUEUE_SIZE then some (q ++ [error]) else some q

/-! ## Reliable-delivery overlay (`message_handler.h`, `message_handler.c`) -/

/-- Value of `sizeof(pending_message_t)`: nine 4-byte fields and `char topic[64]`. -/
def SIZEOF_PENDING_MESSAGE : Nat := 100

/-- ESP-IDF codes of `esp_err_t` (`esp_err.h`). -/
def ESP_OK : Nat := 0
def ESP_ERR_NO_MEM : Nat := 0x101
def ESP_ERR_INVALID_ARG : Nat := 0x102

inductive topic_qos_t where
  | TOPIC_QOS_AT_MOST_ONCE
  | TOPIC_QOS_AT_LEAST_ONCE
  | TOPIC_QOS_EXACTLY_ONCE
deriving DecidableEq, Repr

open topic_qos_t

/-- Numeric value of a `pubsub_err_t`, which `message_publish_with_qos` returns through
`esp_err_t`. -/
def pubsub_err_code : pubsub_err_t → Nat
  | PUBSUB_OK => 0
  | PUBSUB_ERR_INVALID_PARAM => 1
  | PUBSUB_ERR_NO_MEMORY => 2
  | PUBSUB_ERR_TOPIC_EXISTS => 3
  | PUBSUB_ERR_TOPIC_NOT_FOUND => 4
  | PUBSUB_ERR_QUEUE_FULL => 5
  | PUBSUB_ERR_MAX_SUBSCRIBERS => 6

structure message_handler_config_t where
  enable_ack : Bool
  retry_count : Nat
  retry_interval_ms : Nat
  ack_callback : Option Nat
  user_data : Option Nat
deriving DecidableEq, Repr

/-- A pending record: `data` is the payload copy in the pool, `retry_timer` tells whether the
record's timer has been started, `addr` is the pool address of the record itself; `next` is the
tail of the list the record sits in. -/
structure pending_message_t where
  msg_id : Nat
  topic : List Nat
  data : buffer_t
  data_len : Nat
  priority : msg_priority_t
  qos : topic_qos_t
  retry_count : Nat
  max_retries : Nat
  retry_timer : Bool
  addr : Nat
deriving DecidableEq, Repr

/-- The file-scope `message_handler_ctx`. -/
structure message_handler_ctx_t where
  config : message_handler_config_t
  pending_messages : List pending_message_t
  next_msg_id : Nat
  lock : Bool
deriving DecidableEq, Repr

/-- The core, the overlay context and the handle `error_queue` of the error handler. -/
structure system_state where
  pubsub : pubsub_state
  message_handler_ctx : message_handler_ctx_t
  error_queue : Option (List error_info_t)
deriving DecidableEq, Repr

/-- Embedding of `message_handler_init`; `mutex_ok` tells whether `xSemaphoreCreateMutex`
succeeds. -/
def message_handler_init (st : system_state) (config : Option message_handler_config_t)
    (mutex_ok : Bool) : Nat × system_state :=
  match config with
  | none => (ESP_ERR_INVALID_ARG, st)
  | some cfg =>
    if !mutex_ok then
      (ESP_ERR_NO_MEM, { st with message_handler_ctx := { st.message_handler_ctx with lock := false } })
    else
      (ESP_OK,
        { st with
          message_handler_ctx :=
            { config := cfg, pending_messages := [], next_msg_id := 1, lock := true } })

/-- Embedding of `create_pending_message`: the record (its `msg_id` is not yet set, its timer not
yet started) or `NULL`, and the pool afterwards; `timer_ok` tells whether `xTimerCreate`
succeeds. `none` when a `memcpy` or a free leaves defined behaviour. -/
def create_pending_message (config : message_handler_config_t) (pool : memory_pool_t)
    (topic_name data : List Nat) (data_len : Nat) (priority : msg_priority_t) (qos : topic_qos_t)
    (timer_ok : Bool) : Option (Option pending_message_t × memory_pool_t) :=
  match memory_pool_alloc pool SIZEOF_PENDING_MESSAGE with
  | (none, _) => some (none, pool)
  | (some m, pool1) =>
    match memory_pool_alloc pool1 data_len with
    | (none, _) =>
      match memory_pool_free pool1 (some m) with
      | none => none
      | some pool2 => some (none, pool2)
    | (some d, pool2) =>
      if data_len ≤ data.length ∧ data_len ≤ block_capacity d pool2.first_block 0 then
        if timer_ok then
          some (some { msg_id := 0, topic := copy_name topic_name,
                       data := { addr := d, bytes := data.take data_len },
                       data_len := data_len, priority := priority, qos := qos,
                       retry_count := 0, max_retries := config.retry_count,
                       retry_timer := false, addr := m },
                pool2)
        else
          match memory_pool_free pool2 (some d) with
          | none => none
          | some pool3 =>
            match memory_pool_free pool3 (some m) with
            | none => none
            | some pool4 => some (none, pool4)
      else none

/-- Embedding of `message_publish_with_qos`: the returned `esp_err_t`, the value stored through
`msg_id` (if any) and the new state. `msg_id` tells whether the out pointer is non-null, `now`
is the clock value read by the inner publish. -/
def message_publish_with_qos (st : system_state) (topic_name : Option (List Nat))
    (data : Option (List Nat)) (data_len : Nat) (priority : msg_priority_t) (qos : topic_qos_t)
    (msg_id : Bool) (timer_ok : Bool) (now : Nat) : Option (Nat × Option Nat × system_state) :=
  match topic_name, data with
  | none, _ => some (ESP_ERR_INVALID_ARG, none, st)
  | some _, none => some (ESP_ERR_INVALID_ARG, none, st)
  | some name, some src =>
    if data_len = 0 ∨ msg_id = false then some (ESP_ERR_INVALID_ARG, none, st)
    else
      let id := st.message_handler_ctx.next_msg_id
      let ctx1 := { st.message_handler_ctx with next_msg_id := (id + 1) % SIZE_MOD }
      if qos = TOPIC_QOS_AT_MOST_ONCE then
        match pubsub_publish st.pubsub (some name) (some src) data_len priority now with
        | none => none
        | some (e, core) =>
          some (pubsub_err_code e, some id,
            { st with pubsub := core, message_handler_ctx := ctx1 })
      else
        match create_pending_message ctx1.config st.pubsub.pool name src data_len priority qos
            timer_ok with
        | none => none
        | some (none, pool') =>
          some (ESP_ERR_NO_MEM, some id,
            { st with pubsub := { st.pubsub with pool := pool' }, message_handler_ctx := ctx1 })
        | some (some pending, pool') =>
          match pubsub_publish { st.pubsub with pool := pool' } (some name) (some src) data_len
              priority now with
          | none => none
          | some (e, core) =>
            some (pubsub_err_code e, some id,
              { st with
                pubsub := core,
                message_handler_ctx :=
                  { ctx1 with
                    pending_messages :=
                      { pending with msg_id := id, retry_timer := true } :: ctx1.pending_messages } })

/-- The record a timer ID points to: the first record of the list that sits at address `msg`. -/
def find_pending (msg : Nat) : List pending_message_t → Option pending_message_t
  | [] => none
  | r :: rs => if r.addr = msg then some r else find_pending msg rs

/-- Stores `r'` over the record at address `msg`. -/
def store_pending (msg : Nat) (r' : pending_message_t) : List pending_message_t → List pending_message_t
  | [] => []
  | r :: rs => if r.addr = msg then r' :: rs else r :: store_pending msg r' rs

/-- Embedding of `retry_timer_callback` for the timer whose ID is the record at address `msg`:
the result of the re-publish, if one was made, and the new state. `now` is the clock value read
by the publish, `report_now` the one read by `error_handler_report`. `none` when `msg` is not a
record of the pending list or the publish leaves defined behaviour. -/
def retry_timer_callback (st : system_state) (msg : Nat) (now report_now : Nat) :
    Option (Option pubsub_err_t × system_state) :=
  match find_pending msg st.message_handler_ctx.pending_messages with
  | none => none
  | some r =>
    if r.max_retries ≤ r.retry_count then
      some (none,
        { st with
          error_queue := error_handler_report st.error_queue
            { level := ERROR_LEVEL_WARNING, code := ERROR_CODE_TIMEOUT, msg_id := r.msg_id,
              topic := r.topic, timestamp := report_now } })
    else
      match pubsub_publish st.pubsub (some r.topic) (some r.data.bytes) r.data_len r.priority now with
      | none => none
      | some (e, core) =>
        some (some e,
          { pubsub := core,
            message_handler_ctx :=
              { st.message_handler_ctx with
                pending_messages :=
                  store_pending msg { r with retry_count := (r.retry_count + 1) % SIZE_MOD }
                    st.message_handler_ctx.pending_messages },
            error_queue :=
              if e = PUBSUB_OK then st.error_queue
              else error_handler_report st.error_queue
                { level := ERROR_LEVEL_ERROR, code := ERROR_CODE_SYSTEM_ERROR, msg_id := r.msg_id,
                  topic := r.topic, timestamp := report_now } })

/-- Fires the timer of the record at address `msg` once for every entry of `times` (the clock
values of the fire), collecting the results of the re-publish attempts; `none` when one of the
callbacks does not complete. -/
def retry_timer_fires (msg : Nat) : List Nat → system_state →
    Option (List (Option pubsub_err_t) × system_state)
  | [], st => some ([], st)
  | now :: times, st =>
    match retry_timer_callback st msg now now with
    | none => none
    | some (a, st1) =>
      match retry_timer_fires msg times st1 with
      | none => none
      | some (results, st2) => some (a :: results, st2)

/-- Modelled from the spec: one invocation of the configured ack callback,
`ack_callback(topic, msg_id, user_data)`, as made by `message_acknowledge`. -/
structure ack_call_t where
  callback : Nat
  topic : Option (List Nat)
  msg_id : Nat
  user_data : Option Nat
deriving DecidableEq, Repr

/-- Modelled from the spec: the list walk of `message_acknowledge`. A record matches the call
`acknowledge(name, msg_id)` when it carries the message ID and the topic name of the call; the
walk removes the first such record and returns it with the remaining list. -/
def unlink_pending (topic_name : List Nat) (msg_id : Nat) : List pending_message_t →
    Option (pending_message_t × List pending_message_t)
  | [] => none
  | r :: rs =>
    if r.msg_id = msg_id ∧ r.topic = topic_name then some (r, rs)
    else
      match unlink_pending topic_name msg_id rs with
      | none => none
      | some (x, rs') => some (x, r :: rs')

/-- Modelled from the spec: `message_acknowledge` is declared in `message_handler.h` but its
body is not in the sources. Section 4.5 of the spec: `acknowledge(name, msg_id)` locates the
pending record and fails with `INVALID_PARAM` (`ESP_ERR_INVALID_ARG`, as in
`message_publish_with_qos`) if no record matches, which is also the case for a null name;
otherwise it cancels the retry timer, releases the payload, unlinks and releases the record, and
invokes the configured ack callback (if any) with (topic, msg_id, user data). The result is the
returned code, the callback invocation (if any) and the new state; `none` when a free leaves
defined behaviour. -/
def message_acknowledge (st : system_state) (topic_name : Option (List Nat)) (msg_id : Nat) :
    Option (Nat × Option ack_call_t × system_state) :=
  match topic_name with
  | none => some (ESP_ERR_INVALID_ARG, none, st)
  | some name =>
    match unlink_pending name msg_id st.message_handler_ctx.pending_messages with
    | none => some (ESP_ERR_INVALID_ARG, none, st)
    | some (r, rest) =>
      match memory_pool_free st.pubsub.pool (some r.data.addr) with
      | none => none
      | some pool1 =>
        match memory_pool_free pool1 (some r.addr) with
        | none => none
        | some pool2 =>
          some (ESP_OK,
            st.message_handler_ctx.config.ack_callback.map
              (fun cb => { callback := cb, topic := some name, msg_id := msg_id,
                           user_data := st.message_handler_ctx.config.user_data }),
            { st with
              pubsub := { st.pubsub with pool := pool2 },
              message_handler_ctx :=
                { st.message_handler_ctx with pending_messages := rest } })

/-- Pool addresses held by the pending list: every record and its payload copy. -/
def pending_ptrs : List pending_message_t → List Nat
  | [] => []
  | r :: rs => r.addr :: r.data.addr :: pending_ptrs rs

/-- Ownership invariant of the overlay: the addresses held by the pending list are pairwise
distinct and each is the payload address of an allocated block. -/
def pending_inv (st : system_state) : Prop :=
  (pending_ptrs st.message_handler_ctx.pending_messages).Nodup ∧
    ∀ a ∈ pending_ptrs st.message_handler_ctx.pending_messages,
      a ∈ allocated_ptrs st.pubsub.pool.first_block 0

instance (st : system_state) : Decidable (pending_inv st) := by
  unfold pending_inv
  infer_instance

/-- Message IDs before the counter wraps: the counter is not 0, every pending ID is below it,
and the pending IDs decrease strictly from the head of the list (newest first). -/
def ids_inv (st : system_state) : Prop :=
  0 < st.message_handler_ctx.next_msg_id ∧
    (∀ r ∈ st.message_handler_ctx.pending_messages, r.msg_id < st.message_handler_ctx.next_msg_id) ∧
    (st.message_handler_ctx.pending_messages.map pending_message_t.msg_id).Pairwise (fun x y => y < x)

instance (st : system_state) : Decidable (ids_inv st) := by
  unfold ids_inv
  infer_instance

/-! ## A concrete run of the overlay: retries = 3, interval = 100 ms -/

/-- The retry policy of scenario 4 of the spec. -/
def retry_config : message_handler_config_t :=
  { enable_ack := true, retry_count := 3, retry_interval_ms := 100, ack_callback := some 9,
    user_data := none }

/-- The subscribed core with a zeroed overlay context and a created error queue. -/
def system_boot : system_state :=
  { pubsub := state_subscribed,
    message_handler_ctx :=
      { config := { enable_ack := false, retry_count := 0, retry_interval_ms := 0,
                    ack_callback := none, user_data := none },
        pending_messages := [], next_msg_id := 0, lock := false },
    error_queue := some [] }

/-- The state after `message_handler_init(&retry_config)`. -/
def system_ready : system_state := (message_handler_init system_boot (some retry_config) true).2

/-- Calls `message_publish_with_qos("sensor/temperature", "25.5", 4, NORMAL, qos, &id)` at time
`now`; the state is kept when the call does not complete. -/
def qos_publish_temp (qos : topic_qos_t) (now : Nat) (st : system_state) : system_state :=
  match message_publish_with_qos st (some sensor_topic) (some temp_msg) 4 MSG_PRIORITY_NORMAL qos
      true true now with
  | some (_, _, st') => st'
  | none => st

/-- The state after one QoS-1 publish of `"25.5"` at time 1000. -/
def system_qos1 : system_state := qos_publish_temp TOPIC_QOS_AT_LEAST_ONCE 1000 system_ready

/-- Repeats the QoS-1 publish of `"25.5"` `n` times, at times `t`, `t + 1`, ... -/
def qos_publish_times : Nat → Nat → system_state → system_state
  | 0, _, st => st
  | n + 1, t, st => qos_publish_times n (t + 1) (qos_publish_temp TOPIC_QOS_AT_LEAST_ONCE t st)

/-- The state after 81 QoS-1 publishes that nobody has drained or acknowledged: the free block
left in the pool holds one more record and payload copy, and nothing else. -/
def system_nearly_full : system_state := qos_publish_times 81 0 system_ready

/-- The state `system_ready` with the counter at its last value before the wrap. -/
def system_wrap : system_state :=
  { system_ready with
    message_handler_ctx := { system_ready.message_handler_ctx with next_msg_id := SIZE_MAX } }

/-- A QoS-0 `message_publish_with_qos` of `"25.5"` on the unregistered topic `"none"`. -/
def qos0_unknown_topic (st : system_state) : system_state :=
  match message_publish_with_qos st (some (cstr "none")) (some temp_msg) 4 MSG_PRIORITY_NORMAL
      TOPIC_QOS_AT_MOST_ONCE true true 0 with
  | some (_, _, st') => st'
  | none => st

/-- Repeats `qos0_unknown_topic` `n` times. -/
def qos0_unknown_times : Nat → system_state → system_state
  | 0, st => st
  | n + 1, st => qos0_unknown_times n (qos0_unknown_topic st)

/-- The message ID a call stores through `msg_id`. -/
def issued_id (r : Option (Nat × Option Nat × system_state)) : Option Nat :=
  match r with
  | some (_, id, _) => id
  | none => none

/-- What is left of a record and of the reports after a run of timer fires: the pending records
as (address, retry count, ceiling), whether the record at the given address and its payload copy
are still allocated, and the levels of the queued reports. -/
structure retry_summary_t where
  pending : List (Nat × Nat × Nat)
  still_allocated : Bool
  report_levels : Option (List error_level_t)
deriving DecidableEq, Repr

/-- Summary of the state a run of timer fires on the record at address `msg` ends in. -/
def retry_summary (msg : Nat) (r : Option (List (Option pubsub_err_t) × system_state)) :
    Option retry_summary_t :=
  r.map (fun x =>
    { pending := x.2.message_handler_ctx.pending_messages.map
        (fun m => (m.addr, m.retry_count, m.max_retries)),
      still_allocated := x.2.message_handler_ctx.pending_messages.all
        (fun m => decide (m.addr = msg →
          m.addr ∈ allocated_ptrs x.2.pubsub.pool.first_block 0 ∧
          m.data.addr ∈ allocated_ptrs x.2.pubsub.pool.first_block 0)),
      report_levels := x.2.error_queue.map (fun q => q.map error_info_t.level) })

/-- The state after the 82nd QoS-1 publish, made on `system_nearly_full` at time 81. -/
def system_orphan : system_state := qos_publish_temp TOPIC_QOS_AT_LEAST_ONCE 81 system_nearly_full

/-- The state after the QoS-1 publish of `"25.5"` and five fires of its retry timer, at the
times 1100 to 1500: the record has reached its ceiling of 3 retries with the third fire. The
state is kept when a fire does not complete. -/
def system_at_ceiling : system_state :=
  ((retry_timer_fires 40 [1100, 1200, 1300, 1400, 1500] system_qos1).getD ([], system_qos1)).2

/-! ## Allocator accounting and call sequences (`memory_pool.c`) -/

/-- Sum of `size + sizeof(block_header_t)` over the non-free blocks of a list. -/
def used_bytes : List block_header_t → Nat
  | [] => 0
  | b :: rest =>
    if b.is_free = true then used_bytes rest else b.size + HEADER_SIZE + used_bytes rest

/-- Bytes a block list spans: header and payload of every block. -/
def span_bytes : List block_header_t → Nat
  | [] => 0
  | b :: rest => HEADER_SIZE + b.size + span_bytes rest

/-- No free block of the list is immediately followed by a free block. -/
def no_adjacent_free (bs : List block_header_t) : Prop :=
  List.Chain' (fun a b => ¬ (a.is_free = true ∧ b.is_free = true)) bs

instance (bs : List block_header_t) : Decidable (no_adjacent_free bs) :=
  inferInstanceAs
    (Decidable (List.Chain'
      (fun (a b : block_header_t) => ¬ (a.is_free = true ∧ b.is_free = true)) bs))

/-- The `sz` bytes at address `a` lie inside the payload of a free block of the list that starts
at `off`. -/
def in_free_block (a sz : Nat) : List block_header_t → Nat → Prop
  | [], _ => False
  | b :: rest, off =>
    (b.is_free = true ∧ off + HEADER_SIZE ≤ a ∧ a + sz ≤ off + HEADER_SIZE + b.size) ∨
      in_free_block a sz rest (off + HEADER_SIZE + b.size)

/-- Pools that a sequence of `memory_pool_alloc` and `memory_pool_free` calls produces from
`memory_pool_init`, where `memory_pool_free` is only called on `NULL` or on an address that is
allocated at the time of the call. -/
inductive PoolReachable : memory_pool_t → Prop where
  | init : PoolReachable memory_pool_init
  | alloc {p : memory_pool_t} (size : Nat) :
      PoolReachable p → PoolReachable (memory_pool_alloc p size).2
  | free {p p' : memory_pool_t} (a : Nat) :
      PoolReachable p → a ∈ allocated_ptrs p.first_block 0 →
      memory_pool_free p (some a) = some p' → PoolReachable p'
  | free_null {p p' : memory_pool_t} :
      PoolReachable p → memory_pool_free p none = some p' → PoolReachable p'

/-- Accounting invariant of the allocator: the blocks tile the region, `used_size` is the sum
over the non-free blocks, and `peak_use` is not below it. -/
def pool_inv (p : memory_pool_t) : Prop :=
  span_bytes p.first_block = p.total_size ∧ p.total_size < SIZE_MOD ∧
    p.used_size = used_bytes p.first_block ∧ p.used_size ≤ p.peak_use

instance (p : memory_pool_t) : Decidable (pool_inv p) := by
  unfold pool_inv
  infer_instance

/-! ## Registry invariants (`topic_manager.c`) -/

/-- Names of the registered topics: the slots below `topic_count`, in slot order. -/
def registered_names (s : pubsub_state) : List (List Nat) :=
  (s.topics.take s.topic_count).map topic_t.name

/-- The table has `MAX_TOPICS` slots, `topic_count` is within it, and no two registered topics
have the same name. -/
def registry_inv (s : pubsub_state) : Prop :=
  s.topics.length = MAX_TOPICS ∧ s.topic_count ≤ MAX_TOPICS ∧ (registered_names s).Nodup

instance (s : pubsub_state) : Decidable (registry_inv s) := by
  unfold registry_inv
  infer_instance

/-! ## Topic statistics (`topic_manager_advanced.h`, `topic_manager_advanced.c`) -/

def ESP_ERR_NOT_FOUND : Nat := 0x105

structure topic_stats_t where
  msg_received : Nat
  msg_published : Nat
  msg_dropped : Nat
  subscriber_count : Nat
  last_msg_timestamp : Nat
  queue_space_available : Nat
deriving DecidableEq, Repr

structure topic_config_t where
  max_msg_size : Nat
  queue_size : Nat
  qos_level : topic_qos_t
  retain_last_message : Bool
  message_ttl : Nat
deriving DecidableEq, Repr

/-- One element of `topic_advanced_data`; `retained_msg` is the pool address of the head of the
retained list (`none` is `NULL`), `stats_lock` tells whether the mutex handle is live. -/
structure topic_advanced_t where
  config : topic_config_t
  stats : topic_stats_t
  retained_msg : Option Nat
  stats_lock : Bool
deriving DecidableEq, Repr

/-- Statistics after `memset(&stats, 0, sizeof(topic_stats_t))`. -/
def topic_stats_zero : topic_stats_t :=
  { msg_received := 0, msg_published := 0, msg_dropped := 0, subscriber_count := 0,
    last_msg_timestamp := 0, queue_space_available := 0 }

/-- A zeroed element of `topic_advanced_data`. -/
def topic_advanced_zero : topic_advanced_t :=
  { config := { max_msg_size := 0, queue_size := 0, qos_level := TOPIC_QOS_AT_MOST_ONCE,
                retain_last_message := false, message_ttl := 0 },
    stats := topic_stats_zero, retained_msg := none, stats_lock := false }

/-- The array `topic_advanced_data` at program start (zeroed static storage). -/
def advanced_boot : List topic_advanced_t := List.replicate MAX_TOPICS topic_advanced_zero

/-- The loop of `topic_manager_init_advanced` from element `i` on; `mutex_ok i` tells whether
the `xSemaphoreCreateMutex` call for element `i` succeeds. The loop stops at the first failure
(the `FATAL` report made there goes to the error handler and is not part of this array). -/
def init_advanced_from (mutex_ok : Nat → Bool) : List topic_advanced_t → Nat →
    Nat × List topic_advanced_t
  | [], _ => (ESP_OK, [])
  | a :: rest, i =>
    if mutex_ok i = false then (ESP_ERR_NO_MEM, { a with stats_lock := false } :: rest)
    else
      ((init_advanced_from mutex_ok rest (i + 1)).1,
        { a with stats_lock := true, stats := topic_stats_zero, retained_msg := none } ::
          (init_advanced_from mutex_ok rest (i + 1)).2)

/-- Embedding of `topic_manager_init_advanced`. -/
def topic_manager_init_advanced (data : List topic_advanced_t) (mutex_ok : Nat → Bool) :
    Nat × List topic_advanced_t :=
  init_advanced_from mutex_ok data 0

/-- Embedding of `topic_get_stats` on the table `topics` and the array `topic_advanced_data`:
the returned code and what is copied to `*stats` (nothing when `none`). `stats` tells whether
the out pointer is non-null. The lookup loop compares the name of every one of the `MAX_TOPICS`
slots, registered or not. The result is `none` when the call takes a `NULL` mutex handle. -/
def topic_get_stats (topics : List topic_t) (data : List topic_advanced_t)
    (topic_name : Option (List Nat)) (stats : Bool) : Option (Nat × Option topic_stats_t) :=
  match topic_name with
  | none => some (ESP_ERR_INVALID_ARG, none)
  | some name =>
    if stats = false then some (ESP_ERR_INVALID_ARG, none)
    else
      match find_topic name topics MAX_TOPICS with
      | none => some (ESP_ERR_NOT_FOUND, none)
      | some (slot, _) =>
        match data[slot]? with
        | none => none
        | some a => if a.stats_lock = true then some (ESP_OK, some a.stats) else none

/-! ## Concrete runs for the registry, the size bound and the statistics -/

/-- The array `topic_advanced_data` after a successful `topic_manager_init_advanced`. -/
def advanced_ready : List topic_advanced_t :=
  (topic_manager_init_advanced advanced_boot (fun _ => true)).2

/-- The state after `pubsub_create_topic("")` on the initial state. -/
def state_empty_name : pubsub_state := (pubsub_create_topic init_state (some []) true true true).2

/-- The state after a `pubsub_create_topic("sensor/temperature")` on the initial state in which
`xQueueCreate` fails. -/
def state_create_failed : pubsub_state :=
  (pubsub_create_topic init_state (some sensor_topic) false true true).2

/-- Creates the topics named by the single bytes `n`, `n - 1`, ..., `1`. -/
def create_topics : Nat → pubsub_state → pubsub_state
  | 0, s => s
  | n + 1, s => create_topics n (pubsub_create_topic s (some [n + 1]) true true true).2

/-- The state with `MAX_TOPICS` registered topics. -/
def state_fifty_topics : pubsub_state := create_topics MAX_TOPICS init_state

/-- A payload of `MAX_MSG_SIZE + 1` bytes. -/
def big_payload : List Nat := List.replicate (MAX_MSG_SIZE + 1) 0

/-- The state after `pubsub_publish("sensor/temperature", big_payload, 1025, NORMAL)`. -/
def state_big_published : pubsub_state :=
  match pubsub_publish state_subscribed (some sensor_topic) (some big_payload) (MAX_MSG_SIZE + 1)
      MSG_PRIORITY_NORMAL 1000 with
  | some (_, s) => s
  | none => state_subscribed

/-- The `data_len` of every message queued on the topic in slot `i`. -/
def queued_lengths (s : pubsub_state) (i : Nat) : List Nat :=
  match (s.topics.getD i topic_zero).msg_queue with
  | none => []
  | some q => q.items.map pubsub_msg_t.data_len

/-- The pool after three allocations of 16 bytes from the fresh pool (addresses 12, 40, 68). -/
def pool_three_blocks : memory_pool_t :=
  (memory_pool_alloc (memory_pool_alloc (memory_pool_alloc memory_pool_init 16).2 16).2 16).2

/-- The pool after the first and the third of the three blocks have been freed. -/
def pool_two_freed : memory_pool_t :=
  ((memory_pool_free pool_three_blocks (some 12)).bind
    (fun p => memory_pool_free p (some 68))).getD pool_three_blocks

/-! ## Topic creation with configuration (`topic_manager_advanced.c`) -/

/-- The slot search of `topic_create_with_config`: the first index among the first `n` slots
whose name is empty (`topics[i].name[0] == 0`). -/
def find_free_slot : List topic_t → Nat → Option Nat
  | [], _ => none
  | _ :: _, 0 => none
  | t :: ts, n + 1 =>
    if t.name = [] then some 0
    else
      match find_free_slot ts n with
      | none => none
      | some i => some (i + 1)

/-- Embedding of `topic_create_with_config` on the table `topics` (inside `s`) and the array
`topic_advanced_data`: the returned code, the new core and the new array. `filter_active` is the
file-scope flag and `regex_match` the result of matching the name against the filter pattern
(`regcomp` and `regexec`); `now` is the value of `esp_timer_get_time()`; the three flags are
those of `pubsub_create_topic`. The error reports are not part of this state. The result is
`none` when the call takes a `NULL` mutex handle. -/
def topic_create_with_config (s : pubsub_state) (data : List topic_advanced_t)
    (filter_active regex_match : Bool) (topic_name : Option (List Nat))
    (config : Option topic_config_t) (now : Nat) (queue_ok mutex_ok task_ok : Bool) :
    Option (Nat × pubsub_state × List topic_advanced_t) :=
  match topic_name, config with
  | none, _ => some (ESP_ERR_INVALID_ARG, s, data)
  | some _, none => some (ESP_ERR_INVALID_ARG, s, data)
  | some name, some cfg =>
    if filter_active = true ∧ regex_match = false then some (ESP_ERR_INVALID_ARG, s, data)
    else
      match find_free_slot s.topics MAX_TOPICS with
      | none => some (ESP_ERR_NO_MEM, s, data)
      | some slot =>
        match data[slot]? with
        | none => none
        | some a =>
          if a.stats_lock = true then
            some (pubsub_err_code (pubsub_create_topic s (some name) queue_ok mutex_ok task_ok).1,
              (pubsub_create_topic s (some name) queue_ok mutex_ok task_ok).2,
              data.set slot
                { a with
                  config := cfg,
                  stats := { topic_stats_zero with last_msg_timestamp := now } })
          else none

/-- The configuration used in the concrete runs. -/
def sample_config : topic_config_t :=
  { max_msg_size := 256, queue_size := 10, qos_level := TOPIC_QOS_AT_LEAST_ONCE,
    retain_last_message := true, message_ttl := 5000 }

/-- The topic name `"sensor/humidity"`. -/
def humidity_topic : List Nat := cstr "sensor/humidity"

/-- The result of `topic_create_with_config("sensor/humidity", &sample_config)` at time 777,
made after the creation of `"sensor/temperature"` that failed in `xQueueCreate`. -/
def config_after_failed_create : Option (Nat × pubsub_state × List topic_advanced_t) :=
  topic_create_with_config state_create_failed advanced_ready false false (some humidity_topic)
    (some sample_config) 777 true true true

/-- The result of `topic_create_with_config("sensor/humidity", &sample_config)` at time 777,
made after `pubsub_create_topic("")`. -/
def config_after_empty_name : Option (Nat × pubsub_state × List topic_advanced_t) :=
  topic_create_with_config state_empty_name advanced_ready false false (some humidity_topic)
    (some sample_config) 777 true true true

/-- What a run of `topic_create_with_config` shows about the slots: the returned code, the
registry slot that carries `name`, the elements of the array whose statistics carry the time
stamp `now`, and the time stamp `topic_get_stats(name)` then reports. -/
structure config_summary_t where
  code : Nat
  registry_slot : Option Nat
  initialised_slots : List Nat
  reported_timestamp : Option Nat
deriving DecidableEq, Repr

/-- Indices of the elements whose statistics carry the time stamp `now`, from index `i` on. -/
def stamped_slots (now : Nat) : List topic_advanced_t → Nat → List Nat
  | [], _ => []
  | a :: rest, i =>
    if a.stats.last_msg_timestamp = now then i :: stamped_slots now rest (i + 1)
    else stamped_slots now rest (i + 1)

/-- Summary of a run of `topic_create_with_config(name, ...)` at time `now`. -/
def config_summary (name : List Nat) (now : Nat)
    (r : Option (Nat × pubsub_state × List topic_advanced_t)) : Option config_summary_t :=
  r.map (fun x =>
    { code := x.1,
      registry_slot := (find_topic name x.2.1.topics x.2.1.topic_count).map Prod.fst,
      initialised_slots := stamped_slots now x.2.2 0,
      reported_timestamp :=
        match topic_get_stats x.2.1.topics x.2.2 (some name) true with
        | some (_, some st) => some st.last_msg_timestamp
        | _ => none })

/-- The pool after the second of the three blocks has been freed: a free block of 16 bytes at
address 40 between two allocated blocks. -/
def pool_hole : memory_pool_t :=
  (memory_pool_free pool_three_blocks (some 40)).getD pool_three_blocks

/-- The pool after `memory_pool_alloc(100)` on `pool_hole`. -/
def pool_hole_alloc : memory_pool_t := (memory_pool_alloc pool_hole 100).2

/-! ## MQTT packet codec (`mqtt/mqtt_types.h`, `mqtt/mqtt_encoder.c`, `mqtt/mqtt_decoder.c`)

Conventions of this part.
* A buffer is the list of its bytes from index 0 on; a byte read from it is taken modulo 256.
  The shifts and masks on bytes are written as arithmetic: `x >> k` is `x / 2 ^ k`, `x & (2 ^ k - 1)`
  is `x % 2 ^ k`, `(x << 8) | y` with a byte `y` is `x * 256 + y`.
* An `int` is an `Int`; the lengths that occur stay far below `2 ^ 31`.
* An encoder returns the value it returns and the bytes it has written from `buf[0]` on. The
  encoders never compare a write position with `buf_len`, so these bytes may reach past it.
* A decoder is given the memory that starts at `buf`, which may be longer than `buf_len` (the
  bytes that lie behind the buffer), and `buf_len` itself. Its result is `none` when it reads
  outside the memory given. A message is reported only for a non-negative return value.
* `malloc n` tells whether the library call `malloc(n)` succeeds, `strdup_ok` whether `strdup`
  does.
-/

def MQTT_CONNECT : Nat := 1
def MQTT_PUBLISH : Nat := 3
def MQTT_SUBSCRIBE : Nat := 8
def MQTT_UNSUBSCRIBE : Nat := 10

/-- The message `mqtt_message_t`; `topic` is a C string (`none` is `NULL`), `qos` the value of
the enum `mqtt_qos_t`. -/
structure mqtt_message_t where
  topic : Option (List Nat)
  payload : Option (List Nat)
  payload_len : Nat
  qos : Nat
  retain : Bool
  dup : Bool
deriving DecidableEq, Repr

structure mqtt_topic_filter_t where
  topic : Option (List Nat)
  qos : Nat
deriving DecidableEq, Repr

/-- The member `will` of `mqtt_connect_options_t`. -/
structure mqtt_will_t where
  topic : Option (List Nat)
  message : Option (List Nat)
  qos : Nat
  retain : Bool
deriving DecidableEq, Repr

structure mqtt_connect_options_t where
  client_id : Option (List Nat)
  username : Option (List Nat)
  password : Option (List Nat)
  keep_alive : Nat
  clean_session : Bool
  will : mqtt_will_t
deriving DecidableEq, Repr

/-- The fixed header `mqtt_fixed_header_t`. -/
structure mqtt_fixed_header_t where
  type : Nat
  dup_flag : Nat
  qos_level : Nat
  retain : Nat
  remaining_length : Nat
deriving DecidableEq, Repr

/-- The `do ... while (length > 0 && encoded < 4)` loop of `encode_remaining_length` with `n`
more bytes allowed. -/
def encode_remaining_length_from : Nat → Nat → List Nat
  | 0, _ => []
  | n + 1, length =>
    if 0 < length / 128 then (length % 128 + 128) :: encode_remaining_length_from n (length / 128)
    else [length % 128]

/-- Embedding of `encode_remaining_length`: the bytes written; the returned count is their
number. The argument is converted to `uint32_t`. -/
def encode_remaining_length (length : Nat) : List Nat :=
  encode_remaining_length_from 4 (length % SIZE_MOD)

/-- Embedding of `encode_string`: the bytes written; the returned count is their number. The
length is stored in a `uint16_t`. -/
def encode_string (str : List Nat) : List Nat :=
  [str.length % 65536 / 256, str.length % 65536 % 256] ++ str.take (str.length % 65536)

/-- The first byte of a PUBLISH packet as `mqtt_encode_publish` builds it in a `uint8_t`. -/
def publish_header (m : mqtt_message_t) : Nat :=
  ((((MQTT_PUBLISH <<< 4) ||| (if m.dup then 0x08 else 0)) ||| (m.qos <<< 1)) |||
    (if m.retain then 0x01 else 0)) % 256

/-- The bytes `mqtt_encode_publish` writes for the topic `topic` and the payload bytes
`payload`. -/
def publish_bytes (m : mqtt_message_t) (topic : List Nat) (packet_id : Nat)
    (payload : List Nat) : List Nat :=
  publish_header m ::
    (encode_remaining_length
        (2 + topic.length + (if 0 < m.qos then 2 else 0) + m.payload_len) ++
      (encode_string topic ++
        ((if 0 < m.qos then [packet_id % 65536 / 256, packet_id % 65536 % 256] else []) ++
          payload)))

/-- Embedding of `mqtt_encode_publish`; `buf` tells whether the buffer pointer is non-null.
The result is `none` when the call reads through a `NULL` topic or payload pointer or past the
end of the payload array. -/
def mqtt_encode_publish (message : Option mqtt_message_t) (packet_id : Nat) (buf : Bool)
    (buf_len : Int) : Option (Int × List Nat) :=
  match message with
  | none => some (-1, [])
  | some m =>
    if buf = false ∨ buf_len < 2 then some (-1, [])
    else
      match m.topic with
      | none => none
      | some topic =>
        if m.payload_len = 0 then
          some (((publish_bytes m topic packet_id []).length : Int),
            publish_bytes m topic packet_id [])
        else
          match m.payload with
          | none => none
          | some payload =>
            if payload.length < m.payload_len then none
            else
              some (((publish_bytes m topic packet_id (payload.take m.payload_len)).length : Int),
                publish_bytes m topic packet_id (payload.take m.payload_len))

/-- The byte `connect_flags` of `mqtt_encode_connect`. -/
def connect_flags (o : mqtt_connect_options_t) (has_will : Bool) : Nat :=
  (((if o.clean_session then 0x02 else 0) |||
      (if has_will then (0x04 ||| (o.will.qos <<< 3)) ||| (if o.will.retain then 0x20 else 0)
       else 0)) |||
    (match o.username with
     | none => 0
     | some _ => 0x80 ||| (if o.password.isSome then 0x40 else 0))) % 256

/-- The length-prefixed strings of the CONNECT payload that follow the client identifier. -/
def connect_optional_strings (o : mqtt_connect_options_t) : List (List Nat) :=
  (match o.will.topic, o.will.message with
   | some t, some m => [t, m]
   | _, _ => []) ++
  (match o.username with
   | none => []
   | some u =>
     u :: (match o.password with
           | none => []
           | some p => [p]))

/-- Embedding of `mqtt_encode_connect`. The result is `none` when the call reads through a
`NULL` client identifier. -/
def mqtt_encode_connect (options : Option mqtt_connect_options_t) (buf : Bool) (buf_len : Int) :
    Option (Int × List Nat) :=
  match options with
  | none => some (-1, [])
  | some o =>
    if buf = false ∨ buf_len < 10 then some (-1, [])
    else
      match o.client_id with
      | none => none
      | some client_id =>
        let strings := client_id :: connect_optional_strings o
        let bytes :=
          (MQTT_CONNECT * 16) ::
            (encode_remaining_length (10 + (strings.map (fun x => 2 + x.length)).sum) ++
              ([0, 4, 77, 81, 84, 84, 4,
                connect_flags o (o.will.topic.isSome && o.will.message.isSome),
                o.keep_alive % 65536 / 256, o.keep_alive % 65536 % 256] ++
                (strings.map encode_string).flatten))
        some ((bytes.length : Int), bytes)

/-- The topic strings of the first `n` filters; `none` when a topic pointer is `NULL` or the
array has fewer than `n` elements. -/
def filter_topics : Nat → List mqtt_topic_filter_t → Option (List (List Nat × Nat))
  | 0, _ => some []
  | _ + 1, [] => none
  | n + 1, f :: fs =>
    match f.topic, filter_topics n fs with
    | some t, some rest => some ((t, f.qos) :: rest)
    | _, _ => none

/-- Embedding of `mqtt_encode_subscribe`. The result is `none` when the call reads past the
filter array or through a `NULL` topic pointer. -/
def mqtt_encode_subscribe (packet_id : Nat) (topics : Option (List mqtt_topic_filter_t))
    (topic_count : Int) (buf : Bool) (buf_len : Int) : Option (Int × List Nat) :=
  match topics with
  | none => some (-1, [])
  | some fs =>
    if buf = false ∨ buf_len < 2 ∨ topic_count ≤ 0 then some (-1, [])
    else
      match filter_topics topic_count.toNat fs with
      | none => none
      | some ts =>
        let bytes :=
          (MQTT_SUBSCRIBE * 16 + 2) ::
            (encode_remaining_length (2 + (ts.map (fun x => 2 + x.1.length + 1)).sum) ++
              ([packet_id % 65536 / 256, packet_id % 65536 % 256] ++
                (ts.map (fun x => encode_string x.1 ++ [x.2 % 256])).flatten))
        some ((bytes.length : Int), bytes)

/-- The first `n` topic strings; `none` when a pointer is `NULL` or the array has fewer than `n`
elements. -/
def topic_strings : Nat → List (Option (List Nat)) → Option (List (List Nat))
  | 0, _ => some []
  | _ + 1, [] => none
  | n + 1, t :: ts =>
    match t, topic_strings n ts with
    | some s, some rest => some (s :: rest)
    | _, _ => none

/-- Embedding of `mqtt_encode_unsubscribe`. The result is `none` when the call reads past the
topic array or through a `NULL` topic pointer. -/
def mqtt_encode_unsubscribe (packet_id : Nat) (topics : Option (List (Option (List Nat))))
    (topic_count : Int) (buf : Bool) (buf_len : Int) : Option (Int × List Nat) :=
  match topics with
  | none => some (-1, [])
  | some arr =>
    if buf = false ∨ buf_len < 2 ∨ topic_count ≤ 0 then some (-1, [])
    else
      match topic_strings topic_count.toNat arr with
      | none => none
      | some ts =>
        let bytes :=
          (MQTT_UNSUBSCRIBE * 16 + 2) ::
            (encode_remaining_length (2 + (ts.map (fun x => 2 + x.length)).sum) ++
              ([packet_id % 65536 / 256, packet_id % 65536 % 256] ++
                (ts.map encode_string).flatten))
        some ((bytes.length : Int), bytes)

/-- The `do ... while ((byte & 128) != 0)` loop of `decode_remaining_length`, entered with the
values of `decoded`, `multiplier` and `length`; at most `n` more iterations are run. The loop
leaves after four iterations at the latest, through the test `multiplier > 128*128*128`. The
result is the returned value and what is stored to `*value`. -/
def decode_remaining_length_loop : Nat → List Nat → Int → Nat → Nat → Nat →
    Option (Int × Option Nat)
  | 0, _, _, _, _, _ => none
  | n + 1, buf, buf_len, decoded, multiplier, length =>
    if buf_len ≤ (decoded : Int) then some (-1, none)
    else
      match buf[decoded]? with
      | none => none
      | some b =>
        if 128 * 128 * 128 < multiplier * 128 then some (-1, none)
        else if b % 256 / 128 % 2 ≠ 0 then
          decode_remaining_length_loop n buf buf_len (decoded + 1) (multiplier * 128)
            ((length + b % 256 % 128 * multiplier) % SIZE_MOD)
        else
          some (((decoded + 1 : Nat) : Int),
            some ((length + b % 256 % 128 * multiplier) % SIZE_MOD))

/-- Embedding of `decode_remaining_length`. -/
def decode_remaining_length (buf : List Nat) (buf_len : Int) : Option (Int × Option Nat) :=
  if buf_len < 1 then some (-1, none)
  else decode_remaining_length_loop 4 buf buf_len 0 1 0

/-- Embedding of `decode_string` with a destination of `str_len` bytes: the returned value and
the bytes copied to `str` (before the terminator). -/
def decode_string (buf : List Nat) (buf_len : Int) (str_len : Nat) : Option (Int × List Nat) :=
  if buf_len < 2 then some (-1, [])
  else
    match buf[0]?, buf[1]? with
    | some b0, some b1 =>
      if buf_len < ((b0 % 256 * 256 + b1 % 256 + 2 : Nat) : Int) ∨
          str_len ≤ b0 % 256 * 256 + b1 % 256 then some (-1, [])
      else if buf.length < 2 + (b0 % 256 * 256 + b1 % 256) then none
      else
        some (((b0 % 256 * 256 + b1 % 256 + 2 : Nat) : Int),
          (buf.drop 2).take (b0 % 256 * 256 + b1 % 256))
    | _, _ => none

/-- Embedding of `mqtt_decode_fixed_header`; `buf = none` is the `NULL` buffer and `header`
tells whether the out pointer is non-null. -/
def mqtt_decode_fixed_header (buf : Option (List Nat)) (buf_len : Int) (header : Bool) :
    Option (Int × Option mqtt_fixed_header_t) :=
  match buf with
  | none => some (-1, none)
  | some mem =>
    if header = false ∨ buf_len < 2 then some (-1, none)
    else
      match mem[0]? with
      | none => none
      | some b0 =>
        match decode_remaining_length (mem.drop 1) (buf_len - 1) with
        | none => none
        | some (decoded, value) =>
          if decoded < 0 then some (-1, none)
          else
            some (decoded + 1,
              some { type := b0 % 256 / 16 % 16, dup_flag := b0 % 256 / 8 % 2,
                     qos_level := b0 % 256 / 2 % 4, retain := b0 % 256 % 2,
                     remaining_length := value.getD 0 })

/-- The effect of `strdup` on the bytes of a buffer: the copy ends before the first zero. -/
def c_string (bytes : List Nat) : List Nat := bytes.takeWhile (fun b => b ≠ 0)

/-- Embedding of `mqtt_decode_publish`; `message` tells whether the out pointer is non-null.
The result is the returned value and, when it is not negative, the message stored. -/
def mqtt_decode_publish (buf : Option (List Nat)) (buf_len : Int) (message : Bool)
    (malloc : Nat → Bool) (strdup_ok : Bool) : Option (Int × Option mqtt_message_t) :=
  match buf with
  | none => some (-1, none)
  | some mem =>
    if message = false ∨ buf_len < 4 then some (-1, none)
    else
      match mqtt_decode_fixed_header (some mem) buf_len true with
      | none => none
      | some (_, none) => some (-1, none)
      | some (pos, some header) =>
        if pos < 0 then some (-1, none)
        else if header.type ≠ MQTT_PUBLISH then some (-1, none)
        else
          match decode_string (mem.drop pos.toNat) (buf_len - pos) 256 with
          | none => none
          | some (topic_len, topic) =>
            if topic_len < 0 then some (-1, none)
            else if 0 < header.qos_level ∧ buf_len - (pos + topic_len) < 2 then some (-1, none)
            else if 0 < header.qos_level ∧ mem.length < (pos + topic_len).toNat + 2 then none
            else
              let pos2 : Int := pos + topic_len + (if 0 < header.qos_level then 2 else 0)
              let payload_len : Int :=
                (header.remaining_length : Int) - topic_len -
                  (if 0 < header.qos_level then 2 else 0)
              if 0 < payload_len then
                if malloc payload_len.toNat = false then some (-1, none)
                else if mem.length < pos2.toNat + payload_len.toNat then none
                else
                  some (pos2 + payload_len,
                    some { topic := if strdup_ok then some (c_string topic) else none,
                           payload := some ((mem.drop pos2.toNat).take payload_len.toNat),
                           payload_len := payload_len.toNat,
                           qos := header.qos_level, retain := decide (header.retain ≠ 0),
                           dup := decide (header.dup_flag ≠ 0) })
              else
                some (pos2 + payload_len,
                  some { topic := if strdup_ok then some (c_string topic) else none,
                         payload := none, payload_len := 0,
                         qos := header.qos_level, retain := decide (header.retain ≠ 0),
                         dup := decide (header.dup_flag ≠ 0) })

/-! ## WebSocket frame codec (`websocket/ws_types.h`, `websocket/ws_frame.c`)

The conventions are those of the MQTT codec. `buffer_len` is the length of the buffer passed.
`size_t` is 32 bits wide and `uint64_t` arithmetic is taken modulo `2 ^ 64`. -/

/-- Modulus of `uint64_t` arithmetic. -/
def U64_MOD : Nat := 2 ^ 64

def ESP_ERR_INVALID_STATE : Nat := 0x103
def ESP_ERR_INVALID_SIZE : Nat := 0x104

/-- The message `ws_message_t`; `opcode` is the value of the enum `ws_opcode_t`. -/
structure ws_message_t where
  opcode : Nat
  payload : Option (List Nat)
  payload_len : Nat
  is_final : Bool
deriving DecidableEq, Repr

/-- The header length `ws_encode_frame` computes for a payload length. -/
def ws_header_len (payload_len : Nat) : Nat :=
  if 125 < payload_len then (if payload_len ≤ 0xFFFF then 4 else 10) else 2

/-- The eight bytes `(payload_len >> ((7 - i) * 8)) & 0xFF`, `i = 0 .. 7`. -/
def be64_bytes (payload_len : Nat) : List Nat :=
  [payload_len / 2 ^ 56 % 256, payload_len / 2 ^ 48 % 256, payload_len / 2 ^ 40 % 256,
   payload_len / 2 ^ 32 % 256, payload_len / 2 ^ 24 % 256, payload_len / 2 ^ 16 % 256,
   payload_len / 2 ^ 8 % 256, payload_len % 256]

/-- The header bytes `ws_encode_frame` writes. -/
def ws_header_bytes (m : ws_message_t) (payload_len : Nat) : List Nat :=
  ((if m.is_final then 0x80 else 0) + m.opcode % 16) ::
    (if payload_len ≤ 125 then [payload_len]
     else if payload_len ≤ 0xFFFF then [126, payload_len / 256 % 256, payload_len % 256]
     else 127 :: be64_bytes payload_len)

/-- Embedding of `ws_encode_frame` on a buffer with the given contents; `frame_len` tells
whether the out pointer is non-null. The result is the returned code and, for `ESP_OK`, the new
contents of the buffer and the value stored to `*frame_len`. It is `none` when the header is
written past the buffer or the `memcpy` reads past the payload array or writes past the
buffer. -/
def ws_encode_frame (message : Option ws_message_t) (buffer : Option (List Nat))
    (frame_len : Bool) : Option (Nat × Option (List Nat × Nat)) :=
  match message, buffer with
  | none, _ => some (ESP_ERR_INVALID_ARG, none)
  | some _, none => some (ESP_ERR_INVALID_ARG, none)
  | some m, some buf =>
    if frame_len = false then some (ESP_ERR_INVALID_ARG, none)
    else
      let payload_len := m.payload_len % U64_MOD
      let header_len := ws_header_len payload_len
      if buf.length < (header_len + payload_len) % U64_MOD then some (ESP_ERR_NO_MEM, none)
      else if buf.length < header_len then none
      else
        match (if 0 < payload_len then m.payload else none) with
        | none =>
          some (ESP_OK,
            some (ws_header_bytes m payload_len ++ buf.drop header_len,
              (header_len + payload_len) % SIZE_MOD))
        | some payload =>
          if payload.length < payload_len % SIZE_MOD ∨
              buf.length < header_len + payload_len % SIZE_MOD then none
          else
            some (ESP_OK,
              some (ws_header_bytes m payload_len ++
                  (payload.take (payload_len % SIZE_MOD) ++
                    buf.drop (header_len + payload_len % SIZE_MOD)),
                (header_len + payload_len) % SIZE_MOD))

/-- The loop `payload_len = (payload_len << 8) | buffer[2 + i]` over the given bytes, in
`uint64_t`. -/
def be64_value : List Nat → Nat → Nat
  | [], acc => acc
  | b :: bs, acc => be64_value bs (acc * 256 % U64_MOD + b % 256)

/-- The loop `payload[i] ^= mask_key[i % 4]` from index `i` on. -/
def apply_mask (mask_key : List Nat) : List Nat → Nat → List Nat
  | [], _ => []
  | b :: bs, i => (b ^^^ mask_key.getD (i % 4) 0) :: apply_mask mask_key bs (i + 1)

/-- The extended length form a frame uses, from its second byte: the number of extra header
bytes. -/
def ws_extended_len (b1 : Nat) : Nat :=
  if b1 % 256 % 128 = 126 then 2 else if b1 % 256 % 128 = 127 then 8 else 0

/-- The header length of a frame, from its second byte: the two basic bytes, the extended
length and the mask key. -/
def ws_frame_header_len (b1 : Nat) : Nat :=
  2 + ws_extended_len b1 + (if b1 % 256 / 128 % 2 ≠ 0 then 4 else 0)

/-- The payload length a frame announces, before any check. -/
def ws_announced_len (buf : List Nat) : Nat :=
  if (buf.getD 1 0) % 256 % 128 = 126 then (buf.getD 2 0) % 256 * 256 + (buf.getD 3 0) % 256
  else if (buf.getD 1 0) % 256 % 128 = 127 then be64_value ((buf.drop 2).take 8) 0
  else (buf.getD 1 0) % 256 % 128

/-- Embedding of `ws_decode_frame` on a buffer with the given contents; `message` and
`frame_len` tell whether the out pointers are non-null. The result is the returned code and,
for `ESP_OK`, the message and the value stored to `*frame_len`. It is `none` when the `memcpy`
of the payload reads past the buffer. -/
def ws_decode_frame (buffer : Option (List Nat)) (message frame_len : Bool)
    (malloc : Nat → Bool) : Option (Nat × Option (ws_message_t × Nat)) :=
  match buffer with
  | none => some (ESP_ERR_INVALID_ARG, none)
  | some buf =>
    if message = false ∨ frame_len = false ∨ buf.length < 2 then some (ESP_ERR_INVALID_ARG, none)
    else
      let b0 := (buf.getD 0 0) % 256
      let b1 := (buf.getD 1 0) % 256
      if b0 / 64 % 2 ≠ 0 ∨ b0 / 32 % 2 ≠ 0 ∨ b0 / 16 % 2 ≠ 0 then
        some (ESP_ERR_INVALID_STATE, none)
      else if b1 % 128 = 126 ∧ buf.length < 4 then some (ESP_ERR_INVALID_SIZE, none)
      else if b1 % 128 = 127 ∧ buf.length < 10 then some (ESP_ERR_INVALID_SIZE, none)
      else if b1 / 128 % 2 ≠ 0 ∧ buf.length < 2 + ws_extended_len b1 + 4 then
        some (ESP_ERR_INVALID_SIZE, none)
      else
        let header_len := ws_frame_header_len b1
        let payload_len := ws_announced_len buf
        if buf.length < (header_len + payload_len) % U64_MOD then
          some (ESP_ERR_INVALID_SIZE, none)
        else if 0 < payload_len then
          if malloc (payload_len % SIZE_MOD) = false then some (ESP_ERR_NO_MEM, none)
          else if buf.length < header_len + payload_len % SIZE_MOD then none
          else
            some (ESP_OK,
              some ({ opcode := b0 % 16,
                      payload :=
                        some (if b1 / 128 % 2 ≠ 0 then
                                apply_mask ((buf.drop (2 + ws_extended_len b1)).take 4)
                                  ((buf.drop header_len).take (payload_len % SIZE_MOD)) 0
                              else (buf.drop header_len).take (payload_len % SIZE_MOD)),
                      payload_len := payload_len,
                      is_final := decide (b0 / 128 % 2 ≠ 0) },
                (header_len + payload_len) % SIZE_MOD))
        else
          some (ESP_OK,
            some ({ opcode := b0 % 16, payload := none, payload_len := payload_len,
                    is_final := decide (b0 / 128 % 2 ≠ 0) },
              (header_len + payload_len) % SIZE_MOD))

/-! ## Concrete packets and frames -/

/-- The message `{topic = "ab", payload = NULL, payload_len = 0, qos = 0}`. -/
def short_message : mqtt_message_t :=
  { topic := some (cstr "ab"), payload := none, payload_len := 0, qos := 0, retain := false,
    dup := false }

/-- Connect options with the client identifier `"client"` and nothing else. -/
def short_options : mqtt_connect_options_t :=
  { client_id := some (cstr "client"), username := none, password := none, keep_alive := 60,
    clean_session := true,
    will := { topic := none, message := none, qos := 0, retain := false } }

/-- The message with the topic `"t"`, the payload `"25.5"`, QoS 1 and the retain flag. -/
def temp_mqtt_message : mqtt_message_t :=
  { topic := some (cstr "t"), payload := some temp_msg, payload_len := 4, qos := 1,
    retain := true, dup := false }

/-- A topic of 256 bytes `"aaa...a"`. -/
def long_topic : List Nat := List.replicate 256 97

/-- The message with the 256-byte topic, QoS 0 and no payload. -/
def long_topic_message : mqtt_message_t :=
  { topic := some long_topic, payload := none, payload_len := 0, qos := 0, retain := false,
    dup := false }

/-- A PUBLISH packet of 4 bytes (QoS 0, empty topic) whose fixed header announces a remaining
length of 127. -/
def short_publish_packet : List Nat := [0x30, 127, 0, 0]

/-- The bytes that lie behind the 4-byte packet in memory. -/
def bytes_behind : List Nat := List.replicate 125 0xAA

/-- Every allocation succeeds. -/
def malloc_always : Nat → Bool := fun _ => true

/-- What a run of `mqtt_decode_publish` returns and the length and bytes of the payload it
stored. -/
def decode_publish_summary (r : Option (Int × Option mqtt_message_t)) :
    Option (Int × Option (Nat × Option (List Nat))) :=
  r.map (fun x => (x.1, x.2.map (fun m => (m.payload_len, m.payload))))

/-- The final text message with the payload `"hi"`. -/
def ws_text_message : ws_message_t :=
  { opcode := 1, payload := some (cstr "hi"), payload_len := 2, is_final := true }

/-- An output buffer of 8 zero bytes. -/
def ws_out_buffer : List Nat := List.replicate 8 0

/-- An allocator that serves requests below 1000 bytes. -/
def malloc_small : Nat → Bool := fun n => decide (n < 1000)

/-- An allocator that serves no request. -/
def malloc_never : Nat → Bool := fun _ => false

/-- A frame header of 10 bytes in the 64-bit length form that announces a payload of
`2 ^ 64 - 10` bytes. -/
def ws_huge_frame : List Nat := [0x82, 127, 0xFF, 0xFF, 0xFF, 0xFF, 0xFF, 0xFF, 0xFF, 0xF6]

/-- The masked final text frame with the mask key `01 02 03 04` and the payload `"hi"`. -/
def ws_masked_frame : List Nat := [0x81, 0x82, 1, 2, 3, 4, 105, 107]

/-! ## Allocator lemmas -/

theorem block_offset_ge (bs : List block_header_t) (i off : Nat) : off ≤ block_offset bs i off := by
  induction bs generalizing i off with
  | nil => simp [block_offset]
  | cons b rest ih =>
    cases i with
    | zero => simp [block_offset]
    | succ j =>
      have := ih j (off + HEADER_SIZE + b.size)
      simp only [block_offset]
      omega

theorem allocated_ptrs_ge (bs : List block_header_t) (off x : Nat)
    (hx : x ∈ allocated_ptrs bs off) : off + HEADER_SIZE ≤ x := by
  induction bs generalizing off with
  | nil => simp [allocated_ptrs] at hx
  | cons b rest ih =>
    simp only [allocated_ptrs] at hx
    split at hx
    · have := ih _ hx
      omega
    · rcases List.mem_cons.mp hx with h | h
      · omega
      · have := ih _ h
        omega

theorem best_fit_scan_some (size : Nat) (bs : List block_header_t) (k : Nat) (best : Option Nat)
    (md i d : Nat) (h : best_fit_scan size bs k best md = (some i, d)) :
    (best = some i ∧ md = d) ∨
      ∃ b, k ≤ i ∧ bs[i - k]? = some b ∧ b.is_free = true ∧ size ≤ b.size ∧ d = b.size - size := by
  induction bs generalizing k best md with
  | nil =>
    simp only [best_fit_scan, Prod.mk.injEq] at h
    exact Or.inl h
  | cons b rest ih =>
    have step : ∀ best1 md1, best_fit_scan size rest (k + 1) best1 md1 = (some i, d) →
        ((best1 = some i ∧ md1 = d) ∨
          ∃ c, k ≤ i ∧ (b :: rest)[i - k]? = some c ∧ c.is_free = true ∧ size ≤ c.size ∧
            d = c.size - size) := by
      intro best1 md1 h1
      rcases ih (k + 1) best1 md1 h1 with h2 | ⟨c, hk, hc, hrest⟩
      · exact Or.inl h2
      · refine Or.inr ⟨c, by omega, ?_, hrest⟩
        have : i - k = (i - (k + 1)) + 1 := by omega
        rw [this, List.getElem?_cons_succ]
        exact hc
    simp only [best_fit_scan] at h
    split at h
    · rename_i hb
      split at h
      · split at h
        · rename_i h0
          simp only [Prod.mk.injEq, Option.some.injEq] at h
          refine Or.inr ⟨b, by omega, ?_, hb.1, hb.2, by omega⟩
          have : i - k = 0 := by omega
          rw [this]
          exact List.getElem?_cons_zero
        · rcases step _ _ h with ⟨h2, h3⟩ | h2
          · simp only [Option.some.injEq] at h2
            refine Or.inr ⟨b, by omega, ?_, hb.1, hb.2, h3.symm⟩
            have : i - k = 0 := by omega
            rw [this]
            exact List.getElem?_cons_zero
          · exact Or.inr h2
      · exact step _ _ h
    · exact step _ _ h

/-- What a successful scan from the head of the list tells about the chosen block. -/
theorem best_fit_scan_head (size : Nat) (bs : List block_header_t) (i d : Nat)
    (h : best_fit_scan size bs 0 none SIZE_MAX = (some i, d)) :
    ∃ b, bs[i]? = some b ∧ b.is_free = true ∧ size ≤ b.size ∧ d = b.size - size := by
  rcases best_fit_scan_some size bs 0 none SIZE_MAX i d h with ⟨h1, _⟩ | ⟨b, _, hb, hrest⟩
  · cases h1
  · exact ⟨b, by simpa using hb, hrest⟩

/-- Shape of the list after `take_block`: the allocated block it leaves can be found again at
the payload address of the chosen block, has the recorded size, and freeing it gives back the
allocated addresses the list had before. -/
theorem take_block_spec (size : Nat) (bs : List block_header_t) (i off : Nat) (b : block_header_t)
    (hb : bs[i]? = some b) (hfree : b.is_free = true) (hsize : size ≤ b.size) :
    let r := take_block size (b.size - size) bs i
    let ptr := block_offset bs i off + HEADER_SIZE
    size ≤ r.2 ∧
    block_capacity ptr r.1 off = r.2 ∧
    ptr ∉ allocated_ptrs bs off ∧
    (∀ x, x ∈ allocated_ptrs r.1 off ↔ x = ptr ∨ x ∈ allocated_ptrs bs off) ∧
    ∃ l, mark_free ptr r.1 off = some (r.2, l) ∧ allocated_ptrs l off = allocated_ptrs bs off := by
  induction bs generalizing i off with
  | nil => simp at hb
  | cons c rest ih =>
    cases i with
    | zero =>
      simp only [List.getElem?_cons_zero, Option.some.injEq] at hb
      subst hb
      simp only [take_block, block_offset]
      have hH : HEADER_SIZE = 12 := rfl
      by_cases hsplit : HEADER_SIZE + 8 ≤ c.size - size
      · simp only [hsplit, if_true]
        have e : off + HEADER_SIZE + size + HEADER_SIZE + (c.size - size - HEADER_SIZE)
            = off + HEADER_SIZE + c.size := by omega
        refine ⟨Nat.le_refl _, by simp [block_capacity], ?_, ?_, ?_⟩
        · intro hx
          simp only [allocated_ptrs, hfree, if_true] at hx
          have := allocated_ptrs_ge _ _ _ hx
          omega
        · intro x
          simp [allocated_ptrs, hfree, e]
        · refine ⟨_, by simp only [mark_free, if_true]; rfl, ?_⟩
          simp [allocated_ptrs, hfree, e]
      · simp only [hsplit, if_false]
        refine ⟨hsize, by simp [block_capacity], ?_, ?_, ?_⟩
        · intro hx
          simp only [allocated_ptrs, hfree, if_true] at hx
          have := allocated_ptrs_ge _ _ _ hx
          omega
        · intro x
          simp [allocated_ptrs, hfree]
        · refine ⟨_, by simp only [mark_free, if_true]; rfl, ?_⟩
          simp [allocated_ptrs, hfree]
    | succ j =>
      simp only [List.getElem?_cons_succ] at hb
      obtain ⟨h1, h2, h3, h4, l, h5, h6⟩ := ih j (off + HEADER_SIZE + c.size) hb
      have hge := block_offset_ge rest j (off + HEADER_SIZE + c.size)
      have hne : ¬ off + HEADER_SIZE = block_offset rest j (off + HEADER_SIZE + c.size) + HEADER_SIZE := by
        have : 0 < HEADER_SIZE := by decide
        omega
      simp only [take_block, block_offset]
      refine ⟨h1, ?_, ?_, ?_, ?_⟩
      · simp only [block_capacity, hne, if_false]
        exact h2
      · intro hx
        simp only [allocated_ptrs] at hx
        split at hx
        · exact h3 hx
        · rcases List.mem_cons.mp hx with h | h
          · exact hne h.symm
          · exact h3 h
      · intro x
        simp only [allocated_ptrs]
        split
        · exact h4 x
        · simp only [List.mem_cons, h4 x]
          tauto
      · refine ⟨c :: l, ?_, ?_⟩
        · simp only [mark_free, hne, if_false, h5]
        · simp only [allocated_ptrs, h6]

theorem align8_ge (size : Nat) (h : size + 7 < SIZE_MOD) : size ≤ align8 size := by
  unfold align8
  rw [Nat.mod_eq_of_lt h]
  omega

/-- A failed allocation leaves the pool as it was. -/
theorem memory_pool_alloc_none (p p' : memory_pool_t) (size : Nat)
    (h : memory_pool_alloc p size = (none, p')) : p' = p := by
  unfold memory_pool_alloc at h
  split at h
  · simp only [Prod.mk.injEq] at h
    exact h.2.symm
  · split at h
    · simp only [Prod.mk.injEq] at h
      exact h.2.symm
    · simp at h

/-- Summary of a successful allocation: the accounting, the size of the block handed out, the
set of allocated addresses, and the list obtained by marking the block free again. -/
theorem memory_pool_alloc_some (p p' : memory_pool_t) (size a : Nat)
    (h : memory_pool_alloc p size = (some a, p')) :
    ∃ sz, p'.used_size = (p.used_size + (sz + HEADER_SIZE)) % SIZE_MOD ∧
      p'.total_size = p.total_size ∧
      align8 size ≤ sz ∧
      block_capacity a p'.first_block 0 = sz ∧
      a ∉ allocated_ptrs p.first_block 0 ∧
      (∀ x, x ∈ allocated_ptrs p'.first_block 0 ↔ x = a ∨ x ∈ allocated_ptrs p.first_block 0) ∧
      ∃ l, mark_free a p'.first_block 0 = some (sz, l) ∧
        allocated_ptrs l 0 = allocated_ptrs p.first_block 0 := by
  unfold memory_pool_alloc at h
  split at h
  · simp at h
  · split at h
    · simp at h
    · rename_i i diff hscan
      obtain ⟨b, hb, hfree, hsize, hdiff⟩ := best_fit_scan_head _ _ _ _ hscan
      subst hdiff
      obtain ⟨h1, h2, h3, h4, l, h5, h6⟩ := take_block_spec (align8 size) p.first_block i 0 b hb hfree hsize
      simp only [Prod.mk.injEq, Option.some.injEq] at h
      obtain ⟨ha, hp⟩ := h
      subst ha
      subst hp
      exact ⟨_, rfl, rfl, h1, h2, h3, h4, l, h5, h6⟩

theorem allocated_ptrs_coalesce_from (cur : block_header_t) (rest : List block_header_t) (off : Nat) :
    allocated_ptrs (coalesce_from cur rest) off = allocated_ptrs (cur :: rest) off := by
  induction rest generalizing cur off with
  | nil => simp [coalesce_from]
  | cons nxt rest ih =>
    simp only [coalesce_from]
    split
    · rename_i hboth
      rw [ih]
      have e : off + HEADER_SIZE + (cur.size + (nxt.size + HEADER_SIZE))
          = off + HEADER_SIZE + cur.size + HEADER_SIZE + nxt.size := by omega
      simp [allocated_ptrs, hboth.1, hboth.2, e]
    · simp only [allocated_ptrs]
      rw [ih]
      simp only [allocated_ptrs]

/-- Coalescing moves, creates and removes no allocated block. -/
theorem allocated_ptrs_coalesce (bs : List block_header_t) (off : Nat) :
    allocated_ptrs (coalesce bs) off = allocated_ptrs bs off := by
  cases bs with
  | nil => rfl
  | cons b rest => exact allocated_ptrs_coalesce_from b rest off

/-- Marking an allocated block free succeeds and removes exactly its address from the
allocated addresses. -/
theorem mark_free_allocated (a : Nat) (bs : List block_header_t) (off : Nat)
    (ha : a ∈ allocated_ptrs bs off) :
    ∃ sz l, mark_free a bs off = some (sz, l) ∧
      ∀ x, x ∈ allocated_ptrs l off ↔ (x ∈ allocated_ptrs bs off ∧ x ≠ a) := by
  induction bs generalizing off with
  | nil => simp [allocated_ptrs] at ha
  | cons b rest ih =>
    have hH : HEADER_SIZE = 12 := rfl
    by_cases hp : off + HEADER_SIZE = a
    · refine ⟨b.size, { size := b.size, is_free := true } :: rest,
        by simp only [mark_free, hp, if_true], ?_⟩
      intro x
      simp only [allocated_ptrs, if_true]
      constructor
      · intro hx
        have := allocated_ptrs_ge _ _ _ hx
        refine ⟨?_, by omega⟩
        split
        · exact hx
        · exact List.mem_cons_of_mem _ hx
      · rintro ⟨hx, hne⟩
        split at hx
        · exact hx
        · rcases List.mem_cons.mp hx with h | h
          · omega
          · exact h
    · have ha' : a ∈ allocated_ptrs rest (off + HEADER_SIZE + b.size) := by
        simp only [allocated_ptrs] at ha
        split at ha
        · exact ha
        · rcases List.mem_cons.mp ha with h | h
          · exact absurd h.symm hp
          · exact h
      obtain ⟨sz, l, h1, h2⟩ := ih _ ha'
      refine ⟨sz, b :: l, by simp only [mark_free, hp, if_false, h1], ?_⟩
      intro x
      simp only [allocated_ptrs]
      split
      · exact h2 x
      · simp only [List.mem_cons, h2 x]
        constructor
        · rintro (h | h)
          · exact ⟨Or.inl h, by omega⟩
          · exact ⟨Or.inr h.1, h.2⟩
        · rintro ⟨h | h, hne⟩
          · exact Or.inl h
          · exact Or.inr ⟨h, hne⟩

/-- Freeing an allocated address succeeds; afterwards exactly that address is no longer
allocated. -/
theorem memory_pool_free_allocated (p : memory_pool_t) (a : Nat)
    (ha : a ∈ allocated_ptrs p.first_block 0) :
    ∃ p', memory_pool_free p (some a) = some p' ∧
      ∀ x, x ∈ allocated_ptrs p'.first_block 0 ↔ (x ∈ allocated_ptrs p.first_block 0 ∧ x ≠ a) := by
  obtain ⟨sz, l, h1, h2⟩ := mark_free_allocated a p.first_block 0 ha
  refine ⟨{ first_block := coalesce l, total_size := p.total_size,
            used_size := (p.used_size + SIZE_MOD - (sz + HEADER_SIZE) % SIZE_MOD) % SIZE_MOD,
            peak_use := p.peak_use }, by simp only [memory_pool_free, h1], ?_⟩
  intro x
  simp only [allocated_ptrs_coalesce]
  exact h2 x

/-- Freeing the address an allocation has just returned succeeds and restores `used_size`
(modulo the width of `size_t`) and the allocated addresses. -/
theorem memory_pool_free_alloc (p p' : memory_pool_t) (size a : Nat)
    (h : memory_pool_alloc p size = (some a, p')) :
    ∃ p'', memory_pool_free p' (some a) = some p'' ∧
      p''.used_size = p.used_size % SIZE_MOD ∧
      p''.total_size = p.total_size ∧
      allocated_ptrs p''.first_block 0 = allocated_ptrs p.first_block 0 := by
  obtain ⟨sz, h1, h2, _, _, _, _, l, h7, h8⟩ := memory_pool_alloc_some p p' size a h
  refine ⟨{ first_block := coalesce l, total_size := p'.total_size,
            used_size := (p'.used_size + SIZE_MOD - (sz + HEADER_SIZE) % SIZE_MOD) % SIZE_MOD,
            peak_use := p'.peak_use }, by simp only [memory_pool_free, h7], ?_, h2, ?_⟩
  · show (p'.used_size + SIZE_MOD - (sz + HEADER_SIZE) % SIZE_MOD) % SIZE_MOD
      = p.used_size % SIZE_MOD
    rw [h1]
    simp only [SIZE_MOD]
    omega
  · show allocated_ptrs (coalesce l) 0 = allocated_ptrs p.first_block 0
    rw [allocated_ptrs_coalesce]
    exact h8

/-! ## Registry lemmas -/

theorem find_topic_some (name : List Nat) (ts : List topic_t) (n i : Nat) (t : topic_t)
    (h : find_topic name ts n = some (i, t)) : ts[i]? = some t ∧ t.name = name ∧ i < n := by
  induction ts generalizing n i with
  | nil => simp [find_topic] at h
  | cons u us ih =>
    cases n with
    | zero => simp [find_topic] at h
    | succ m =>
      simp only [find_topic] at h
      split at h
      · rename_i hn
        simp only [Option.some.injEq, Prod.mk.injEq] at h
        obtain ⟨h1, h2⟩ := h
        subst h1
        subst h2
        exact ⟨List.getElem?_cons_zero, hn, Nat.succ_pos _⟩
      · split at h
        · simp at h
        · rename_i j v hrec
          simp only [Option.some.injEq, Prod.mk.injEq] at h
          obtain ⟨h1, h2⟩ := h
          subst h1
          subst h2
          obtain ⟨a, b, c⟩ := ih m j hrec
          exact ⟨by simpa using a, b, by omega⟩

/-- Replacing the found slot by one of the same name does not change what the lookup finds. -/
theorem find_topic_set (name : List Nat) (ts : List topic_t) (n i : Nat) (t t' : topic_t)
    (h : find_topic name ts n = some (i, t)) (hn : t'.name = name) :
    find_topic name (ts.set i t') n = some (i, t') := by
  induction ts generalizing n i with
  | nil => simp [find_topic] at h
  | cons u us ih =>
    cases n with
    | zero => simp [find_topic] at h
    | succ m =>
      simp only [find_topic] at h
      split at h
      · simp only [Option.some.injEq, Prod.mk.injEq] at h
        obtain ⟨h1, _⟩ := h
        subst h1
        simp [find_topic, hn]
      · rename_i hne
        split at h
        · simp at h
        · rename_i j v hrec
          simp only [Option.some.injEq, Prod.mk.injEq] at h
          obtain ⟨h1, h2⟩ := h
          subst h1
          subst h2
          simp [find_topic, hne, ih m j hrec]

theorem set_set_same (ts : List topic_t) (i : Nat) (a b : topic_t) :
    (ts.set i a).set i b = ts.set i b := by
  induction ts generalizing i with
  | nil => rfl
  | cons u us ih =>
    cases i with
    | zero => rfl
    | succ j => simp [List.set, ih]

theorem set_same (ts : List topic_t) (i : Nat) (t : topic_t) (h : ts[i]? = some t) :
    ts.set i t = ts := by
  induction ts generalizing i with
  | nil => rfl
  | cons u us ih =>
    cases i with
    | zero =>
      simp only [List.getElem?_cons_zero, Option.some.injEq] at h
      simp [List.set, h]
    | succ j =>
      simp only [List.getElem?_cons_succ] at h
      simp [List.set, ih j h]

theorem has_callback_iff (cb : Nat) (l : List subscriber_t) :
    has_callback cb l = true ↔ cb ∈ l.map subscriber_t.callback := by
  induction l with
  | nil => simp [has_callback]
  | cons x xs ih =>
    simp only [has_callback, List.map_cons, List.mem_cons]
    split
    · rename_i h
      simp [h]
    · rename_i h
      rw [ih]
      constructor
      · exact Or.inr
      · rintro (h1 | h1)
        · exact absurd h1.symm h
        · exact h1

theorem unlink_subscriber_none (cb : Nat) (l : List subscriber_t)
    (h : cb ∉ l.map subscriber_t.callback) : unlink_subscriber cb l = none := by
  induction l with
  | nil => rfl
  | cons x xs ih =>
    simp only [List.map_cons, List.mem_cons, not_or] at h
    simp only [unlink_subscriber]
    rw [if_neg (fun e => h.1 e.symm), ih h.2]

/-- The unlink loop removes the first node carrying the callback and keeps every other node in
place. -/
theorem unlink_subscriber_some (cb : Nat) (l : List subscriber_t)
    (h : cb ∈ l.map subscriber_t.callback) :
    ∃ pre node post, l = pre ++ node :: post ∧ node.callback = cb ∧
      (∀ x ∈ pre, x.callback ≠ cb) ∧ unlink_subscriber cb l = some (node, pre ++ post) := by
  induction l with
  | nil => simp at h
  | cons x xs ih =>
    by_cases hx : x.callback = cb
    · exact ⟨[], x, xs, rfl, hx, by simp, by simp [unlink_subscriber, hx]⟩
    · have h' : cb ∈ xs.map subscriber_t.callback := by
        simp only [List.map_cons, List.mem_cons] at h
        rcases h with h | h
        · exact absurd h.symm hx
        · exact h
      obtain ⟨pre, node, post, h1, h2, h3, h4⟩ := ih h'
      refine ⟨x :: pre, node, post, by simp [h1], h2, ?_, by simp [unlink_subscriber, hx, h4]⟩
      intro y hy
      rcases List.mem_cons.mp hy with e | e
      · subst e
        exact hx
      · exact h3 y e

/-! ## Subscriber management -/

/-- Every way `pubsub_subscribe` can return `PUBSUB_OK`. -/
theorem pubsub_subscribe_ok (s s' : pubsub_state) (topic_name : Option (List Nat))
    (callback user_data : Option Nat)
    (h : pubsub_subscribe s topic_name callback user_data = (PUBSUB_OK, s')) :
    ∃ name cb i topic a pool',
      topic_name = some name ∧ callback = some cb ∧
      find_topic name s.topics s.topic_count = some (i, topic) ∧
      has_callback cb topic.subscribers = false ∧
      topic.subscriber_count < MAX_SUBSCRIBERS_PER_TOPIC ∧
      memory_pool_alloc s.pool SIZEOF_SUBSCRIBER = (some a, pool') ∧
      s' = { s with
             pool := pool',
             topics := s.topics.set i
               { topic with
                 subscribers := { callback := cb, user_data := user_data, addr := a } :: topic.subscribers,
                 subscriber_count := topic.subscriber_count + 1 } } := by
  unfold pubsub_subscribe at h
  split at h
  · simp at h
  · simp at h
  · rename_i name cb
    split at h
    · simp at h
    · rename_i i topic hfind
      split at h
      · simp at h
      · rename_i hdup
        split at h
        · simp at h
        · rename_i hmax
          split at h
          · simp at h
          · rename_i a pool' halloc
            simp only [Prod.mk.injEq, true_and] at h
            have hlt : topic.subscriber_count < MAX_SUBSCRIBERS_PER_TOPIC := Nat.lt_of_not_le hmax
            have hmod : (topic.subscriber_count + 1) % SIZE_MOD = topic.subscriber_count + 1 := by
              apply Nat.mod_eq_of_lt
              simp only [MAX_SUBSCRIBERS_PER_TOPIC] at hlt
              simp only [SIZE_MOD]
              omega
            rw [hmod] at h
            exact ⟨name, cb, i, topic, a, pool', rfl, rfl, hfind, by simpa using hdup, hlt, halloc, h.symm⟩

theorem pubsub_unsubscribe_found (s : pubsub_state) (name : List Nat) (cb i : Nat) (topic : topic_t)
    (hfind : find_topic name s.topics s.topic_count = some (i, topic)) :
    pubsub_unsubscribe s (some name) (some cb) =
      match unlink_subscriber cb topic.subscribers with
      | none => some (PUBSUB_ERR_INVALID_PARAM, s)
      | some (node, rest) =>
        match memory_pool_free s.pool (some node.addr) with
        | none => none
        | some pool' =>
          some (PUBSUB_OK,
            { s with
              pool := pool',
              topics := s.topics.set i
                { topic with
                  subscribers := rest,
                  subscriber_count := (topic.subscriber_count + SIZE_MOD - 1) % SIZE_MOD } }) := by
  simp only [pubsub_unsubscribe, hfind]

/-! ## Preservation of the per-slot consistency -/

theorem topic_ok_zero : topic_ok topic_zero := by decide

theorem topics_ok_getD (s : pubsub_state) (h : topics_ok s) (k : Nat) :
    topic_ok (s.topics.getD k topic_zero) := by
  rw [List.getD_eq_getElem?_getD]
  cases hk : s.topics[k]? with
  | none => exact topic_ok_zero
  | some t => exact h t (List.getElem?_mem hk)

theorem topics_ok_set (s : pubsub_state) (h : topics_ok s) (i : Nat) (t' : topic_t)
    (ht : topic_ok t') : ∀ t ∈ s.topics.set i t', topic_ok t := by
  intro t hmem
  rcases List.mem_or_eq_of_mem_set hmem with h1 | h1
  · exact h t h1
  · exact h1 ▸ ht

theorem copy_name_length (name : List Nat) : (copy_name name).length < MAX_TOPIC_NAME_LENGTH := by
  simp only [copy_name, MAX_TOPIC_NAME_LENGTH, List.length_take]
  omega

theorem topics_ok_init : topics_ok init_state := by decide

theorem topics_ok_create_topic (s : pubsub_state) (h : topics_ok s) (name : Option (List Nat))
    (queue_ok mutex_ok task_ok : Bool) :
    topics_ok (pubsub_create_topic s name queue_ok mutex_ok task_ok).2 := by
  have hslot := topics_ok_getD s h s.topic_count
  obtain ⟨h1, h2, _, h4⟩ := hslot
  unfold pubsub_create_topic
  split
  · exact h
  · rename_i nm
    split
    · exact h
    · split
      · exact h
      · split
        · exact h
        · split
          · exact topics_ok_set s h _ _ ⟨h1, h2, copy_name_length nm, h4⟩
          · split
            · exact topics_ok_set s h _ _ ⟨h1, h2, copy_name_length nm, h4⟩
            · split
              · exact topics_ok_set s h _ _ ⟨rfl, List.nodup_nil, copy_name_length nm, Nat.zero_le _⟩
              · exact topics_ok_set s h _ _ ⟨rfl, List.nodup_nil, copy_name_length nm, Nat.zero_le _⟩

theorem topics_ok_subscribe (s : pubsub_state) (h : topics_ok s) (name : Option (List Nat))
    (cb ud : Option Nat) : topics_ok (pubsub_subscribe s name cb ud).2 := by
  cases hres : pubsub_subscribe s name cb ud with
  | mk e s' =>
    by_cases he : e = PUBSUB_OK
    · subst he
      obtain ⟨nm, c, i, topic, a, pool', _, _, hfind, hdup, hlt, _, hs'⟩ :=
        pubsub_subscribe_ok s s' name cb ud hres
      obtain ⟨hget, _, _⟩ := find_topic_some _ _ _ _ _ hfind
      obtain ⟨h1, h2, h3, _⟩ := h topic (List.getElem?_mem hget)
      subst hs'
      refine topics_ok_set s h _ _ ⟨by simp [h1], ?_, h3, hlt⟩
      have hnot : c ∉ topic.subscribers.map subscriber_t.callback := by
        intro hc
        rw [← has_callback_iff, hdup] at hc
        exact Bool.false_ne_true hc
      simp only [callbacks, List.map_cons, List.nodup_cons]
      exact ⟨hnot, h2⟩
    · have : s' = s := by
        unfold pubsub_subscribe at hres
        repeat' split at hres
        all_goals simp only [Prod.mk.injEq] at hres
        all_goals first
          | exact hres.2.symm
          | exact absurd hres.1.symm he
      rw [this]
      exact h

/-- On a consistent slot the 32-bit decrement of the counter is an ordinary decrement. -/
theorem count_decrement (n : Nat) (h1 : 0 < n) (h2 : n ≤ MAX_SUBSCRIBERS_PER_TOPIC) :
    (n + SIZE_MOD - 1) % SIZE_MOD = n - 1 := by
  simp only [MAX_SUBSCRIBERS_PER_TOPIC] at h2
  simp only [SIZE_MOD]
  omega

theorem topics_ok_unsubscribe (s s' : pubsub_state) (h : topics_ok s) (name : Option (List Nat))
    (cb : Option Nat) (e : pubsub_err_t) (hres : pubsub_unsubscribe s name cb = some (e, s')) :
    topics_ok s' := by
  unfold pubsub_unsubscribe at hres
  split at hres
  · simp only [Option.some.injEq, Prod.mk.injEq] at hres
    exact hres.2 ▸ h
  · simp only [Option.some.injEq, Prod.mk.injEq] at hres
    exact hres.2 ▸ h
  · rename_i nm c
    split at hres
    · simp only [Option.some.injEq, Prod.mk.injEq] at hres
      exact hres.2 ▸ h
    · rename_i i topic hfind
      obtain ⟨hget, _, _⟩ := find_topic_some _ _ _ _ _ hfind
      obtain ⟨h1, h2, h3, h4⟩ := h topic (List.getElem?_mem hget)
      split at hres
      · simp only [Option.some.injEq, Prod.mk.injEq] at hres
        exact hres.2 ▸ h
      · rename_i node rest hun
        split at hres
        · simp at hres
        · simp only [Option.some.injEq, Prod.mk.injEq] at hres
          rw [← hres.2]
          have hmem : c ∈ topic.subscribers.map subscriber_t.callback := by
            by_contra hc
            rw [unlink_subscriber_none c _ hc] at hun
            simp at hun
          obtain ⟨pre, nd, post, e1, _, _, e4⟩ := unlink_subscriber_some c _ hmem
          rw [e4] at hun
          simp only [Option.some.injEq, Prod.mk.injEq] at hun
          obtain ⟨_, hrest⟩ := hun
          have hlen : topic.subscribers.length = rest.length + 1 := by
            rw [e1, ← hrest]
            simp only [List.length_append, List.length_cons]
            omega
          have hdec := count_decrement topic.subscriber_count (by omega) h4
          refine topics_ok_set s h _ _ ⟨?_, ?_, h3, ?_⟩
          · show (topic.subscriber_count + SIZE_MOD - 1) % SIZE_MOD = rest.length
            omega
          · show (rest.map subscriber_t.callback).Nodup
            have h2' : (topic.subscribers.map subscriber_t.callback).Nodup := h2
            rw [e1] at h2'
            rw [← hrest]
            simp only [List.map_append, List.map_cons] at h2' ⊢
            exact (List.nodup_cons.mp (List.nodup_middle.mp h2')).2
          · show (topic.subscriber_count + SIZE_MOD - 1) % SIZE_MOD ≤ MAX_SUBSCRIBERS_PER_TOPIC
            omega

/-! ## Publish path -/

/-- The two outcomes of the enqueue step. -/
theorem publish_enqueue_cases (s s' : pubsub_state) (i : Nat) (topic : topic_t) (msg : pubsub_msg_t)
    (e : pubsub_err_t) (h : publish_enqueue s i topic msg = some (e, s')) :
    ∃ q, topic.msg_queue = some q ∧
      ((e = PUBSUB_OK ∧ q.items.length < q.length ∧
          s' = { s with
                 topics := s.topics.set i
                   { topic with
                     msg_queue := some { q with
                       items := if msg.priority = MSG_PRIORITY_CRITICAL then msg :: q.items
                                else q.items ++ [msg] } } }) ∨
       (e = PUBSUB_ERR_QUEUE_FULL ∧ q.length ≤ q.items.length ∧
          ∃ pool', memory_pool_free s.pool (msg.data.map buffer_t.addr) = some pool' ∧
            s' = { s with pool := pool' })) := by
  unfold publish_enqueue at h
  split at h
  · simp at h
  · rename_i q hq
    refine ⟨q, hq, ?_⟩
    split at h
    · rename_i q' hsend
      simp only [Option.some.injEq, Prod.mk.injEq] at h
      left
      by_cases hp : msg.priority = MSG_PRIORITY_CRITICAL
      · simp only [hp, if_true, xQueueSendToFront] at hsend ⊢
        split at hsend
        · rename_i hlt
          simp only [Option.some.injEq] at hsend
          exact ⟨h.1.symm, hlt, by rw [← h.2, ← hsend]⟩
        · simp at hsend
      · simp only [hp, if_false, xQueueSend] at hsend ⊢
        split at hsend
        · rename_i hlt
          simp only [Option.some.injEq] at hsend
          exact ⟨h.1.symm, hlt, by rw [← h.2, ← hsend]⟩
        · simp at hsend
    · rename_i hsend
      have hfull : q.length ≤ q.items.length := by
        by_contra hlt
        have hlt' : q.items.length < q.length := Nat.lt_of_not_le hlt
        by_cases hp : msg.priority = MSG_PRIORITY_CRITICAL
        · simp [hp, xQueueSendToFront, hlt'] at hsend
        · simp [hp, xQueueSend, hlt'] at hsend
      right
      split at h
      · rename_i hd
        simp only [Option.some.injEq, Prod.mk.injEq] at h
        exact ⟨h.1.symm, hfull, s.pool, by simp [hd, memory_pool_free], h.2.symm⟩
      · rename_i buf hd
        split at h
        · simp at h
        · rename_i pool' hfree
          simp only [Option.some.injEq, Prod.mk.injEq] at h
          exact ⟨h.1.symm, hfull, pool', by simp [hd, hfree], h.2.symm⟩

/-- Every way `pubsub_publish` can return: an argument or lookup error with the state untouched,
an allocation failure with the state untouched, or the outcome of the enqueue step applied to
the pool after the payload allocation. -/
theorem pubsub_publish_cases (s s' : pubsub_state) (topic_name : Option (List Nat))
    (data : Option (List Nat)) (len : Nat) (p : msg_priority_t) (now : Nat) (e : pubsub_err_t)
    (h : pubsub_publish s topic_name data len p now = some (e, s')) :
    (s' = s ∧ (e = PUBSUB_ERR_INVALID_PARAM ∨ e = PUBSUB_ERR_TOPIC_NOT_FOUND ∨
        e = PUBSUB_ERR_NO_MEMORY)) ∨
    ∃ name i topic pool' d,
      topic_name = some name ∧
      find_topic name s.topics s.topic_count = some (i, topic) ∧
      ((len = 0 ∧ pool' = s.pool ∧ d = none) ∨
        (0 < len ∧ ∃ a src, data = some src ∧ len ≤ src.length ∧
          memory_pool_alloc s.pool len = (some a, pool') ∧
          len ≤ block_capacity a pool'.first_block 0 ∧
          d = some { addr := a, bytes := src.take len })) ∧
      publish_enqueue { s with pool := pool' } i topic
        { topic := copy_name name, data := d, data_len := len, priority := p, timestamp := now,
          user_data := none } = some (e, s') := by
  unfold pubsub_publish at h
  split at h
  · simp only [Option.some.injEq, Prod.mk.injEq] at h
    exact Or.inl ⟨h.2.symm, Or.inl h.1.symm⟩
  · rename_i name
    split at h
    · simp only [Option.some.injEq, Prod.mk.injEq] at h
      exact Or.inl ⟨h.2.symm, Or.inl h.1.symm⟩
    · split at h
      · simp only [Option.some.injEq, Prod.mk.injEq] at h
        exact Or.inl ⟨h.2.symm, Or.inr (Or.inl h.1.symm)⟩
      · rename_i i topic hfind
        split at h
        · rename_i hpos
          split at h
          · simp only [Option.some.injEq, Prod.mk.injEq] at h
            exact Or.inl ⟨h.2.symm, Or.inr (Or.inr h.1.symm)⟩
          · rename_i a pool' halloc
            cases data with
            | none => simp at h
            | some src =>
              simp only at h
              split at h
              · rename_i hok
                exact Or.inr ⟨name, i, topic, pool', _, rfl, hfind,
                  Or.inr ⟨hpos, a, src, rfl, hok.1, halloc, hok.2, rfl⟩, h⟩
              · simp at h
        · rename_i hzero
          exact Or.inr ⟨name, i, topic, s.pool, none, rfl, hfind,
            Or.inl ⟨by omega, rfl, rfl⟩, h⟩

theorem topics_ok_publish (s s' : pubsub_state) (h : topics_ok s) (topic_name : Option (List Nat))
    (data : Option (List Nat)) (len : Nat) (p : msg_priority_t) (now : Nat) (e : pubsub_err_t)
    (hres : pubsub_publish s topic_name data len p now = some (e, s')) : topics_ok s' := by
  rcases pubsub_publish_cases s s' topic_name data len p now e hres with
    ⟨h1, _⟩ | ⟨name, i, topic, pool', d, _, hfind, _, henq⟩
  · exact h1 ▸ h
  · obtain ⟨hget, _, _⟩ := find_topic_some _ _ _ _ _ hfind
    have hok := h topic (List.getElem?_mem hget)
    obtain ⟨q, _, ⟨_, _, hs'⟩ | ⟨_, _, pool'', _, hs'⟩⟩ := publish_enqueue_cases _ _ _ _ _ _ henq
    · rw [hs']
      exact topics_ok_set s h _ _ hok
    · rw [hs']
      exact h

theorem topics_ok_topic_task (s s' : pubsub_state) (h : topics_ok s) (i : Nat)
    (ds : List delivery_t) (hres : topic_task s i = some (ds, s')) : topics_ok s' := by
  unfold topic_task at hres
  split at hres
  · simp at hres
  · rename_i topic hget
    have hok := h topic (List.getElem?_mem hget)
    split at hres
    · simp at hres
    · split at hres
      · simp at hres
      · split at hres
        · simp at hres
        · simp only [Option.some.injEq, Prod.mk.injEq] at hres
          rw [← hres.2]
          exact topics_ok_set s h _ _ hok

/-- Every reachable state has consistent slots. -/
theorem reachable_topics_ok (s : pubsub_state) (h : Reachable s) : topics_ok s := by
  induction h with
  | init => exact topics_ok_init
  | create_topic name q m t _ ih => exact topics_ok_create_topic _ ih name q m t
  | subscribe name cb ud _ ih => exact topics_ok_subscribe _ ih name cb ud
  | unsubscribe name cb e _ hres ih => exact topics_ok_unsubscribe _ _ ih name cb e hres
  | publish name data len p now e _ hres ih => exact topics_ok_publish _ _ ih name data len p now e hres
  | topic_task i ds _ _ hres ih => exact topics_ok_topic_task _ _ ih i ds hres

/-! ## Ownership invariant -/

theorem owned_ptrs_append (l1 l2 : List topic_t) :
    owned_ptrs (l1 ++ l2) = owned_ptrs l1 ++ owned_ptrs l2 := by
  induction l1 with
  | nil => rfl
  | cons t ts ih => simp [owned_ptrs, ih]

/-- The addresses held by the registry, with those of slot `i` put in front; replacing the slot
only replaces that front part. -/
theorem owned_ptrs_set (ts : List topic_t) (i : Nat) (t : topic_t) (h : ts[i]? = some t) :
    ∃ r, (owned_ptrs ts).Perm (topic_ptrs t ++ r) ∧
      ∀ t', (owned_ptrs (ts.set i t')).Perm (topic_ptrs t' ++ r) := by
  induction ts generalizing i with
  | nil => simp at h
  | cons u us ih =>
    cases i with
    | zero =>
      simp only [List.getElem?_cons_zero, Option.some.injEq] at h
      subst h
      exact ⟨owned_ptrs us, List.Perm.refl _, fun t' => List.Perm.refl _⟩
    | succ j =>
      simp only [List.getElem?_cons_succ] at h
      obtain ⟨r, h1, h2⟩ := ih j h
      refine ⟨topic_ptrs u ++ r, ?_, ?_⟩
      · simp only [owned_ptrs]
        exact (List.Perm.append_left _ h1).trans (List.perm_append_comm_assoc _ _ _)
      · intro t'
        simp only [List.set_cons_succ, owned_ptrs]
        exact (List.Perm.append_left _ (h2 t')).trans (List.perm_append_comm_assoc _ _ _)

/-- A slot gains one address that the allocator has just handed out. -/
theorem heap_inv_add (s : pubsub_state) (h : heap_inv s) (i a : Nat) (t t' : topic_t)
    (pool' : memory_pool_t) (hget : s.topics[i]? = some t)
    (hptrs : (topic_ptrs t').Perm (a :: topic_ptrs t))
    (hnew : a ∉ allocated_ptrs s.pool.first_block 0)
    (halloc : ∀ x, x ∈ allocated_ptrs pool'.first_block 0 ↔
      x = a ∨ x ∈ allocated_ptrs s.pool.first_block 0) :
    heap_inv { s with pool := pool', topics := s.topics.set i t' } := by
  obtain ⟨r, h1, h2⟩ := owned_ptrs_set s.topics i t hget
  have hperm : (owned_ptrs (s.topics.set i t')).Perm (a :: owned_ptrs s.topics) :=
    ((h2 t').trans (List.Perm.append_right r hptrs)).trans (List.Perm.cons a h1.symm)
  constructor
  · show (owned_ptrs (s.topics.set i t')).Nodup
    rw [hperm.nodup_iff, List.nodup_cons]
    exact ⟨fun hmem => hnew (h.2 a hmem), h.1⟩
  · intro x hx
    show x ∈ allocated_ptrs pool'.first_block 0
    have hx' : x ∈ a :: owned_ptrs s.topics := hperm.mem_iff.mp hx
    rw [halloc]
    rcases List.mem_cons.mp hx' with e | e
    · exact Or.inl e
    · exact Or.inr (h.2 x e)

/-- A slot gives up one address, which is freed. -/
theorem heap_inv_remove (s : pubsub_state) (h : heap_inv s) (i a : Nat) (t t' : topic_t)
    (pool' : memory_pool_t) (hget : s.topics[i]? = some t)
    (hptrs : (topic_ptrs t).Perm (a :: topic_ptrs t'))
    (hfree : ∀ x, x ∈ allocated_ptrs pool'.first_block 0 ↔
      (x ∈ allocated_ptrs s.pool.first_block 0 ∧ x ≠ a)) :
    heap_inv { s with pool := pool', topics := s.topics.set i t' } := by
  obtain ⟨r, h1, h2⟩ := owned_ptrs_set s.topics i t hget
  have hperm : (owned_ptrs s.topics).Perm (a :: owned_ptrs (s.topics.set i t')) :=
    (h1.trans (List.Perm.append_right r hptrs)).trans (List.Perm.cons a (h2 t').symm)
  have hnd : (a :: owned_ptrs (s.topics.set i t')).Nodup := hperm.nodup_iff.mp h.1
  rw [List.nodup_cons] at hnd
  constructor
  · exact hnd.2
  · intro x hx
    show x ∈ allocated_ptrs pool'.first_block 0
    have hx' : x ∈ owned_ptrs (s.topics.set i t') := hx
    rw [hfree]
    refine ⟨h.2 x (hperm.mem_iff.mpr (List.mem_cons_of_mem _ hx')), ?_⟩
    intro e
    exact hnd.1 (e ▸ hx')

/-- A slot keeps its addresses and the allocator keeps its allocated blocks. -/
theorem heap_inv_same (s : pubsub_state) (h : heap_inv s) (i : Nat) (t t' : topic_t)
    (pool' : memory_pool_t) (hget : s.topics[i]? = some t)
    (hptrs : topic_ptrs t' = topic_ptrs t)
    (hpool : allocated_ptrs pool'.first_block 0 = allocated_ptrs s.pool.first_block 0) :
    heap_inv { s with pool := pool', topics := s.topics.set i t' } := by
  obtain ⟨r, h1, h2⟩ := owned_ptrs_set s.topics i t hget
  have hperm : (owned_ptrs (s.topics.set i t')).Perm (owned_ptrs s.topics) :=
    (h2 t').trans (hptrs ▸ h1.symm)
  constructor
  · show (owned_ptrs (s.topics.set i t')).Nodup
    rw [hperm.nodup_iff]
    exact h.1
  · intro x hx
    show x ∈ allocated_ptrs pool'.first_block 0
    rw [hpool]
    exact h.2 x (hperm.mem_iff.mp hx)

theorem heap_inv_pool (s : pubsub_state) (h : heap_inv s) (pool' : memory_pool_t)
    (hpool : allocated_ptrs pool'.first_block 0 = allocated_ptrs s.pool.first_block 0) :
    heap_inv { s with pool := pool' } := by
  constructor
  · exact h.1
  · intro x hx
    show x ∈ allocated_ptrs pool'.first_block 0
    rw [hpool]
    exact h.2 x hx

/-- A slot's subscriber node addresses are held by the registry. -/
theorem subscriber_addr_owned (ts : List topic_t) (i : Nat) (t : topic_t) (x : subscriber_t)
    (hget : ts[i]? = some t) (hx : x ∈ t.subscribers) : x.addr ∈ owned_ptrs ts := by
  obtain ⟨r, h1, _⟩ := owned_ptrs_set ts i t hget
  rw [h1.mem_iff]
  apply List.mem_append_left
  simp only [topic_ptrs]
  exact List.mem_append_left _ (List.mem_map_of_mem _ hx)

/-- The payload address of a queued message is held by the registry. -/
theorem payload_addr_owned (ts : List topic_t) (i : Nat) (t : topic_t) (q : queue_t)
    (m : pubsub_msg_t) (b : buffer_t) (hget : ts[i]? = some t) (hq : t.msg_queue = some q)
    (hm : m ∈ q.items) (hb : m.data = some b) : b.addr ∈ owned_ptrs ts := by
  obtain ⟨r, h1, _⟩ := owned_ptrs_set ts i t hget
  rw [h1.mem_iff]
  apply List.mem_append_left
  simp only [topic_ptrs, hq, queue_ptrs]
  apply List.mem_append_right
  rw [List.mem_filterMap]
  exact ⟨m, hm, by simp [hb]⟩

theorem heap_inv_init : heap_inv init_state := by decide

/-- A `pubsub_subscribe` call that does not return `PUBSUB_OK` leaves the state as it was. -/
theorem pubsub_subscribe_unchanged (s s' : pubsub_state) (name : Option (List Nat))
    (cb ud : Option Nat) (e : pubsub_err_t) (hres : pubsub_subscribe s name cb ud = (e, s'))
    (he : e ≠ PUBSUB_OK) : s' = s := by
  unfold pubsub_subscribe at hres
  repeat' split at hres
  all_goals simp only [Prod.mk.injEq] at hres
  all_goals first
    | exact hres.2.symm
    | exact absurd hres.1.symm he

theorem heap_inv_subscribe (s : pubsub_state) (h : heap_inv s) (name : Option (List Nat))
    (cb ud : Option Nat) : heap_inv (pubsub_subscribe s name cb ud).2 := by
  cases hres : pubsub_subscribe s name cb ud with
  | mk e s' =>
    by_cases he : e = PUBSUB_OK
    · subst he
      obtain ⟨nm, c, i, topic, a, pool', _, _, hfind, _, _, halloc, hs'⟩ :=
        pubsub_subscribe_ok s s' name cb ud hres
      obtain ⟨hget, _, _⟩ := find_topic_some _ _ _ _ _ hfind
      obtain ⟨sz, _, _, _, _, hnew, hall, _⟩ := memory_pool_alloc_some _ _ _ _ halloc
      subst hs'
      exact heap_inv_add s h i a topic _ pool' hget (List.Perm.refl _) hnew hall
    · rw [pubsub_subscribe_unchanged s s' name cb ud e hres he]
      exact h

/-- Unsubscribing a registered callback in a state that satisfies the ownership invariant: the
first node carrying the callback is unlinked and freed. -/
theorem pubsub_unsubscribe_member (s : pubsub_state) (name : List Nat) (cb i : Nat) (topic : topic_t)
    (hfind : find_topic name s.topics s.topic_count = some (i, topic)) (hheap : heap_inv s)
    (hmem : cb ∈ callbacks topic) :
    ∃ pre node post pool',
      topic.subscribers = pre ++ node :: post ∧ node.callback = cb ∧
      (∀ x ∈ pre, x.callback ≠ cb) ∧
      memory_pool_free s.pool (some node.addr) = some pool' ∧
      (∀ x, x ∈ allocated_ptrs pool'.first_block 0 ↔
        (x ∈ allocated_ptrs s.pool.first_block 0 ∧ x ≠ node.addr)) ∧
      pubsub_unsubscribe s (some name) (some cb) =
        some (PUBSUB_OK,
          { s with
            pool := pool',
            topics := s.topics.set i
              { topic with
                subscribers := pre ++ post,
                subscriber_count := (topic.subscriber_count + SIZE_MOD - 1) % SIZE_MOD } }) := by
  obtain ⟨hget, _, _⟩ := find_topic_some _ _ _ _ _ hfind
  obtain ⟨pre, node, post, h1, h2, h3, h4⟩ := unlink_subscriber_some cb topic.subscribers hmem
  have hnode : node ∈ topic.subscribers := by
    rw [h1]
    exact List.mem_append_right _ (List.mem_cons_self _ _)
  have howned := subscriber_addr_owned s.topics i topic node hget hnode
  obtain ⟨pool', h5, h6⟩ := memory_pool_free_allocated s.pool node.addr (hheap.2 _ howned)
  refine ⟨pre, node, post, pool', h1, h2, h3, h5, h6, ?_⟩
  rw [pubsub_unsubscribe_found s name cb i topic hfind, h4]
  simp only [h5]

theorem heap_inv_unsubscribe (s s' : pubsub_state) (h : heap_inv s) (name : Option (List Nat))
    (cb : Option Nat) (e : pubsub_err_t) (hres : pubsub_unsubscribe s name cb = some (e, s')) :
    heap_inv s' := by
  cases name with
  | none =>
    simp only [pubsub_unsubscribe, Option.some.injEq, Prod.mk.injEq] at hres
    exact hres.2 ▸ h
  | some nm =>
    cases cb with
    | none =>
      simp only [pubsub_unsubscribe, Option.some.injEq, Prod.mk.injEq] at hres
      exact hres.2 ▸ h
    | some c =>
      cases hfind : find_topic nm s.topics s.topic_count with
      | none =>
        simp only [pubsub_unsubscribe, hfind, Option.some.injEq, Prod.mk.injEq] at hres
        exact hres.2 ▸ h
      | some r =>
        obtain ⟨i, topic⟩ := r
        obtain ⟨hget, _, _⟩ := find_topic_some _ _ _ _ _ hfind
        by_cases hmem : c ∈ callbacks topic
        · obtain ⟨pre, node, post, pool', h1, _, _, _, h6, h7⟩ :=
            pubsub_unsubscribe_member s nm c i topic hfind h hmem
          rw [h7] at hres
          simp only [Option.some.injEq, Prod.mk.injEq] at hres
          rw [← hres.2]
          refine heap_inv_remove s h i node.addr topic _ pool' hget ?_ h6
          simp only [topic_ptrs, h1, List.map_append, List.map_cons, List.append_assoc,
            List.cons_append]
          exact List.perm_middle
        · rw [pubsub_unsubscribe_found s nm c i topic hfind,
            unlink_subscriber_none c _ hmem] at hres
          simp only [Option.some.injEq, Prod.mk.injEq] at hres
          exact hres.2 ▸ h

theorem heap_inv_publish (s s' : pubsub_state) (h : heap_inv s) (topic_name : Option (List Nat))
    (data : Option (List Nat)) (len : Nat) (p : msg_priority_t) (now : Nat) (e : pubsub_err_t)
    (hres : pubsub_publish s topic_name data len p now = some (e, s')) : heap_inv s' := by
  rcases pubsub_publish_cases s s' topic_name data len p now e hres with
    ⟨h1, _⟩ | ⟨name, i, topic, pool', d, _, hfind, hpay, henq⟩
  · exact h1 ▸ h
  · obtain ⟨hget, _, _⟩ := find_topic_some _ _ _ _ _ hfind
    obtain ⟨q, hq, ⟨_, _, hs'⟩ | ⟨_, _, pool'', hfree, hs'⟩⟩ := publish_enqueue_cases _ _ _ _ _ _ henq
    · rw [hs']
      rcases hpay with ⟨_, hp, hd⟩ | ⟨_, a, src, _, _, halloc, _, hd⟩
      · subst hp
        subst hd
        refine heap_inv_same s h i topic _ s.pool hget ?_ rfl
        simp only [topic_ptrs, queue_ptrs, hq]
        split <;> simp
      · obtain ⟨sz, _, _, _, _, hnew, hall, _⟩ := memory_pool_alloc_some _ _ _ _ halloc
        subst hd
        refine heap_inv_add s h i a topic _ pool' hget ?_ hnew hall
        simp only [topic_ptrs, queue_ptrs, hq]
        split
        · simp only [List.filterMap_cons, Option.map_some']
          exact List.perm_middle
        · simp only [List.filterMap_append, List.filterMap_cons, Option.map_some',
            List.filterMap_nil]
          rw [← List.append_assoc]
          exact List.perm_append_singleton _ _
    · rw [hs']
      rcases hpay with ⟨_, hp, hd⟩ | ⟨_, a, src, _, _, halloc, _, hd⟩
      · subst hp
        subst hd
        simp only [Option.map_none', memory_pool_free, Option.some.injEq] at hfree
        subst hfree
        exact h
      · subst hd
        obtain ⟨p2, hf2, _, _, hsame⟩ := memory_pool_free_alloc _ _ _ _ halloc
        simp only [Option.map_some'] at hfree
        rw [hf2] at hfree
        simp only [Option.some.injEq] at hfree
        subst hfree
        exact heap_inv_pool s h p2 hsame

theorem heap_inv_topic_task (s s' : pubsub_state) (h : heap_inv s) (i : Nat)
    (ds : List delivery_t) (hres : topic_task s i = some (ds, s')) : heap_inv s' := by
  unfold topic_task at hres
  split at hres
  · simp at hres
  · rename_i topic hget
    split at hres
    · simp at hres
    · rename_i q hq
      split at hres
      · simp at hres
      · rename_i msg rest hitems
        split at hres
        · simp at hres
        · rename_i pool' hfree
          simp only [Option.some.injEq, Prod.mk.injEq] at hres
          rw [← hres.2]
          cases hd : msg.data with
          | none =>
            simp only [hd, Option.map_none', memory_pool_free, Option.some.injEq] at hfree
            subst hfree
            refine heap_inv_same s h i topic _ s.pool hget ?_ rfl
            simp [topic_ptrs, queue_ptrs, hq, hitems, hd]
          | some b =>
            have hown : b.addr ∈ owned_ptrs s.topics :=
              payload_addr_owned s.topics i topic q msg b hget hq (by simp [hitems]) hd
            obtain ⟨p2, hf2, hchar⟩ := memory_pool_free_allocated s.pool b.addr (h.2 _ hown)
            simp only [hd, Option.map_some'] at hfree
            rw [hf2] at hfree
            simp only [Option.some.injEq] at hfree
            subst hfree
            refine heap_inv_remove s h i b.addr topic _ p2 hget ?_ hchar
            simp only [topic_ptrs, queue_ptrs, hq, hitems, List.filterMap_cons, hd,
              Option.map_some']
            exact List.perm_middle

theorem owned_ptrs_set_sublist (ts : List topic_t) (k : Nat) (t' : topic_t)
    (h : (topic_ptrs t').Sublist (topic_ptrs (ts.getD k topic_zero))) :
    (owned_ptrs (ts.set k t')).Sublist (owned_ptrs ts) := by
  induction ts generalizing k with
  | nil => exact List.Sublist.refl _
  | cons u us ih =>
    cases k with
    | zero =>
      simp only [List.set_cons_zero, owned_ptrs]
      exact List.Sublist.append h (List.Sublist.refl _)
    | succ j =>
      simp only [List.set_cons_succ, owned_ptrs]
      exact List.Sublist.append (List.Sublist.refl _) (ih j (by simpa using h))

theorem heap_inv_sublist (s : pubsub_state) (h : heap_inv s) (ts : List topic_t)
    (hsub : (owned_ptrs ts).Sublist (owned_ptrs s.topics)) :
    heap_inv { s with topics := ts } :=
  ⟨h.1.sublist hsub, fun x hx => h.2 x (hsub.subset hx)⟩

theorem heap_inv_create_topic (s : pubsub_state) (h : heap_inv s) (name : Option (List Nat))
    (queue_ok mutex_ok task_ok : Bool) :
    heap_inv (pubsub_create_topic s name queue_ok mutex_ok task_ok).2 := by
  unfold pubsub_create_topic
  split
  · exact h
  · rename_i nm
    split
    · exact h
    · split
      · exact h
      · split
        · exact h
        · split
          · refine heap_inv_sublist s h _ (owned_ptrs_set_sublist _ _ _ ?_)
            simp only [topic_ptrs, queue_ptrs, List.append_nil]
            exact List.sublist_append_left _ _
          · split
            · refine heap_inv_sublist s h _ (owned_ptrs_set_sublist _ _ _ ?_)
              simp only [topic_ptrs, queue_ptrs, List.append_nil]
              exact List.sublist_append_left _ _
            · split
              · refine heap_inv_sublist s h _ (owned_ptrs_set_sublist _ _ _ ?_)
                simp [topic_ptrs, queue_ptrs]
              · refine heap_inv_sublist s h _ (owned_ptrs_set_sublist _ _ _ ?_)
                simp [topic_ptrs, queue_ptrs]

/-- Every reachable state satisfies the ownership invariant. -/
theorem reachable_heap_inv (s : pubsub_state) (h : Reachable s) : heap_inv s := by
  induction h with
  | init => exact heap_inv_init
  | create_topic name q m t _ ih => exact heap_inv_create_topic _ ih name q m t
  | subscribe name cb ud _ ih => exact heap_inv_subscribe _ ih name cb ud
  | unsubscribe name cb e _ hres ih => exact heap_inv_unsubscribe _ _ ih name cb e hres
  | publish name data len p now e _ hres ih => exact heap_inv_publish _ _ ih name data len p now e hres
  | topic_task i ds _ _ hres ih => exact heap_inv_topic_task _ _ ih i ds hres

/-- Subscribing and then unsubscribing the same callback: the unsubscribe succeeds and the
registry, the allocated blocks and `used_size` are as before the subscribe. -/
theorem pubsub_subscribe_unsubscribe (s s1 : pubsub_state) (name : List Nat) (cb : Nat)
    (ud : Option Nat)
    (h : pubsub_subscribe s (some name) (some cb) ud = (PUBSUB_OK, s1)) :
    ∃ s2, pubsub_unsubscribe s1 (some name) (some cb) = some (PUBSUB_OK, s2) ∧
      s2.topics = s.topics ∧ s2.topic_count = s.topic_count ∧
      s2.pool.used_size = s.pool.used_size % SIZE_MOD ∧
      allocated_ptrs s2.pool.first_block 0 = allocated_ptrs s.pool.first_block 0 := by
  obtain ⟨nm, c, i, topic, a, pool', hn, hc, hfind, _, hlt, halloc, hs1⟩ :=
    pubsub_subscribe_ok s s1 (some name) (some cb) ud h
  simp only [Option.some.injEq] at hn hc
  subst hn
  subst hc
  obtain ⟨hget, hname, _⟩ := find_topic_some _ _ _ _ _ hfind
  obtain ⟨p2, hf, hused, _, hall⟩ := memory_pool_free_alloc _ _ _ _ halloc
  have hfind1 : find_topic name s1.topics s1.topic_count = some (i,
      { topic with
        subscribers := { callback := cb, user_data := ud, addr := a } :: topic.subscribers,
        subscriber_count := topic.subscriber_count + 1 }) := by
    rw [hs1]
    exact find_topic_set name s.topics s.topic_count i topic _ hfind hname
  have hcnt : (topic.subscriber_count + 1 + SIZE_MOD - 1) % SIZE_MOD = topic.subscriber_count := by
    simp only [MAX_SUBSCRIBERS_PER_TOPIC] at hlt
    simp only [SIZE_MOD]
    omega
  have hpool1 : s1.pool = pool' := by rw [hs1]
  refine ⟨{ s with pool := p2 }, ?_, rfl, rfl, hused, hall⟩
  rw [pubsub_unsubscribe_found s1 name cb i _ hfind1]
  simp only [unlink_subscriber, if_true, hpool1, hf, hcnt]
  rw [hs1]
  simp only [set_set_same]
  rw [set_same s.topics i topic hget]

/-! ## Claims on subscriber management -/

/-- C6: when `pubsub_subscribe` returns `PUBSUB_OK`, the slot of the named topic gets the record
(callback, cookie) in front of its previous list, which is otherwise unchanged, its
`subscriber_count` grows by one, and every other slot of the registry is unchanged. -/
theorem subscribe_ok_prepends_record (s s' : pubsub_state) (topic_name : Option (List Nat))
    (callback user_data : Option Nat)
    (h : pubsub_subscribe s topic_name callback user_data = (PUBSUB_OK, s')) :
    ∃ name cb i topic a,
      topic_name = some name ∧ callback = some cb ∧
      find_topic name s.topics s.topic_count = some (i, topic) ∧
      s.topics[i]? = some topic ∧
      s'.topics[i]? = some
        { topic with
          subscribers := { callback := cb, user_data := user_data, addr := a } :: topic.subscribers,
          subscriber_count := topic.subscriber_count + 1 } ∧
      (∀ j, j ≠ i → s'.topics[j]? = s.topics[j]?) ∧
      s'.topics.length = s.topics.length ∧ s'.topic_count = s.topic_count := by
  obtain ⟨name, cb, i, topic, a, pool', hn, hc, hfind, _, _, _, hs'⟩ :=
    pubsub_subscribe_ok s s' topic_name callback user_data h
  obtain ⟨hget, _, _⟩ := find_topic_some _ _ _ _ _ hfind
  have hi : i < s.topics.length := by
    rcases Nat.lt_or_ge i s.topics.length with hlt | hge
    · exact hlt
    · rw [List.getElem?_eq_none hge] at hget
      cases hget
  refine ⟨name, cb, i, topic, a, hn, hc, hfind, hget, ?_, ?_, ?_, ?_⟩
  · rw [hs']
    exact List.getElem?_set_self hi
  · intro j hj
    rw [hs']
    exact List.getElem?_set_ne (Ne.symm hj)
  · rw [hs']
    exact List.length_set _ _ _
  · rw [hs']

/-- Witness for C6 on the run of `app_main`. -/
theorem subscribe_ok_prepends_record_witness :
    pubsub_subscribe state_created (some sensor_topic) (some message_callback) none
        = (PUBSUB_OK, state_subscribed) ∧
    ∃ name cb i topic a,
      some sensor_topic = some name ∧ some message_callback = some cb ∧
      find_topic name state_created.topics state_created.topic_count = some (i, topic) ∧
      state_created.topics[i]? = some topic ∧
      state_subscribed.topics[i]? = some
        { topic with
          subscribers := { callback := cb, user_data := none, addr := a } :: topic.subscribers,
          subscriber_count := topic.subscriber_count + 1 } ∧
      (∀ j, j ≠ i → state_subscribed.topics[j]? = state_created.topics[j]?) ∧
      state_subscribed.topics.length = state_created.topics.length ∧
      state_subscribed.topic_count = state_created.topic_count :=
  ⟨by decide,
    subscribe_ok_prepends_record state_created state_subscribed (some sensor_topic)
      (some message_callback) none (by decide)⟩

/-- C9: a successful `pubsub_subscribe` of a callback followed at once by `pubsub_unsubscribe`
of that callback succeeds and leaves every slot of the registry, hence the topic's subscriber
list (records and order) and `subscriber_count`, as before the subscribe. -/
theorem subscribe_unsubscribe_roundtrip (s s1 : pubsub_state) (name : List Nat) (cb : Nat)
    (cookie : Option Nat)
    (hsub : pubsub_subscribe s (some name) (some cb) cookie = (PUBSUB_OK, s1)) :
    ∃ s2 i topic, pubsub_unsubscribe s1 (some name) (some cb) = some (PUBSUB_OK, s2) ∧
      find_topic name s.topics s.topic_count = some (i, topic) ∧
      cb ∉ callbacks topic ∧
      s2.topics[i]? = some topic ∧ s2.topics = s.topics ∧ s2.topic_count = s.topic_count := by
  obtain ⟨s2, h1, h2, h3, _, _⟩ := pubsub_subscribe_unsubscribe s s1 name cb cookie hsub
  obtain ⟨nm, c, i, topic, a, pool', hn, hc, hfind, hdup, _, _, _⟩ :=
    pubsub_subscribe_ok s s1 (some name) (some cb) cookie hsub
  simp only [Option.some.injEq] at hn hc
  subst hn
  subst hc
  obtain ⟨hget, _, _⟩ := find_topic_some _ _ _ _ _ hfind
  refine ⟨s2, i, topic, h1, hfind, ?_, h2 ▸ hget, h2, h3⟩
  intro hmem
  have := (has_callback_iff cb topic.subscribers).mpr hmem
  rw [hdup] at this
  exact Bool.false_ne_true this

/-- Witness for C9 on the run of `app_main`. -/
theorem subscribe_unsubscribe_roundtrip_witness :
    pubsub_subscribe state_created (some sensor_topic) (some message_callback) none
        = (PUBSUB_OK, state_subscribed) ∧
    ∃ s2 i topic,
      pubsub_unsubscribe state_subscribed (some sensor_topic) (some message_callback)
        = some (PUBSUB_OK, s2) ∧
      find_topic sensor_topic state_created.topics state_created.topic_count = some (i, topic) ∧
      message_callback ∉ callbacks topic ∧
      s2.topics[i]? = some topic ∧ s2.topics = state_created.topics ∧
      s2.topic_count = state_created.topic_count :=
  ⟨by decide,
    subscribe_unsubscribe_roundtrip state_created state_subscribed sensor_topic message_callback
      none (by decide)⟩

/-- C7: `pubsub_subscribe` returns `PUBSUB_ERR_INVALID_PARAM` and changes nothing when the
callback is already registered on the topic; in every reachable state no callback occurs twice
in a slot's list; and after a successful subscribe of `cb` a second subscribe of `cb` returns
`PUBSUB_ERR_INVALID_PARAM`, one unsubscribe removes `cb`, and a second unsubscribe returns
`PUBSUB_ERR_INVALID_PARAM`. -/
theorem subscribe_duplicate_rejected (s : pubsub_state) (name : List Nat) (cb : Nat)
    (cookie cookie2 : Option Nat) (i : Nat) (topic : topic_t) (hr : Reachable s)
    (hfind : find_topic name s.topics s.topic_count = some (i, topic)) :
    (cb ∈ callbacks topic →
      pubsub_subscribe s (some name) (some cb) cookie = (PUBSUB_ERR_INVALID_PARAM, s)) ∧
    (∀ t ∈ s.topics, (callbacks t).Nodup) ∧
    (∀ s1, pubsub_subscribe s (some name) (some cb) cookie = (PUBSUB_OK, s1) →
      pubsub_subscribe s1 (some name) (some cb) cookie2 = (PUBSUB_ERR_INVALID_PARAM, s1) ∧
      ∃ s2, pubsub_unsubscribe s1 (some name) (some cb) = some (PUBSUB_OK, s2) ∧
        (∃ t, find_topic name s2.topics s2.topic_count = some (i, t) ∧ cb ∉ callbacks t) ∧
        pubsub_unsubscribe s2 (some name) (some cb) = some (PUBSUB_ERR_INVALID_PARAM, s2)) := by
  refine ⟨?_, fun t ht => (reachable_topics_ok s hr t ht).2.1, ?_⟩
  · intro hmem
    have hdup := (has_callback_iff cb topic.subscribers).mpr hmem
    simp only [pubsub_subscribe, hfind, hdup, if_true]
  · intro s1 hsub
    obtain ⟨s2, h1, h2, h3, _, _⟩ := pubsub_subscribe_unsubscribe s s1 name cb cookie hsub
    obtain ⟨nm, c, j, tp, a, pool', hn, hc, hfind', hdup, _, _, hs1⟩ :=
      pubsub_subscribe_ok s s1 (some name) (some cb) cookie hsub
    simp only [Option.some.injEq] at hn hc
    subst hn
    subst hc
    rw [hfind] at hfind'
    simp only [Option.some.injEq, Prod.mk.injEq] at hfind'
    obtain ⟨hj, ht⟩ := hfind'
    subst hj
    subst ht
    obtain ⟨_, hname, _⟩ := find_topic_some _ _ _ _ _ hfind
    have hnot : cb ∉ callbacks topic := by
      intro hmem
      have := (has_callback_iff cb topic.subscribers).mpr hmem
      rw [hdup] at this
      exact Bool.false_ne_true this
    have hfind2 : find_topic name s2.topics s2.topic_count = some (i, topic) := by
      rw [h2, h3]
      exact hfind
    refine ⟨?_, s2, h1, ⟨topic, hfind2, hnot⟩, ?_⟩
    · have hfind1 := find_topic_set name s.topics s.topic_count i topic
        { topic with
          subscribers := { callback := cb, user_data := cookie, addr := a } :: topic.subscribers,
          subscriber_count := topic.subscriber_count + 1 } hfind hname
      rw [hs1]
      simp only [pubsub_subscribe, hfind1, has_callback, if_true]
    · rw [pubsub_unsubscribe_found s2 name cb i topic hfind2,
        unlink_subscriber_none cb _ hnot]

/-- Witness for C7 on the run of `app_main`. -/
theorem subscribe_duplicate_rejected_witness :
    (message_callback ∈ callbacks (state_subscribed.topics.getD 0 topic_zero) →
      pubsub_subscribe state_subscribed (some sensor_topic) (some message_callback) none
        = (PUBSUB_ERR_INVALID_PARAM, state_subscribed)) ∧
    (∀ t ∈ state_subscribed.topics, (callbacks t).Nodup) ∧
    (∀ s1, pubsub_subscribe state_subscribed (some sensor_topic) (some message_callback) none
        = (PUBSUB_OK, s1) →
      pubsub_subscribe s1 (some sensor_topic) (some message_callback) (some 5)
        = (PUBSUB_ERR_INVALID_PARAM, s1) ∧
      ∃ s2, pubsub_unsubscribe s1 (some sensor_topic) (some message_callback)
          = some (PUBSUB_OK, s2) ∧
        (∃ t, find_topic sensor_topic s2.topics s2.topic_count = some (0, t) ∧
          message_callback ∉ callbacks t) ∧
        pubsub_unsubscribe s2 (some sensor_topic) (some message_callback)
          = some (PUBSUB_ERR_INVALID_PARAM, s2)) :=
  subscribe_duplicate_rejected state_subscribed sensor_topic message_callback none (some 5) 0
    (state_subscribed.topics.getD 0 topic_zero)
    (Reachable.subscribe _ _ _ (Reachable.create_topic _ _ _ _ Reachable.init)) (by decide)

/-- C8: for an existing topic in a state whose slots are consistent and own their nodes,
`pubsub_unsubscribe` returns `PUBSUB_OK` when the callback is in the topic's list, and then
removes exactly the first record carrying it, keeps the other records in order and decrements
`subscriber_count` by one; when the callback is not in the list it returns
`PUBSUB_ERR_INVALID_PARAM` and changes nothing. -/
theorem unsubscribe_removes_first_match (s : pubsub_state) (name : List Nat) (cb i : Nat)
    (topic : topic_t) (hok : topics_ok s) (hheap : heap_inv s)
    (hfind : find_topic name s.topics s.topic_count = some (i, topic)) :
    (cb ∈ callbacks topic →
      ∃ pre node post s',
        topic.subscribers = pre ++ node :: post ∧ node.callback = cb ∧
        (∀ x ∈ pre, x.callback ≠ cb) ∧
        pubsub_unsubscribe s (some name) (some cb) = some (PUBSUB_OK, s') ∧
        s'.topics = s.topics.set i
          { topic with subscribers := pre ++ post,
                       subscriber_count := topic.subscriber_count - 1 } ∧
        1 ≤ topic.subscriber_count ∧ s'.topic_count = s.topic_count) ∧
    (cb ∉ callbacks topic →
      pubsub_unsubscribe s (some name) (some cb) = some (PUBSUB_ERR_INVALID_PARAM, s)) := by
  obtain ⟨hget, _, _⟩ := find_topic_some _ _ _ _ _ hfind
  obtain ⟨hcount, _, _, hmax⟩ := hok topic (List.getElem?_mem hget)
  constructor
  · intro hmem
    obtain ⟨pre, node, post, pool', h1, h2, h3, _, _, h6⟩ :=
      pubsub_unsubscribe_member s name cb i topic hfind hheap hmem
    have hpos : 1 ≤ topic.subscriber_count := by
      rw [hcount, h1]
      simp only [List.length_append, List.length_cons]
      omega
    refine ⟨pre, node, post, _, h1, h2, h3, h6, ?_, hpos, rfl⟩
    show s.topics.set i _ = s.topics.set i _
    rw [count_decrement topic.subscriber_count hpos hmax]
  · intro hnot
    rw [pubsub_unsubscribe_found s name cb i topic hfind, unlink_subscriber_none cb _ hnot]

/-- Witness for C8 on the run of `app_main`. -/
theorem unsubscribe_removes_first_match_witness :
    (message_callback ∈ callbacks (state_subscribed.topics.getD 0 topic_zero) →
      ∃ pre node post s',
        (state_subscribed.topics.getD 0 topic_zero).subscribers = pre ++ node :: post ∧
        node.callback = message_callback ∧
        (∀ x ∈ pre, x.callback ≠ message_callback) ∧
        pubsub_unsubscribe state_subscribed (some sensor_topic) (some message_callback)
          = some (PUBSUB_OK, s') ∧
        s'.topics = state_subscribed.topics.set 0
          { state_subscribed.topics.getD 0 topic_zero with
            subscribers := pre ++ post,
            subscriber_count := (state_subscribed.topics.getD 0 topic_zero).subscriber_count - 1 } ∧
        1 ≤ (state_subscribed.topics.getD 0 topic_zero).subscriber_count ∧
        s'.topic_count = state_subscribed.topic_count) ∧
    (message_callback ∉ callbacks (state_subscribed.topics.getD 0 topic_zero) →
      pubsub_unsubscribe state_subscribed (some sensor_topic) (some message_callback)
        = some (PUBSUB_ERR_INVALID_PARAM, state_subscribed)) :=
  unsubscribe_removes_first_match state_subscribed sensor_topic message_callback 0
    (state_subscribed.topics.getD 0 topic_zero) (by decide) (by decide) (by decide)

/-- C10: in every state reachable from the initial state by `pubsub_create_topic`,
`pubsub_subscribe` and `pubsub_unsubscribe` calls (and by publishes and worker iterations),
each slot's `subscriber_count` equals the number of records in its subscriber list. -/
theorem reachable_subscriber_count_eq_length (s : pubsub_state) (hr : Reachable s) :
    ∀ t ∈ s.topics, t.subscriber_count = t.subscribers.length :=
  fun t ht => (reachable_topics_ok s hr t ht).1

/-- Witness for C10 on the run of `app_main`. -/
theorem reachable_subscriber_count_eq_length_witness :
    Reachable state_subscribed ∧
    ((state_subscribed.topics.getD 0 topic_zero).subscriber_count = 1 ∧
      (state_subscribed.topics.getD 0 topic_zero).subscribers.length = 1) ∧
    ∀ t ∈ state_subscribed.topics, t.subscriber_count = t.subscribers.length :=
  ⟨Reachable.subscribe _ _ _ (Reachable.create_topic _ _ _ _ Reachable.init),
    by decide,
    reachable_subscriber_count_eq_length state_subscribed
      (Reachable.subscribe _ _ _ (Reachable.create_topic _ _ _ _ Reachable.init))⟩

/-! ## Topic worker -/

theorem fan_out_eq_map (msg : pubsub_msg_t) (subs : List subscriber_t) :
    fan_out msg subs
      = subs.map (fun x => { callback := x.callback, msg := msg, user_data := x.user_data }) := by
  induction subs with
  | nil => rfl
  | cons x xs ih => simp [fan_out, ih]

theorem getElem?_lt_length (ts : List topic_t) (i : Nat) (t : topic_t) (h : ts[i]? = some t) :
    i < ts.length := by
  rcases Nat.lt_or_ge i ts.length with hlt | hge
  · exact hlt
  · rw [List.getElem?_eq_none hge] at h
    cases h

/-- One worker iteration on a non-empty queue, in a state that satisfies the ownership
invariant, completes: it hands the head message to every subscriber and removes it. -/
theorem topic_task_head (s : pubsub_state) (h : heap_inv s) (i : Nat) (topic : topic_t)
    (q : queue_t) (m : pubsub_msg_t) (rest : List pubsub_msg_t)
    (hget : s.topics[i]? = some topic) (hq : topic.msg_queue = some q)
    (hitems : q.items = m :: rest) :
    ∃ pool', topic_task s i = some (fan_out m topic.subscribers,
      { s with
        pool := pool',
        topics := s.topics.set i { topic with msg_queue := some { q with items := rest } } }) := by
  have hfree : ∃ pool', memory_pool_free s.pool (m.data.map buffer_t.addr) = some pool' := by
    cases hd : m.data with
    | none => exact ⟨s.pool, rfl⟩
    | some b =>
      have hown : b.addr ∈ owned_ptrs s.topics :=
        payload_addr_owned s.topics i topic q m b hget hq (by simp [hitems]) hd
      obtain ⟨p2, hf2, _⟩ := memory_pool_free_allocated s.pool b.addr (h.2 _ hown)
      exact ⟨p2, by simpa using hf2⟩
  obtain ⟨pool', hf⟩ := hfree
  refine ⟨pool', ?_⟩
  simp only [topic_task, hget, hq, hitems, hf]

/-- Running the worker over a front segment of the queue, in a state that satisfies the
ownership invariant: every iteration completes, the messages are handed out in queue order, and
the rest of the queue stays. -/
theorem topic_task_run_front (front back : List pubsub_msg_t) (s : pubsub_state) (h : heap_inv s)
    (i : Nat) (topic : topic_t) (q : queue_t)
    (hget : s.topics[i]? = some topic) (hq : topic.msg_queue = some q)
    (hitems : q.items = front ++ back) :
    ∃ s', topic_task_run i front.length s
        = some (front.map (fun m => fan_out m topic.subscribers), s') ∧
      heap_inv s' ∧
      s'.topics = s.topics.set i { topic with msg_queue := some { q with items := back } } ∧
      s'.topic_count = s.topic_count := by
  induction front generalizing s topic q with
  | nil =>
    refine ⟨s, rfl, h, ?_, rfl⟩
    simp only [List.nil_append] at hitems
    rw [← hitems, ← hq]
    exact (set_same s.topics i topic hget).symm
  | cons m f ih =>
    obtain ⟨pool', hstep⟩ := topic_task_head s h i topic q m (f ++ back) hget hq hitems
    have hi := getElem?_lt_length s.topics i topic hget
    have h1 := heap_inv_topic_task s _ h i _ hstep
    obtain ⟨s', hrun, hinv, htop, hcnt⟩ := ih _ h1 { topic with msg_queue := some { q with items := f ++ back } }
      { q with items := f ++ back } (List.getElem?_set_self hi) rfl rfl
    refine ⟨s', ?_, hinv, ?_, hcnt⟩
    · simp only [List.length_cons, topic_task_run, hstep, hrun, List.map_cons]
    · rw [htop]
      simp only [set_set_same]

/-! ## Claims on the publish path -/

/-- Shape of a successful publish: the message built, the slot it goes to, and its place in the
queue. -/
theorem pubsub_publish_ok (s s' : pubsub_state) (topic_name : Option (List Nat))
    (data : Option (List Nat)) (len : Nat) (p : msg_priority_t) (now : Nat)
    (h : pubsub_publish s topic_name data len p now = some (PUBSUB_OK, s')) :
    ∃ name i topic q pool' d,
      topic_name = some name ∧
      find_topic name s.topics s.topic_count = some (i, topic) ∧
      topic.msg_queue = some q ∧ q.items.length < q.length ∧
      ((len = 0 ∧ pool' = s.pool ∧ d = none) ∨
        (0 < len ∧ ∃ a src, data = some src ∧ len ≤ src.length ∧
          memory_pool_alloc s.pool len = (some a, pool') ∧
          len ≤ block_capacity a pool'.first_block 0 ∧
          d = some { addr := a, bytes := src.take len })) ∧
      s' = { s with
             pool := pool',
             topics := s.topics.set i
               { topic with
                 msg_queue := some { q with
                   items :=
                     if p = MSG_PRIORITY_CRITICAL then
                       { topic := copy_name name, data := d, data_len := len, priority := p,
                         timestamp := now, user_data := none } :: q.items
                     else
                       q.items ++ [{ topic := copy_name name, data := d, data_len := len,
                                     priority := p, timestamp := now, user_data := none }] } } } := by
  rcases pubsub_publish_cases s s' topic_name data len p now _ h with
    ⟨_, h1 | h1 | h1⟩ | ⟨name, i, topic, pool', d, hn, hfind, hpay, henq⟩
  · cases h1
  · cases h1
  · cases h1
  · obtain ⟨q, hq, ⟨_, hlt, hs'⟩ | ⟨h1, _⟩⟩ := publish_enqueue_cases _ _ _ _ _ _ henq
    · exact ⟨name, i, topic, q, pool', d, hn, hfind, hq, hlt, hpay, hs'⟩
    · cases h1

/-- C1: a successful publish of a payload `b` of length `len >= 1` to an existing topic, in a
state with consistent slots that satisfies the ownership invariant, enqueues exactly one
message on that topic, carrying the topic name, a payload copy equal to `b`, `data_len = len`
and the given priority; and the worker, run until that message is dequeued, completes every
iteration and hands exactly that message to each subscriber of the topic. -/
theorem publish_roundtrip (s s' : pubsub_state) (name b : List Nat) (len : Nat)
    (p : msg_priority_t) (now : Nat) (hlen : 1 ≤ len) (hb : b.length = len)
    (hok : topics_ok s) (hheap : heap_inv s)
    (h : pubsub_publish s (some name) (some b) len p now = some (PUBSUB_OK, s')) :
    ∃ i topic q m a,
      find_topic name s.topics s.topic_count = some (i, topic) ∧ topic.msg_queue = some q ∧
      m.topic = name ∧ m.data = some { addr := a, bytes := b } ∧ m.data_len = len ∧
      m.priority = p ∧
      s'.topics = s.topics.set i
        { topic with
          msg_queue := some { q with
            items := if p = MSG_PRIORITY_CRITICAL then m :: q.items else q.items ++ [m] } } ∧
      s'.topic_count = s.topic_count ∧
      ∃ ds s'',
        topic_task_run i (if p = MSG_PRIORITY_CRITICAL then 1 else q.items.length + 1) s'
          = some (ds, s'') ∧
        ds.getLast? = some (topic.subscribers.map
          (fun x => { callback := x.callback, msg := m, user_data := x.user_data })) := by
  have hheap' := heap_inv_publish s s' hheap _ _ _ _ _ _ h
  obtain ⟨nm, i, topic, q, pool', d, hn, hfind, hq, _, hpay, hs'⟩ :=
    pubsub_publish_ok s s' _ _ _ _ _ h
  simp only [Option.some.injEq] at hn
  subst hn
  obtain ⟨hget, hname, _⟩ := find_topic_some _ _ _ _ _ hfind
  have hi := getElem?_lt_length s.topics i topic hget
  obtain ⟨_, _, hnlen, _⟩ := hok topic (List.getElem?_mem hget)
  have hcopy : copy_name name = name := by
    rw [← hname]
    simp only [copy_name, MAX_TOPIC_NAME_LENGTH] at hnlen ⊢
    exact List.take_of_length_le (by omega)
  rcases hpay with ⟨h0, _, _⟩ | ⟨_, a, src, hsrc, _, _, _, hd⟩
  · omega
  · simp only [Option.some.injEq] at hsrc
    subst hsrc
    have htake : List.take len b = b := List.take_of_length_le (by omega)
    rw [hcopy, hd, htake] at hs'
    have htopics : s'.topics = s.topics.set i
        { topic with
          msg_queue := some { q with
            items := if p = MSG_PRIORITY_CRITICAL then
                ({ topic := name, data := some { addr := a, bytes := b }, data_len := len,
                   priority := p, timestamp := now, user_data := none } : pubsub_msg_t) :: q.items
              else q.items ++ [{ topic := name, data := some { addr := a, bytes := b },
                                 data_len := len, priority := p, timestamp := now,
                                 user_data := none }] } } := by
      rw [hs']
    have hcount : s'.topic_count = s.topic_count := by rw [hs']
    have hget' : s'.topics[i]? = some
        { topic with
          msg_queue := some { q with
            items := if p = MSG_PRIORITY_CRITICAL then
                ({ topic := name, data := some { addr := a, bytes := b }, data_len := len,
                   priority := p, timestamp := now, user_data := none } : pubsub_msg_t) :: q.items
              else q.items ++ [{ topic := name, data := some { addr := a, bytes := b },
                                 data_len := len, priority := p, timestamp := now,
                                 user_data := none }] } } := by
      rw [htopics]
      exact List.getElem?_set_self hi
    refine ⟨i, topic, q,
      { topic := name, data := some { addr := a, bytes := b }, data_len := len,
        priority := p, timestamp := now, user_data := none },
      a, hfind, hq, rfl, rfl, rfl, rfl, htopics, hcount, ?_⟩
    by_cases hp : p = MSG_PRIORITY_CRITICAL
    · simp only [hp, if_true] at hget' ⊢
      obtain ⟨s'', hrun, _, _, _⟩ := topic_task_run_front
        [({ topic := name, data := some { addr := a, bytes := b }, data_len := len,
            priority := MSG_PRIORITY_CRITICAL, timestamp := now, user_data := none } : pubsub_msg_t)]
        q.items s' hheap' i _ _ hget' rfl rfl
      refine ⟨_, s'', hrun, ?_⟩
      simp [fan_out_eq_map]
    · simp only [hp, if_false] at hget' ⊢
      obtain ⟨s'', hrun, _, _, _⟩ := topic_task_run_front
        (q.items ++
          [({ topic := name, data := some { addr := a, bytes := b }, data_len := len,
              priority := p, timestamp := now, user_data := none } : pubsub_msg_t)])
        [] s' hheap' i _ _ hget' rfl (List.append_nil _).symm
      simp only [List.length_append, List.length_singleton] at hrun
      refine ⟨_, s'', hrun, ?_⟩
      simp [fan_out_eq_map]

/-- Witness for C1: the publish of `"25.5"` made by `app_main`. -/
theorem publish_roundtrip_witness :
    ∃ i topic q m a,
      find_topic sensor_topic state_subscribed.topics state_subscribed.topic_count
        = some (i, topic) ∧ topic.msg_queue = some q ∧
      m.topic = sensor_topic ∧ m.data = some { addr := a, bytes := temp_msg } ∧ m.data_len = 4 ∧
      m.priority = MSG_PRIORITY_NORMAL ∧
      state_published.topics = state_subscribed.topics.set i
        { topic with
          msg_queue := some { q with
            items := if MSG_PRIORITY_NORMAL = MSG_PRIORITY_CRITICAL then m :: q.items
                     else q.items ++ [m] } } ∧
      state_published.topic_count = state_subscribed.topic_count ∧
      ∃ ds s'',
        topic_task_run i
            (if MSG_PRIORITY_NORMAL = MSG_PRIORITY_CRITICAL then 1 else q.items.length + 1)
            state_published = some (ds, s'') ∧
        ds.getLast? = some (topic.subscribers.map
          (fun x => { callback := x.callback, msg := m, user_data := x.user_data })) :=
  publish_roundtrip state_subscribed state_published sensor_topic temp_msg 4 MSG_PRIORITY_NORMAL
    1000 (by decide) (by decide) (by decide) (by decide) (by decide)

/-- C2: a successful publish with priority `CRITICAL` puts the new message at the head of the
topic's queue, in front of every message already queued; a successful publish with any other
priority puts it at the tail; the messages already queued keep their order. -/
theorem publish_queue_position (s s' : pubsub_state) (topic_name : Option (List Nat))
    (data : Option (List Nat)) (len : Nat) (p : msg_priority_t) (now : Nat)
    (h : pubsub_publish s topic_name data len p now = some (PUBSUB_OK, s')) :
    ∃ name i topic q m,
      topic_name = some name ∧
      find_topic name s.topics s.topic_count = some (i, topic) ∧
      topic.msg_queue = some q ∧ m.priority = p ∧ m.data_len = len ∧ m.timestamp = now ∧
      (p = MSG_PRIORITY_CRITICAL →
        s'.topics = s.topics.set i
          { topic with msg_queue := some { q with items := m :: q.items } }) ∧
      (p ≠ MSG_PRIORITY_CRITICAL →
        s'.topics = s.topics.set i
          { topic with msg_queue := some { q with items := q.items ++ [m] } }) := by
  obtain ⟨nm, i, topic, q, pool', d, hn, hfind, hq, _, _, hs'⟩ :=
    pubsub_publish_ok s s' _ _ _ _ _ h
  refine ⟨nm, i, topic, q,
    { topic := copy_name nm, data := d, data_len := len, priority := p, timestamp := now,
      user_data := none },
    hn, hfind, hq, rfl, rfl, rfl, ?_, ?_⟩
  · intro hp
    rw [hs']
    simp only [hp, if_true]
  · intro hp
    rw [hs']
    simp only [hp, if_false]

/-- Witness for C2: the publish of `"25.5"` made by `app_main`. -/
theorem publish_queue_position_witness :
    ∃ name i topic q m,
      some sensor_topic = some name ∧
      find_topic name state_subscribed.topics state_subscribed.topic_count = some (i, topic) ∧
      topic.msg_queue = some q ∧ m.priority = MSG_PRIORITY_NORMAL ∧ m.data_len = 4 ∧
      m.timestamp = 1000 ∧
      (MSG_PRIORITY_NORMAL = MSG_PRIORITY_CRITICAL →
        state_published.topics = state_subscribed.topics.set i
          { topic with msg_queue := some { q with items := m :: q.items } }) ∧
      (MSG_PRIORITY_NORMAL ≠ MSG_PRIORITY_CRITICAL →
        state_published.topics = state_subscribed.topics.set i
          { topic with msg_queue := some { q with items := q.items ++ [m] } }) :=
  publish_queue_position state_subscribed state_published (some sensor_topic) (some temp_msg) 4
    MSG_PRIORITY_NORMAL 1000 (by decide)

/-- C5: whenever `pubsub_publish` returns an error, the error is one of `INVALID_PARAM`,
`TOPIC_NOT_FOUND`, `NO_MEMORY` and `QUEUE_FULL`, every slot of the registry (every topic queue)
is unchanged, and the allocator's `used_size` and its set of allocated blocks are what they were
before the call: the payload copy made before a queue-full failure has been released. -/
theorem publish_error_no_side_effect (s s' : pubsub_state) (topic_name : Option (List Nat))
    (data : Option (List Nat)) (len : Nat) (p : msg_priority_t) (now : Nat) (e : pubsub_err_t)
    (hu : s.pool.used_size < SIZE_MOD)
    (h : pubsub_publish s topic_name data len p now = some (e, s')) (he : e ≠ PUBSUB_OK) :
    (e = PUBSUB_ERR_INVALID_PARAM ∨ e = PUBSUB_ERR_TOPIC_NOT_FOUND ∨ e = PUBSUB_ERR_NO_MEMORY ∨
      e = PUBSUB_ERR_QUEUE_FULL) ∧
    s'.topics = s.topics ∧ s'.topic_count = s.topic_count ∧
    s'.pool.used_size = s.pool.used_size ∧
    allocated_ptrs s'.pool.first_block 0 = allocated_ptrs s.pool.first_block 0 := by
  rcases pubsub_publish_cases s s' topic_name data len p now e h with
    ⟨h1, h2⟩ | ⟨name, i, topic, pool', d, _, hfind, hpay, henq⟩
  · subst h1
    refine ⟨?_, rfl, rfl, rfl, rfl⟩
    rcases h2 with h2 | h2 | h2
    · exact Or.inl h2
    · exact Or.inr (Or.inl h2)
    · exact Or.inr (Or.inr (Or.inl h2))
  · obtain ⟨q, hq, ⟨h1, _⟩ | ⟨h1, _, pool'', hfree, hs'⟩⟩ := publish_enqueue_cases _ _ _ _ _ _ henq
    · exact absurd h1 he
    · refine ⟨Or.inr (Or.inr (Or.inr h1)), by rw [hs'], by rw [hs'], ?_, ?_⟩
      · rcases hpay with ⟨_, hp, hd⟩ | ⟨_, a, src, _, _, halloc, _, hd⟩
        · subst hp
          subst hd
          simp only [Option.map_none', memory_pool_free, Option.some.injEq] at hfree
          rw [hs', ← hfree]
        · subst hd
          obtain ⟨p2, hf2, hused, _, _⟩ := memory_pool_free_alloc _ _ _ _ halloc
          simp only [Option.map_some'] at hfree
          rw [hf2] at hfree
          simp only [Option.some.injEq] at hfree
          rw [hs', ← hfree]
          show p2.used_size = s.pool.used_size
          rw [hused]
          exact Nat.mod_eq_of_lt hu
      · rcases hpay with ⟨_, hp, hd⟩ | ⟨_, a, src, _, _, halloc, _, hd⟩
        · subst hp
          subst hd
          simp only [Option.map_none', memory_pool_free, Option.some.injEq] at hfree
          rw [hs', ← hfree]
        · subst hd
          obtain ⟨p2, hf2, _, _, hsame⟩ := memory_pool_free_alloc _ _ _ _ halloc
          simp only [Option.map_some'] at hfree
          rw [hf2] at hfree
          simp only [Option.some.injEq] at hfree
          rw [hs', ← hfree]
          exact hsame

set_option maxRecDepth 100000 in
/-- Witness for C5: a publish on the full queue of `state_full` returns `QUEUE_FULL`. -/
theorem publish_error_no_side_effect_witness :
    (PUBSUB_ERR_QUEUE_FULL = PUBSUB_ERR_INVALID_PARAM ∨
      PUBSUB_ERR_QUEUE_FULL = PUBSUB_ERR_TOPIC_NOT_FOUND ∨
      PUBSUB_ERR_QUEUE_FULL = PUBSUB_ERR_NO_MEMORY ∨
      PUBSUB_ERR_QUEUE_FULL = PUBSUB_ERR_QUEUE_FULL) ∧
    state_full_normal.topics = state_full.topics ∧
    state_full_normal.topic_count = state_full.topic_count ∧
    state_full_normal.pool.used_size = state_full.pool.used_size ∧
    allocated_ptrs state_full_normal.pool.first_block 0
      = allocated_ptrs state_full.pool.first_block 0 :=
  publish_error_no_side_effect state_full state_full_normal (some sensor_topic) (some temp_msg) 4
    MSG_PRIORITY_NORMAL 100 PUBSUB_ERR_QUEUE_FULL (by decide) (by decide) (by decide)

/-- A publish of a valid payload on a full queue completes, returns `QUEUE_FULL` (or
`NO_MEMORY` when the payload copy cannot be allocated) and leaves the registry and the
allocated blocks as they were. -/
theorem pubsub_publish_full (s : pubsub_state) (name : List Nat) (i : Nat) (topic : topic_t)
    (q : queue_t) (src : List Nat) (len : Nat) (p : msg_priority_t) (now : Nat)
    (hfind : find_topic name s.topics s.topic_count = some (i, topic))
    (hq : topic.msg_queue = some q) (hfull : q.length ≤ q.items.length)
    (hsrc : len ≤ src.length) (hwrap : len + 7 < SIZE_MOD) :
    ∃ e s', pubsub_publish s (some name) (some src) len p now = some (e, s') ∧
      (e = PUBSUB_ERR_QUEUE_FULL ∨
        (e = PUBSUB_ERR_NO_MEMORY ∧ (memory_pool_alloc s.pool len).1 = none)) ∧
      s'.topics = s.topics ∧ s'.topic_count = s.topic_count ∧
      allocated_ptrs s'.pool.first_block 0 = allocated_ptrs s.pool.first_block 0 := by
  have hnot : ¬ q.items.length < q.length := Nat.not_lt.mpr hfull
  by_cases hpos : 0 < len
  · cases halloc : memory_pool_alloc s.pool len with
    | mk r pool' =>
      cases r with
      | none =>
        refine ⟨PUBSUB_ERR_NO_MEMORY, s, ?_, Or.inr ⟨rfl, rfl⟩, rfl, rfl, rfl⟩
        simp [pubsub_publish, hfind, hpos, halloc]
      | some a =>
        obtain ⟨sz, _, _, h3, h4, _⟩ := memory_pool_alloc_some _ _ _ _ halloc
        obtain ⟨p2, hf2, _, _, hsame⟩ := memory_pool_free_alloc _ _ _ _ halloc
        have hcap : len ≤ block_capacity a pool'.first_block 0 := by
          have := align8_ge len hwrap
          omega
        refine ⟨PUBSUB_ERR_QUEUE_FULL, { s with pool := p2 }, ?_, Or.inl rfl, rfl, rfl, hsame⟩
        by_cases hp : p = MSG_PRIORITY_CRITICAL
        · simp [pubsub_publish, hfind, hpos, halloc, hsrc, hcap, publish_enqueue, hq, hp,
            xQueueSendToFront, hnot, hf2]
        · simp [pubsub_publish, hfind, hpos, halloc, hsrc, hcap, publish_enqueue, hq, hp,
            xQueueSend, hnot, hf2]
  · refine ⟨PUBSUB_ERR_QUEUE_FULL, s, ?_, Or.inl rfl, rfl, rfl, rfl⟩
    by_cases hp : p = MSG_PRIORITY_CRITICAL
    · simp [pubsub_publish, hfind, hpos, publish_enqueue, hq, hp, xQueueSendToFront, hnot]
    · simp [pubsub_publish, hfind, hpos, publish_enqueue, hq, hp, xQueueSend, hnot]

/-- C3 (amended): when a message `m2` is successfully published to a topic, every message `m1`
still queued there is handed to the subscribers before `m2` if the priority of `m2` is not
`CRITICAL` (non-critical messages form a FIFO at the tail); if it is `CRITICAL`, `m2` is
inserted at the head and handed out before every queued `m1`, earlier `CRITICAL` messages
included. Iteration `k` of the worker run produces the entry `ds[k]`. -/
theorem publish_delivery_order (s s' : pubsub_state) (name : List Nat) (data : Option (List Nat))
    (len : Nat) (p : msg_priority_t) (now i j : Nat) (topic : topic_t) (q : queue_t)
    (m1 : pubsub_msg_t) (hheap : heap_inv s)
    (hfind : find_topic name s.topics s.topic_count = some (i, topic))
    (hq : topic.msg_queue = some q) (hm1 : q.items[j]? = some m1)
    (h : pubsub_publish s (some name) data len p now = some (PUBSUB_OK, s')) :
    ∃ m2 ds s'',
      m2.priority = p ∧ m2.data_len = len ∧ m2.timestamp = now ∧
      topic_task_run i (q.items.length + 1) s' = some (ds, s'') ∧
      (p ≠ MSG_PRIORITY_CRITICAL →
        j < q.items.length ∧
        ds[j]? = some (fan_out m1 topic.subscribers) ∧
        ds[q.items.length]? = some (fan_out m2 topic.subscribers)) ∧
      (p = MSG_PRIORITY_CRITICAL →
        ds[0]? = some (fan_out m2 topic.subscribers) ∧
        ds[j + 1]? = some (fan_out m1 topic.subscribers)) := by
  have hheap' := heap_inv_publish s s' hheap _ _ _ _ _ _ h
  obtain ⟨nm, i', topic', q', pool', d, hn, hfind', hq', _, _, hs'⟩ :=
    pubsub_publish_ok s s' _ _ _ _ _ h
  simp only [Option.some.injEq] at hn
  subst hn
  rw [hfind] at hfind'
  simp only [Option.some.injEq, Prod.mk.injEq] at hfind'
  obtain ⟨hi', ht'⟩ := hfind'
  subst hi'
  subst ht'
  rw [hq] at hq'
  simp only [Option.some.injEq] at hq'
  subst hq'
  obtain ⟨hget, _, _⟩ := find_topic_some _ _ _ _ _ hfind
  have hi := getElem?_lt_length s.topics i topic hget
  have hj : j < q.items.length := by
    rcases Nat.lt_or_ge j q.items.length with hlt | hge
    · exact hlt
    · rw [List.getElem?_eq_none hge] at hm1
      cases hm1
  have hget' : s'.topics[i]? = some
      { topic with
        msg_queue := some { q with
          items :=
            if p = MSG_PRIORITY_CRITICAL then
              ({ topic := copy_name name, data := d, data_len := len, priority := p,
                 timestamp := now, user_data := none } : pubsub_msg_t) :: q.items
            else
              q.items ++ [{ topic := copy_name name, data := d, data_len := len,
                            priority := p, timestamp := now, user_data := none }] } } := by
    rw [hs']
    exact List.getElem?_set_self hi
  by_cases hp : p = MSG_PRIORITY_CRITICAL
  · subst hp
    simp only [if_true] at hget'
    obtain ⟨s'', hrun, _, _, _⟩ := topic_task_run_front
      (({ topic := copy_name name, data := d, data_len := len,
          priority := MSG_PRIORITY_CRITICAL,
          timestamp := now, user_data := none } : pubsub_msg_t) :: q.items)
      [] s' hheap' i _ _ hget' rfl (List.append_nil _).symm
    simp only [List.length_cons, List.map_cons] at hrun
    refine ⟨{ topic := copy_name name, data := d, data_len := len,
              priority := MSG_PRIORITY_CRITICAL, timestamp := now, user_data := none },
      _, s'', rfl, rfl, rfl, hrun, fun hn => absurd rfl hn, fun _ => ?_⟩
    refine ⟨by simp, ?_⟩
    simp [hm1]
  · simp only [hp, if_false] at hget'
    obtain ⟨s'', hrun, _, _, _⟩ := topic_task_run_front
      (q.items ++
        [({ topic := copy_name name, data := d, data_len := len, priority := p,
            timestamp := now, user_data := none } : pubsub_msg_t)])
      [] s' hheap' i _ _ hget' rfl (List.append_nil _).symm
    simp only [List.length_append, List.length_singleton, List.map_append, List.map_cons,
      List.map_nil] at hrun
    refine ⟨{ topic := copy_name name, data := d, data_len := len, priority := p,
              timestamp := now, user_data := none },
      _, s'', rfl, rfl, rfl, hrun, fun _ => ⟨hj, ?_, ?_⟩, fun hc => absurd hc hp⟩
    · rw [List.getElem?_append_left (by simpa using hj)]
      simp [hm1]
    · rw [List.getElem?_append_right (by simp)]
      simp

/-- Witness for C3 (amended): a second `NORMAL` publish behind the queued `"25.5"`. -/
theorem publish_delivery_order_witness :
    ∃ m2 ds s'',
      m2.priority = MSG_PRIORITY_NORMAL ∧ m2.data_len = 4 ∧ m2.timestamp = 2000 ∧
      topic_task_run 0 ([temp_queued_msg].length + 1) state_published_twice = some (ds, s'') ∧
      (MSG_PRIORITY_NORMAL ≠ MSG_PRIORITY_CRITICAL →
        0 < [temp_queued_msg].length ∧
        ds[0]? = some (fan_out temp_queued_msg
          (state_published.topics.getD 0 topic_zero).subscribers) ∧
        ds[[temp_queued_msg].length]?
          = some (fan_out m2 (state_published.topics.getD 0 topic_zero).subscribers)) ∧
      (MSG_PRIORITY_NORMAL = MSG_PRIORITY_CRITICAL →
        ds[0]? = some (fan_out m2 (state_published.topics.getD 0 topic_zero).subscribers) ∧
        ds[0 + 1]? = some (fan_out temp_queued_msg
          (state_published.topics.getD 0 topic_zero).subscribers)) :=
  publish_delivery_order state_published state_published_twice sensor_topic (some temp_msg) 4
    MSG_PRIORITY_NORMAL 2000 0 0 (state_published.topics.getD 0 topic_zero)
    { items := [temp_queued_msg], length := MAX_QUEUE_SIZE } temp_queued_msg
    (by decide) (by decide) (by decide) (by decide) (by decide)

/-- Counterexample to C3 as stated: `"A"` and then `"B"` are published with
`MSG_PRIORITY_CRITICAL`, both publishes succeed, and the worker hands out `"B"` in its first
iteration and `"A"` in its second. -/
theorem critical_messages_delivered_newest_first :
    (pubsub_publish state_subscribed (some sensor_topic) (some (cstr "A")) 1
        MSG_PRIORITY_CRITICAL 1).map Prod.fst = some PUBSUB_OK ∧
    (pubsub_publish state_critical_a (some sensor_topic) (some (cstr "B")) 1
        MSG_PRIORITY_CRITICAL 2).map Prod.fst = some PUBSUB_OK ∧
    delivered_payloads (topic_task_run 0 2 state_critical_b)
      = some [[some (cstr "B")], [some (cstr "A")]] := by
  decide

/-- C4 (amended): on a topic whose queue is filled to its capacity, a publish of a valid payload
with any priority `p1` (`NORMAL` in the scenario) completes and returns `QUEUE_FULL`, and a
following publish with any priority `p2` (`CRITICAL` in the scenario) completes and returns
`QUEUE_FULL` as well (`NO_MEMORY` only when the payload copy cannot be allocated); the registry
is unchanged, and draining the queue hands out exactly the previously queued messages in their
queue order. -/
theorem full_queue_rejects_every_priority (s : pubsub_state) (name : List Nat) (i : Nat)
    (topic : topic_t) (q : queue_t) (src1 src2 : List Nat) (len1 len2 : Nat)
    (p1 p2 : msg_priority_t) (t1 t2 : Nat) (hheap : heap_inv s)
    (hfind : find_topic name s.topics s.topic_count = some (i, topic))
    (hq : topic.msg_queue = some q) (hfull : q.length ≤ q.items.length)
    (hsrc1 : len1 ≤ src1.length) (hwrap1 : len1 + 7 < SIZE_MOD)
    (hsrc2 : len2 ≤ src2.length) (hwrap2 : len2 + 7 < SIZE_MOD) :
    ∃ e1 s1 e2 s2 s3,
      pubsub_publish s (some name) (some src1) len1 p1 t1 = some (e1, s1) ∧
      pubsub_publish s1 (some name) (some src2) len2 p2 t2 = some (e2, s2) ∧
      (e1 = PUBSUB_ERR_QUEUE_FULL ∨
        (e1 = PUBSUB_ERR_NO_MEMORY ∧ (memory_pool_alloc s.pool len1).1 = none)) ∧
      (e2 = PUBSUB_ERR_QUEUE_FULL ∨
        (e2 = PUBSUB_ERR_NO_MEMORY ∧ (memory_pool_alloc s1.pool len2).1 = none)) ∧
      s1.topics = s.topics ∧ s2.topics = s.topics ∧
      topic_task_run i q.items.length s2
        = some (q.items.map (fun m => fan_out m topic.subscribers), s3) := by
  obtain ⟨e1, s1, h1, he1, ht1, hc1, _⟩ :=
    pubsub_publish_full s name i topic q src1 len1 p1 t1 hfind hq hfull hsrc1 hwrap1
  have hheap1 := heap_inv_publish s s1 hheap _ _ _ _ _ _ h1
  have hfind1 : find_topic name s1.topics s1.topic_count = some (i, topic) := by
    rw [ht1, hc1]
    exact hfind
  obtain ⟨e2, s2, h2, he2, ht2, hc2, _⟩ :=
    pubsub_publish_full s1 name i topic q src2 len2 p2 t2 hfind1 hq hfull hsrc2 hwrap2
  have hheap2 := heap_inv_publish s1 s2 hheap1 _ _ _ _ _ _ h2
  obtain ⟨hget, _, _⟩ := find_topic_some _ _ _ _ _ hfind
  have hget2 : s2.topics[i]? = some topic := by
    rw [ht2, ht1]
    exact hget
  obtain ⟨s3, hrun, _, _, _⟩ := topic_task_run_front q.items [] s2 hheap2 i topic q hget2 hq
    (List.append_nil _).symm
  exact ⟨e1, s1, e2, s2, s3, h1, h2, he1, he2, ht1, ht2.trans ht1, hrun⟩

set_option maxRecDepth 100000 in
/-- Witness for C4 (amended): `NORMAL` and then `CRITICAL` on the full queue of `state_full`. -/
theorem full_queue_rejects_every_priority_witness :
    ∃ e1 s1 e2 s2 s3,
      pubsub_publish state_full (some sensor_topic) (some temp_msg) 4 MSG_PRIORITY_NORMAL 100
        = some (e1, s1) ∧
      pubsub_publish s1 (some sensor_topic) (some temp_msg) 4 MSG_PRIORITY_CRITICAL 101
        = some (e2, s2) ∧
      (e1 = PUBSUB_ERR_QUEUE_FULL ∨
        (e1 = PUBSUB_ERR_NO_MEMORY ∧ (memory_pool_alloc state_full.pool 4).1 = none)) ∧
      (e2 = PUBSUB_ERR_QUEUE_FULL ∨
        (e2 = PUBSUB_ERR_NO_MEMORY ∧ (memory_pool_alloc s1.pool 4).1 = none)) ∧
      s1.topics = state_full.topics ∧ s2.topics = state_full.topics ∧
      topic_task_run 0 state_full_queue.items.length s2
        = some (state_full_queue.items.map
            (fun m => fan_out m (state_full.topics.getD 0 topic_zero).subscribers), s3) :=
  full_queue_rejects_every_priority state_full sensor_topic 0
    (state_full.topics.getD 0 topic_zero) state_full_queue temp_msg temp_msg 4 4
    MSG_PRIORITY_NORMAL MSG_PRIORITY_CRITICAL 100 101
    (by decide) (by decide) (by decide) (by decide) (by decide) (by decide) (by decide)
    (by decide)

set_option maxRecDepth 100000 in
/-- Counterexample to C4 as stated: the queue of `state_full` holds `MAX_QUEUE_SIZE` messages,
all `NORMAL`; a further `NORMAL` publish returns `QUEUE_FULL`, and the `CRITICAL` publish that
follows returns `QUEUE_FULL` too instead of succeeding. -/
theorem full_queue_rejects_critical_publish :
    (state_full_queue.items.length = MAX_QUEUE_SIZE ∧ state_full_queue.length = MAX_QUEUE_SIZE ∧
      ∀ m ∈ state_full_queue.items, m.priority = MSG_PRIORITY_NORMAL) ∧
    (pubsub_publish state_full (some sensor_topic) (some temp_msg) 4
        MSG_PRIORITY_NORMAL 100).map Prod.fst = some PUBSUB_ERR_QUEUE_FULL ∧
    (pubsub_publish state_full_normal (some sensor_topic) (some temp_msg) 4
        MSG_PRIORITY_CRITICAL 101).map Prod.fst = some PUBSUB_ERR_QUEUE_FULL ∧
    state_full_critical.topics = state_full.topics := by
  decide

/-! ## Best fit and split (`memory_pool_alloc`) -/

/-- The scan either keeps the candidate it was entered with, and then no block of the list
beats the running minimum, or it settles on a free block of the list that fits, is strictly
better than the running minimum and than every fitting free block before it, and at least as
good as every fitting free block of the list. -/
theorem best_fit_scan_spec (size : Nat) (bs : List block_header_t) (k : Nat) (best : Option Nat)
    (md : Nat) (res : Option Nat) (d : Nat) (h : best_fit_scan size bs k best md = (res, d)) :
    (res = best ∧ d = md ∧
      ∀ (j : Nat) (c : block_header_t), bs[j]? = some c → c.is_free = true → size ≤ c.size → md ≤ c.size - size) ∨
    (∃ j b, res = some (k + j) ∧ bs[j]? = some b ∧ b.is_free = true ∧ size ≤ b.size ∧
      d = b.size - size ∧ d < md ∧
      (∀ (j' : Nat) (c : block_header_t), j' < j → bs[j']? = some c → c.is_free = true → size ≤ c.size → d < c.size - size) ∧
      (∀ (j' : Nat) (c : block_header_t), bs[j']? = some c → c.is_free = true → size ≤ c.size → d ≤ c.size - size)) := by
  induction bs generalizing k best md with
  | nil =>
    simp only [best_fit_scan, Prod.mk.injEq] at h
    exact Or.inl ⟨h.1.symm, h.2.symm, by simp⟩
  | cons b rest ih =>
    simp only [best_fit_scan] at h
    by_cases hb : b.is_free = true ∧ size ≤ b.size
    · rw [if_pos hb] at h
      by_cases hlt : b.size - size < md
      · rw [if_pos hlt] at h
        by_cases h0 : b.size - size = 0
        · rw [if_pos h0] at h
          simp only [Prod.mk.injEq] at h
          refine Or.inr ⟨0, b, h.1.symm, List.getElem?_cons_zero, hb.1, hb.2, ?_, ?_, ?_, ?_⟩
          · omega
          · omega
          · intro j' c hj'
            omega
          · intro j' c _ _ _
            omega
        · rw [if_neg h0] at h
          rcases ih (k + 1) (some k) (b.size - size) h with ⟨h1, h2, h3⟩ | ⟨j, c, h1, h2, h3, h4, h5, h6, h7, h8⟩
          · refine Or.inr ⟨0, b, h1, List.getElem?_cons_zero, hb.1, hb.2, h2, by omega, ?_, ?_⟩
            · intro j' c hj'
              omega
            · intro j' c hc hfree hfit
              cases j' with
              | zero =>
                simp only [List.getElem?_cons_zero, Option.some.injEq] at hc
                subst hc
                omega
              | succ m =>
                simp only [List.getElem?_cons_succ] at hc
                have := h3 m c hc hfree hfit
                omega
          · refine Or.inr ⟨j + 1, c, ?_, by simpa using h2, h3, h4, h5, by omega, ?_, ?_⟩
            · rw [h1]
              congr 1
              omega
            · intro j' c' hj' hc hfree hfit
              cases j' with
              | zero =>
                simp only [List.getElem?_cons_zero, Option.some.injEq] at hc
                subst hc
                omega
              | succ m =>
                simp only [List.getElem?_cons_succ] at hc
                exact h7 m c' (by omega) hc hfree hfit
            · intro j' c' hc hfree hfit
              cases j' with
              | zero =>
                simp only [List.getElem?_cons_zero, Option.some.injEq] at hc
                subst hc
                omega
              | succ m =>
                simp only [List.getElem?_cons_succ] at hc
                exact h8 m c' hc hfree hfit
      · rw [if_neg hlt] at h
        rcases ih (k + 1) best md h with ⟨h1, h2, h3⟩ | ⟨j, c, h1, h2, h3, h4, h5, h6, h7, h8⟩
        · refine Or.inl ⟨h1, h2, ?_⟩
          intro j' c hc hfree hfit
          cases j' with
          | zero =>
            simp only [List.getElem?_cons_zero, Option.some.injEq] at hc
            subst hc
            omega
          | succ m =>
            simp only [List.getElem?_cons_succ] at hc
            exact h3 m c hc hfree hfit
        · refine Or.inr ⟨j + 1, c, ?_, by simpa using h2, h3, h4, h5, h6, ?_, ?_⟩
          · rw [h1]
            congr 1
            omega
          · intro j' c' hj' hc hfree hfit
            cases j' with
            | zero =>
              simp only [List.getElem?_cons_zero, Option.some.injEq] at hc
              subst hc
              omega
            | succ m =>
              simp only [List.getElem?_cons_succ] at hc
              exact h7 m c' (by omega) hc hfree hfit
          · intro j' c' hc hfree hfit
            cases j' with
            | zero =>
              simp only [List.getElem?_cons_zero, Option.some.injEq] at hc
              subst hc
              omega
            | succ m =>
              simp only [List.getElem?_cons_succ] at hc
              exact h8 m c' hc hfree hfit
    · rw [if_neg hb] at h
      rcases ih (k + 1) best md h with ⟨h1, h2, h3⟩ | ⟨j, c, h1, h2, h3, h4, h5, h6, h7, h8⟩
      · refine Or.inl ⟨h1, h2, ?_⟩
        intro j' c hc hfree hfit
        cases j' with
        | zero =>
          simp only [List.getElem?_cons_zero, Option.some.injEq] at hc
          subst hc
          exact absurd ⟨hfree, hfit⟩ hb
        | succ m =>
          simp only [List.getElem?_cons_succ] at hc
          exact h3 m c hc hfree hfit
      · refine Or.inr ⟨j + 1, c, ?_, by simpa using h2, h3, h4, h5, h6, ?_, ?_⟩
        · rw [h1]
          congr 1
          omega
        · intro j' c' hj' hc hfree hfit
          cases j' with
          | zero =>
            simp only [List.getElem?_cons_zero, Option.some.injEq] at hc
            subst hc
            exact absurd ⟨hfree, hfit⟩ hb
          | succ m =>
            simp only [List.getElem?_cons_succ] at hc
            exact h7 m c' (by omega) hc hfree hfit
        · intro j' c' hc hfree hfit
          cases j' with
          | zero =>
            simp only [List.getElem?_cons_zero, Option.some.injEq] at hc
            subst hc
            exact absurd ⟨hfree, hfit⟩ hb
          | succ m =>
            simp only [List.getElem?_cons_succ] at hc
            exact h8 m c' hc hfree hfit

/-- The list `take_block` leaves: the blocks before and after index `i` are untouched, and the
block at `i` is replaced by the allocated block, followed by the new free block when the
remainder is at least a header plus 8 bytes. -/
theorem take_block_shape (size diff : Nat) (bs : List block_header_t) (i : Nat) (b : block_header_t)
    (hb : bs[i]? = some b) :
    (take_block size diff bs i).1 =
      bs.take i ++
        (if HEADER_SIZE + 8 ≤ diff then
          [{ size := size, is_free := false }, { size := diff - HEADER_SIZE, is_free := true }]
         else [{ size := b.size, is_free := false }]) ++
        bs.drop (i + 1) := by
  induction bs generalizing i with
  | nil => simp at hb
  | cons c rest ih =>
    cases i with
    | zero =>
      simp only [List.getElem?_cons_zero, Option.some.injEq] at hb
      subst hb
      simp only [take_block]
      split <;> simp
    | succ j =>
      simp only [List.getElem?_cons_succ] at hb
      simp only [take_block, ih j hb]
      simp

/-- For a request that does not wrap, `align8` is the least multiple of 8 not below it. -/
theorem align8_round_up (n : Nat) (h : n + 7 < SIZE_MOD) :
    n ≤ align8 n ∧ align8 n < n + 8 ∧ align8 n % 8 = 0 := by
  unfold align8
  rw [Nat.mod_eq_of_lt h]
  omega

/-- Best fit for a request `n > 0` whose rounding does not wrap, on a list whose sizes are
`size_t` values: the allocation fails, leaving the pool untouched, exactly when no free block
holds the rounded size; otherwise it hands out the free block of the smallest fitting size, the
first such block in list order. -/
theorem memory_pool_alloc_best_fit (p : memory_pool_t) (n : Nat) (hn : 0 < n)
    (hwrap : n + 7 < SIZE_MOD) (hsz : ∀ b ∈ p.first_block, b.size < SIZE_MOD) :
    ((∀ b ∈ p.first_block, b.is_free = true → b.size < align8 n) →
      memory_pool_alloc p n = (none, p)) ∧
    (∀ p', memory_pool_alloc p n = (none, p') →
      p' = p ∧ ∀ b ∈ p.first_block, b.is_free = true → b.size < align8 n) ∧
    (∀ a p', memory_pool_alloc p n = (some a, p') →
      ∃ i b, p.first_block[i]? = some b ∧ b.is_free = true ∧ align8 n ≤ b.size ∧
        a = block_offset p.first_block i 0 + HEADER_SIZE ∧
        ∀ (j : Nat) (c : block_header_t), p.first_block[j]? = some c → c.is_free = true →
          align8 n ≤ c.size → b.size ≤ c.size ∧ (c.size = b.size → i ≤ j)) := by
  have hr := align8_round_up n hwrap
  have hpos : 0 < align8 n := by omega
  have hnone : ∀ d, best_fit_scan (align8 n) p.first_block 0 none SIZE_MAX = (none, d) →
      ∀ b ∈ p.first_block, b.is_free = true → b.size < align8 n := by
    intro d hscan b hb hfree
    rcases best_fit_scan_spec _ _ _ _ _ _ _ hscan with ⟨_, _, h3⟩ | ⟨j, c, h1, _⟩
    · by_contra hfit
      obtain ⟨j, hj⟩ := List.mem_iff_getElem?.mp hb
      have h4 := h3 j b hj hfree (by omega)
      have h5 := hsz b hb
      simp only [SIZE_MAX, SIZE_MOD] at h4 h5
      omega
    · cases h1
  refine ⟨?_, ?_, ?_⟩
  · intro hno
    cases hscan : best_fit_scan (align8 n) p.first_block 0 none SIZE_MAX with
    | mk res d =>
      cases res with
      | none => simp [memory_pool_alloc, hscan, Nat.pos_iff_ne_zero.mp hn]
      | some i =>
        obtain ⟨b, hb, hfree, hfit, _⟩ := best_fit_scan_head _ _ _ _ hscan
        have := hno b (List.getElem?_mem hb) hfree
        omega
  · intro p' h
    refine ⟨memory_pool_alloc_none p p' n h, ?_⟩
    cases hscan : best_fit_scan (align8 n) p.first_block 0 none SIZE_MAX with
    | mk res d =>
      cases res with
      | none => exact hnone d hscan
      | some i => simp [memory_pool_alloc, hscan, Nat.pos_iff_ne_zero.mp hn] at h
  · intro a p' h
    cases hscan : best_fit_scan (align8 n) p.first_block 0 none SIZE_MAX with
    | mk res d =>
      cases res with
      | none => simp [memory_pool_alloc, hscan, Nat.pos_iff_ne_zero.mp hn] at h
      | some i =>
        simp only [memory_pool_alloc, hscan, Nat.pos_iff_ne_zero.mp hn, if_false, Prod.mk.injEq,
          Option.some.injEq] at h
        rcases best_fit_scan_spec _ _ _ _ _ _ _ hscan with ⟨h1, _⟩ | ⟨j, b, h1, h2, h3, h4, h5, _, h7, h8⟩
        · cases h1
        · simp only [Option.some.injEq, Nat.zero_add] at h1
          subst h1
          refine ⟨i, b, h2, h3, h4, h.1.symm, ?_⟩
          intro j' c hc hfree hfit
          have h9 := h8 j' c hc hfree hfit
          refine ⟨by omega, ?_⟩
          intro heq
          by_contra hlt
          have := h7 j' c (by omega) hc hfree hfit
          omega

/-- C20 (amended): when `memory_pool_alloc` picks a free block of payload size `r + d` for the
rounded request `r`, it splits the block in place into an allocated block of payload size `r`
followed by a new free block of payload size `d - header` if `d` is at least `header + 8`, and
hands the block out whole, with its size unchanged and no block added, if `d` is below
`header + 8`; the blocks before and after it are untouched. -/
theorem alloc_split_rule (p p' : memory_pool_t) (n a : Nat)
    (h : memory_pool_alloc p n = (some a, p')) :
    ∃ i b, p.first_block[i]? = some b ∧ b.is_free = true ∧ align8 n ≤ b.size ∧
      a = block_offset p.first_block i 0 + HEADER_SIZE ∧
      (HEADER_SIZE + 8 ≤ b.size - align8 n →
        p'.first_block = p.first_block.take i ++
          [{ size := align8 n, is_free := false },
           { size := b.size - align8 n - HEADER_SIZE, is_free := true }] ++
          p.first_block.drop (i + 1)) ∧
      (b.size - align8 n < HEADER_SIZE + 8 →
        p'.first_block = p.first_block.take i ++ [{ size := b.size, is_free := false }] ++
          p.first_block.drop (i + 1)) := by
  unfold memory_pool_alloc at h
  split at h
  · simp at h
  · split at h
    · simp at h
    · rename_i i diff hscan
      obtain ⟨b, hb, hfree, hfit, hdiff⟩ := best_fit_scan_head _ _ _ _ hscan
      subst hdiff
      simp only [Prod.mk.injEq, Option.some.injEq] at h
      obtain ⟨ha, hp⟩ := h
      refine ⟨i, b, hb, hfree, hfit, ha.symm, ?_, ?_⟩
      · intro hsplit
        rw [← hp]
        simp only [take_block_shape _ _ _ _ _ hb, if_pos hsplit]
      · intro hwhole
        rw [← hp]
        simp only [take_block_shape _ _ _ _ _ hb, if_neg (Nat.not_le.mpr hwhole)]

/-- Witness for C20 (amended): 16 bytes from the fresh pool, split off the single free block. -/
theorem alloc_split_rule_witness :
    ∃ i b, memory_pool_init.first_block[i]? = some b ∧ b.is_free = true ∧ align8 16 ≤ b.size ∧
      12 = block_offset memory_pool_init.first_block i 0 + HEADER_SIZE ∧
      (HEADER_SIZE + 8 ≤ b.size - align8 16 →
        (memory_pool_alloc memory_pool_init 16).2.first_block
          = memory_pool_init.first_block.take i ++
            [{ size := align8 16, is_free := false },
             { size := b.size - align8 16 - HEADER_SIZE, is_free := true }] ++
            memory_pool_init.first_block.drop (i + 1)) ∧
      (b.size - align8 16 < HEADER_SIZE + 8 →
        (memory_pool_alloc memory_pool_init 16).2.first_block
          = memory_pool_init.first_block.take i ++ [{ size := b.size, is_free := false }] ++
            memory_pool_init.first_block.drop (i + 1)) :=
  alloc_split_rule memory_pool_init (memory_pool_alloc memory_pool_init 16).2 16 12 (by decide)

/-- Counterexample to C20 as stated: a request of 12768 bytes on the fresh pool meets the free
block of 12788 bytes, so the remainder is exactly `header + 8 = 20`, which does not exceed
`header + 8`; the block is split all the same, into an allocated block of 12768 bytes and a new
free block of 8 bytes. -/
theorem alloc_splits_at_remainder_header_plus_8 :
    memory_pool_init.first_block = [{ size := 12788, is_free := true }] ∧
    12788 - align8 12768 = HEADER_SIZE + 8 ∧
    ¬ (HEADER_SIZE + 8 < 12788 - align8 12768) ∧
    (memory_pool_alloc memory_pool_init 12768).1 = some 12 ∧
    (memory_pool_alloc memory_pool_init 12768).2.first_block
      = [{ size := 12768, is_free := false }, { size := 8, is_free := true }] := by
  decide

/-- C19, evaluation at the failing request `n = SIZE_MAX` on the fresh pool: the rounding
`(n + 7) & ~7` wraps to 0, the scan then accepts the free block of 12788 bytes, and the call
returns a pointer to an allocated block of payload size 0 instead of the null sentinel, although
no free block holds `n` (or `n` rounded up to a multiple of 8) bytes. -/
theorem alloc_rounding_wraps :
    align8 SIZE_MAX = 0 ∧
    (∀ b ∈ memory_pool_init.first_block, b.size < SIZE_MAX) ∧
    memory_pool_alloc memory_pool_init SIZE_MAX
      = (some 12,
          { first_block := [{ size := 0, is_free := false }, { size := 12776, is_free := true }],
            total_size := 12800, used_size := 12, peak_use := 12 }) := by
  decide

/-! ## Claims on the argument checks and the ceiling of `pubsub_subscribe` -/

/-- C11 (amended): `pubsub_subscribe` returns `PUBSUB_ERR_INVALID_PARAM` and changes no state
whenever the topic name or the callback is null; the cookie is not examined: with a null cookie
the call returns the same code as with any other cookie. -/
theorem subscribe_null_name_or_callback (s : pubsub_state) (topic_name : Option (List Nat))
    (callback user_data : Option Nat) :
    pubsub_subscribe s none callback user_data = (PUBSUB_ERR_INVALID_PARAM, s) ∧
    pubsub_subscribe s topic_name none user_data = (PUBSUB_ERR_INVALID_PARAM, s) ∧
    (pubsub_subscribe s topic_name callback none).1
      = (pubsub_subscribe s topic_name callback user_data).1 := by
  refine ⟨rfl, ?_, ?_⟩
  · cases topic_name <;> rfl
  · unfold pubsub_subscribe
    cases topic_name with
    | none => rfl
    | some name =>
      cases callback with
      | none => rfl
      | some cb =>
        simp only
        cases find_topic name s.topics s.topic_count with
        | none => rfl
        | some r =>
          obtain ⟨i, topic⟩ := r
          simp only
          split
          · rfl
          · split
            · rfl
            · cases memory_pool_alloc s.pool SIZEOF_SUBSCRIBER with
              | mk a pool' =>
                cases a <;> rfl

/-- Counterexample to C11 as stated: the call `app_main` makes,
`pubsub_subscribe("sensor/temperature", message_callback, NULL)`, has a null cookie, returns
`PUBSUB_OK` and registers the subscriber. -/
theorem subscribe_accepts_null_cookie :
    pubsub_subscribe state_created (some sensor_topic) (some message_callback) none
      = (PUBSUB_OK, state_subscribed) ∧
    (state_created.topics.getD 0 topic_zero).subscribers = [] ∧
    (state_subscribed.topics.getD 0 topic_zero).subscribers
      = [{ callback := message_callback, user_data := none, addr := 12 }] := by
  decide

theorem reachable_subscribe_callbacks (n : Nat) (s : pubsub_state) (h : Reachable s) :
    Reachable (subscribe_callbacks n s) := by
  induction n generalizing s with
  | zero => exact h
  | succ m ih => exact ih _ (Reachable.subscribe _ _ _ h)

/-- C12: in a reachable state, subscribing a callback that is not yet registered on a topic
whose list already holds `MAX_SUBSCRIBERS_PER_TOPIC` (20) records returns
`PUBSUB_ERR_MAX_SUBSCRIBERS` and changes nothing; and no slot's subscriber list holds more
than 20 records. -/
theorem subscribe_at_ceiling_rejected (s : pubsub_state) (name : List Nat) (cb : Nat)
    (cookie : Option Nat) (i : Nat) (topic : topic_t) (hr : Reachable s)
    (hfind : find_topic name s.topics s.topic_count = some (i, topic)) :
    (cb ∉ callbacks topic → topic.subscribers.length = MAX_SUBSCRIBERS_PER_TOPIC →
      pubsub_subscribe s (some name) (some cb) cookie = (PUBSUB_ERR_MAX_SUBSCRIBERS, s)) ∧
    (∀ t ∈ s.topics, t.subscribers.length ≤ MAX_SUBSCRIBERS_PER_TOPIC) := by
  have hok := reachable_topics_ok s hr
  constructor
  · intro hnot hlen
    obtain ⟨hget, _, _⟩ := find_topic_some _ _ _ _ _ hfind
    obtain ⟨hcount, _, _, _⟩ := hok topic (List.getElem?_mem hget)
    have hdup : has_callback cb topic.subscribers = false := by
      cases hh : has_callback cb topic.subscribers with
      | false => rfl
      | true => exact absurd ((has_callback_iff cb topic.subscribers).mp hh) hnot
    have hmax : MAX_SUBSCRIBERS_PER_TOPIC ≤ topic.subscriber_count := by
      rw [hcount, hlen]
    simp [pubsub_subscribe, hfind, hdup, hmax]
  · intro t ht
    obtain ⟨hcount, _, _, hmax⟩ := hok t ht
    rw [← hcount]
    exact hmax

/-- Witness for C12: a 21st callback on the topic that holds 20 subscribers. -/
theorem subscribe_at_ceiling_rejected_witness :
    (21 ∉ callbacks (state_twenty_subscribers.topics.getD 0 topic_zero) →
      (state_twenty_subscribers.topics.getD 0 topic_zero).subscribers.length
        = MAX_SUBSCRIBERS_PER_TOPIC →
      pubsub_subscribe state_twenty_subscribers (some sensor_topic) (some 21) none
        = (PUBSUB_ERR_MAX_SUBSCRIBERS, state_twenty_subscribers)) ∧
    (∀ t ∈ state_twenty_subscribers.topics, t.subscribers.length ≤ MAX_SUBSCRIBERS_PER_TOPIC) :=
  subscribe_at_ceiling_rejected state_twenty_subscribers sensor_topic 21 none 0
    (state_twenty_subscribers.topics.getD 0 topic_zero)
    (reachable_subscribe_callbacks _ _ (Reachable.create_topic _ _ _ _ Reachable.init))
    (by decide)

/-! ## Allocated blocks with their sizes -/

theorem allocated_ptrs_eq_map (bs : List block_header_t) (off : Nat) :
    allocated_ptrs bs off = (allocated_blocks bs off).map Prod.fst := by
  induction bs generalizing off with
  | nil => rfl
  | cons b rest ih =>
    simp only [allocated_ptrs, allocated_blocks]
    split
    · exact ih _
    · simp [ih]

theorem allocated_blocks_mem_ptrs (bs : List block_header_t) (off : Nat) (x : Nat × Nat)
    (h : x ∈ allocated_blocks bs off) : x.1 ∈ allocated_ptrs bs off := by
  rw [allocated_ptrs_eq_map]
  exact List.mem_map_of_mem _ h

/-- An address is the payload address of at most one allocated block. -/
theorem allocated_blocks_unique (bs : List block_header_t) (off a s1 s2 : Nat)
    (h1 : (a, s1) ∈ allocated_blocks bs off) (h2 : (a, s2) ∈ allocated_blocks bs off) :
    s1 = s2 := by
  induction bs generalizing off with
  | nil => simp [allocated_blocks] at h1
  | cons b rest ih =>
    have hH : HEADER_SIZE = 12 := rfl
    simp only [allocated_blocks] at h1 h2
    split at h1
    · rename_i hf
      rw [if_pos hf] at h2
      exact ih _ h1 h2
    · rename_i hf
      rw [if_neg hf] at h2
      rcases List.mem_cons.mp h1 with e1 | e1
      · rcases List.mem_cons.mp h2 with e2 | e2
        · simp only [Prod.mk.injEq] at e1 e2
          omega
        · have := allocated_ptrs_ge _ _ _ (allocated_blocks_mem_ptrs _ _ _ e2)
          simp only [Prod.mk.injEq] at e1
          simp only at this
          omega
      · rcases List.mem_cons.mp h2 with e2 | e2
        · have := allocated_ptrs_ge _ _ _ (allocated_blocks_mem_ptrs _ _ _ e1)
          simp only [Prod.mk.injEq] at e2
          simp only at this
          omega
        · exact ih _ e1 e2

theorem allocated_blocks_coalesce_from (cur : block_header_t) (rest : List block_header_t)
    (off : Nat) :
    allocated_blocks (coalesce_from cur rest) off = allocated_blocks (cur :: rest) off := by
  induction rest generalizing cur off with
  | nil => simp [coalesce_from]
  | cons nxt rest ih =>
    simp only [coalesce_from]
    split
    · rename_i hboth
      rw [ih]
      have e : off + HEADER_SIZE + (cur.size + (nxt.size + HEADER_SIZE))
          = off + HEADER_SIZE + cur.size + HEADER_SIZE + nxt.size := by omega
      simp [allocated_blocks, hboth.1, hboth.2, e]
    · simp only [allocated_blocks]
      rw [ih]
      simp only [allocated_blocks]

theorem allocated_blocks_coalesce (bs : List block_header_t) (off : Nat) :
    allocated_blocks (coalesce bs) off = allocated_blocks bs off := by
  cases bs with
  | nil => rfl
  | cons b rest => exact allocated_blocks_coalesce_from b rest off

/-- The allocated blocks after `take_block`: the old ones and the block handed out. -/
theorem take_block_blocks (size : Nat) (bs : List block_header_t) (i off : Nat) (b : block_header_t)
    (hb : bs[i]? = some b) (hfree : b.is_free = true) (hsize : size ≤ b.size) :
    ∀ x, x ∈ allocated_blocks (take_block size (b.size - size) bs i).1 off ↔
      x = (block_offset bs i off + HEADER_SIZE, (take_block size (b.size - size) bs i).2) ∨
        x ∈ allocated_blocks bs off := by
  induction bs generalizing i off with
  | nil => simp at hb
  | cons c rest ih =>
    cases i with
    | zero =>
      simp only [List.getElem?_cons_zero, Option.some.injEq] at hb
      subst hb
      have hH : HEADER_SIZE = 12 := rfl
      intro x
      simp only [take_block, block_offset]
      by_cases hsplit : HEADER_SIZE + 8 ≤ c.size - size
      · have e : off + HEADER_SIZE + size + HEADER_SIZE + (c.size - size - HEADER_SIZE)
            = off + HEADER_SIZE + c.size := by omega
        simp [hsplit, allocated_blocks, hfree, e]
      · simp [hsplit, allocated_blocks, hfree]
    | succ j =>
      simp only [List.getElem?_cons_succ] at hb
      intro x
      have h4 := ih j (off + HEADER_SIZE + c.size) hb x
      simp only [take_block, block_offset, allocated_blocks]
      split
      · exact h4
      · simp only [List.mem_cons, h4]
        tauto

/-- Marking an allocated block free returns its size and removes exactly that block from the
allocated blocks. -/
theorem mark_free_blocks (a : Nat) (bs : List block_header_t) (off : Nat)
    (ha : a ∈ allocated_ptrs bs off) :
    ∃ sz l, mark_free a bs off = some (sz, l) ∧ (a, sz) ∈ allocated_blocks bs off ∧
      ∀ x, x ∈ allocated_blocks l off ↔ (x ∈ allocated_blocks bs off ∧ x.1 ≠ a) := by
  induction bs generalizing off with
  | nil => simp [allocated_ptrs] at ha
  | cons b rest ih =>
    have hH : HEADER_SIZE = 12 := rfl
    by_cases hp : off + HEADER_SIZE = a
    · have hnf : ¬ b.is_free = true := by
        intro hf
        simp only [allocated_ptrs, hf, if_true] at ha
        have := allocated_ptrs_ge _ _ _ ha
        omega
      refine ⟨b.size, { size := b.size, is_free := true } :: rest,
        by simp only [mark_free, hp, if_true], ?_, ?_⟩
      · simp only [allocated_blocks, hnf, if_false, hp]
        exact List.mem_cons_self _ _
      · intro x
        have hbf : b.is_free = false := by simpa using hnf
        simp only [allocated_blocks, hbf, Bool.false_eq_true, if_false, if_true, List.mem_cons]
        constructor
        · intro hx
          have := allocated_ptrs_ge _ _ _ (allocated_blocks_mem_ptrs _ _ _ hx)
          exact ⟨Or.inr hx, by omega⟩
        · rintro ⟨hx | hx, hne⟩
          · exact absurd (by rw [hx]; exact hp) hne
          · exact hx
    · have ha' : a ∈ allocated_ptrs rest (off + HEADER_SIZE + b.size) := by
        simp only [allocated_ptrs] at ha
        split at ha
        · exact ha
        · rcases List.mem_cons.mp ha with h | h
          · exact absurd h.symm hp
          · exact h
      obtain ⟨sz, l, h1, h2, h3⟩ := ih _ ha'
      refine ⟨sz, b :: l, by simp only [mark_free, hp, if_false, h1], ?_, ?_⟩
      · simp only [allocated_blocks]
        split
        · exact h2
        · exact List.mem_cons_of_mem _ h2
      · intro x
        simp only [allocated_blocks]
        split
        · exact h3 x
        · simp only [List.mem_cons, h3 x]
          constructor
          · rintro (h | h)
            · refine ⟨Or.inl h, ?_⟩
              rw [h]
              exact hp
            · exact ⟨Or.inr h.1, h.2⟩
          · rintro ⟨h | h, hne⟩
            · exact Or.inl h
            · exact Or.inr ⟨h, hne⟩

/-- A successful allocation adds one allocated block, at a fresh address, of at least the
rounded size, and charges its size and header to `used_size`. -/
theorem memory_pool_alloc_blocks (p p' : memory_pool_t) (size a : Nat)
    (h : memory_pool_alloc p size = (some a, p')) :
    ∃ sz, p'.used_size = (p.used_size + (sz + HEADER_SIZE)) % SIZE_MOD ∧
      p'.total_size = p.total_size ∧ align8 size ≤ sz ∧
      block_capacity a p'.first_block 0 = sz ∧
      a ∉ allocated_ptrs p.first_block 0 ∧
      ∀ x, x ∈ allocated_blocks p'.first_block 0 ↔
        x = (a, sz) ∨ x ∈ allocated_blocks p.first_block 0 := by
  unfold memory_pool_alloc at h
  split at h
  · simp at h
  · split at h
    · simp at h
    · rename_i i diff hscan
      obtain ⟨b, hb, hfree, hsize, hdiff⟩ := best_fit_scan_head _ _ _ _ hscan
      subst hdiff
      obtain ⟨h1, h2, h3, _, _⟩ := take_block_spec (align8 size) p.first_block i 0 b hb hfree hsize
      have h4 := take_block_blocks (align8 size) p.first_block i 0 b hb hfree hsize
      simp only [Prod.mk.injEq, Option.some.injEq] at h
      obtain ⟨ha, hp⟩ := h
      subst ha
      subst hp
      exact ⟨_, rfl, rfl, h1, h2, h3, h4⟩

/-- Freeing an allocated address succeeds, credits the size and header of its block to
`used_size` and removes exactly that block from the allocated blocks. -/
theorem memory_pool_free_blocks (p : memory_pool_t) (a sz : Nat)
    (ha : (a, sz) ∈ allocated_blocks p.first_block 0) :
    ∃ p', memory_pool_free p (some a) = some p' ∧
      p'.used_size = (p.used_size + SIZE_MOD - (sz + HEADER_SIZE) % SIZE_MOD) % SIZE_MOD ∧
      p'.total_size = p.total_size ∧ p'.peak_use = p.peak_use ∧
      ∀ x, x ∈ allocated_blocks p'.first_block 0 ↔
        (x ∈ allocated_blocks p.first_block 0 ∧ x.1 ≠ a) := by
  obtain ⟨sz', l, h1, h2, h3⟩ :=
    mark_free_blocks a p.first_block 0 (allocated_blocks_mem_ptrs _ _ _ ha)
  have hsz : sz' = sz := allocated_blocks_unique _ _ _ _ _ h2 ha
  subst hsz
  refine ⟨{ first_block := coalesce l, total_size := p.total_size,
            used_size := (p.used_size + SIZE_MOD - (sz' + HEADER_SIZE) % SIZE_MOD) % SIZE_MOD,
            peak_use := p.peak_use }, by simp only [memory_pool_free, h1], rfl, rfl, rfl, ?_⟩
  intro x
  simp only [allocated_blocks_coalesce]
  exact h3 x

/-! ## Reliable-delivery overlay -/

/-- Adding a block at a fresh address and then removing the block at that address gives back
the blocks there were. -/
theorem blocks_add_remove (B0 B1 B2 : List (Nat × Nat)) (a sz : Nat)
    (hnew : ∀ x ∈ B0, x.1 ≠ a)
    (h1 : ∀ x, x ∈ B1 ↔ x = (a, sz) ∨ x ∈ B0)
    (h2 : ∀ x, x ∈ B2 ↔ (x ∈ B1 ∧ x.1 ≠ a)) :
    ∀ x, x ∈ B2 ↔ x ∈ B0 := by
  intro x
  rw [h2, h1]
  constructor
  · rintro ⟨h | h, hne⟩
    · exact absurd (by rw [h]) hne
    · exact h
  · intro h
    exact ⟨Or.inr h, hnew x h⟩

theorem allocated_blocks_fresh (bs : List block_header_t) (a : Nat)
    (h : a ∉ allocated_ptrs bs 0) : ∀ x ∈ allocated_blocks bs 0, x.1 ≠ a := by
  intro x hx e
  exact h (e ▸ allocated_blocks_mem_ptrs _ _ _ hx)

/-- Allocating and then freeing the returned address: the free succeeds, `used_size` is restored
modulo the width of `size_t`, and the allocated blocks are as before. -/
theorem memory_pool_alloc_free_blocks (p p1 : memory_pool_t) (size a : Nat)
    (h : memory_pool_alloc p size = (some a, p1)) :
    ∃ p2, memory_pool_free p1 (some a) = some p2 ∧
      p2.used_size = p.used_size % SIZE_MOD ∧ p2.total_size = p.total_size ∧
      ∀ x, x ∈ allocated_blocks p2.first_block 0 ↔ x ∈ allocated_blocks p.first_block 0 := by
  obtain ⟨sz, h1, h2, _, _, h5, h6⟩ := memory_pool_alloc_blocks p p1 size a h
  obtain ⟨p2, h7, h8, h9, _, h10⟩ :=
    memory_pool_free_blocks p1 a sz ((h6 _).mpr (Or.inl rfl))
  refine ⟨p2, h7, ?_, h9.trans h2, ?_⟩
  · rw [h8, h1]
    simp only [SIZE_MOD]
    omega
  · exact blocks_add_remove _ _ _ a sz (allocated_blocks_fresh _ a h5) h6 h10

/-- When `create_pending_message` returns `NULL`, whatever it allocated has been freed again:
`used_size` and the allocated blocks are as before. -/
theorem create_pending_message_null (config : message_handler_config_t) (pool pool' : memory_pool_t)
    (topic_name data : List Nat) (data_len : Nat) (priority : msg_priority_t) (qos : topic_qos_t)
    (timer_ok : Bool) (hu : pool.used_size < SIZE_MOD)
    (h : create_pending_message config pool topic_name data data_len priority qos timer_ok
      = some (none, pool')) :
    pool'.used_size = pool.used_size ∧ pool'.total_size = pool.total_size ∧
      ∀ x, x ∈ allocated_blocks pool'.first_block 0 ↔ x ∈ allocated_blocks pool.first_block 0 := by
  unfold create_pending_message at h
  split at h
  · simp only [Option.some.injEq, Prod.mk.injEq, true_and] at h
    subst h
    exact ⟨rfl, rfl, fun x => Iff.rfl⟩
  · rename_i m pool1 hm
    obtain ⟨pm, hfm, hum, htm, hbm⟩ := memory_pool_alloc_free_blocks _ _ _ _ hm
    split at h
    · rw [hfm] at h
      simp only [Option.some.injEq, Prod.mk.injEq, true_and] at h
      subst h
      exact ⟨by rw [hum]; exact Nat.mod_eq_of_lt hu, htm, hbm⟩
    · rename_i d pool2 hd
      split at h
      · split at h
        · simp at h
        · obtain ⟨szm, h1, h2, _, _, h5, h6⟩ := memory_pool_alloc_blocks _ _ _ _ hm
          obtain ⟨p3, hfd, hud, htd, hbd⟩ := memory_pool_alloc_free_blocks _ _ _ _ hd
          rw [hfd] at h
          obtain ⟨p4, hf4, hu4, ht4, _, hb4⟩ :=
            memory_pool_free_blocks p3 m szm ((hbd _).mpr ((h6 _).mpr (Or.inl rfl)))
          simp only [hf4, Option.some.injEq, Prod.mk.injEq, true_and] at h
          subst h
          refine ⟨?_, ?_, ?_⟩
          · rw [hu4, hud, h1]
            simp only [SIZE_MOD] at hu ⊢
            omega
          · rw [ht4, htd, h2]
          · have h6' : ∀ x, x ∈ allocated_blocks p3.first_block 0 ↔
                x = (m, szm) ∨ x ∈ allocated_blocks pool.first_block 0 := by
              intro x
              rw [hbd, h6]
            exact blocks_add_remove _ _ _ m szm (allocated_blocks_fresh _ m h5) h6' hb4
      · simp at h

/-- A publish of a valid payload (`len` bytes readable at the source, rounding of `len` not
wrapping) in a state whose registered topics have live queues completes. -/
theorem pubsub_publish_total (s : pubsub_state) (name src : List Nat) (len : Nat)
    (p : msg_priority_t) (now : Nat) (hq : queues_live s) (hsrc : len ≤ src.length)
    (hwrap : len + 7 < SIZE_MOD) :
    ∃ e s', pubsub_publish s (some name) (some src) len p now = some (e, s') := by
  suffices hsome : (pubsub_publish s (some name) (some src) len p now).isSome = true by
    obtain ⟨x, hx⟩ := Option.isSome_iff_exists.mp hsome
    exact ⟨x.1, x.2, hx⟩
  cases hfind : find_topic name s.topics s.topic_count with
  | none => simp [pubsub_publish, hfind]
  | some r =>
    obtain ⟨i, topic⟩ := r
    obtain ⟨hget, _, hi⟩ := find_topic_some _ _ _ _ _ hfind
    cases hqq : topic.msg_queue with
    | none => exact absurd hqq (hq i topic hi hget)
    | some q =>
      by_cases hfull : q.length ≤ q.items.length
      · obtain ⟨e, s', h, _⟩ :=
          pubsub_publish_full s name i topic q src len p now hfind hqq hfull hsrc hwrap
        rw [h]
        rfl
      · have hlt : q.items.length < q.length := Nat.lt_of_not_le hfull
        by_cases hpos : 0 < len
        · cases halloc : memory_pool_alloc s.pool len with
          | mk r pool' =>
            cases r with
            | none => simp [pubsub_publish, hfind, hpos, halloc]
            | some a =>
              obtain ⟨sz, _, _, h3, h4, _⟩ := memory_pool_alloc_some _ _ _ _ halloc
              have hcap : len ≤ block_capacity a pool'.first_block 0 := by
                have := align8_ge len hwrap
                omega
              by_cases hp : p = MSG_PRIORITY_CRITICAL
              · simp [pubsub_publish, hfind, hpos, halloc, hsrc, hcap, publish_enqueue, hqq, hp,
                  xQueueSendToFront, hlt]
              · simp [pubsub_publish, hfind, hpos, halloc, hsrc, hcap, publish_enqueue, hqq, hp,
                  xQueueSend, hlt]
        · by_cases hp : p = MSG_PRIORITY_CRITICAL
          · simp [pubsub_publish, hfind, hpos, publish_enqueue, hqq, hp, xQueueSendToFront, hlt]
          · simp [pubsub_publish, hfind, hpos, publish_enqueue, hqq, hp, xQueueSend, hlt]

/-- Shape of the record `create_pending_message` returns, and what the pool has gained. -/
theorem create_pending_message_some (config : message_handler_config_t) (pool pool' : memory_pool_t)
    (topic_name data : List Nat) (data_len : Nat) (priority : msg_priority_t) (qos : topic_qos_t)
    (timer_ok : Bool) (r : pending_message_t)
    (h : create_pending_message config pool topic_name data data_len priority qos timer_ok
      = some (some r, pool')) :
    ∃ m d pool1 szm szd,
      memory_pool_alloc pool SIZEOF_PENDING_MESSAGE = (some m, pool1) ∧
      memory_pool_alloc pool1 data_len = (some d, pool') ∧
      data_len ≤ data.length ∧ timer_ok = true ∧
      r = { msg_id := 0, topic := copy_name topic_name,
            data := { addr := d, bytes := data.take data_len },
            data_len := data_len, priority := priority, qos := qos,
            retry_count := 0, max_retries := config.retry_count,
            retry_timer := false, addr := m } ∧
      m ≠ d ∧ m ∉ allocated_ptrs pool.first_block 0 ∧ d ∉ allocated_ptrs pool.first_block 0 ∧
      pool'.used_size
        = ((pool.used_size + (szm + HEADER_SIZE)) % SIZE_MOD + (szd + HEADER_SIZE)) % SIZE_MOD ∧
      align8 SIZEOF_PENDING_MESSAGE ≤ szm ∧ align8 data_len ≤ szd ∧
      ∀ x, x ∈ allocated_blocks pool'.first_block 0 ↔
        x = (d, szd) ∨ x = (m, szm) ∨ x ∈ allocated_blocks pool.first_block 0 := by
  unfold create_pending_message at h
  split at h
  · simp at h
  · rename_i m pool1 hm
    split at h
    · split at h <;> simp at h
    · rename_i d pool2 hd
      obtain ⟨szm, h1, _, h3, _, h5, h6⟩ := memory_pool_alloc_blocks _ _ _ _ hm
      obtain ⟨szd, g1, _, g3, _, g5, g6⟩ := memory_pool_alloc_blocks _ _ _ _ hd
      have hmem : m ∈ allocated_ptrs pool1.first_block 0 :=
        allocated_blocks_mem_ptrs _ _ (m, szm) ((h6 _).mpr (Or.inl rfl))
      split at h
      · rename_i hok
        split at h
        · rename_i htimer
          simp only [Option.some.injEq, Prod.mk.injEq] at h
          obtain ⟨hr, hp⟩ := h
          subst hp
          refine ⟨m, d, pool1, szm, szd, hm, hd, hok.1, htimer, hr.symm, ?_, h5, ?_, ?_, h3, g3, ?_⟩
          · intro e
            exact g5 (e ▸ hmem)
          · intro hdm
            apply g5
            rw [allocated_ptrs_eq_map] at hdm ⊢
            obtain ⟨x, hx, hx1⟩ := List.mem_map.mp hdm
            exact List.mem_map.mpr ⟨x, (h6 x).mpr (Or.inr hx), hx1⟩
          · rw [g1, h1]
          · intro x
            rw [g6, h6]
        · split at h
          · simp at h
          · split at h <;> simp at h
      · simp at h

/-- Every way `message_publish_with_qos` can return after its argument check has passed (a
message ID has been stored): the ID is the counter, the counter has advanced, and the pending
list is either unchanged or has gained one record carrying that ID at its head. -/
theorem message_publish_with_qos_id (st st' : system_state) (topic_name data : Option (List Nat))
    (len : Nat) (p : msg_priority_t) (qos : topic_qos_t) (out timer_ok : Bool) (now code id : Nat)
    (h : message_publish_with_qos st topic_name data len p qos out timer_ok now
      = some (code, some id, st')) :
    id = st.message_handler_ctx.next_msg_id ∧
    st'.message_handler_ctx.next_msg_id = (id + 1) % SIZE_MOD ∧
    st'.error_queue = st.error_queue ∧
    st'.message_handler_ctx.config = st.message_handler_ctx.config ∧
    (st'.message_handler_ctx.pending_messages = st.message_handler_ctx.pending_messages ∨
      ∃ r, r.msg_id = id ∧
        st'.message_handler_ctx.pending_messages = r :: st.message_handler_ctx.pending_messages) := by
  unfold message_publish_with_qos at h
  split at h
  · simp at h
  · simp at h
  · split at h
    · simp at h
    · simp only at h
      split at h
      · split at h
        · simp at h
        · simp only [Option.some.injEq, Prod.mk.injEq] at h
          obtain ⟨_, h2, h3⟩ := h
          subst h3
          exact ⟨h2.symm, by rw [← h2], rfl, rfl, Or.inl rfl⟩
      · split at h
        · simp at h
        · simp only [Option.some.injEq, Prod.mk.injEq] at h
          obtain ⟨_, h2, h3⟩ := h
          subst h3
          exact ⟨h2.symm, by rw [← h2], rfl, rfl, Or.inl rfl⟩
        · split at h
          · simp at h
          · simp only [Option.some.injEq, Prod.mk.injEq] at h
            obtain ⟨_, h2, h3⟩ := h
            subst h3
            exact ⟨h2.symm, by rw [← h2], rfl, rfl, Or.inr ⟨_, h2, rfl⟩⟩

/-- The state a successful `message_handler_init` leaves satisfies `ids_inv`: the counter is 1
and nothing is pending. -/
theorem ids_inv_init (st : system_state) (cfg : message_handler_config_t) :
    (message_handler_init st (some cfg) true).1 = ESP_OK ∧
    ids_inv (message_handler_init st (some cfg) true).2 := by
  refine ⟨rfl, ?_⟩
  show ids_inv { st with
    message_handler_ctx :=
      { config := cfg, pending_messages := [], next_msg_id := 1, lock := true } }
  refine ⟨Nat.zero_lt_one, ?_, List.Pairwise.nil⟩
  intro r hr
  cases hr

/-- Message IDs up to the wrap of the counter: a `message_publish_with_qos` call that passes
argument validation returns the current value of the 32-bit counter `next_msg_id` and advances
the counter by one modulo 2^32. While the counter has not wrapped (`ids_inv`, which holds after
`message_handler_init` and is kept by every such call) and the ID is below 2^32 - 1, the ID is
not 0, the next ID is greater by one, and the pending IDs stay pairwise distinct (strictly
decreasing from the head). After the ID 2^32 - 1 the counter is 0. -/
theorem qos_publish_message_id (st st' : system_state) (topic_name data : Option (List Nat))
    (len : Nat) (p : msg_priority_t) (qos : topic_qos_t) (out timer_ok : Bool) (now code id : Nat)
    (h : message_publish_with_qos st topic_name data len p qos out timer_ok now
      = some (code, some id, st')) :
    id = st.message_handler_ctx.next_msg_id ∧
    st'.message_handler_ctx.next_msg_id = (id + 1) % SIZE_MOD ∧
    (ids_inv st → id + 1 < SIZE_MOD →
      id ≠ 0 ∧ st'.message_handler_ctx.next_msg_id = id + 1 ∧ ids_inv st' ∧
      (st'.message_handler_ctx.pending_messages.map pending_message_t.msg_id).Nodup) ∧
    (id = SIZE_MAX → st'.message_handler_ctx.next_msg_id = 0) := by
  obtain ⟨h1, h2, _, _, h5⟩ := message_publish_with_qos_id st st' _ _ _ _ _ _ _ _ _ _ h
  refine ⟨h1, h2, ?_, ?_⟩
  · intro hinv hlt
    obtain ⟨i1, i2, i3⟩ := hinv
    have hnext : st'.message_handler_ctx.next_msg_id = id + 1 := by
      rw [h2]
      exact Nat.mod_eq_of_lt hlt
    have hinv' : ids_inv st' := by
      refine ⟨by omega, ?_, ?_⟩
      · intro r hr
        rcases h5 with e | ⟨r0, e0, e⟩
        · rw [e] at hr
          have := i2 r hr
          omega
        · rw [e] at hr
          rcases List.mem_cons.mp hr with e1 | e1
          · rw [e1, e0]
            omega
          · have := i2 r e1
            omega
      · rcases h5 with e | ⟨r0, e0, e⟩
        · rw [e]
          exact i3
        · rw [e, List.map_cons, List.pairwise_cons]
          refine ⟨?_, i3⟩
          intro y hy
          obtain ⟨r, hr, hry⟩ := List.mem_map.mp hy
          have := i2 r hr
          omega
    refine ⟨by omega, hnext, hinv', ?_⟩
    exact hinv'.2.2.imp (fun hxy => by omega)
  · intro hmax
    rw [h2, hmax]
    decide

/-- The message IDs of the first QoS-1 publish after `message_handler_init`. -/
theorem qos_publish_message_id_witness :
    1 = system_ready.message_handler_ctx.next_msg_id ∧
    system_qos1.message_handler_ctx.next_msg_id = (1 + 1) % SIZE_MOD ∧
    (ids_inv system_ready → 1 + 1 < SIZE_MOD →
      1 ≠ 0 ∧ system_qos1.message_handler_ctx.next_msg_id = 1 + 1 ∧ ids_inv system_qos1 ∧
      (system_qos1.message_handler_ctx.pending_messages.map pending_message_t.msg_id).Nodup) ∧
    (1 = SIZE_MAX → system_qos1.message_handler_ctx.next_msg_id = 0) :=
  qos_publish_message_id system_ready system_qos1 (some sensor_topic) (some temp_msg) 4
    MSG_PRIORITY_NORMAL TOPIC_QOS_AT_LEAST_ONCE true true 1000 0 1 (by decide)

theorem qos0_unknown_topic_eq (st : system_state) (hcore : st.pubsub = state_subscribed) :
    qos0_unknown_topic st
      = { st with
          message_handler_ctx :=
            { st.message_handler_ctx with
              next_msg_id := (st.message_handler_ctx.next_msg_id + 1) % SIZE_MOD } } := by
  have hfind : find_topic (cstr "none") state_subscribed.topics state_subscribed.topic_count
      = none := by decide
  have hlen : ¬ (4 = 0 ∨ true = false) := by decide
  simp only [qos0_unknown_topic, message_publish_with_qos, hlen, if_false, if_true, hcore,
    pubsub_publish, hfind]
  simp

theorem qos0_unknown_times_eq (n : Nat) (st : system_state) (hcore : st.pubsub = state_subscribed) :
    qos0_unknown_times n st
      = { st with
          message_handler_ctx :=
            { st.message_handler_ctx with
              next_msg_id := (st.message_handler_ctx.next_msg_id + n) % SIZE_MOD } } ∨
    (n = 0 ∧ qos0_unknown_times n st = st) := by
  induction n generalizing st with
  | zero => exact Or.inr ⟨rfl, rfl⟩
  | succ m ih =>
    left
    simp only [qos0_unknown_times]
    rw [qos0_unknown_topic_eq st hcore]
    rcases ih { st with
          message_handler_ctx :=
            { st.message_handler_ctx with
              next_msg_id := (st.message_handler_ctx.next_msg_id + 1) % SIZE_MOD } } hcore with
      e | ⟨e0, e⟩
    · rw [e]
      simp only [SIZE_MOD]
      congr 2
      omega
    · subst e0
      rw [e]

/-- C13, evaluation at the failing input: 2^32 - 2 validated calls after
`message_handler_init` (QoS 0, on an unregistered topic, so that nothing but the counter
changes) lead to `system_wrap`; there the next call is issued the ID 2^32 - 1 and the call after
it is issued the ID 0, where the claim requires the ID 1: `next_msg_id++` wraps to 0 and 0 is
handed out. -/
theorem message_id_wraps_to_zero :
    qos0_unknown_times 4294967294 system_ready = system_wrap ∧
    issued_id (message_publish_with_qos system_wrap (some sensor_topic) (some temp_msg) 4
      MSG_PRIORITY_NORMAL TOPIC_QOS_AT_MOST_ONCE true true 0) = some 4294967295 ∧
    issued_id (message_publish_with_qos
      (qos_publish_temp TOPIC_QOS_AT_MOST_ONCE 0 system_wrap) (some sensor_topic) (some temp_msg) 4
      MSG_PRIORITY_NORMAL TOPIC_QOS_AT_MOST_ONCE true true 1) = some 0 := by
  refine ⟨?_, by decide, by decide⟩
  rcases qos0_unknown_times_eq 4294967294 system_ready rfl with e | ⟨e0, _⟩
  · rw [e]
    rfl
  · exact absurd e0 (by decide)

/-- C16 (amended): when the retry timer fires on a pending record whose `retry_count` has
reached `max_retries`, no re-publish is made and one report of level `WARNING` and code
`TIMEOUT` is handed to the error handler; nothing else changes: the record is not retired, it
stays in the pending list with its counters, and its payload copy and the record itself stay
allocated. The next fire of the same timer does the same again, so each later fire hands over
one more warning. -/
theorem retry_at_ceiling_only_warns (st : system_state) (msg now report_now now2 report_now2 : Nat)
    (r : pending_message_t)
    (hfind : find_pending msg st.message_handler_ctx.pending_messages = some r)
    (hceil : r.max_retries ≤ r.retry_count) :
    ∃ st1 st2,
      retry_timer_callback st msg now report_now = some (none, st1) ∧
      st1.pubsub = st.pubsub ∧ st1.message_handler_ctx = st.message_handler_ctx ∧
      st1.error_queue = error_handler_report st.error_queue
        { level := ERROR_LEVEL_WARNING, code := ERROR_CODE_TIMEOUT, msg_id := r.msg_id,
          topic := r.topic, timestamp := report_now } ∧
      retry_timer_callback st1 msg now2 report_now2 = some (none, st2) ∧
      st2.pubsub = st.pubsub ∧ st2.message_handler_ctx = st.message_handler_ctx ∧
      st2.error_queue = error_handler_report st1.error_queue
        { level := ERROR_LEVEL_WARNING, code := ERROR_CODE_TIMEOUT, msg_id := r.msg_id,
          topic := r.topic, timestamp := report_now2 } := by
  refine ⟨{ st with
            error_queue := error_handler_report st.error_queue
              { level := ERROR_LEVEL_WARNING, code := ERROR_CODE_TIMEOUT, msg_id := r.msg_id,
                topic := r.topic, timestamp := report_now } },
    { st with
      error_queue := error_handler_report
        (error_handler_report st.error_queue
          { level := ERROR_LEVEL_WARNING, code := ERROR_CODE_TIMEOUT, msg_id := r.msg_id,
            topic := r.topic, timestamp := report_now })
        { level := ERROR_LEVEL_WARNING, code := ERROR_CODE_TIMEOUT, msg_id := r.msg_id,
          topic := r.topic, timestamp := report_now2 } },
    ?_, rfl, rfl, rfl, ?_, rfl, rfl, rfl⟩
  · simp only [retry_timer_callback, hfind, hceil, if_true]
  · simp only [retry_timer_callback, hfind, hceil, if_true]

/-- Witness for C16 (amended): the record of `system_qos1` after three fires. -/
theorem retry_at_ceiling_only_warns_witness :
    ∃ st1 st2,
      retry_timer_callback
          ((retry_timer_fires 40 [1, 2, 3] system_qos1).getD ([], system_qos1)).2 40 4 4
        = some (none, st1) ∧
      st1.pubsub = ((retry_timer_fires 40 [1, 2, 3] system_qos1).getD ([], system_qos1)).2.pubsub ∧
      st1.message_handler_ctx
        = ((retry_timer_fires 40 [1, 2, 3] system_qos1).getD ([], system_qos1)).2.message_handler_ctx ∧
      st1.error_queue = error_handler_report
        ((retry_timer_fires 40 [1, 2, 3] system_qos1).getD ([], system_qos1)).2.error_queue
        { level := ERROR_LEVEL_WARNING, code := ERROR_CODE_TIMEOUT, msg_id := 1,
          topic := sensor_topic, timestamp := 4 } ∧
      retry_timer_callback st1 40 5 5 = some (none, st2) ∧
      st2.pubsub = ((retry_timer_fires 40 [1, 2, 3] system_qos1).getD ([], system_qos1)).2.pubsub ∧
      st2.message_handler_ctx
        = ((retry_timer_fires 40 [1, 2, 3] system_qos1).getD ([], system_qos1)).2.message_handler_ctx ∧
      st2.error_queue = error_handler_report st1.error_queue
        { level := ERROR_LEVEL_WARNING, code := ERROR_CODE_TIMEOUT, msg_id := 1,
          topic := sensor_topic, timestamp := 5 } :=
  retry_at_ceiling_only_warns
    ((retry_timer_fires 40 [1, 2, 3] system_qos1).getD ([], system_qos1)).2 40 4 4 5 5
    { msg_id := 1, topic := sensor_topic, data := { addr := 156, bytes := temp_msg },
      data_len := 4, priority := MSG_PRIORITY_NORMAL, qos := TOPIC_QOS_AT_LEAST_ONCE,
      retry_count := 3, max_retries := 3, retry_timer := true, addr := 40 }
    (by decide) (by decide)

/-- Counterexample to C16 as stated: the record of `system_qos1` (ceiling 3) reaches
`retry_count = 3` with the third fire; after the fourth fire it is still in the pending list,
the record and its payload copy are still allocated, and one warning is queued; the fifth fire
queues a second warning for it. -/
theorem record_at_ceiling_is_not_retired :
    retry_summary 40 (retry_timer_fires 40 [1, 2, 3] system_qos1)
      = some { pending := [(40, 3, 3)], still_allocated := true, report_levels := some [] } ∧
    retry_summary 40 (retry_timer_fires 40 [1, 2, 3, 4] system_qos1)
      = some { pending := [(40, 3, 3)], still_allocated := true,
               report_levels := some [ERROR_LEVEL_WARNING] } ∧
    retry_summary 40 (retry_timer_fires 40 [1, 2, 3, 4, 5] system_qos1)
      = some { pending := [(40, 3, 3)], still_allocated := true,
               report_levels := some [ERROR_LEVEL_WARNING, ERROR_LEVEL_WARNING] } := by
  decide

theorem pubsub_err_code_ne_no_mem (e : pubsub_err_t) : pubsub_err_code e ≠ ESP_ERR_NO_MEM := by
  cases e <;> decide

theorem pubsub_err_code_injective (e1 e2 : pubsub_err_t)
    (h : pubsub_err_code e1 = pubsub_err_code e2) : e1 = e2 := by
  cases e1 <;> cases e2 <;> first | rfl | (exact absurd h (by decide))

/-- A publish that returns `PUBSUB_ERR_NO_MEMORY` leaves the state as it was. -/
theorem pubsub_publish_no_memory (s s' : pubsub_state) (topic_name : Option (List Nat))
    (data : Option (List Nat)) (len : Nat) (p : msg_priority_t) (now : Nat)
    (h : pubsub_publish s topic_name data len p now = some (PUBSUB_ERR_NO_MEMORY, s')) :
    s' = s := by
  rcases pubsub_publish_cases s s' topic_name data len p now _ h with
    ⟨h1, _⟩ | ⟨name, i, topic, pool', d, _, _, _, henq⟩
  · exact h1
  · obtain ⟨q, _, ⟨h1, _⟩ | ⟨h1, _⟩⟩ := publish_enqueue_cases _ _ _ _ _ _ henq
    · cases h1
    · cases h1

/-- C17 (amended): when `message_publish_with_qos` with QoS 1 or 2 fails while building the
pending record (`ESP_ERR_NO_MEM`: the record, the payload copy or the timer could not be
obtained), the pending list, the registry, `used_size` and the allocated blocks are as before
the call. When the inner publish returns `PUBSUB_ERR_NO_MEMORY` (code 2), the inner publish
itself leaves nothing behind, but the record inserted before it stays at the head of the
pending list with its timer started, and the record and its payload copy stay allocated, so
`used_size` has grown by these two blocks. -/
theorem qos_publish_allocation_failure (st st' : system_state) (name data : List Nat) (len : Nat)
    (p : msg_priority_t) (qos : topic_qos_t) (timer_ok : Bool) (now code id : Nat)
    (hqos : qos ≠ TOPIC_QOS_AT_MOST_ONCE) (hu : st.pubsub.pool.used_size < SIZE_MOD)
    (h : message_publish_with_qos st (some name) (some data) len p qos true timer_ok now
      = some (code, some id, st')) :
    (code = ESP_ERR_NO_MEM →
      st'.message_handler_ctx.pending_messages = st.message_handler_ctx.pending_messages ∧
      st'.pubsub.topics = st.pubsub.topics ∧
      st'.pubsub.pool.used_size = st.pubsub.pool.used_size ∧
      ∀ x, x ∈ allocated_blocks st'.pubsub.pool.first_block 0 ↔
        x ∈ allocated_blocks st.pubsub.pool.first_block 0) ∧
    (code = pubsub_err_code PUBSUB_ERR_NO_MEMORY →
      ∃ r szm szd,
        st'.message_handler_ctx.pending_messages = r :: st.message_handler_ctx.pending_messages ∧
        r.msg_id = id ∧ r.retry_timer = true ∧
        st'.pubsub.topics = st.pubsub.topics ∧
        st'.pubsub.pool.used_size
          = ((st.pubsub.pool.used_size + (szm + HEADER_SIZE)) % SIZE_MOD
              + (szd + HEADER_SIZE)) % SIZE_MOD ∧
        r.addr ∉ allocated_ptrs st.pubsub.pool.first_block 0 ∧
        r.data.addr ∉ allocated_ptrs st.pubsub.pool.first_block 0 ∧
        ∀ x, x ∈ allocated_blocks st'.pubsub.pool.first_block 0 ↔
          x = (r.data.addr, szd) ∨ x = (r.addr, szm) ∨
            x ∈ allocated_blocks st.pubsub.pool.first_block 0) := by
  by_cases hlen : len = 0
  · simp [message_publish_with_qos, hlen] at h
  · have hcond : ¬ (len = 0 ∨ true = false) := by simp [hlen]
    simp only [message_publish_with_qos, if_neg hcond, if_neg hqos] at h
    cases hcreate : create_pending_message st.message_handler_ctx.config st.pubsub.pool name data
        len p qos timer_ok with
    | none => simp [hcreate] at h
    | some res =>
      obtain ⟨rec, pool'⟩ := res
      cases rec with
      | none =>
        simp only [hcreate, Option.some.injEq, Prod.mk.injEq] at h
        obtain ⟨hc, _, hs⟩ := h
        obtain ⟨u1, u2, u3⟩ := create_pending_message_null _ _ _ _ _ _ _ _ _ hu hcreate
        constructor
        · intro _
          subst hs
          exact ⟨rfl, rfl, u1, u3⟩
        · intro hcode
          rw [← hc] at hcode
          exact absurd hcode.symm (pubsub_err_code_ne_no_mem _)
      | some pending =>
        simp only [hcreate] at h
        cases hpub : pubsub_publish { st.pubsub with pool := pool' } (some name) (some data) len
            p now with
        | none => simp [hpub] at h
        | some res2 =>
          obtain ⟨e, core⟩ := res2
          simp only [hpub, Option.some.injEq, Prod.mk.injEq] at h
          obtain ⟨hc, hid, hs⟩ := h
          constructor
          · intro hcode
            rw [← hc] at hcode
            exact absurd hcode (pubsub_err_code_ne_no_mem _)
          · intro hcode
            rw [← hc] at hcode
            have he := pubsub_err_code_injective _ _ hcode
            subst he
            have hcore := pubsub_publish_no_memory _ _ _ _ _ _ _ hpub
            obtain ⟨m, d, pool1, szm, szd, _, _, _, _, hr, _, hm, hd, hused, _, _, hblocks⟩ :=
              create_pending_message_some _ _ _ _ _ _ _ _ _ _ hcreate
            subst hs
            subst hcore
            subst hr
            exact ⟨_, szm, szd, rfl, hid, rfl, rfl, hused, hm, hd, hblocks⟩

set_option maxRecDepth 100000 in
/-- Witness for C17 (amended): the 82nd unacknowledged QoS-1 publish of `"25.5"`. -/
theorem qos_publish_allocation_failure_witness :
    (2 = ESP_ERR_NO_MEM →
      system_orphan.message_handler_ctx.pending_messages
        = system_nearly_full.message_handler_ctx.pending_messages ∧
      system_orphan.pubsub.topics = system_nearly_full.pubsub.topics ∧
      system_orphan.pubsub.pool.used_size = system_nearly_full.pubsub.pool.used_size ∧
      ∀ x, x ∈ allocated_blocks system_orphan.pubsub.pool.first_block 0 ↔
        x ∈ allocated_blocks system_nearly_full.pubsub.pool.first_block 0) ∧
    (2 = pubsub_err_code PUBSUB_ERR_NO_MEMORY →
      ∃ r szm szd,
        system_orphan.message_handler_ctx.pending_messages
          = r :: system_nearly_full.message_handler_ctx.pending_messages ∧
        r.msg_id = 82 ∧ r.retry_timer = true ∧
        system_orphan.pubsub.topics = system_nearly_full.pubsub.topics ∧
        system_orphan.pubsub.pool.used_size
          = ((system_nearly_full.pubsub.pool.used_size + (szm + HEADER_SIZE)) % SIZE_MOD
              + (szd + HEADER_SIZE)) % SIZE_MOD ∧
        r.addr ∉ allocated_ptrs system_nearly_full.pubsub.pool.first_block 0 ∧
        r.data.addr ∉ allocated_ptrs system_nearly_full.pubsub.pool.first_block 0 ∧
        ∀ x, x ∈ allocated_blocks system_orphan.pubsub.pool.first_block 0 ↔
          x = (r.data.addr, szd) ∨ x = (r.addr, szm) ∨
            x ∈ allocated_blocks system_nearly_full.pubsub.pool.first_block 0) :=
  qos_publish_allocation_failure system_nearly_full system_orphan sensor_topic temp_msg 4
    MSG_PRIORITY_NORMAL TOPIC_QOS_AT_LEAST_ONCE true 81 2 82 (by decide) (by decide) (by decide)

set_option maxRecDepth 100000 in
/-- Counterexample to C17 as stated: after 81 QoS-1 publishes of `"25.5"` that nobody drained or
acknowledged, the 82nd call obtains its record and payload copy, its inner publish fails with
`PUBSUB_ERR_NO_MEMORY` (returned code 2), and the call leaves the new record in the pending
list (82 records instead of 81) and `used_size` at 12800 instead of 12664. -/
theorem qos_publish_leaves_record_on_inner_no_memory :
    (message_publish_with_qos system_nearly_full (some sensor_topic) (some temp_msg) 4
        MSG_PRIORITY_NORMAL TOPIC_QOS_AT_LEAST_ONCE true true 81).map (fun r => (r.1, r.2.1))
      = some (pubsub_err_code PUBSUB_ERR_NO_MEMORY, some 82) ∧
    system_nearly_full.message_handler_ctx.pending_messages.length = 81 ∧
    system_orphan.message_handler_ctx.pending_messages.length = 82 ∧
    system_nearly_full.pubsub.pool.used_size = 12664 ∧
    system_orphan.pubsub.pool.used_size = 12800 := by
  decide

/-- A publish never releases a block that was allocated before it. -/
theorem pubsub_publish_allocated_mono (s s' : pubsub_state) (topic_name : Option (List Nat))
    (data : Option (List Nat)) (len : Nat) (p : msg_priority_t) (now : Nat) (e : pubsub_err_t)
    (hres : pubsub_publish s topic_name data len p now = some (e, s')) :
    ∀ x ∈ allocated_ptrs s.pool.first_block 0, x ∈ allocated_ptrs s'.pool.first_block 0 := by
  intro x hx
  rcases pubsub_publish_cases s s' topic_name data len p now e hres with
    ⟨h1, _⟩ | ⟨name, i, topic, pool', d, _, hfind, hpay, henq⟩
  · exact h1 ▸ hx
  · obtain ⟨q, hq, ⟨_, _, hs'⟩ | ⟨_, _, pool'', hfree, hs'⟩⟩ := publish_enqueue_cases _ _ _ _ _ _ henq
    · rw [hs']
      rcases hpay with ⟨_, hp, _⟩ | ⟨_, a, src, _, _, halloc, _, _⟩
      · subst hp
        exact hx
      · obtain ⟨sz, _, _, _, _, _, hall, _⟩ := memory_pool_alloc_some _ _ _ _ halloc
        exact (hall x).mpr (Or.inr hx)
    · rw [hs']
      rcases hpay with ⟨_, hp, hd⟩ | ⟨_, a, src, _, _, halloc, _, hd⟩
      · subst hp
        subst hd
        simp only [Option.map_none', memory_pool_free, Option.some.injEq] at hfree
        subst hfree
        exact hx
      · subst hd
        obtain ⟨p2, hf2, _, _, hsame⟩ := memory_pool_free_alloc _ _ _ _ halloc
        simp only [Option.map_some'] at hfree
        rw [hf2] at hfree
        simp only [Option.some.injEq] at hfree
        subst hfree
        show x ∈ allocated_ptrs p2.first_block 0
        rw [hsame]
        exact hx

/-- C14: a `message_publish_with_qos` call with a valid payload, in a state whose registered
topics have live queues, completes. With QoS 0 it leaves the pending list unchanged. With QoS 1
or 2 (treated alike), when `create_pending_message` obtains its memory, exactly one record is
put at the head of the pending list; it carries the returned message ID, the copy of the topic
name, a payload copy of its own in the pool holding the first `len` input bytes, `len`, the
priority, `retry_count = 0` and `max_retries` equal to the configured retry count. In both
cases the inner publish is made once, and its result is the returned code. -/
theorem qos_publish_adds_pending_record (st : system_state) (name data : List Nat) (len : Nat)
    (p : msg_priority_t) (qos : topic_qos_t) (timer_ok : Bool) (now : Nat) (hlen : 0 < len)
    (hsrc : len ≤ data.length) (hwrap : len + 7 < SIZE_MOD) (hq : queues_live st.pubsub) :
    (qos = TOPIC_QOS_AT_MOST_ONCE →
      ∃ e core,
        pubsub_publish st.pubsub (some name) (some data) len p now = some (e, core) ∧
        message_publish_with_qos st (some name) (some data) len p qos true timer_ok now
          = some (pubsub_err_code e, some st.message_handler_ctx.next_msg_id,
              { st with
                pubsub := core,
                message_handler_ctx :=
                  { st.message_handler_ctx with
                    next_msg_id := (st.message_handler_ctx.next_msg_id + 1) % SIZE_MOD } })) ∧
    (qos ≠ TOPIC_QOS_AT_MOST_ONCE →
      ∀ r pool',
        create_pending_message st.message_handler_ctx.config st.pubsub.pool name data len p qos
          timer_ok = some (some r, pool') →
        ∃ e core,
          pubsub_publish { st.pubsub with pool := pool' } (some name) (some data) len p now
            = some (e, core) ∧
          message_publish_with_qos st (some name) (some data) len p qos true timer_ok now
            = some (pubsub_err_code e, some st.message_handler_ctx.next_msg_id,
                { st with
                  pubsub := core,
                  message_handler_ctx :=
                    { st.message_handler_ctx with
                      next_msg_id := (st.message_handler_ctx.next_msg_id + 1) % SIZE_MOD,
                      pending_messages :=
                        { msg_id := st.message_handler_ctx.next_msg_id,
                          topic := copy_name name,
                          data := { addr := r.data.addr, bytes := data.take len },
                          data_len := len, priority := p, qos := qos, retry_count := 0,
                          max_retries := st.message_handler_ctx.config.retry_count,
                          retry_timer := true, addr := r.addr } ::
                        st.message_handler_ctx.pending_messages } }) ∧
          (name.length < MAX_TOPIC_NAME_LENGTH → copy_name name = name) ∧
          (data.length = len → data.take len = data) ∧
          r.addr ≠ r.data.addr ∧
          r.addr ∉ allocated_ptrs st.pubsub.pool.first_block 0 ∧
          r.data.addr ∉ allocated_ptrs st.pubsub.pool.first_block 0 ∧
          r.addr ∈ allocated_ptrs core.pool.first_block 0 ∧
          r.data.addr ∈ allocated_ptrs core.pool.first_block 0) := by
  have hcond : ¬ (len = 0 ∨ true = false) := by
    simp only [Bool.true_eq_false, or_false]
    omega
  constructor
  · intro hq0
    obtain ⟨e, core, hpub⟩ := pubsub_publish_total st.pubsub name data len p now hq hsrc hwrap
    refine ⟨e, core, hpub, ?_⟩
    simp only [message_publish_with_qos, if_neg hcond, hq0, if_true, hpub]
  · intro hq1 r pool' hcreate
    have hq' : queues_live { st.pubsub with pool := pool' } := hq
    obtain ⟨e, core, hpub⟩ :=
      pubsub_publish_total { st.pubsub with pool := pool' } name data len p now hq' hsrc hwrap
    obtain ⟨m, d, pool1, szm, szd, _, _, _, _, hr, hmd, hm, hd, _, _, _, hblocks⟩ :=
      create_pending_message_some _ _ _ _ _ _ _ _ _ _ hcreate
    have hmono := pubsub_publish_allocated_mono _ _ _ _ _ _ _ _ hpub
    subst hr
    refine ⟨e, core, hpub, ?_, ?_, ?_, hmd, hm, hd, ?_, ?_⟩
    · simp only [message_publish_with_qos, if_neg hcond, if_neg hq1, hcreate, hpub]
    · intro hn
      simp only [copy_name, MAX_TOPIC_NAME_LENGTH] at hn ⊢
      exact List.take_of_length_le (by omega)
    · intro hl
      exact List.take_of_length_le (by omega)
    · apply hmono
      exact allocated_blocks_mem_ptrs _ _ (m, szm) ((hblocks _).mpr (Or.inr (Or.inl rfl)))
    · apply hmono
      exact allocated_blocks_mem_ptrs _ _ (d, szd) ((hblocks _).mpr (Or.inl rfl))

theorem queues_live_of_take (s : pubsub_state)
    (h : ∀ t ∈ s.topics.take s.topic_count, t.msg_queue ≠ none) : queues_live s := by
  intro i t hi hget
  apply h t
  have hget' : (s.topics.take s.topic_count)[i]? = some t := by
    rw [List.getElem?_take_of_lt hi]
    exact hget
  exact List.getElem?_mem hget'

/-- Witness for C14: the first QoS-1 publish of `"25.5"` after `message_handler_init`; the
record and its payload copy are obtained from the pool. -/
theorem qos_publish_adds_pending_record_witness :
    (0 < 4 ∧ 4 ≤ temp_msg.length ∧ 4 + 7 < SIZE_MOD ∧
      (create_pending_message system_ready.message_handler_ctx.config system_ready.pubsub.pool
        sensor_topic temp_msg 4 MSG_PRIORITY_NORMAL TOPIC_QOS_AT_LEAST_ONCE true).map
          (fun x => x.1.isSome) = some true) ∧
    ((TOPIC_QOS_AT_LEAST_ONCE = TOPIC_QOS_AT_MOST_ONCE →
      ∃ e core,
        pubsub_publish system_ready.pubsub (some sensor_topic) (some temp_msg) 4
          MSG_PRIORITY_NORMAL 1000 = some (e, core) ∧
        message_publish_with_qos system_ready (some sensor_topic) (some temp_msg) 4
            MSG_PRIORITY_NORMAL TOPIC_QOS_AT_LEAST_ONCE true true 1000
          = some (pubsub_err_code e, some system_ready.message_handler_ctx.next_msg_id,
              { system_ready with
                pubsub := core,
                message_handler_ctx :=
                  { system_ready.message_handler_ctx with
                    next_msg_id :=
                      (system_ready.message_handler_ctx.next_msg_id + 1) % SIZE_MOD } })) ∧
    (TOPIC_QOS_AT_LEAST_ONCE ≠ TOPIC_QOS_AT_MOST_ONCE →
      ∀ r pool',
        create_pending_message system_ready.message_handler_ctx.config system_ready.pubsub.pool
          sensor_topic temp_msg 4 MSG_PRIORITY_NORMAL TOPIC_QOS_AT_LEAST_ONCE true
            = some (some r, pool') →
        ∃ e core,
          pubsub_publish { system_ready.pubsub with pool := pool' } (some sensor_topic)
            (some temp_msg) 4 MSG_PRIORITY_NORMAL 1000 = some (e, core) ∧
          message_publish_with_qos system_ready (some sensor_topic) (some temp_msg) 4
              MSG_PRIORITY_NORMAL TOPIC_QOS_AT_LEAST_ONCE true true 1000
            = some (pubsub_err_code e, some system_ready.message_handler_ctx.next_msg_id,
                { system_ready with
                  pubsub := core,
                  message_handler_ctx :=
                    { system_ready.message_handler_ctx with
                      next_msg_id :=
                        (system_ready.message_handler_ctx.next_msg_id + 1) % SIZE_MOD,
                      pending_messages :=
                        { msg_id := system_ready.message_handler_ctx.next_msg_id,
                          topic := copy_name sensor_topic,
                          data := { addr := r.data.addr, bytes := temp_msg.take 4 },
                          data_len := 4, priority := MSG_PRIORITY_NORMAL,
                          qos := TOPIC_QOS_AT_LEAST_ONCE, retry_count := 0,
                          max_retries := system_ready.message_handler_ctx.config.retry_count,
                          retry_timer := true, addr := r.addr } ::
                        system_ready.message_handler_ctx.pending_messages } }) ∧
          (sensor_topic.length < MAX_TOPIC_NAME_LENGTH → copy_name sensor_topic = sensor_topic) ∧
          (temp_msg.length = 4 → temp_msg.take 4 = temp_msg) ∧
          r.addr ≠ r.data.addr ∧
          r.addr ∉ allocated_ptrs system_ready.pubsub.pool.first_block 0 ∧
          r.data.addr ∉ allocated_ptrs system_ready.pubsub.pool.first_block 0 ∧
          r.addr ∈ allocated_ptrs core.pool.first_block 0 ∧
          r.data.addr ∈ allocated_ptrs core.pool.first_block 0)) :=
  ⟨by decide,
    qos_publish_adds_pending_record system_ready sensor_topic temp_msg 4 MSG_PRIORITY_NORMAL
      TOPIC_QOS_AT_LEAST_ONCE true 1000 (by decide) (by decide) (by decide)
      (queues_live_of_take _ (by decide))⟩

/-- A timer fire for a record at its ceiling makes no publish and changes neither the core
nor the overlay context. -/
theorem retry_timer_callback_ceiling (st : system_state) (msg now report_now : Nat)
    (r : pending_message_t)
    (hfind : find_pending msg st.message_handler_ctx.pending_messages = some r)
    (hceil : r.max_retries ≤ r.retry_count) :
    ∃ st1, retry_timer_callback st msg now report_now = some (none, st1) ∧
      st1.pubsub = st.pubsub ∧ st1.message_handler_ctx = st.message_handler_ctx := by
  refine ⟨{ st with
            error_queue := error_handler_report st.error_queue
              { level := ERROR_LEVEL_WARNING, code := ERROR_CODE_TIMEOUT, msg_id := r.msg_id,
                topic := r.topic, timestamp := report_now } }, ?_, rfl, rfl⟩
  simp only [retry_timer_callback, hfind, if_pos hceil]

theorem unlink_pending_none (name : List Nat) (id : Nat) (l : List pending_message_t)
    (h : ∀ r ∈ l, ¬ (r.msg_id = id ∧ r.topic = name)) : unlink_pending name id l = none := by
  induction l with
  | nil => rfl
  | cons x xs ih =>
    have hx : ¬ (x.msg_id = id ∧ x.topic = name) := h x (List.mem_cons_self _ _)
    have hxs : unlink_pending name id xs = none :=
      ih (fun r hr => h r (List.mem_cons_of_mem _ hr))
    simp only [unlink_pending, if_neg hx, hxs]

theorem unlink_pending_append (name : List Nat) (id : Nat) (pre post : List pending_message_t)
    (r : pending_message_t) (hpre : ∀ x ∈ pre, x.msg_id ≠ id) (hr : r.msg_id = id)
    (ht : r.topic = name) :
    unlink_pending name id (pre ++ r :: post) = some (r, pre ++ post) := by
  induction pre with
  | nil =>
    have hc : r.msg_id = id ∧ r.topic = name := ⟨hr, ht⟩
    simp only [List.nil_append, unlink_pending, if_pos hc]
  | cons x xs ih =>
    have hx : ¬ (x.msg_id = id ∧ x.topic = name) :=
      fun hc => hpre x (List.mem_cons_self _ _) hc.1
    have hxs := ih (fun y hy => hpre y (List.mem_cons_of_mem _ hy))
    show unlink_pending name id (x :: (xs ++ r :: post)) = some (r, x :: (xs ++ post))
    simp only [unlink_pending, if_neg hx, hxs]

theorem pending_ptrs_append (l1 l2 : List pending_message_t) :
    pending_ptrs (l1 ++ l2) = pending_ptrs l1 ++ pending_ptrs l2 := by
  induction l1 with
  | nil => rfl
  | cons x xs ih =>
    show pending_ptrs (x :: (xs ++ l2)) = pending_ptrs (x :: xs) ++ pending_ptrs l2
    simp only [pending_ptrs, ih, List.cons_append]

theorem find_pending_of_mem (l : List pending_message_t) (r : pending_message_t)
    (hn : (pending_ptrs l).Nodup) (hr : r ∈ l) : find_pending r.addr l = some r := by
  induction l with
  | nil => cases hr
  | cons x xs ih =>
    simp only [pending_ptrs, List.nodup_cons] at hn
    obtain ⟨hx, _, hxs⟩ := hn
    rcases List.mem_cons.mp hr with e | e
    · subst e
      simp only [find_pending, if_true]
    · have hne : x.addr ≠ r.addr := by
        intro he
        apply hx
        have hmem : r.addr ∈ pending_ptrs xs := by
          obtain ⟨a, b, hab⟩ := List.append_of_mem e
          rw [hab, pending_ptrs_append]
          exact List.mem_append_right _ (List.mem_cons_self _ _)
        rw [he]
        exact List.mem_cons_of_mem _ hmem
      simp only [find_pending, if_neg hne]
      exact ih hxs e

/-- An acknowledge that names the message ID and the topic of a pending record `r` (whatever
its `retry_count`), in a state where the pending records own distinct allocated blocks and carry
distinct IDs: the call returns `ESP_OK`, the pending list loses exactly `r`, the allocated
addresses lose exactly the record and its payload copy, and a second acknowledge of the same ID
returns `ESP_ERR_INVALID_ARG` and changes nothing. -/
theorem message_acknowledge_match (st : system_state) (n : List Nat) (id : Nat)
    (hinv : pending_inv st)
    (hids : (st.message_handler_ctx.pending_messages.map pending_message_t.msg_id).Nodup)
    (r : pending_message_t) (hr : r ∈ st.message_handler_ctx.pending_messages)
    (hrid : r.msg_id = id) (hname : r.topic = n) :
    ∃ pre post call st',
      st.message_handler_ctx.pending_messages = pre ++ r :: post ∧
      message_acknowledge st (some n) id = some (ESP_OK, call, st') ∧
      st'.message_handler_ctx.pending_messages = pre ++ post ∧
      st'.message_handler_ctx.pending_messages.length + 1
        = st.message_handler_ctx.pending_messages.length ∧
      (∀ x ∈ st'.message_handler_ctx.pending_messages, x.msg_id ≠ id) ∧
      st'.pubsub.topics = st.pubsub.topics ∧
      (∀ x, x ∈ allocated_ptrs st'.pubsub.pool.first_block 0 ↔
        (x ∈ allocated_ptrs st.pubsub.pool.first_block 0 ∧ x ≠ r.data.addr ∧ x ≠ r.addr)) ∧
      pending_inv st' ∧
      message_acknowledge st' (some n) id = some (ESP_ERR_INVALID_ARG, none, st') := by
  obtain ⟨pre, post, hsplit⟩ := List.append_of_mem hr
  obtain ⟨hnodup, hall⟩ := hinv
  rw [hsplit] at hids hnodup hall
  simp only [List.map_append, List.map_cons, hrid] at hids
  have hidpre : ∀ x ∈ pre, x.msg_id ≠ id := by
    intro x hx e
    have hmem : id ∈ pre.map pending_message_t.msg_id := e ▸ List.mem_map_of_mem _ hx
    exact (List.nodup_append.mp hids).2.2 hmem (List.mem_cons_self _ _)
  have hidpost : ∀ x ∈ post, x.msg_id ≠ id := by
    intro x hx e
    have hmem : id ∈ post.map pending_message_t.msg_id := e ▸ List.mem_map_of_mem _ hx
    exact (List.nodup_cons.mp (List.nodup_append.mp hids).2.1).1 hmem
  have hidall : ∀ x ∈ pre ++ post, x.msg_id ≠ id := by
    intro x hx
    rcases List.mem_append.mp hx with h | h
    · exact hidpre x h
    · exact hidpost x h
  have hptrs : pending_ptrs (pre ++ r :: post)
      = pending_ptrs pre ++ r.addr :: r.data.addr :: pending_ptrs post := by
    rw [pending_ptrs_append]
    rfl
  rw [hptrs] at hnodup hall
  obtain ⟨hnpre, hnmid, hdisj⟩ := List.nodup_append.mp hnodup
  obtain ⟨hra, hnmid2⟩ := List.nodup_cons.mp hnmid
  obtain ⟨hrd, hnpost⟩ := List.nodup_cons.mp hnmid2
  have hne : r.addr ≠ r.data.addr := fun e => hra (e ▸ List.mem_cons_self _ _)
  have hd_alloc : r.data.addr ∈ allocated_ptrs st.pubsub.pool.first_block 0 :=
    hall _ (List.mem_append_right _ (List.mem_cons_of_mem _ (List.mem_cons_self _ _)))
  have ha_alloc : r.addr ∈ allocated_ptrs st.pubsub.pool.first_block 0 :=
    hall _ (List.mem_append_right _ (List.mem_cons_self _ _))
  obtain ⟨pool1, hfree1, hall1⟩ := memory_pool_free_allocated st.pubsub.pool r.data.addr hd_alloc
  obtain ⟨pool2, hfree2, hall2⟩ :=
    memory_pool_free_allocated pool1 r.addr ((hall1 _).mpr ⟨ha_alloc, hne⟩)
  have hunlink := unlink_pending_append n id pre post r hidpre hrid hname
  rw [← hsplit] at hunlink
  have hrest : ∀ a ∈ pending_ptrs (pre ++ post),
      a ∈ allocated_ptrs st.pubsub.pool.first_block 0 ∧ a ≠ r.data.addr ∧ a ≠ r.addr := by
    intro a ha
    rw [pending_ptrs_append] at ha
    rcases List.mem_append.mp ha with h | h
    · refine ⟨hall _ (List.mem_append_left _ h), ?_, ?_⟩
      · intro e
        exact hdisj h (e ▸ List.mem_cons_of_mem _ (List.mem_cons_self _ _))
      · intro e
        exact hdisj h (e ▸ List.mem_cons_self _ _)
    · refine ⟨hall _ (List.mem_append_right _
        (List.mem_cons_of_mem _ (List.mem_cons_of_mem _ h))), ?_, ?_⟩
      · intro e
        exact hrd (e ▸ h)
      · intro e
        exact hra (e ▸ List.mem_cons_of_mem _ h)
  refine ⟨pre, post,
    st.message_handler_ctx.config.ack_callback.map
      (fun cb => { callback := cb, topic := some n, msg_id := id,
                   user_data := st.message_handler_ctx.config.user_data }),
    { st with
      pubsub := { st.pubsub with pool := pool2 },
      message_handler_ctx := { st.message_handler_ctx with pending_messages := pre ++ post } },
    hsplit, ?_, rfl, ?_, hidall, rfl, ?_, ?_, ?_⟩
  · simp only [message_acknowledge, hunlink, hfree1, hfree2]
  · rw [hsplit]
    simp only [List.length_append, List.length_cons]
    omega
  · intro x
    show x ∈ allocated_ptrs pool2.first_block 0 ↔ _
    rw [hall2, hall1]
    exact and_assoc
  · constructor
    · show (pending_ptrs (pre ++ post)).Nodup
      rw [pending_ptrs_append]
      refine List.nodup_append.mpr ⟨hnpre, hnpost, ?_⟩
      intro a ha hb
      exact hdisj ha (List.mem_cons_of_mem _ (List.mem_cons_of_mem _ hb))
    · intro a ha
      show a ∈ allocated_ptrs pool2.first_block 0
      obtain ⟨h1, h2, h3⟩ := hrest a ha
      exact (hall2 _).mpr ⟨(hall1 _).mpr ⟨h1, h2⟩, h3⟩
  · simp only [message_acknowledge,
      unlink_pending_none n id _ (fun x hx hc => hidall x hx hc.1)]

/-- C18 (amended; `message_acknowledge` modelled from the spec): in a state where the pending
records own distinct allocated blocks and carry distinct IDs, an acknowledge for an ID that no
pending record has returns `ESP_ERR_INVALID_ARG` and leaves the state unchanged, in particular
after an earlier acknowledge of the same ID. When a record matches (it has the ID and the topic
name of the call), whatever its `retry_count`, the call returns `ESP_OK`, the pending list loses
exactly that record and the allocated addresses lose exactly the record and its payload copy. A
record that has reached its retry ceiling is not retired by its timer: the fire leaves it in the
pending list, and the acknowledge that follows matches it and returns `ESP_OK`. An acknowledge
with a null name or with a name other than the record's topic matches nothing. -/
theorem acknowledge_unlinks_record (st : system_state) (name : Option (List Nat)) (id : Nat)
    (hinv : pending_inv st)
    (hids : (st.message_handler_ctx.pending_messages.map pending_message_t.msg_id).Nodup) :
    ((∀ r ∈ st.message_handler_ctx.pending_messages, r.msg_id ≠ id) →
      message_acknowledge st name id = some (ESP_ERR_INVALID_ARG, none, st)) ∧
    (∀ r ∈ st.message_handler_ctx.pending_messages, r.msg_id = id → name = some r.topic →
      ∃ pre post call st',
        st.message_handler_ctx.pending_messages = pre ++ r :: post ∧
        message_acknowledge st name id = some (ESP_OK, call, st') ∧
        st'.message_handler_ctx.pending_messages = pre ++ post ∧
        st'.message_handler_ctx.pending_messages.length + 1
          = st.message_handler_ctx.pending_messages.length ∧
        (∀ x ∈ st'.message_handler_ctx.pending_messages, x.msg_id ≠ id) ∧
        st'.pubsub.topics = st.pubsub.topics ∧
        (∀ x, x ∈ allocated_ptrs st'.pubsub.pool.first_block 0 ↔
          (x ∈ allocated_ptrs st.pubsub.pool.first_block 0 ∧ x ≠ r.data.addr ∧ x ≠ r.addr)) ∧
        pending_inv st' ∧
        message_acknowledge st' name id = some (ESP_ERR_INVALID_ARG, none, st')) ∧
    (∀ r ∈ st.message_handler_ctx.pending_messages, r.msg_id = id → name = some r.topic →
      r.max_retries ≤ r.retry_count →
      ∀ now report_now, ∃ st1 call st',
        retry_timer_callback st r.addr now report_now = some (none, st1) ∧
        st1.message_handler_ctx.pending_messages = st.message_handler_ctx.pending_messages ∧
        st1.pubsub = st.pubsub ∧
        message_acknowledge st1 name id = some (ESP_OK, call, st') ∧
        st'.message_handler_ctx.pending_messages.length + 1
          = st.message_handler_ctx.pending_messages.length ∧
        (∀ x ∈ st'.message_handler_ctx.pending_messages, x.msg_id ≠ id) ∧
        (∀ x, x ∈ allocated_ptrs st'.pubsub.pool.first_block 0 ↔
          (x ∈ allocated_ptrs st.pubsub.pool.first_block 0 ∧ x ≠ r.data.addr ∧ x ≠ r.addr))) ∧
    ((name = none ∨
        ∀ r ∈ st.message_handler_ctx.pending_messages, r.msg_id = id → some r.topic ≠ name) →
      message_acknowledge st name id = some (ESP_ERR_INVALID_ARG, none, st)) := by
  have hnomatch : (name = none ∨
      ∀ r ∈ st.message_handler_ctx.pending_messages, r.msg_id = id → some r.topic ≠ name) →
      message_acknowledge st name id = some (ESP_ERR_INVALID_ARG, none, st) := by
    intro h
    cases name with
    | none => rfl
    | some n =>
      rcases h with h | h
      · cases h
      · have hno : ∀ r ∈ st.message_handler_ctx.pending_messages,
            ¬ (r.msg_id = id ∧ r.topic = n) :=
          fun r hr hc => h r hr hc.1 (by rw [hc.2])
        simp only [message_acknowledge, unlink_pending_none n id _ hno]
  refine ⟨fun hno => hnomatch (Or.inr (fun r hr hrid => absurd hrid (hno r hr))), ?_, ?_,
    hnomatch⟩
  · intro r hr hrid hname
    subst hname
    exact message_acknowledge_match st r.topic id hinv hids r hr hrid rfl
  · intro r hr hrid hname hceil now report_now
    subst hname
    obtain ⟨st1, hfire, hcore, hctx⟩ := retry_timer_callback_ceiling st r.addr now report_now r
      (find_pending_of_mem _ r hinv.1 hr) hceil
    have hinv1 : pending_inv st1 := by
      unfold pending_inv
      rw [hctx, hcore]
      exact hinv
    have hids1 : (st1.message_handler_ctx.pending_messages.map pending_message_t.msg_id).Nodup := by
      rw [hctx]
      exact hids
    have hr1 : r ∈ st1.message_handler_ctx.pending_messages := by
      rw [hctx]
      exact hr
    obtain ⟨pre, post, call, st', _, hack, _, hlen, hgone, _, hall, _, _⟩ :=
      message_acknowledge_match st1 r.topic id hinv1 hids1 r hr1 hrid rfl
    refine ⟨st1, call, st', hfire, by rw [hctx], hcore, hack, ?_, hgone, ?_⟩
    · rw [hlen, hctx]
    · intro x
      rw [hall x, hcore]

set_option maxRecDepth 100000 in
/-- Witness for C18 (amended): acknowledging message 1 on `"sensor/temperature"` after its
record has reached the retry ceiling (three retries and two more fires). -/
theorem acknowledge_unlinks_record_witness :
    (pending_inv system_at_ceiling ∧
      (system_at_ceiling.message_handler_ctx.pending_messages.map
        pending_message_t.msg_id).Nodup ∧
      (∃ r ∈ system_at_ceiling.message_handler_ctx.pending_messages,
        r.msg_id = 1 ∧ some sensor_topic = some r.topic ∧ r.max_retries ≤ r.retry_count)) ∧
    (((∀ r ∈ system_at_ceiling.message_handler_ctx.pending_messages, r.msg_id ≠ 1) →
      message_acknowledge system_at_ceiling (some sensor_topic) 1
        = some (ESP_ERR_INVALID_ARG, none, system_at_ceiling)) ∧
    (∀ r ∈ system_at_ceiling.message_handler_ctx.pending_messages, r.msg_id = 1 →
      some sensor_topic = some r.topic →
      ∃ pre post call st',
        system_at_ceiling.message_handler_ctx.pending_messages = pre ++ r :: post ∧
        message_acknowledge system_at_ceiling (some sensor_topic) 1 = some (ESP_OK, call, st') ∧
        st'.message_handler_ctx.pending_messages = pre ++ post ∧
        st'.message_handler_ctx.pending_messages.length + 1
          = system_at_ceiling.message_handler_ctx.pending_messages.length ∧
        (∀ x ∈ st'.message_handler_ctx.pending_messages, x.msg_id ≠ 1) ∧
        st'.pubsub.topics = system_at_ceiling.pubsub.topics ∧
        (∀ x, x ∈ allocated_ptrs st'.pubsub.pool.first_block 0 ↔
          (x ∈ allocated_ptrs system_at_ceiling.pubsub.pool.first_block 0 ∧ x ≠ r.data.addr ∧
            x ≠ r.addr)) ∧
        pending_inv st' ∧
        message_acknowledge st' (some sensor_topic) 1 = some (ESP_ERR_INVALID_ARG, none, st')) ∧
    (∀ r ∈ system_at_ceiling.message_handler_ctx.pending_messages, r.msg_id = 1 →
      some sensor_topic = some r.topic → r.max_retries ≤ r.retry_count →
      ∀ now report_now, ∃ st1 call st',
        retry_timer_callback system_at_ceiling r.addr now report_now = some (none, st1) ∧
        st1.message_handler_ctx.pending_messages
          = system_at_ceiling.message_handler_ctx.pending_messages ∧
        st1.pubsub = system_at_ceiling.pubsub ∧
        message_acknowledge st1 (some sensor_topic) 1 = some (ESP_OK, call, st') ∧
        st'.message_handler_ctx.pending_messages.length + 1
          = system_at_ceiling.message_handler_ctx.pending_messages.length ∧
        (∀ x ∈ st'.message_handler_ctx.pending_messages, x.msg_id ≠ 1) ∧
        (∀ x, x ∈ allocated_ptrs st'.pubsub.pool.first_block 0 ↔
          (x ∈ allocated_ptrs system_at_ceiling.pubsub.pool.first_block 0 ∧ x ≠ r.data.addr ∧
            x ≠ r.addr))) ∧
    ((some sensor_topic = none ∨
        ∀ r ∈ system_at_ceiling.message_handler_ctx.pending_messages, r.msg_id = 1 →
          some r.topic ≠ some sensor_topic) →
      message_acknowledge system_at_ceiling (some sensor_topic) 1
        = some (ESP_ERR_INVALID_ARG, none, system_at_ceiling))) :=
  ⟨by decide,
    acknowledge_unlinks_record system_at_ceiling (some sensor_topic) 1 (by decide) (by decide)⟩

set_option maxRecDepth 100000 in
/-- Counterexample to C18 as stated: after the QoS-1 publish of `"25.5"` (message ID 1, ceiling
3) the retry timer fires five times; the last two fires find the record at its ceiling and make
no publish. The record is still in the pending list, so an acknowledge of message 1 that arrives
then does not return `ESP_ERR_INVALID_ARG`: it returns `ESP_OK`, calls the ack callback and
empties the pending list. -/
theorem acknowledge_after_ceiling_returns_ok :
    (retry_timer_fires 40 [1100, 1200, 1300, 1400, 1500] system_qos1).map Prod.fst
      = some [some PUBSUB_OK, some PUBSUB_OK, some PUBSUB_OK, none, none] ∧
    system_at_ceiling.message_handler_ctx.pending_messages.map
        (fun r => (r.msg_id, r.retry_count, r.max_retries)) = [(1, 3, 3)] ∧
    (message_acknowledge system_at_ceiling (some sensor_topic) 1).map
        (fun x => (x.1, x.2.1, x.2.2.message_handler_ctx.pending_messages))
      = some (ESP_OK,
          some { callback := 9, topic := some sensor_topic, msg_id := 1, user_data := none },
          []) ∧
    ESP_OK ≠ ESP_ERR_INVALID_ARG := by
  decide

/-! ## Coalescing pass of `memory_pool_free` -/

theorem coalesce_from_head (cur : block_header_t) (rest : List block_header_t) :
    ∃ h t, coalesce_from cur rest = h :: t ∧ h.is_free = cur.is_free := by
  induction rest generalizing cur with
  | nil => exact ⟨cur, [], rfl, rfl⟩
  | cons nxt rest ih =>
    simp only [coalesce_from]
    split
    · obtain ⟨h, t, e, hf⟩ :=
        ih { size := cur.size + (nxt.size + HEADER_SIZE), is_free := cur.is_free }
      exact ⟨h, t, e, hf⟩
    · exact ⟨cur, _, rfl, rfl⟩

theorem no_adjacent_free_coalesce_from (cur : block_header_t) (rest : List block_header_t) :
    no_adjacent_free (coalesce_from cur rest) := by
  induction rest generalizing cur with
  | nil => simp [coalesce_from, no_adjacent_free]
  | cons nxt rest ih =>
    simp only [coalesce_from]
    split
    · exact ih _
    · rename_i hno
      obtain ⟨h, t, e, hf⟩ := coalesce_from_head nxt rest
      have hrest := ih nxt
      rw [e] at hrest ⊢
      unfold no_adjacent_free at hrest ⊢
      rw [List.chain'_cons]
      exact ⟨by rw [hf]; exact hno, hrest⟩

theorem no_adjacent_free_coalesce (bs : List block_header_t) : no_adjacent_free (coalesce bs) := by
  cases bs with
  | nil => simp [coalesce, no_adjacent_free]
  | cons b rest => exact no_adjacent_free_coalesce_from b rest

theorem in_free_block_coalesce_from (a sz : Nat) (cur : block_header_t)
    (rest : List block_header_t) (off : Nat) (h : in_free_block a sz (cur :: rest) off) :
    in_free_block a sz (coalesce_from cur rest) off := by
  induction rest generalizing cur off with
  | nil => exact h
  | cons nxt rest ih =>
    have h' : (cur.is_free = true ∧ off + HEADER_SIZE ≤ a ∧ a + sz ≤ off + HEADER_SIZE + cur.size) ∨
        ((nxt.is_free = true ∧ off + HEADER_SIZE + cur.size + HEADER_SIZE ≤ a ∧
            a + sz ≤ off + HEADER_SIZE + cur.size + HEADER_SIZE + nxt.size) ∨
          in_free_block a sz rest (off + HEADER_SIZE + cur.size + HEADER_SIZE + nxt.size)) := h
    simp only [coalesce_from]
    split
    · rename_i hboth
      apply ih
      show (cur.is_free = true ∧ off + HEADER_SIZE ≤ a ∧
          a + sz ≤ off + HEADER_SIZE + (cur.size + (nxt.size + HEADER_SIZE))) ∨
        in_free_block a sz rest (off + HEADER_SIZE + (cur.size + (nxt.size + HEADER_SIZE)))
      rcases h' with ⟨_, h1, h2⟩ | ⟨_, h1, h2⟩ | h3
      · exact Or.inl ⟨hboth.1, h1, by omega⟩
      · exact Or.inl ⟨hboth.1, by omega, by omega⟩
      · have e : off + HEADER_SIZE + (cur.size + (nxt.size + HEADER_SIZE))
            = off + HEADER_SIZE + cur.size + HEADER_SIZE + nxt.size := by omega
        rw [e]
        exact Or.inr h3
    · show (cur.is_free = true ∧ off + HEADER_SIZE ≤ a ∧ a + sz ≤ off + HEADER_SIZE + cur.size) ∨
        in_free_block a sz (coalesce_from nxt rest) (off + HEADER_SIZE + cur.size)
      rcases h' with h1 | h2
      · exact Or.inl h1
      · exact Or.inr (ih nxt _ h2)

theorem in_free_block_coalesce (a sz : Nat) (bs : List block_header_t) (off : Nat)
    (h : in_free_block a sz bs off) : in_free_block a sz (coalesce bs) off := by
  cases bs with
  | nil => exact h
  | cons b rest => exact in_free_block_coalesce_from a sz b rest off h

theorem mark_free_in_free_block (a : Nat) (bs : List block_header_t) (off sz : Nat)
    (l : List block_header_t) (h : mark_free a bs off = some (sz, l)) :
    in_free_block a sz l off := by
  induction bs generalizing off l with
  | nil => simp [mark_free] at h
  | cons b rest ih =>
    simp only [mark_free] at h
    split at h
    · rename_i hp
      simp only [Option.some.injEq, Prod.mk.injEq] at h
      obtain ⟨h1, h2⟩ := h
      subst h1
      subst h2
      refine Or.inl ⟨rfl, ?_, ?_⟩
      · omega
      · show a + b.size ≤ off + HEADER_SIZE + b.size
        omega
    · cases hrec : mark_free a rest (off + HEADER_SIZE + b.size) with
      | none => simp [hrec] at h
      | some r =>
        obtain ⟨sz', rest'⟩ := r
        simp only [hrec, Option.some.injEq, Prod.mk.injEq] at h
        obtain ⟨h1, h2⟩ := h
        subst h1
        subst h2
        exact Or.inr (ih _ _ hrec)

/-- The list `mark_free` returns is the old list with the flag of the block at `ptr` set. -/
theorem mark_free_shape (a : Nat) (bs : List block_header_t) (off sz : Nat)
    (l : List block_header_t) (h : mark_free a bs off = some (sz, l)) :
    ∃ i b, bs[i]? = some b ∧ block_offset bs i off + HEADER_SIZE = a ∧ b.size = sz ∧
      l = bs.set i { size := b.size, is_free := true } := by
  induction bs generalizing off l with
  | nil => simp [mark_free] at h
  | cons b rest ih =>
    simp only [mark_free] at h
    split at h
    · rename_i hp
      simp only [Option.some.injEq, Prod.mk.injEq] at h
      obtain ⟨h1, h2⟩ := h
      exact ⟨0, b, List.getElem?_cons_zero, hp, h1, h2.symm⟩
    · cases hrec : mark_free a rest (off + HEADER_SIZE + b.size) with
      | none => simp [hrec] at h
      | some r =>
        obtain ⟨sz', rest'⟩ := r
        simp only [hrec, Option.some.injEq, Prod.mk.injEq] at h
        obtain ⟨h1, h2⟩ := h
        subst h1
        subst h2
        obtain ⟨i, c, hget, hoff, hsz, hl⟩ := ih _ _ hrec
        refine ⟨i + 1, c, by simpa using hget, hoff, hsz, ?_⟩
        rw [hl]
        rfl

theorem coalesce_from_not_free (c : block_header_t) (x : List block_header_t)
    (hc : c.is_free = false) : coalesce_from c x = c :: coalesce x := by
  cases x with
  | nil => rfl
  | cons n xs => simp [coalesce_from, hc, coalesce]

theorem coalesce_from_split (p : block_header_t) (ps : List block_header_t) (c : block_header_t)
    (x : List block_header_t) (hc : c.is_free = false) :
    coalesce_from p (ps ++ c :: x) = coalesce_from p (ps ++ [c]) ++ coalesce x := by
  induction ps generalizing p with
  | nil =>
    show coalesce_from p (c :: x) = coalesce_from p [c] ++ coalesce x
    simp [coalesce_from, hc, coalesce_from_not_free c x hc]
  | cons d ds ih =>
    show coalesce_from p (d :: (ds ++ c :: x)) = coalesce_from p (d :: (ds ++ [c])) ++ coalesce x
    simp only [coalesce_from]
    split
    · exact ih _
    · simp [ih d]

theorem coalesce_split (pre : List block_header_t) (c : block_header_t)
    (x : List block_header_t) (hc : c.is_free = false) :
    coalesce (pre ++ c :: x) = coalesce (pre ++ [c]) ++ coalesce x := by
  cases pre with
  | nil =>
    show coalesce_from c x = coalesce_from c [] ++ coalesce x
    rw [coalesce_from_not_free c x hc]
    rfl
  | cons p ps => exact coalesce_from_split p ps c x hc

theorem coalesce_from_run (cur : block_header_t) (run post : List block_header_t)
    (hcur : cur.is_free = true) (hrun : ∀ b ∈ run, b.is_free = true)
    (hpost : ∀ b ∈ post.head?, b.is_free = false) :
    coalesce_from cur (run ++ post)
      = { size := cur.size + (run.map (fun b => b.size + HEADER_SIZE)).sum, is_free := true } ::
          coalesce post := by
  induction run generalizing cur with
  | nil =>
    have hc : cur = { size := cur.size + 0, is_free := true } := by
      cases cur
      simp only at hcur
      simp [hcur]
    cases post with
    | nil =>
      show [cur] = _
      simp only [List.map_nil, List.sum_nil, coalesce]
      rw [← hc]
    | cons n ps =>
      have hn : n.is_free = false := hpost n (by simp)
      show coalesce_from cur (n :: ps) = _
      simp only [coalesce_from, hn, Bool.false_eq_true, and_false, if_false, List.map_nil,
        List.sum_nil, coalesce]
      rw [← hc]
  | cons d ds ih =>
    have hd : d.is_free = true := hrun d (List.mem_cons_self _ _)
    show coalesce_from cur (d :: (ds ++ post)) = _
    simp only [coalesce_from, hcur, hd, and_self, if_true]
    rw [ih _ rfl (fun b hb => hrun b (List.mem_cons_of_mem _ hb))]
    simp only [List.map_cons, List.sum_cons]
    have e : cur.size + (d.size + HEADER_SIZE)
          + (ds.map (fun b => b.size + HEADER_SIZE)).sum
        = cur.size + (d.size + HEADER_SIZE + (ds.map (fun b => b.size + HEADER_SIZE)).sum) := by
      omega
    rw [e]

theorem sum_size_header (run : List block_header_t) :
    (run.map (fun b => b.size + HEADER_SIZE)).sum
      = (run.map block_header_t.size).sum + HEADER_SIZE * run.length := by
  induction run with
  | nil => rfl
  | cons b bs ih =>
    simp only [List.map_cons, List.sum_cons, List.length_cons, ih, Nat.mul_add, Nat.mul_one]
    omega

/-- A maximal run of free blocks is coalesced into one free block whose size is the sum of the
payload sizes plus one header for every block but the first. -/
theorem coalesce_run (pre run post : List block_header_t) (hne : run ≠ [])
    (hrun : ∀ b ∈ run, b.is_free = true) (hpre : ∀ b ∈ pre.getLast?, b.is_free = false)
    (hpost : ∀ b ∈ post.head?, b.is_free = false) :
    coalesce (pre ++ run ++ post)
      = coalesce pre ++
          { size := (run.map block_header_t.size).sum + HEADER_SIZE * (run.length - 1),
            is_free := true } :: coalesce post := by
  cases run with
  | nil => exact absurd rfl hne
  | cons r rs =>
    have hr : r.is_free = true := hrun r (List.mem_cons_self _ _)
    have hmid : coalesce (r :: rs ++ post)
        = { size := ((r :: rs).map block_header_t.size).sum
              + HEADER_SIZE * ((r :: rs).length - 1), is_free := true } :: coalesce post := by
      show coalesce_from r (rs ++ post) = _
      rw [coalesce_from_run r rs post hr (fun b hb => hrun b (List.mem_cons_of_mem _ hb)) hpost,
        sum_size_header]
      simp only [List.map_cons, List.sum_cons, List.length_cons, Nat.add_sub_cancel, Nat.add_assoc]
    rcases List.eq_nil_or_concat pre with e | ⟨L, c, e⟩
    · subst e
      simpa [coalesce] using hmid
    · subst e
      have hc : c.is_free = false := hpre c (by simp)
      have e1 : L.concat c ++ (r :: rs) ++ post = L ++ c :: (r :: rs ++ post) := by simp
      have e2 : L.concat c = L ++ [c] := by simp
      rw [e1, coalesce_split L c _ hc, hmid, e2]

theorem allocated_ptr_block_not_free (bs : List block_header_t) (i off : Nat) (b : block_header_t)
    (hget : bs[i]? = some b)
    (hmem : block_offset bs i off + HEADER_SIZE ∈ allocated_ptrs bs off) : b.is_free = false := by
  induction bs generalizing i off with
  | nil => simp at hget
  | cons c rest ih =>
    have hH : HEADER_SIZE = 12 := rfl
    cases i with
    | zero =>
      simp only [List.getElem?_cons_zero, Option.some.injEq] at hget
      subst hget
      by_cases hf : c.is_free = true
      · simp only [allocated_ptrs, hf, if_true, block_offset] at hmem
        have := allocated_ptrs_ge _ _ _ hmem
        omega
      · simpa using hf
    | succ j =>
      simp only [List.getElem?_cons_succ] at hget
      have hge := block_offset_ge rest j (off + HEADER_SIZE + c.size)
      simp only [block_offset] at hmem
      simp only [allocated_ptrs] at hmem
      split at hmem
      · exact ih j _ hget hmem
      · rcases List.mem_cons.mp hmem with h | h
        · omega
        · exact ih j _ hget h

/-- C21: `memory_pool_free` of an address that is currently allocated completes; the block at
that address has its flag set, the bytes of the block then lie inside a free block of the new
list, and the new list has no free block whose immediate successor is free: every maximal run
of adjacent free blocks (after the flag is set) has become one free block whose payload size is
the sum of the payload sizes of the run plus one header for every absorbed block. -/
theorem free_marks_and_coalesces (p : memory_pool_t) (a : Nat)
    (ha : a ∈ allocated_ptrs p.first_block 0) :
    ∃ p' i b,
      memory_pool_free p (some a) = some p' ∧
      p.first_block[i]? = some b ∧ b.is_free = false ∧
      block_offset p.first_block i 0 + HEADER_SIZE = a ∧
      p'.first_block = coalesce (p.first_block.set i { size := b.size, is_free := true }) ∧
      in_free_block a b.size p'.first_block 0 ∧
      no_adjacent_free p'.first_block ∧
      ∀ pre run post,
        p.first_block.set i { size := b.size, is_free := true } = pre ++ run ++ post →
        run ≠ [] → (∀ c ∈ run, c.is_free = true) → (∀ c ∈ pre.getLast?, c.is_free = false) →
        (∀ c ∈ post.head?, c.is_free = false) →
        p'.first_block
          = coalesce pre ++
              { size := (run.map block_header_t.size).sum + HEADER_SIZE * (run.length - 1),
                is_free := true } :: coalesce post := by
  obtain ⟨sz, l, hmark, _⟩ := mark_free_allocated a p.first_block 0 ha
  obtain ⟨i, b, hget, hoff, hsz, hl⟩ := mark_free_shape a p.first_block 0 sz l hmark
  have hnf : b.is_free = false :=
    allocated_ptr_block_not_free p.first_block i 0 b hget (by rw [hoff]; exact ha)
  subst hsz
  subst hl
  refine ⟨{ first_block := coalesce (p.first_block.set i { size := b.size, is_free := true }),
            total_size := p.total_size,
            used_size := (p.used_size + SIZE_MOD - (b.size + HEADER_SIZE) % SIZE_MOD) % SIZE_MOD,
            peak_use := p.peak_use }, i, b, ?_, hget, hnf, hoff, rfl, ?_, ?_, ?_⟩
  · simp only [memory_pool_free, hmark]
  · exact in_free_block_coalesce a b.size _ 0 (mark_free_in_free_block a _ 0 _ _ hmark)
  · exact no_adjacent_free_coalesce _
  · intro pre run post hsplit hne hrun hpre hpost
    show coalesce (p.first_block.set i { size := b.size, is_free := true }) = _
    rw [hsplit]
    exact coalesce_run pre run post hne hrun hpre hpost

/-- Witness for C21: three blocks of 16 bytes are allocated from the fresh pool, the first and
the third are freed, then the second: the three blocks and the rest of the pool become one
free block again. -/
theorem free_marks_and_coalesces_witness :
    (memory_pool_free pool_two_freed (some 40)).map memory_pool_t.first_block
      = some [{ size := 12788, is_free := true }] ∧
    40 ∈ allocated_ptrs pool_two_freed.first_block 0 ∧
    ∃ p' i b,
      memory_pool_free pool_two_freed (some 40) = some p' ∧
      pool_two_freed.first_block[i]? = some b ∧ b.is_free = false ∧
      block_offset pool_two_freed.first_block i 0 + HEADER_SIZE = 40 ∧
      p'.first_block
        = coalesce (pool_two_freed.first_block.set i { size := b.size, is_free := true }) ∧
      in_free_block 40 b.size p'.first_block 0 ∧
      no_adjacent_free p'.first_block ∧
      ∀ pre run post,
        pool_two_freed.first_block.set i { size := b.size, is_free := true }
          = pre ++ run ++ post →
        run ≠ [] → (∀ c ∈ run, c.is_free = true) → (∀ c ∈ pre.getLast?, c.is_free = false) →
        (∀ c ∈ post.head?, c.is_free = false) →
        p'.first_block
          = coalesce pre ++
              { size := (run.map block_header_t.size).sum + HEADER_SIZE * (run.length - 1),
                is_free := true } :: coalesce post :=
  ⟨by decide, by decide, free_marks_and_coalesces pool_two_freed 40 (by decide)⟩

/-! ## Accounting of the allocator over call sequences -/

theorem used_bytes_append (l1 l2 : List block_header_t) :
    used_bytes (l1 ++ l2) = used_bytes l1 + used_bytes l2 := by
  induction l1 with
  | nil => simp [used_bytes]
  | cons b bs ih =>
    show used_bytes (b :: (bs ++ l2)) = used_bytes (b :: bs) + used_bytes l2
    simp only [used_bytes, ih]
    split <;> omega

theorem span_bytes_append (l1 l2 : List block_header_t) :
    span_bytes (l1 ++ l2) = span_bytes l1 + span_bytes l2 := by
  induction l1 with
  | nil => simp [span_bytes]
  | cons b bs ih =>
    show span_bytes (b :: (bs ++ l2)) = span_bytes (b :: bs) + span_bytes l2
    simp only [span_bytes, ih]
    omega

theorem used_bytes_le_span (bs : List block_header_t) : used_bytes bs ≤ span_bytes bs := by
  induction bs with
  | nil => simp [used_bytes, span_bytes]
  | cons b bs ih =>
    simp only [used_bytes, span_bytes]
    split <;> omega

theorem take_block_snd (size diff : Nat) (bs : List block_header_t) (i : Nat) (b : block_header_t)
    (hb : bs[i]? = some b) :
    (take_block size diff bs i).2 = if HEADER_SIZE + 8 ≤ diff then size else b.size := by
  induction bs generalizing i with
  | nil => simp at hb
  | cons c rest ih =>
    cases i with
    | zero =>
      simp only [List.getElem?_cons_zero, Option.some.injEq] at hb
      subst hb
      simp only [take_block]
      split <;> rfl
    | succ j =>
      simp only [List.getElem?_cons_succ] at hb
      simp only [take_block]
      exact ih j hb

theorem list_split_at (bs : List block_header_t) (i : Nat) (b : block_header_t)
    (hb : bs[i]? = some b) : bs = bs.take i ++ b :: bs.drop (i + 1) := by
  induction bs generalizing i with
  | nil => simp at hb
  | cons c rest ih =>
    cases i with
    | zero =>
      simp only [List.getElem?_cons_zero, Option.some.injEq] at hb
      subst hb
      simp
    | succ j =>
      simp only [List.getElem?_cons_succ] at hb
      simp only [List.take_succ_cons, List.drop_succ_cons, List.cons_append]
      rw [← ih j hb]

/-- A successful allocation keeps the tiling and adds the handed-out block to the used bytes. -/
theorem memory_pool_alloc_accounting (p p' : memory_pool_t) (size a : Nat)
    (h : memory_pool_alloc p size = (some a, p')) :
    ∃ sz, span_bytes p'.first_block = span_bytes p.first_block ∧
      used_bytes p'.first_block = used_bytes p.first_block + (sz + HEADER_SIZE) ∧
      p'.used_size = (p.used_size + (sz + HEADER_SIZE)) % SIZE_MOD ∧
      p'.total_size = p.total_size ∧
      p'.peak_use = (if p.peak_use < p'.used_size then p'.used_size else p.peak_use) := by
  unfold memory_pool_alloc at h
  split at h
  · simp at h
  · cases hscan : best_fit_scan (align8 size) p.first_block 0 none SIZE_MAX with
    | mk res d =>
      rw [hscan] at h
      cases res with
      | none => simp at h
      | some i =>
        simp only [Prod.mk.injEq, Option.some.injEq] at h
        obtain ⟨_, hp'⟩ := h
        rcases best_fit_scan_spec _ _ _ _ _ _ _ hscan with ⟨h1, _⟩ | ⟨j, b, h1, hget, hfree, hfit, hd, _⟩
        · cases h1
        · simp only [Option.some.injEq, Nat.zero_add] at h1
          subst h1
          have hshape := take_block_shape (align8 size) d p.first_block i b hget
          have hsnd := take_block_snd (align8 size) d p.first_block i b hget
          have hsplit := list_split_at p.first_block i b hget
          have hH : HEADER_SIZE = 12 := rfl
          refine ⟨(take_block (align8 size) d p.first_block i).2, ?_, ?_, ?_, ?_, ?_⟩
          · rw [← hp']
            show span_bytes (take_block (align8 size) d p.first_block i).1 = _
            rw [hshape]
            conv_rhs => rw [hsplit]
            simp only [span_bytes_append, span_bytes]
            split
            · simp only [span_bytes]
              omega
            · simp only [span_bytes]
              omega
          · rw [← hp']
            show used_bytes (take_block (align8 size) d p.first_block i).1 = _
            rw [hshape, hsnd]
            conv_rhs => rw [hsplit]
            simp only [used_bytes_append, used_bytes, hfree, if_true]
            split
            · simp [used_bytes]
              omega
            · simp [used_bytes]
              omega
          · rw [← hp']
          · rw [← hp']
          · rw [← hp']

theorem mark_free_accounting (a : Nat) (bs : List block_header_t) (off sz : Nat)
    (l : List block_header_t) (ha : a ∈ allocated_ptrs bs off)
    (h : mark_free a bs off = some (sz, l)) :
    used_bytes l + (sz + HEADER_SIZE) = used_bytes bs ∧ span_bytes l = span_bytes bs := by
  induction bs generalizing off l with
  | nil => simp [mark_free] at h
  | cons b rest ih =>
    have hH : HEADER_SIZE = 12 := rfl
    simp only [mark_free] at h
    split at h
    · rename_i hp
      simp only [Option.some.injEq, Prod.mk.injEq] at h
      obtain ⟨h1, h2⟩ := h
      subst h1
      subst h2
      have hnf : b.is_free = false := by
        by_cases hf : b.is_free = true
        · simp only [allocated_ptrs, hf, if_true] at ha
          have := allocated_ptrs_ge _ _ _ ha
          omega
        · simpa using hf
      refine ⟨?_, ?_⟩
      · simp only [used_bytes, hnf, if_true, Bool.false_eq_true, if_false]
        omega
      · simp only [span_bytes]
    · rename_i hp
      cases hrec : mark_free a rest (off + HEADER_SIZE + b.size) with
      | none => simp [hrec] at h
      | some r =>
        obtain ⟨sz', rest'⟩ := r
        simp only [hrec, Option.some.injEq, Prod.mk.injEq] at h
        obtain ⟨h1, h2⟩ := h
        subst h1
        subst h2
        have ha' : a ∈ allocated_ptrs rest (off + HEADER_SIZE + b.size) := by
          simp only [allocated_ptrs] at ha
          split at ha
          · exact ha
          · rcases List.mem_cons.mp ha with e | e
            · exact absurd e.symm hp
            · exact e
        obtain ⟨i1, i2⟩ := ih _ _ ha' hrec
        simp only [used_bytes, span_bytes, i2]
        refine ⟨?_, trivial⟩
        split <;> omega

theorem coalesce_from_accounting (cur : block_header_t) (rest : List block_header_t) :
    used_bytes (coalesce_from cur rest) = used_bytes (cur :: rest) ∧
    span_bytes (coalesce_from cur rest) = span_bytes (cur :: rest) := by
  induction rest generalizing cur with
  | nil => exact ⟨rfl, rfl⟩
  | cons nxt rest ih =>
    simp only [coalesce_from]
    split
    · rename_i hboth
      obtain ⟨i1, i2⟩ := ih { size := cur.size + (nxt.size + HEADER_SIZE), is_free := cur.is_free }
      rw [i1, i2]
      refine ⟨?_, ?_⟩
      · simp only [used_bytes, hboth.1, hboth.2, if_true]
      · simp only [span_bytes]
        omega
    · obtain ⟨i1, i2⟩ := ih nxt
      simp only [used_bytes, span_bytes] at i1 i2 ⊢
      rw [i1, i2]
      exact ⟨rfl, rfl⟩

theorem coalesce_accounting (bs : List block_header_t) :
    used_bytes (coalesce bs) = used_bytes bs ∧ span_bytes (coalesce bs) = span_bytes bs := by
  cases bs with
  | nil => exact ⟨rfl, rfl⟩
  | cons b rest => exact coalesce_from_accounting b rest

/-- An allocation keeps the accounting invariant and does not lower `peak_use`. -/
theorem pool_inv_alloc (p : memory_pool_t) (size : Nat) (h : pool_inv p) :
    pool_inv (memory_pool_alloc p size).2 ∧ p.peak_use ≤ (memory_pool_alloc p size).2.peak_use := by
  cases hres : memory_pool_alloc p size with
  | mk r p' =>
    cases r with
    | none =>
      have := memory_pool_alloc_none p p' size hres
      subst this
      exact ⟨h, Nat.le_refl _⟩
    | some a =>
      obtain ⟨sz, hspan, hused, hus, htot, hpeak⟩ := memory_pool_alloc_accounting p p' size a hres
      obtain ⟨i1, i2, i3, i4⟩ := h
      have hle := used_bytes_le_span p'.first_block
      have hlt : p.used_size + (sz + HEADER_SIZE) < SIZE_MOD := by
        rw [i3]
        omega
      have hus' : p'.used_size = p.used_size + (sz + HEADER_SIZE) := by
        rw [hus]
        exact Nat.mod_eq_of_lt hlt
      show pool_inv p' ∧ p.peak_use ≤ p'.peak_use
      refine ⟨⟨by rw [hspan, htot]; exact i1, by rw [htot]; exact i2, by rw [hus', hused, i3], ?_⟩, ?_⟩
      · rw [hpeak]
        split <;> omega
      · rw [hpeak]
        split <;> omega

/-- A `memory_pool_free` of an allocated address keeps the accounting invariant and
`peak_use`. -/
theorem pool_inv_free (p p' : memory_pool_t) (a : Nat) (h : pool_inv p)
    (ha : a ∈ allocated_ptrs p.first_block 0) (hres : memory_pool_free p (some a) = some p') :
    pool_inv p' ∧ p'.peak_use = p.peak_use ∧ p'.used_size ≤ p.used_size := by
  obtain ⟨sz, l, hmark, _⟩ := mark_free_allocated a p.first_block 0 ha
  obtain ⟨hu, hs⟩ := mark_free_accounting a p.first_block 0 sz l ha hmark
  obtain ⟨hcu, hcs⟩ := coalesce_accounting l
  simp only [memory_pool_free, hmark, Option.some.injEq] at hres
  obtain ⟨i1, i2, i3, i4⟩ := h
  have hle := used_bytes_le_span p.first_block
  have hused : (p.used_size + SIZE_MOD - (sz + HEADER_SIZE) % SIZE_MOD) % SIZE_MOD
      = used_bytes l := by
    rw [i3]
    have h1 : (sz + HEADER_SIZE) % SIZE_MOD = sz + HEADER_SIZE := Nat.mod_eq_of_lt (by omega)
    rw [h1]
    have h2 : used_bytes p.first_block + SIZE_MOD - (sz + HEADER_SIZE)
        = used_bytes l + SIZE_MOD := by omega
    rw [h2, Nat.add_mod_right]
    exact Nat.mod_eq_of_lt (by omega)
  subst hres
  refine ⟨⟨?_, i2, ?_, ?_⟩, rfl, ?_⟩
  · show span_bytes (coalesce l) = p.total_size
    rw [hcs, hs]
    exact i1
  · show (p.used_size + SIZE_MOD - (sz + HEADER_SIZE) % SIZE_MOD) % SIZE_MOD
      = used_bytes (coalesce l)
    rw [hused, hcu]
  · show (p.used_size + SIZE_MOD - (sz + HEADER_SIZE) % SIZE_MOD) % SIZE_MOD ≤ p.peak_use
    rw [hused]
    omega
  · show (p.used_size + SIZE_MOD - (sz + HEADER_SIZE) % SIZE_MOD) % SIZE_MOD ≤ p.used_size
    rw [hused]
    omega

theorem pool_inv_init : pool_inv memory_pool_init := by decide

/-- Every pool reached by calls from `memory_pool_init` satisfies the accounting invariant. -/
theorem reachable_pool_inv (p : memory_pool_t) (h : PoolReachable p) : pool_inv p := by
  induction h with
  | init => exact pool_inv_init
  | alloc size _ ih => exact (pool_inv_alloc _ size ih).1
  | free a _ ha hres ih => exact (pool_inv_free _ _ a ih ha hres).1
  | free_null _ hres ih =>
    simp only [memory_pool_free, Option.some.injEq] at hres
    exact hres ▸ ih

theorem pool_two_freed_reachable : PoolReachable pool_two_freed := by
  have h3 : PoolReachable pool_three_blocks :=
    PoolReachable.alloc 16 (PoolReachable.alloc 16 (PoolReachable.alloc 16 PoolReachable.init))
  obtain ⟨p1, hf1, _⟩ := memory_pool_free_allocated pool_three_blocks 12 (by decide)
  have h4 : PoolReachable p1 := PoolReachable.free 12 h3 (by decide) hf1
  have h68 : 68 ∈ allocated_ptrs p1.first_block 0 := by
    have e : memory_pool_free pool_three_blocks (some 12)
        = some { first_block := [{ size := 16, is_free := true }, { size := 16, is_free := false },
                                 { size := 16, is_free := false }, { size := 12704, is_free := true }],
                 total_size := 12800, used_size := 56, peak_use := 84 } := by decide
    rw [e] at hf1
    simp only [Option.some.injEq] at hf1
    rw [← hf1]
    decide
  obtain ⟨p2, hf2, _⟩ := memory_pool_free_allocated p1 68 h68
  have h5 : PoolReachable p2 := PoolReachable.free 68 h4 h68 hf2
  have e2 : pool_two_freed = p2 := by
    simp only [pool_two_freed, hf1, Option.some_bind, hf2, Option.getD_some]
  rw [e2]
  exact h5

/-- C22: after every sequence of `memory_pool_alloc` and `memory_pool_free` calls from
`memory_pool_init` in which only allocated addresses (or `NULL`) are freed, `used_size` equals
the sum of `size + header` over the non-free blocks and `peak_use` is at least `used_size`; a
further allocation, whatever its result, and a further free of an allocated address (which
completes) keep this and leave `peak_use` at least at its old value. -/
theorem pool_accounting (p : memory_pool_t) (h : PoolReachable p) :
    p.used_size = used_bytes p.first_block ∧ p.used_size ≤ p.peak_use ∧
    (∀ size,
      (memory_pool_alloc p size).2.used_size = used_bytes (memory_pool_alloc p size).2.first_block ∧
      p.peak_use ≤ (memory_pool_alloc p size).2.peak_use ∧
      (memory_pool_alloc p size).2.used_size ≤ (memory_pool_alloc p size).2.peak_use) ∧
    (∀ a ∈ allocated_ptrs p.first_block 0,
      ∃ p', memory_pool_free p (some a) = some p' ∧
        p'.used_size = used_bytes p'.first_block ∧ p.peak_use ≤ p'.peak_use ∧
        p'.used_size ≤ p'.peak_use) := by
  have hinv := reachable_pool_inv p h
  refine ⟨hinv.2.2.1, hinv.2.2.2, ?_, ?_⟩
  · intro size
    obtain ⟨h1, h2⟩ := pool_inv_alloc p size hinv
    exact ⟨h1.2.2.1, h2, h1.2.2.2⟩
  · intro a ha
    obtain ⟨p', hfree, _⟩ := memory_pool_free_allocated p a ha
    obtain ⟨h1, h2, _⟩ := pool_inv_free p p' a hinv ha hfree
    exact ⟨p', hfree, h1.2.2.1, by rw [h2], h1.2.2.2⟩

/-- Witness for C22: the pool after three allocations and two frees. -/
theorem pool_accounting_witness :
    PoolReachable pool_two_freed ∧
    pool_two_freed.used_size = used_bytes pool_two_freed.first_block ∧
    pool_two_freed.used_size ≤ pool_two_freed.peak_use ∧
    (∀ size,
      (memory_pool_alloc pool_two_freed size).2.used_size
        = used_bytes (memory_pool_alloc pool_two_freed size).2.first_block ∧
      pool_two_freed.peak_use ≤ (memory_pool_alloc pool_two_freed size).2.peak_use ∧
      (memory_pool_alloc pool_two_freed size).2.used_size
        ≤ (memory_pool_alloc pool_two_freed size).2.peak_use) ∧
    (∀ a ∈ allocated_ptrs pool_two_freed.first_block 0,
      ∃ p', memory_pool_free pool_two_freed (some a) = some p' ∧
        p'.used_size = used_bytes p'.first_block ∧ pool_two_freed.peak_use ≤ p'.peak_use ∧
        p'.used_size ≤ p'.peak_use) :=
  ⟨pool_two_freed_reachable, pool_accounting pool_two_freed pool_two_freed_reachable⟩

/-! ## Registry: outcomes of `pubsub_create_topic` and names of the registered topics -/

/-- The outcomes of `pubsub_create_topic`: an error that leaves the state alone, an error that
has written the slot at `topic_count`, or success. -/
theorem pubsub_create_topic_cases (s : pubsub_state) (topic_name : Option (List Nat))
    (queue_ok mutex_ok task_ok : Bool) :
    ((pubsub_create_topic s topic_name queue_ok mutex_ok task_ok).1 ≠ PUBSUB_OK ∧
      ((pubsub_create_topic s topic_name queue_ok mutex_ok task_ok).2 = s ∨
        (s.topic_count < MAX_TOPICS ∧
          (pubsub_create_topic s topic_name queue_ok mutex_ok task_ok).1 = PUBSUB_ERR_NO_MEMORY ∧
          ∃ t', (pubsub_create_topic s topic_name queue_ok mutex_ok task_ok).2
            = { s with topics := s.topics.set s.topic_count t' }))) ∨
    (∃ name, topic_name = some name ∧ name.length < MAX_TOPIC_NAME_LENGTH ∧
      find_topic name s.topics s.topic_count = none ∧ s.topic_count < MAX_TOPICS ∧
      pubsub_create_topic s topic_name queue_ok mutex_ok task_ok
        = (PUBSUB_OK,
            { s with
              topics := s.topics.set s.topic_count
                { name := copy_name name, subscribers := [],
                  msg_queue := some { items := [], length := MAX_QUEUE_SIZE },
                  subscriber_count := 0, lock := true },
              topic_count := s.topic_count + 1 })) := by
  unfold pubsub_create_topic
  split
  · exact Or.inl ⟨by simp, Or.inl rfl⟩
  · rename_i nm
    split
    · exact Or.inl ⟨by simp, Or.inl rfl⟩
    · rename_i hlen
      split
      · exact Or.inl ⟨by simp, Or.inl rfl⟩
      · rename_i hfind
        split
        · exact Or.inl ⟨by simp, Or.inl rfl⟩
        · rename_i hcount
          have hc : s.topic_count < MAX_TOPICS := Nat.lt_of_not_le hcount
          split
          · exact Or.inl ⟨by simp, Or.inr ⟨hc, rfl, _, rfl⟩⟩
          · split
            · exact Or.inl ⟨by simp, Or.inr ⟨hc, rfl, _, rfl⟩⟩
            · split
              · exact Or.inl ⟨by simp, Or.inr ⟨hc, rfl, _, rfl⟩⟩
              · exact Or.inr ⟨nm, rfl, Nat.lt_of_not_le hlen, hfind, hc, rfl⟩

theorem take_set_ge (l : List topic_t) (i j : Nat) (t : topic_t) (h : j ≤ i) :
    (l.set i t).take j = l.take j := by
  induction l generalizing i j with
  | nil => simp
  | cons c rest ih =>
    cases j with
    | zero => simp
    | succ k =>
      cases i with
      | zero => omega
      | succ m =>
        simp only [List.set_cons_succ, List.take_succ_cons]
        rw [ih m k (by omega)]

theorem take_succ_set (l : List topic_t) (n : Nat) (t : topic_t) (h : n < l.length) :
    (l.set n t).take (n + 1) = l.take n ++ [t] := by
  induction l generalizing n with
  | nil => simp at h
  | cons c rest ih =>
    cases n with
    | zero => simp
    | succ m =>
      simp only [List.length_cons] at h
      simp only [List.set_cons_succ, List.take_succ_cons, List.cons_append]
      rw [ih m (by omega)]

theorem names_set (ts : List topic_t) (i : Nat) (t t' : topic_t) (hget : ts[i]? = some t)
    (hname : t'.name = t.name) :
    (ts.set i t').map topic_t.name = ts.map topic_t.name := by
  induction ts generalizing i with
  | nil => simp
  | cons c rest ih =>
    cases i with
    | zero =>
      simp only [List.getElem?_cons_zero, Option.some.injEq] at hget
      subst hget
      simp [hname]
    | succ j =>
      simp only [List.getElem?_cons_succ] at hget
      simp only [List.set_cons_succ, List.map_cons]
      rw [ih j hget]

theorem find_topic_none_not_mem (name : List Nat) (ts : List topic_t) (n : Nat)
    (h : find_topic name ts n = none) : name ∉ (ts.take n).map topic_t.name := by
  induction ts generalizing n with
  | nil => simp
  | cons c rest ih =>
    cases n with
    | zero => simp
    | succ m =>
      simp only [find_topic] at h
      split at h
      · simp at h
      · rename_i hne
        cases hrec : find_topic name rest m with
        | none =>
          simp only [List.take_succ_cons, List.map_cons, List.mem_cons, not_or]
          exact ⟨fun e => hne e.symm, ih m hrec⟩
        | some r => simp [hrec] at h

theorem find_topic_mem (name : List Nat) (ts : List topic_t) (n : Nat)
    (h : name ∈ (ts.take n).map topic_t.name) : ∃ r, find_topic name ts n = some r := by
  cases hfind : find_topic name ts n with
  | none => exact absurd h (find_topic_none_not_mem name ts n hfind)
  | some r => exact ⟨r, rfl⟩

/-- The lookup only reads the slots below its bound. -/
theorem find_topic_take (name : List Nat) (ts : List topic_t) (n : Nat) :
    find_topic name ts n = find_topic name (ts.take n) n := by
  induction ts generalizing n with
  | nil => simp [find_topic]
  | cons c rest ih =>
    cases n with
    | zero => simp [find_topic]
    | succ m =>
      simp only [List.take_succ_cons, find_topic]
      rw [ih m]

theorem find_topic_mono (name : List Nat) (ts : List topic_t) (n m : Nat) (r : Nat × topic_t)
    (h : find_topic name ts n = some r) (hnm : n ≤ m) : find_topic name ts m = some r := by
  induction ts generalizing n m r with
  | nil => simp [find_topic] at h
  | cons c rest ih =>
    cases n with
    | zero => simp [find_topic] at h
    | succ k =>
      cases m with
      | zero => omega
      | succ j =>
        simp only [find_topic] at h ⊢
        split
        · rename_i hc
          simpa [hc] using h
        · rename_i hc
          simp only [hc, if_false] at h
          cases hrec : find_topic name rest k with
          | none => simp [hrec] at h
          | some r' =>
            rw [ih k j r' hrec (by omega)]
            simpa [hrec] using h

/-- With pairwise distinct registered names, the lookup of the name of a registered slot finds
that slot. -/
theorem find_topic_registered (ts : List topic_t) (n i : Nat) (t : topic_t)
    (hnodup : ((ts.take n).map topic_t.name).Nodup) (hget : ts[i]? = some t) (hi : i < n) :
    find_topic t.name ts n = some (i, t) := by
  induction ts generalizing n i with
  | nil => simp at hget
  | cons c rest ih =>
    cases n with
    | zero => omega
    | succ m =>
      simp only [List.take_succ_cons, List.map_cons, List.nodup_cons] at hnodup
      cases i with
      | zero =>
        simp only [List.getElem?_cons_zero, Option.some.injEq] at hget
        subst hget
        simp [find_topic]
      | succ k =>
        simp only [List.getElem?_cons_succ] at hget
        have hk : k < m := by omega
        have hmem : t.name ∈ (rest.take m).map topic_t.name := by
          apply List.mem_map_of_mem
          have hget' : (rest.take m)[k]? = some t := by
            rw [List.getElem?_take_of_lt hk]
            exact hget
          exact List.getElem?_mem hget'
        have hne : ¬ c.name = t.name := fun e => hnodup.1 (e ▸ hmem)
        simp only [find_topic, hne, if_false, ih m k hnodup.2 hget hk]

theorem find_topic_names (name : List Nat) (ts ts' : List topic_t) (n : Nat)
    (h : ts.map topic_t.name = ts'.map topic_t.name) :
    (find_topic name ts n).map Prod.fst = (find_topic name ts' n).map Prod.fst := by
  induction ts generalizing ts' n with
  | nil =>
    cases ts' with
    | nil => rfl
    | cons c' rest' => simp at h
  | cons c rest ih =>
    cases ts' with
    | nil => simp at h
    | cons c' rest' =>
      simp only [List.map_cons, List.cons.injEq] at h
      cases n with
      | zero => rfl
      | succ m =>
        simp only [find_topic, h.1]
        split
        · rfl
        · have := ih rest' m h.2
          cases h1 : find_topic name rest m with
          | none =>
            rw [h1] at this
            cases h2 : find_topic name rest' m with
            | none => rfl
            | some r => simp [h2] at this
          | some r =>
            rw [h1] at this
            cases h2 : find_topic name rest' m with
            | none => simp [h2] at this
            | some r' =>
              simp only [h2, Option.map_some', Option.some.injEq] at this
              simp [this]

/-- The result of `topic_get_stats` depends on the table only through the names of its slots. -/
theorem topic_get_stats_names (ts ts' : List topic_t) (data : List topic_advanced_t)
    (topic_name : Option (List Nat)) (out : Bool)
    (h : ts.map topic_t.name = ts'.map topic_t.name) :
    topic_get_stats ts data topic_name out = topic_get_stats ts' data topic_name out := by
  cases topic_name with
  | none => rfl
  | some name =>
    have hfind := find_topic_names name ts ts' MAX_TOPICS h
    unfold topic_get_stats
    simp only
    split
    · rfl
    · cases h1 : find_topic name ts MAX_TOPICS with
      | none =>
        rw [h1] at hfind
        cases h2 : find_topic name ts' MAX_TOPICS with
        | none => rfl
        | some r => simp [h2] at hfind
      | some r =>
        rw [h1] at hfind
        cases h2 : find_topic name ts' MAX_TOPICS with
        | none => simp [h2] at hfind
        | some r' =>
          simp only [h2, Option.map_some', Option.some.injEq] at hfind
          obtain ⟨i, t⟩ := r
          obtain ⟨i', t'⟩ := r'
          simp only at hfind
          subst hfind
          rfl

/-! ## Calls that leave the names and the count of the registry alone -/

theorem pubsub_subscribe_names (s : pubsub_state) (name : Option (List Nat)) (cb ud : Option Nat) :
    (pubsub_subscribe s name cb ud).2.topics.map topic_t.name = s.topics.map topic_t.name ∧
    (pubsub_subscribe s name cb ud).2.topic_count = s.topic_count := by
  cases hres : pubsub_subscribe s name cb ud with
  | mk e s' =>
    by_cases he : e = PUBSUB_OK
    · subst he
      obtain ⟨nm, c, i, topic, a, pool', _, _, hfind, _, _, _, hs'⟩ :=
        pubsub_subscribe_ok s s' name cb ud hres
      obtain ⟨hget, _, _⟩ := find_topic_some _ _ _ _ _ hfind
      subst hs'
      exact ⟨names_set s.topics i topic _ hget rfl, rfl⟩
    · have := pubsub_subscribe_unchanged s s' name cb ud e hres he
      subst this
      exact ⟨rfl, rfl⟩

theorem pubsub_unsubscribe_names (s s' : pubsub_state) (name : Option (List Nat))
    (cb : Option Nat) (e : pubsub_err_t) (hres : pubsub_unsubscribe s name cb = some (e, s')) :
    s'.topics.map topic_t.name = s.topics.map topic_t.name ∧ s'.topic_count = s.topic_count := by
  cases name with
  | none =>
    simp only [pubsub_unsubscribe, Option.some.injEq, Prod.mk.injEq] at hres
    rw [← hres.2]
    exact ⟨rfl, rfl⟩
  | some nm =>
    cases cb with
    | none =>
      simp only [pubsub_unsubscribe, Option.some.injEq, Prod.mk.injEq] at hres
      rw [← hres.2]
      exact ⟨rfl, rfl⟩
    | some c =>
      cases hfind : find_topic nm s.topics s.topic_count with
      | none =>
        simp only [pubsub_unsubscribe, hfind, Option.some.injEq, Prod.mk.injEq] at hres
        rw [← hres.2]
        exact ⟨rfl, rfl⟩
      | some r =>
        obtain ⟨i, topic⟩ := r
        obtain ⟨hget, _, _⟩ := find_topic_some _ _ _ _ _ hfind
        rw [pubsub_unsubscribe_found s nm c i topic hfind] at hres
        cases hun : unlink_subscriber c topic.subscribers with
        | none =>
          simp only [hun, Option.some.injEq, Prod.mk.injEq] at hres
          rw [← hres.2]
          exact ⟨rfl, rfl⟩
        | some x =>
          obtain ⟨node, rest⟩ := x
          simp only [hun] at hres
          cases hfree : memory_pool_free s.pool (some node.addr) with
          | none => simp [hfree] at hres
          | some pool' =>
            simp only [hfree, Option.some.injEq, Prod.mk.injEq] at hres
            rw [← hres.2]
            exact ⟨names_set s.topics i topic _ hget rfl, rfl⟩

theorem pubsub_publish_names (s s' : pubsub_state) (topic_name : Option (List Nat))
    (data : Option (List Nat)) (len : Nat) (p : msg_priority_t) (now : Nat) (e : pubsub_err_t)
    (hres : pubsub_publish s topic_name data len p now = some (e, s')) :
    s'.topics.map topic_t.name = s.topics.map topic_t.name ∧ s'.topic_count = s.topic_count := by
  rcases pubsub_publish_cases s s' topic_name data len p now e hres with
    ⟨h1, _⟩ | ⟨name, i, topic, pool', d, _, hfind, _, henq⟩
  · subst h1
    exact ⟨rfl, rfl⟩
  · obtain ⟨hget, _, _⟩ := find_topic_some _ _ _ _ _ hfind
    obtain ⟨q, _, ⟨_, _, hs'⟩ | ⟨_, _, pool'', _, hs'⟩⟩ := publish_enqueue_cases _ _ _ _ _ _ henq
    · subst hs'
      exact ⟨names_set s.topics i topic _ hget rfl, rfl⟩
    · subst hs'
      exact ⟨rfl, rfl⟩

theorem topic_task_names (s s' : pubsub_state) (i : Nat) (ds : List delivery_t)
    (hres : topic_task s i = some (ds, s')) :
    s'.topics.map topic_t.name = s.topics.map topic_t.name ∧ s'.topic_count = s.topic_count := by
  unfold topic_task at hres
  cases hget : s.topics[i]? with
  | none => simp [hget] at hres
  | some topic =>
    simp only [hget] at hres
    cases hq : topic.msg_queue with
    | none => simp [hq] at hres
    | some q =>
      simp only [hq] at hres
      cases hitems : q.items with
      | nil => simp [hitems] at hres
      | cons m rest =>
        simp only [hitems] at hres
        cases hfree : memory_pool_free s.pool (m.data.map buffer_t.addr) with
        | none => simp [hfree] at hres
        | some pool' =>
          simp only [hfree, Option.some.injEq, Prod.mk.injEq] at hres
          rw [← hres.2]
          exact ⟨names_set s.topics i topic _ hget rfl, rfl⟩

theorem registry_inv_of_names (s s' : pubsub_state) (h : registry_inv s)
    (hn : s'.topics.map topic_t.name = s.topics.map topic_t.name)
    (hc : s'.topic_count = s.topic_count) : registry_inv s' := by
  obtain ⟨h1, h2, h3⟩ := h
  refine ⟨?_, hc ▸ h2, ?_⟩
  · have := congrArg List.length hn
    simpa [h1] using this
  · unfold registered_names at h3 ⊢
    rw [List.map_take, hn, hc, ← List.map_take]
    exact h3

theorem registry_inv_create_topic (s : pubsub_state) (h : registry_inv s)
    (name : Option (List Nat)) (queue_ok mutex_ok task_ok : Bool) :
    registry_inv (pubsub_create_topic s name queue_ok mutex_ok task_ok).2 := by
  obtain ⟨h1, h2, h3⟩ := h
  rcases pubsub_create_topic_cases s name queue_ok mutex_ok task_ok with
    ⟨_, hs | ⟨_, _, t', hs⟩⟩ | ⟨nm, _, hlen, hfind, hc, hs⟩
  · rw [hs]
    exact ⟨h1, h2, h3⟩
  · rw [hs]
    refine ⟨by simpa using h1, h2, ?_⟩
    show ((s.topics.set s.topic_count t').take s.topic_count |>.map topic_t.name).Nodup
    rw [take_set_ge _ _ _ _ (Nat.le_refl _)]
    exact h3
  · rw [hs]
    refine ⟨by simpa using h1, hc, ?_⟩
    show ((s.topics.set s.topic_count _).take (s.topic_count + 1) |>.map topic_t.name).Nodup
    rw [take_succ_set _ _ _ (by rw [h1]; exact hc)]
    simp only [List.map_append, List.map_cons, List.map_nil]
    have hcopy : copy_name nm = nm := by
      simp only [copy_name, MAX_TOPIC_NAME_LENGTH] at hlen ⊢
      exact List.take_of_length_le (by omega)
    rw [hcopy]
    refine List.nodup_append.mpr ⟨h3, List.nodup_singleton _, ?_⟩
    intro x hx hx'
    simp only [List.mem_singleton] at hx'
    subst hx'
    exact find_topic_none_not_mem x s.topics s.topic_count hfind hx

theorem registry_inv_init : registry_inv init_state := by decide

/-- In every reachable state the table has `MAX_TOPICS` slots, `topic_count` is at most
`MAX_TOPICS`, and the registered names are pairwise distinct. -/
theorem reachable_registry_inv (s : pubsub_state) (h : Reachable s) : registry_inv s := by
  induction h with
  | init => exact registry_inv_init
  | create_topic name q m t _ ih => exact registry_inv_create_topic _ ih name q m t
  | subscribe name cb ud _ ih =>
    obtain ⟨h1, h2⟩ := pubsub_subscribe_names _ name cb ud
    exact registry_inv_of_names _ _ ih h1 h2
  | unsubscribe name cb e _ hres ih =>
    obtain ⟨h1, h2⟩ := pubsub_unsubscribe_names _ _ name cb e hres
    exact registry_inv_of_names _ _ ih h1 h2
  | publish name data len p now e _ hres ih =>
    obtain ⟨h1, h2⟩ := pubsub_publish_names _ _ name data len p now e hres
    exact registry_inv_of_names _ _ ih h1 h2
  | topic_task i ds _ _ hres ih =>
    obtain ⟨h1, h2⟩ := topic_task_names _ _ i ds hres
    exact registry_inv_of_names _ _ ih h1 h2

/-! ## Claims on `pubsub_create_topic` -/

/-- C23 (amended): `pubsub_create_topic` returns `PUBSUB_ERR_INVALID_PARAM` and changes nothing
for a null name and for every name of `MAX_TOPIC_NAME_LENGTH` (64) bytes or more, so for every
name longer than 64 bytes; the empty name is never rejected as invalid. -/
theorem create_topic_rejects_long_name (s : pubsub_state) (name : List Nat)
    (queue_ok mutex_ok task_ok : Bool) (h : MAX_TOPIC_NAME_LENGTH ≤ name.length) :
    pubsub_create_topic s (some name) queue_ok mutex_ok task_ok = (PUBSUB_ERR_INVALID_PARAM, s) ∧
    pubsub_create_topic s none queue_ok mutex_ok task_ok = (PUBSUB_ERR_INVALID_PARAM, s) ∧
    (pubsub_create_topic s (some []) queue_ok mutex_ok task_ok).1 ≠ PUBSUB_ERR_INVALID_PARAM := by
  refine ⟨?_, rfl, ?_⟩
  · simp only [pubsub_create_topic, if_pos h]
  · have hlen : ¬ MAX_TOPIC_NAME_LENGTH ≤ ([] : List Nat).length := by decide
    simp only [pubsub_create_topic, if_neg hlen]
    repeat' split
    all_goals simp

/-- Witness for C23 (amended): a name of 65 bytes on the initial state. -/
theorem create_topic_rejects_long_name_witness :
    MAX_TOPIC_NAME_LENGTH < (List.replicate 65 97).length ∧
    pubsub_create_topic init_state (some (List.replicate 65 97)) true true true
      = (PUBSUB_ERR_INVALID_PARAM, init_state) ∧
    pubsub_create_topic init_state none true true true = (PUBSUB_ERR_INVALID_PARAM, init_state) ∧
    (pubsub_create_topic init_state (some []) true true true).1 ≠ PUBSUB_ERR_INVALID_PARAM :=
  ⟨by decide,
    create_topic_rejects_long_name init_state (List.replicate 65 97) true true true (by decide)⟩

/-- Counterexample to C23 as stated: `pubsub_create_topic("")` on the initial state returns
`PUBSUB_OK` and registers a topic with the empty name in slot 0, which a lookup of `""` then
finds. -/
theorem create_topic_accepts_empty_name :
    pubsub_create_topic init_state (some []) true true true = (PUBSUB_OK, state_empty_name) ∧
    init_state.topic_count = 0 ∧ state_empty_name.topic_count = 1 ∧
    (find_topic [] state_empty_name.topics state_empty_name.topic_count).map Prod.fst = some 0 ∧
    state_empty_name.topics ≠ init_state.topics := by
  decide

/-- C24: in a reachable state, `pubsub_create_topic` of a name that a registered topic already
has, byte for byte, returns `PUBSUB_ERR_TOPIC_EXISTS` and changes nothing; and the names of the
registered topics are pairwise distinct. -/
theorem create_topic_duplicate_rejected (s : pubsub_state) (name : List Nat)
    (queue_ok mutex_ok task_ok : Bool) (hr : Reachable s) :
    (name ∈ registered_names s →
      pubsub_create_topic s (some name) queue_ok mutex_ok task_ok
        = (PUBSUB_ERR_TOPIC_EXISTS, s)) ∧
    (registered_names s).Nodup := by
  refine ⟨?_, (reachable_registry_inv s hr).2.2⟩
  intro hmem
  have hok := reachable_topics_ok s hr
  obtain ⟨r, hfind⟩ := find_topic_mem name s.topics s.topic_count hmem
  have hlen : ¬ MAX_TOPIC_NAME_LENGTH ≤ name.length := by
    obtain ⟨t, ht, hname⟩ := List.mem_map.mp hmem
    have h3 := (hok t (List.mem_of_mem_take ht)).2.2.1
    rw [hname] at h3
    omega
  simp only [pubsub_create_topic, if_neg hlen, hfind]

/-- Witness for C24: a second `pubsub_create_topic("sensor/temperature")`. -/
theorem create_topic_duplicate_rejected_witness :
    Reachable state_created ∧
    (sensor_topic ∈ registered_names state_created →
      pubsub_create_topic state_created (some sensor_topic) true true true
        = (PUBSUB_ERR_TOPIC_EXISTS, state_created)) ∧
    (registered_names state_created).Nodup ∧
    sensor_topic ∈ registered_names state_created :=
  ⟨Reachable.create_topic (some sensor_topic) true true true Reachable.init,
    (create_topic_duplicate_rejected state_created sensor_topic true true true
      (Reachable.create_topic (some sensor_topic) true true true Reachable.init)).1,
    (create_topic_duplicate_rejected state_created sensor_topic true true true
      (Reachable.create_topic (some sensor_topic) true true true Reachable.init)).2,
    by decide⟩

/-- C25 (amended): whenever `pubsub_create_topic` returns an error, `topic_count`, the pool and
every slot other than the one at index `topic_count` are as before the call, so the registered
slots and every lookup are unchanged. The call changes nothing at all when the error is
`INVALID_PARAM` or `TOPIC_EXISTS` or the table is full; when the queue, the mutex or the worker
task cannot be created, the unregistered slot at index `topic_count` keeps what the call wrote
to it. -/
theorem create_topic_error_keeps_registered (s s' : pubsub_state)
    (topic_name : Option (List Nat)) (queue_ok mutex_ok task_ok : Bool) (e : pubsub_err_t)
    (h : pubsub_create_topic s topic_name queue_ok mutex_ok task_ok = (e, s'))
    (he : e ≠ PUBSUB_OK) :
    s'.topic_count = s.topic_count ∧ s'.pool = s.pool ∧ s'.topics_lock = s.topics_lock ∧
    s'.topics.length = s.topics.length ∧
    (∀ i, i ≠ s.topic_count → s'.topics[i]? = s.topics[i]?) ∧
    s'.topics.take s.topic_count = s.topics.take s.topic_count ∧
    (∀ name, find_topic name s'.topics s'.topic_count = find_topic name s.topics s.topic_count) ∧
    (e = PUBSUB_ERR_INVALID_PARAM ∨ e = PUBSUB_ERR_TOPIC_EXISTS ∨ MAX_TOPICS ≤ s.topic_count →
      s' = s) := by
  have h1 : (pubsub_create_topic s topic_name queue_ok mutex_ok task_ok).1 = e := by rw [h]
  have h2 : (pubsub_create_topic s topic_name queue_ok mutex_ok task_ok).2 = s' := by rw [h]
  rcases pubsub_create_topic_cases s topic_name queue_ok mutex_ok task_ok with
    ⟨_, hs | ⟨hc, hmem, t', hs⟩⟩ | ⟨nm, _, _, _, _, hs⟩
  · rw [h2] at hs
    subst hs
    exact ⟨rfl, rfl, rfl, rfl, fun _ _ => rfl, rfl, fun _ => rfl, fun _ => rfl⟩
  · rw [h2] at hs
    rw [h1] at hmem
    subst hs
    refine ⟨rfl, rfl, rfl, by simp, ?_, ?_, ?_, ?_⟩
    · intro i hi
      exact List.getElem?_set_ne (Ne.symm hi)
    · exact take_set_ge _ _ _ _ (Nat.le_refl _)
    · intro name
      show find_topic name (s.topics.set s.topic_count t') s.topic_count = _
      rw [find_topic_take, take_set_ge _ _ _ _ (Nat.le_refl _), ← find_topic_take]
    · rintro (h3 | h3 | h3)
      · rw [hmem] at h3
        cases h3
      · rw [hmem] at h3
        cases h3
      · omega
  · rw [hs] at h1
    exact absurd h1.symm he

/-- Witness for C25 (amended): the creation of `"sensor/temperature"` with a failing
`xQueueCreate`. -/
theorem create_topic_error_keeps_registered_witness :
    PUBSUB_ERR_NO_MEMORY ≠ PUBSUB_OK ∧
    state_create_failed.topic_count = init_state.topic_count ∧
    state_create_failed.pool = init_state.pool ∧
    state_create_failed.topics_lock = init_state.topics_lock ∧
    state_create_failed.topics.length = init_state.topics.length ∧
    (∀ i, i ≠ init_state.topic_count → state_create_failed.topics[i]? = init_state.topics[i]?) ∧
    state_create_failed.topics.take init_state.topic_count
      = init_state.topics.take init_state.topic_count ∧
    (∀ name, find_topic name state_create_failed.topics state_create_failed.topic_count
      = find_topic name init_state.topics init_state.topic_count) ∧
    (PUBSUB_ERR_NO_MEMORY = PUBSUB_ERR_INVALID_PARAM ∨
        PUBSUB_ERR_NO_MEMORY = PUBSUB_ERR_TOPIC_EXISTS ∨ MAX_TOPICS ≤ init_state.topic_count →
      state_create_failed = init_state) :=
  ⟨by decide,
    create_topic_error_keeps_registered init_state state_create_failed (some sensor_topic)
      false true true PUBSUB_ERR_NO_MEMORY (by decide) (by decide)⟩

/-- Counterexample to C25 as stated: on the initial state, the creation of
`"sensor/temperature"` with a failing `xQueueCreate` returns `PUBSUB_ERR_NO_MEMORY`, and slot 0
of the table, zeroed before the call, now holds the name. -/
theorem failed_create_leaves_name_in_slot :
    pubsub_create_topic init_state (some sensor_topic) false true true
      = (PUBSUB_ERR_NO_MEMORY, state_create_failed) ∧
    (init_state.topics.getD 0 topic_zero).name = [] ∧
    (state_create_failed.topics.getD 0 topic_zero).name = sensor_topic ∧
    state_create_failed.topics ≠ init_state.topics ∧
    (pubsub_create_topic init_state (some sensor_topic) true false true).2.topics
      ≠ init_state.topics ∧
    (pubsub_create_topic init_state (some sensor_topic) true true false).2.topics
      ≠ init_state.topics := by
  decide

theorem reachable_create_topics (n : Nat) (s : pubsub_state) (h : Reachable s) :
    Reachable (create_topics n s) := by
  induction n generalizing s with
  | zero => exact h
  | succ k ih => exact ih _ (Reachable.create_topic (some [k + 1]) true true true h)

/-- C26: in a reachable state the number of registered topics is at most `MAX_TOPICS`, and when
it is `MAX_TOPICS`, `pubsub_create_topic` of a valid name that is not registered returns
`PUBSUB_ERR_NO_MEMORY` and changes nothing. -/
theorem create_topic_at_capacity (s : pubsub_state) (name : List Nat)
    (queue_ok mutex_ok task_ok : Bool) (hr : Reachable s) :
    s.topic_count ≤ MAX_TOPICS ∧
    (s.topic_count = MAX_TOPICS → name.length < MAX_TOPIC_NAME_LENGTH →
      name ∉ registered_names s →
      pubsub_create_topic s (some name) queue_ok mutex_ok task_ok
        = (PUBSUB_ERR_NO_MEMORY, s)) := by
  refine ⟨(reachable_registry_inv s hr).2.1, ?_⟩
  intro hfull hlen hnew
  have hlen' : ¬ MAX_TOPIC_NAME_LENGTH ≤ name.length := by omega
  have hfind : find_topic name s.topics s.topic_count = none := by
    cases hf : find_topic name s.topics s.topic_count with
    | none => rfl
    | some r =>
      obtain ⟨i, t⟩ := r
      obtain ⟨hget, hname, hi⟩ := find_topic_some _ _ _ _ _ hf
      exfalso
      apply hnew
      have hget' : (s.topics.take s.topic_count)[i]? = some t := by
        rw [List.getElem?_take_of_lt hi]
        exact hget
      exact hname ▸ List.mem_map_of_mem _ (List.getElem?_mem hget')
  have hcap : MAX_TOPICS ≤ s.topic_count := by omega
  simp only [pubsub_create_topic, if_neg hlen', hfind, if_pos hcap]

set_option maxRecDepth 100000 in
/-- Witness for C26: the 51st creation, after the topics named by the bytes 50, 49, ..., 1. -/
theorem create_topic_at_capacity_witness :
    Reachable state_fifty_topics ∧
    state_fifty_topics.topic_count ≤ MAX_TOPICS ∧
    (state_fifty_topics.topic_count = MAX_TOPICS →
      (cstr "one more").length < MAX_TOPIC_NAME_LENGTH →
      cstr "one more" ∉ registered_names state_fifty_topics →
      pubsub_create_topic state_fifty_topics (some (cstr "one more")) true true true
        = (PUBSUB_ERR_NO_MEMORY, state_fifty_topics)) ∧
    state_fifty_topics.topic_count = MAX_TOPICS ∧
    cstr "one more" ∉ registered_names state_fifty_topics :=
  ⟨reachable_create_topics MAX_TOPICS init_state Reachable.init,
    (create_topic_at_capacity state_fifty_topics (cstr "one more") true true true
      (reachable_create_topics MAX_TOPICS init_state Reachable.init)).1,
    (create_topic_at_capacity state_fifty_topics (cstr "one more") true true true
      (reachable_create_topics MAX_TOPICS init_state Reachable.init)).2,
    by decide, by decide⟩

/-! ## Claims on the payload size and the statistics -/

/-- C27 (amended): a successful `pubsub_publish` enqueues one message whose `data_len` is the
length the caller passed, whatever its size; for a non-zero length the message carries a payload
copy of that many bytes in a pool block that holds them. The length is not compared with
`MAX_MSG_SIZE`. -/
theorem publish_enqueues_given_length (s s' : pubsub_state) (topic_name : Option (List Nat))
    (data : Option (List Nat)) (len : Nat) (p : msg_priority_t) (now : Nat)
    (h : pubsub_publish s topic_name data len p now = some (PUBSUB_OK, s')) :
    ∃ name i topic q m,
      topic_name = some name ∧ find_topic name s.topics s.topic_count = some (i, topic) ∧
      topic.msg_queue = some q ∧ m.data_len = len ∧
      (len = 0 → m.data = none) ∧
      (0 < len → ∃ buf, m.data = some buf ∧ buf.bytes.length = len ∧
        len ≤ block_capacity buf.addr s'.pool.first_block 0) ∧
      s'.topics[i]? = some { topic with
        msg_queue := some { q with
          items := if p = MSG_PRIORITY_CRITICAL then m :: q.items else q.items ++ [m] } } := by
  obtain ⟨name, i, topic, q, pool', d, hname, hfind, hq, _, hpay, hs'⟩ :=
    pubsub_publish_ok s s' topic_name data len p now h
  obtain ⟨hget, _, _⟩ := find_topic_some _ _ _ _ _ hfind
  have hi : i < s.topics.length := getElem?_lt_length _ _ _ hget
  refine ⟨name, i, topic, q,
    { topic := copy_name name, data := d, data_len := len, priority := p, timestamp := now,
      user_data := none }, hname, hfind, hq, rfl, ?_, ?_, ?_⟩
  · intro h0
    rcases hpay with ⟨_, _, hd⟩ | ⟨hpos, _⟩
    · exact hd
    · omega
  · intro hpos
    rcases hpay with ⟨h0, _, _⟩ | ⟨_, a, src, _, hsrc, _, hcap, hd⟩
    · omega
    · refine ⟨{ addr := a, bytes := src.take len }, hd, ?_, ?_⟩
      · simp only [List.length_take]
        omega
      · rw [hs']
        exact hcap
  · rw [hs']
    simp only [List.getElem?_set_self hi]

/-- Witness for C27 (amended): the publish of `"25.5"` of `app_main`. -/
theorem publish_enqueues_given_length_witness :
    ∃ name i topic q m,
      some sensor_topic = some name ∧
      find_topic name state_subscribed.topics state_subscribed.topic_count = some (i, topic) ∧
      topic.msg_queue = some q ∧ m.data_len = 4 ∧
      (4 = 0 → m.data = none) ∧
      (0 < 4 → ∃ buf, m.data = some buf ∧ buf.bytes.length = 4 ∧
        4 ≤ block_capacity buf.addr state_published.pool.first_block 0) ∧
      state_published.topics[i]? = some { topic with
        msg_queue := some { q with
          items := if MSG_PRIORITY_NORMAL = MSG_PRIORITY_CRITICAL then m :: q.items
                   else q.items ++ [m] } } :=
  publish_enqueues_given_length state_subscribed state_published (some sensor_topic)
    (some temp_msg) 4 MSG_PRIORITY_NORMAL 1000 (by decide)

set_option maxRecDepth 100000 in
/-- Counterexample to C27 as stated: a publish of `MAX_MSG_SIZE + 1 = 1025` bytes on
`"sensor/temperature"` returns `PUBSUB_OK`, and the queue then holds a message of `data_len`
1025. -/
theorem publish_accepts_oversized_payload :
    big_payload.length = 1025 ∧ MAX_MSG_SIZE < 1025 ∧
    (pubsub_publish state_subscribed (some sensor_topic) (some big_payload) (MAX_MSG_SIZE + 1)
        MSG_PRIORITY_NORMAL 1000).map Prod.fst = some PUBSUB_OK ∧
    queued_lengths state_subscribed 0 = [] ∧
    queued_lengths state_big_published 0 = [1025] := by
  decide

/-- C28 (amended): a `pubsub_publish`, whatever it returns (`PUBSUB_OK` and
`PUBSUB_ERR_QUEUE_FULL` included), leaves the result of `topic_get_stats` for every name as it
was: `msg_published` and `msg_dropped` are not changed by a publish. -/
theorem publish_keeps_statistics (s s' : pubsub_state) (topic_name : Option (List Nat))
    (data : Option (List Nat)) (len : Nat) (p : msg_priority_t) (now : Nat) (e : pubsub_err_t)
    (adv : List topic_advanced_t) (stats_name : Option (List Nat)) (out : Bool)
    (h : pubsub_publish s topic_name data len p now = some (e, s')) :
    topic_get_stats s'.topics adv stats_name out = topic_get_stats s.topics adv stats_name out :=
  topic_get_stats_names _ _ _ _ _ (pubsub_publish_names s s' topic_name data len p now e h).1

/-- Witness for C28 (amended): the successful publish of `"25.5"`. -/
theorem publish_keeps_statistics_witness :
    topic_get_stats state_published.topics advanced_ready (some sensor_topic) true
      = topic_get_stats state_subscribed.topics advanced_ready (some sensor_topic) true :=
  publish_keeps_statistics state_subscribed state_published (some sensor_topic) (some temp_msg) 4
    MSG_PRIORITY_NORMAL 1000 PUBSUB_OK advanced_ready (some sensor_topic) true (by decide)

set_option maxRecDepth 100000 in
/-- Counterexample to C28 as stated: after `topic_manager_init_advanced`, the statistics of
`"sensor/temperature"` are all zero; they are still all zero after a publish that returned
`PUBSUB_OK` (`msg_published` is 0, not 1) and after a publish on the full queue that returned
`PUBSUB_ERR_QUEUE_FULL` (`msg_dropped` is 0, not 1). -/
theorem publish_does_not_update_counters :
    topic_get_stats state_subscribed.topics advanced_ready (some sensor_topic) true
      = some (ESP_OK, some topic_stats_zero) ∧
    (pubsub_publish state_subscribed (some sensor_topic) (some temp_msg) 4
        MSG_PRIORITY_NORMAL 1000).map Prod.fst = some PUBSUB_OK ∧
    (topic_get_stats state_published.topics advanced_ready (some sensor_topic) true).map
        (fun r => r.2.map topic_stats_t.msg_published) = some (some 0) ∧
    (pubsub_publish state_full (some sensor_topic) (some temp_msg) 4
        MSG_PRIORITY_NORMAL 100).map Prod.fst = some PUBSUB_ERR_QUEUE_FULL ∧
    (topic_get_stats state_full.topics advanced_ready (some sensor_topic) true).map
        (fun r => r.2.map topic_stats_t.msg_dropped) = some (some 0) ∧
    (topic_get_stats state_full_normal.topics advanced_ready (some sensor_topic) true).map
        (fun r => r.2.map topic_stats_t.msg_dropped) = some (some 0) := by
  decide

/-- C29 (amended): a `pubsub_subscribe` or `pubsub_unsubscribe` call leaves the result of
`topic_get_stats` for every name as it was, so the `subscriber_count` field of the statistics is
not updated by these calls; the counter that equals the number of records in the subscriber
list, in every state these calls reach, is the `subscriber_count` field of the topic record. -/
theorem subscribe_keeps_statistics (s s' : pubsub_state) (name : Option (List Nat))
    (cb ud : Option Nat) (e : pubsub_err_t) (adv : List topic_advanced_t)
    (stats_name : Option (List Nat)) (out : Bool) (hr : Reachable s)
    (h : pubsub_subscribe s name cb ud = (e, s') ∨ pubsub_unsubscribe s name cb = some (e, s')) :
    topic_get_stats s'.topics adv stats_name out = topic_get_stats s.topics adv stats_name out ∧
    ∀ t ∈ s'.topics, t.subscriber_count = t.subscribers.length := by
  rcases h with h | h
  · have hs' : (pubsub_subscribe s name cb ud).2 = s' := by rw [h]
    have hr' : Reachable s' := hs' ▸ Reachable.subscribe name cb ud hr
    refine ⟨topic_get_stats_names _ _ _ _ _ ?_, fun t ht => (reachable_topics_ok s' hr' t ht).1⟩
    rw [← hs']
    exact (pubsub_subscribe_names s name cb ud).1
  · have hr' : Reachable s' := Reachable.unsubscribe name cb e hr h
    exact ⟨topic_get_stats_names _ _ _ _ _ (pubsub_unsubscribe_names s s' name cb e h).1,
      fun t ht => (reachable_topics_ok s' hr' t ht).1⟩

/-- Witness for C29 (amended): the subscribe of `app_main`. -/
theorem subscribe_keeps_statistics_witness :
    Reachable state_created ∧
    topic_get_stats state_subscribed.topics advanced_ready (some sensor_topic) true
      = topic_get_stats state_created.topics advanced_ready (some sensor_topic) true ∧
    ∀ t ∈ state_subscribed.topics, t.subscriber_count = t.subscribers.length :=
  ⟨Reachable.create_topic (some sensor_topic) true true true Reachable.init,
    subscribe_keeps_statistics state_created state_subscribed (some sensor_topic)
      (some message_callback) none PUBSUB_OK advanced_ready (some sensor_topic) true
      (Reachable.create_topic (some sensor_topic) true true true Reachable.init)
      (Or.inl (by decide))⟩

/-- Counterexample to C29 as stated: after the subscribe of `app_main` the subscriber list of
`"sensor/temperature"` holds one record and the record's counter is 1, while the statistics
returned by `topic_get_stats` still report `subscriber_count = 0`. -/
theorem stats_subscriber_count_stays_zero :
    pubsub_subscribe state_created (some sensor_topic) (some message_callback) none
      = (PUBSUB_OK, state_subscribed) ∧
    (state_subscribed.topics.getD 0 topic_zero).subscribers.length = 1 ∧
    (state_subscribed.topics.getD 0 topic_zero).subscriber_count = 1 ∧
    (topic_get_stats state_subscribed.topics advanced_ready (some sensor_topic) true).map
        (fun r => (r.1, r.2.map topic_stats_t.subscriber_count)) = some (ESP_OK, some 0) := by
  decide

/-- In a reachable state, `topic_get_stats` of the name of a registered topic returns `ESP_OK`
with the statistics of that topic's slot. -/
theorem topic_get_stats_registered (s : pubsub_state) (adv : List topic_advanced_t) (i : Nat)
    (t : topic_t) (a : topic_advanced_t) (hr : Reachable s) (hi : i < s.topic_count)
    (hget : s.topics[i]? = some t) (ha : adv[i]? = some a) (hlock : a.stats_lock = true) :
    topic_get_stats s.topics adv (some t.name) true = some (ESP_OK, some a.stats) := by
  obtain ⟨_, hc, hnodup⟩ := reachable_registry_inv s hr
  have hfind := find_topic_mono _ _ _ _ _
    (find_topic_registered s.topics s.topic_count i t hnodup hget hi) hc
  simp only [topic_get_stats, hfind, ha, hlock, if_true]
  simp

/-- With no slot of the table carrying the name, `topic_get_stats` returns `ESP_ERR_NOT_FOUND`
and writes nothing. -/
theorem topic_get_stats_not_found (ts : List topic_t) (adv : List topic_advanced_t)
    (name : List Nat) (h : ∀ t ∈ ts, t.name ≠ name) :
    topic_get_stats ts adv (some name) true = some (ESP_ERR_NOT_FOUND, none) := by
  have hfind : find_topic name ts MAX_TOPICS = none := by
    cases hf : find_topic name ts MAX_TOPICS with
    | none => rfl
    | some r =>
      obtain ⟨i, t⟩ := r
      obtain ⟨hget, hname, _⟩ := find_topic_some _ _ _ _ _ hf
      exact absurd hname (h t (List.getElem?_mem hget))
  simp only [topic_get_stats, hfind]
  simp

/-- C30, evaluation at the failing inputs: with no topic registered (`topic_count = 0`),
`topic_get_stats("", &out)` returns `ESP_OK` and copies the statistics of slot 0 to `out`,
because the lookup compares the empty name of the unused slot; and after a
`pubsub_create_topic("sensor/temperature")` that failed with `PUBSUB_ERR_NO_MEMORY`,
`topic_get_stats("sensor/temperature", &out)` returns `ESP_OK` as well. A name that no slot
carries gets `ESP_ERR_NOT_FOUND`. -/
theorem get_stats_matches_unregistered_slot :
    init_state.topic_count = 0 ∧ registered_names init_state = [] ∧
    topic_get_stats init_state.topics advanced_ready (some []) true
      = some (ESP_OK, some topic_stats_zero) ∧
    (pubsub_create_topic init_state (some sensor_topic) false true true).1
      = PUBSUB_ERR_NO_MEMORY ∧
    state_create_failed.topic_count = 0 ∧ registered_names state_create_failed = [] ∧
    topic_get_stats state_create_failed.topics advanced_ready (some sensor_topic) true
      = some (ESP_OK, some topic_stats_zero) ∧
    topic_get_stats init_state.topics advanced_ready (some sensor_topic) true
      = some (ESP_ERR_NOT_FOUND, none) := by
  decide

/-! ## Claims on the topic worker and on allocate-then-free -/

/-- C31: one iteration of the worker of a slot whose queue has the message `m` at its head, in
a state that satisfies the ownership invariant, completes; it makes exactly one call per record
of the subscriber list, in list order, each with the record's own cookie and the same message
`m`; afterwards the payload of `m` has been freed once (it was allocated before and is not
allocated after, every other block is untouched), and with a null payload pointer the pool is
not touched. A record prepended by the latest successful subscribe is called first. -/
theorem worker_fan_out (s : pubsub_state) (i : Nat) (topic : topic_t) (q : queue_t)
    (m : pubsub_msg_t) (rest : List pubsub_msg_t) (hheap : heap_inv s)
    (hget : s.topics[i]? = some topic) (hq : topic.msg_queue = some q)
    (hitems : q.items = m :: rest) :
    ∃ pool',
      topic_task s i
        = some (topic.subscribers.map
                  (fun x => { callback := x.callback, msg := m, user_data := x.user_data }),
                { s with
                  pool := pool',
                  topics := s.topics.set i
                    { topic with msg_queue := some { q with items := rest } } }) ∧
      memory_pool_free s.pool (m.data.map buffer_t.addr) = some pool' ∧
      (m.data = none → pool' = s.pool) ∧
      (∀ buf, m.data = some buf →
        buf.addr ∈ allocated_ptrs s.pool.first_block 0 ∧
        buf.addr ∉ allocated_ptrs pool'.first_block 0 ∧
        ∀ x, x ≠ buf.addr →
          (x ∈ allocated_ptrs pool'.first_block 0 ↔ x ∈ allocated_ptrs s.pool.first_block 0)) ∧
      (∀ s0 name cb ud, pubsub_subscribe s0 (some name) (some cb) ud = (PUBSUB_OK, s) →
        (find_topic name s0.topics s0.topic_count).map Prod.fst = some i →
        ∃ a old, topic.subscribers = { callback := cb, user_data := ud, addr := a } :: old ∧
          (find_topic name s0.topics s0.topic_count).map (fun r => r.2.subscribers) = some old) := by
  obtain ⟨pool', hstep⟩ := topic_task_head s hheap i topic q m rest hget hq hitems
  have hfree : memory_pool_free s.pool (m.data.map buffer_t.addr) = some pool' := by
    simp only [topic_task, hget, hq, hitems] at hstep
    cases hf : memory_pool_free s.pool (m.data.map buffer_t.addr) with
    | none => simp [hf] at hstep
    | some p2 =>
      simp only [hf, Option.some.injEq, Prod.mk.injEq] at hstep
      have := congrArg pubsub_state.pool hstep.2
      simp only at this
      rw [this]
  refine ⟨pool', ?_, hfree, ?_, ?_, ?_⟩
  · rw [hstep, fan_out_eq_map]
  · intro hnone
    rw [hnone] at hfree
    simp only [Option.map_none', memory_pool_free, Option.some.injEq] at hfree
    exact hfree.symm
  · intro buf hbuf
    have hown : buf.addr ∈ owned_ptrs s.topics :=
      payload_addr_owned s.topics i topic q m buf hget hq (by simp [hitems]) hbuf
    have halloc := hheap.2 _ hown
    obtain ⟨p2, hf2, hall⟩ := memory_pool_free_allocated s.pool buf.addr halloc
    rw [hbuf] at hfree
    simp only [Option.map_some'] at hfree
    rw [hf2] at hfree
    simp only [Option.some.injEq] at hfree
    subst hfree
    refine ⟨halloc, fun hx => ((hall _).mp hx).2 rfl, ?_⟩
    intro x hx
    rw [hall x]
    exact ⟨fun h => h.1, fun h => ⟨h, hx⟩⟩
  · intro s0 name cb ud hsub hfind
    obtain ⟨nm, c, i0, topic0, a, pool0, hn, hc, hfind0, _, _, _, hs⟩ :=
      pubsub_subscribe_ok s0 s (some name) (some cb) ud hsub
    simp only [Option.some.injEq] at hn hc
    subst hn
    subst hc
    rw [hfind0] at hfind ⊢
    simp only [Option.map_some', Option.some.injEq] at hfind
    subst hfind
    obtain ⟨hget0, _, _⟩ := find_topic_some _ _ _ _ _ hfind0
    have hi := getElem?_lt_length s0.topics i0 topic0 hget0
    rw [hs] at hget
    simp only [List.getElem?_set_self hi, Option.some.injEq] at hget
    refine ⟨a, topic0.subscribers, ?_, rfl⟩
    rw [← hget]

/-- Witness for C31: the worker iteration on the message `"25.5"` queued in `state_published`,
whose topic has the one subscriber `message_callback` with a null cookie. -/
theorem worker_fan_out_witness :
    (heap_inv state_published ∧
      (topic_task state_published 0).map Prod.fst
        = some [{ callback := message_callback, msg := temp_queued_msg, user_data := none }]) ∧
    ∃ pool',
      topic_task state_published 0
        = some ((state_published.topics.getD 0 topic_zero).subscribers.map
                  (fun x => { callback := x.callback, msg := temp_queued_msg,
                              user_data := x.user_data }),
                { state_published with
                  pool := pool',
                  topics := state_published.topics.set 0
                    { state_published.topics.getD 0 topic_zero with
                      msg_queue := some { items := [], length := MAX_QUEUE_SIZE } } }) ∧
      memory_pool_free state_published.pool (temp_queued_msg.data.map buffer_t.addr)
        = some pool' ∧
      (temp_queued_msg.data = none → pool' = state_published.pool) ∧
      (∀ buf, temp_queued_msg.data = some buf →
        buf.addr ∈ allocated_ptrs state_published.pool.first_block 0 ∧
        buf.addr ∉ allocated_ptrs pool'.first_block 0 ∧
        ∀ x, x ≠ buf.addr →
          (x ∈ allocated_ptrs pool'.first_block 0 ↔
            x ∈ allocated_ptrs state_published.pool.first_block 0)) ∧
      (∀ s0 name cb ud,
        pubsub_subscribe s0 (some name) (some cb) ud = (PUBSUB_OK, state_published) →
        (find_topic name s0.topics s0.topic_count).map Prod.fst = some 0 →
        ∃ a old,
          (state_published.topics.getD 0 topic_zero).subscribers
            = { callback := cb, user_data := ud, addr := a } :: old ∧
          (find_topic name s0.topics s0.topic_count).map (fun r => r.2.subscribers)
            = some old) :=
  ⟨by decide,
    worker_fan_out state_published 0 (state_published.topics.getD 0 topic_zero)
      { items := [temp_queued_msg], length := MAX_QUEUE_SIZE } temp_queued_msg [] (by decide) (by decide) (by decide) rfl⟩

/-! ## Allocate, then free the returned pointer -/

theorem coalesce_from_id (cur : block_header_t) (rest : List block_header_t)
    (h : no_adjacent_free (cur :: rest)) : coalesce_from cur rest = cur :: rest := by
  induction rest generalizing cur with
  | nil => rfl
  | cons nxt rest ih =>
    unfold no_adjacent_free at h
    rw [List.chain'_cons] at h
    simp only [coalesce_from, if_neg h.1]
    rw [ih nxt h.2]

/-- The coalescing pass changes nothing in a list without two adjacent free blocks. -/
theorem coalesce_id (bs : List block_header_t) (h : no_adjacent_free bs) : coalesce bs = bs := by
  cases bs with
  | nil => rfl
  | cons b rest => exact coalesce_from_id b rest h

theorem block_offset_prefix (pre rest : List block_header_t) (off : Nat) :
    block_offset (pre ++ rest) pre.length off = off + span_bytes pre := by
  induction pre generalizing off with
  | nil =>
    cases rest <;> simp [block_offset, span_bytes]
  | cons p ps ih =>
    show block_offset (p :: (ps ++ rest)) (ps.length + 1) off = _
    simp only [block_offset, ih, span_bytes]
    omega

theorem mark_free_at (pre : List block_header_t) (c : block_header_t)
    (post : List block_header_t) (off : Nat) :
    mark_free (off + span_bytes pre + HEADER_SIZE) (pre ++ c :: post) off
      = some (c.size, pre ++ { size := c.size, is_free := true } :: post) := by
  induction pre generalizing off with
  | nil => simp [mark_free, span_bytes]
  | cons p ps ih =>
    have hH : HEADER_SIZE = 12 := rfl
    have hne : ¬ off + HEADER_SIZE = off + span_bytes (p :: ps) + HEADER_SIZE := by
      simp only [span_bytes]
      omega
    have e : off + span_bytes (p :: ps) + HEADER_SIZE
        = off + HEADER_SIZE + p.size + span_bytes ps + HEADER_SIZE := by
      simp only [span_bytes]
      omega
    show mark_free _ (p :: (ps ++ c :: post)) off = _
    simp only [mark_free, if_neg hne]
    rw [e, ih]
    rfl

/-- The block a successful allocation takes, and the list it leaves. -/
theorem memory_pool_alloc_shape (p p' : memory_pool_t) (size a : Nat)
    (h : memory_pool_alloc p size = (some a, p')) :
    ∃ i b, p.first_block[i]? = some b ∧ b.is_free = true ∧ align8 size ≤ b.size ∧
      a = block_offset p.first_block i 0 + HEADER_SIZE ∧
      p'.first_block = (take_block (align8 size) (b.size - align8 size) p.first_block i).1 := by
  unfold memory_pool_alloc at h
  split at h
  · simp at h
  · cases hscan : best_fit_scan (align8 size) p.first_block 0 none SIZE_MAX with
    | mk res d =>
      rw [hscan] at h
      cases res with
      | none => simp at h
      | some i =>
        simp only [Prod.mk.injEq, Option.some.injEq] at h
        obtain ⟨ha, hp'⟩ := h
        rcases best_fit_scan_spec _ _ _ _ _ _ _ hscan with
          ⟨h1, _⟩ | ⟨j, b, h1, hget, hfree, hfit, hd, _⟩
        · cases h1
        · simp only [Option.some.injEq, Nat.zero_add] at h1
          subst h1
          subst hd
          refine ⟨i, b, hget, hfree, hfit, ha.symm, ?_⟩
          rw [← hp']

theorem no_adjacent_free_append (l1 l2 : List block_header_t) :
    no_adjacent_free (l1 ++ l2) ↔
      no_adjacent_free l1 ∧ no_adjacent_free l2 ∧
        ∀ x ∈ l1.getLast?, ∀ y ∈ l2.head?, ¬ (x.is_free = true ∧ y.is_free = true) := by
  unfold no_adjacent_free
  exact List.chain'_append

theorem no_adjacent_free_head (b : block_header_t) (rest : List block_header_t)
    (hfree : b.is_free = true) (h : no_adjacent_free (b :: rest)) :
    no_adjacent_free rest ∧ ∀ c ∈ rest.head?, c.is_free = false := by
  unfold no_adjacent_free at h ⊢
  refine ⟨h.tail, ?_⟩
  intro c hc
  cases rest with
  | nil => simp at hc
  | cons d ds =>
    simp only [List.head?_cons, Option.mem_def, Option.some.injEq] at hc
    subst hc
    rw [List.chain'_cons] at h
    have := h.1
    simp only [hfree, true_and] at this
    simpa using this

/-- An allocation keeps the list free of adjacent free blocks. -/
theorem no_adjacent_free_take_block (bs : List block_header_t) (i : Nat) (b : block_header_t)
    (r : Nat) (hget : bs[i]? = some b) (hfree : b.is_free = true)
    (h : no_adjacent_free bs) :
    no_adjacent_free (take_block r (b.size - r) bs i).1 := by
  rw [take_block_shape r (b.size - r) bs i b hget]
  have hsplit := list_split_at bs i b hget
  rw [hsplit] at h
  obtain ⟨hpre, hrest, _⟩ := (no_adjacent_free_append _ _).mp h
  obtain ⟨hpost, hhead⟩ := no_adjacent_free_head b _ hfree hrest
  rw [List.append_assoc, no_adjacent_free_append]
  refine ⟨hpre, ?_, ?_⟩
  · rw [no_adjacent_free_append]
    refine ⟨?_, hpost, ?_⟩
    · split
      · unfold no_adjacent_free
        simp
      · unfold no_adjacent_free
        simp
    · intro x hx y hy
      have hyf := hhead y hy
      simp [hyf]
  · intro x _ y hy
    have hyf : y.is_free = false := by
      split at hy
      · simp only [List.cons_append, List.head?_cons, Option.mem_def, Option.some.injEq] at hy
        rw [← hy]
      · simp only [List.cons_append, List.head?_cons, Option.mem_def, Option.some.injEq] at hy
        rw [← hy]
    simp [hyf]

theorem no_adjacent_free_alloc (p : memory_pool_t) (size : Nat)
    (h : no_adjacent_free p.first_block) :
    no_adjacent_free (memory_pool_alloc p size).2.first_block := by
  cases hres : memory_pool_alloc p size with
  | mk r p' =>
    cases r with
    | none =>
      have := memory_pool_alloc_none p p' size hres
      subst this
      exact h
    | some a =>
      obtain ⟨i, b, hget, hfree, _, _, hp'⟩ := memory_pool_alloc_shape p p' size a hres
      show no_adjacent_free p'.first_block
      rw [hp']
      exact no_adjacent_free_take_block _ i b _ hget hfree h

/-- No pool reached by calls from `memory_pool_init` has two adjacent free blocks. -/
theorem reachable_no_adjacent_free (p : memory_pool_t) (h : PoolReachable p) :
    no_adjacent_free p.first_block := by
  induction h with
  | init =>
    unfold no_adjacent_free
    simp [memory_pool_init]
  | alloc size _ ih => exact no_adjacent_free_alloc _ size ih
  | free a _ ha hres ih =>
    obtain ⟨sz, l, hmark, _⟩ := mark_free_allocated a _ 0 ha
    simp only [memory_pool_free, hmark, Option.some.injEq] at hres
    rw [← hres]
    exact no_adjacent_free_coalesce l
  | free_null _ hres ih =>
    simp only [memory_pool_free, Option.some.injEq] at hres
    exact hres ▸ ih

/-- Setting the flag of the block an allocation has just taken and coalescing gives back the
list before the allocation, when that list had no two adjacent free blocks. -/
theorem take_block_mark_coalesce (bs : List block_header_t) (i : Nat) (b : block_header_t)
    (r : Nat) (hget : bs[i]? = some b) (hfree : b.is_free = true) (hr : r ≤ b.size)
    (h : no_adjacent_free bs) :
    ∃ sz l,
      mark_free (block_offset bs i 0 + HEADER_SIZE) (take_block r (b.size - r) bs i).1 0
        = some (sz, l) ∧
      coalesce l = bs := by
  have hH : HEADER_SIZE = 12 := rfl
  have hsplit := list_split_at bs i b hget
  have hi : i < bs.length := by
    rcases Nat.lt_or_ge i bs.length with hlt | hge
    · exact hlt
    · rw [List.getElem?_eq_none hge] at hget
      cases hget
  have hlen : (bs.take i).length = i := by
    rw [List.length_take]
    omega
  have hoff : block_offset bs i 0 = 0 + span_bytes (bs.take i) := by
    conv_lhs => rw [hsplit]
    have := block_offset_prefix (bs.take i) (b :: bs.drop (i + 1)) 0
    rw [hlen] at this
    exact this
  have hchain := h
  rw [hsplit] at hchain
  obtain ⟨hpre, hrest, hlast⟩ := (no_adjacent_free_append _ _).mp hchain
  obtain ⟨hpost, hposthead⟩ := no_adjacent_free_head b _ hfree hrest
  have hprelast : ∀ c ∈ (bs.take i).getLast?, c.is_free = false := by
    intro c hc
    have := hlast c hc b (by simp)
    simp only [hfree, and_true] at this
    simpa using this
  have hb : b = { size := b.size, is_free := true } := by
    cases b
    simp only at hfree
    simp [hfree]
  rw [take_block_shape r (b.size - r) bs i b hget, hoff]
  by_cases hs : HEADER_SIZE + 8 ≤ b.size - r
  · simp only [if_pos hs]
    refine ⟨r, bs.take i ++ ({ size := r, is_free := true } ::
      { size := b.size - r - HEADER_SIZE, is_free := true } :: bs.drop (i + 1)), ?_, ?_⟩
    · have := mark_free_at (bs.take i) { size := r, is_free := false }
        ({ size := b.size - r - HEADER_SIZE, is_free := true } :: bs.drop (i + 1)) 0
      simpa using this
    · have hrun := coalesce_run (bs.take i)
        [{ size := r, is_free := true }, { size := b.size - r - HEADER_SIZE, is_free := true }]
        (bs.drop (i + 1)) (by simp) (by simp) hprelast hposthead
      have e : bs.take i ++ ({ size := r, is_free := true } ::
            { size := b.size - r - HEADER_SIZE, is_free := true } :: bs.drop (i + 1))
          = bs.take i ++ [{ size := r, is_free := true },
              { size := b.size - r - HEADER_SIZE, is_free := true }] ++ bs.drop (i + 1) := by
        simp
      rw [e, hrun, coalesce_id _ hpre, coalesce_id _ hpost]
      have hsz : ([{ size := r, is_free := true },
            { size := b.size - r - HEADER_SIZE, is_free := true }].map block_header_t.size).sum
          + HEADER_SIZE * ([{ size := r, is_free := true },
            ({ size := b.size - r - HEADER_SIZE, is_free := true } : block_header_t)].length - 1)
          = b.size := by
        simp only [List.map_cons, List.map_nil, List.sum_cons, List.sum_nil, List.length_cons,
          List.length_nil]
        omega
      rw [hsz, ← hb]
      exact hsplit.symm
  · simp only [if_neg hs]
    refine ⟨b.size, bs.take i ++ ({ size := b.size, is_free := true } :: bs.drop (i + 1)),
      ?_, ?_⟩
    · have := mark_free_at (bs.take i) { size := b.size, is_free := false } (bs.drop (i + 1)) 0
      simpa using this
    · have hrun := coalesce_run (bs.take i) [{ size := b.size, is_free := true }]
        (bs.drop (i + 1)) (by simp) (by simp) hprelast hposthead
      have e : bs.take i ++ ({ size := b.size, is_free := true } :: bs.drop (i + 1))
          = bs.take i ++ [{ size := b.size, is_free := true }] ++ bs.drop (i + 1) := by
        simp
      rw [e, hrun, coalesce_id _ hpre, coalesce_id _ hpost]
      simp only [List.map_cons, List.map_nil, List.sum_cons, List.sum_nil, List.length_cons,
        List.length_nil, Nat.add_zero, Nat.zero_add, Nat.sub_self, Nat.mul_zero]
      rw [← hb]
      exact hsplit.symm

theorem pool_hole_reachable : PoolReachable pool_hole := by
  have h3 : PoolReachable pool_three_blocks :=
    PoolReachable.alloc 16 (PoolReachable.alloc 16 (PoolReachable.alloc 16 PoolReachable.init))
  obtain ⟨p1, hf1, _⟩ := memory_pool_free_allocated pool_three_blocks 40 (by decide)
  have h4 : PoolReachable p1 := PoolReachable.free 40 h3 (by decide) hf1
  have e : pool_hole = p1 := by
    simp only [pool_hole, hf1, Option.getD_some]
  rw [e]
  exact h4

/-- C32: in every pool reached from `memory_pool_init` by allocations and by frees of allocated
addresses, a successful allocation followed at once by the free of the returned address gives
back the block list (sizes and flags, block for block) and `used_size` of before the
allocation; `total_size` is the same and `peak_use` is not smaller. -/
theorem alloc_then_free_restores (p p1 : memory_pool_t) (size a : Nat) (hr : PoolReachable p)
    (h : memory_pool_alloc p size = (some a, p1)) :
    ∃ p2, memory_pool_free p1 (some a) = some p2 ∧
      p2.first_block = p.first_block ∧ p2.used_size = p.used_size ∧
      p2.total_size = p.total_size ∧ p.peak_use ≤ p2.peak_use := by
  have hinv := reachable_pool_inv p hr
  have hchain := reachable_no_adjacent_free p hr
  obtain ⟨i, b, hget, hfree, hfit, ha, hp1⟩ := memory_pool_alloc_shape p p1 size a h
  obtain ⟨sz, l, hmark, hco⟩ :=
    take_block_mark_coalesce p.first_block i b (align8 size) hget hfree hfit hchain
  rw [← ha, ← hp1] at hmark
  obtain ⟨p2, hfree2, hused, htot, _⟩ := memory_pool_alloc_free_blocks p p1 size a h
  have hpeak := (pool_inv_alloc p size hinv).2
  rw [h] at hpeak
  have hp2 : p2 = { first_block := coalesce l, total_size := p1.total_size,
                    used_size := (p1.used_size + SIZE_MOD - (sz + HEADER_SIZE) % SIZE_MOD)
                      % SIZE_MOD,
                    peak_use := p1.peak_use } := by
    simp only [memory_pool_free, hmark, Option.some.injEq] at hfree2
    exact hfree2.symm
  refine ⟨p2, hfree2, ?_, ?_, htot, ?_⟩
  · rw [hp2]
    exact hco
  · rw [hused]
    have hle := used_bytes_le_span p.first_block
    obtain ⟨i1, i2, i3, _⟩ := hinv
    exact Nat.mod_eq_of_lt (by omega)
  · rw [hp2]
    exact hpeak

/-- Witness for C32: 100 bytes allocated and freed again in the pool with a free block between
two allocated ones and the free rest of the region. -/
theorem alloc_then_free_restores_witness :
    (PoolReachable pool_hole ∧
      memory_pool_alloc pool_hole 100 = (some 96, pool_hole_alloc) ∧
      pool_hole_alloc.first_block ≠ pool_hole.first_block) ∧
    ∃ p2, memory_pool_free pool_hole_alloc (some 96) = some p2 ∧
      p2.first_block = pool_hole.first_block ∧ p2.used_size = pool_hole.used_size ∧
      p2.total_size = pool_hole.total_size ∧ pool_hole.peak_use ≤ p2.peak_use :=
  ⟨⟨pool_hole_reachable, by decide, by decide⟩,
    alloc_then_free_restores pool_hole pool_hole_alloc 100 96 pool_hole_reachable (by decide)⟩

/-- For a request whose rounding does not wrap, the block a successful allocation marks
allocated holds at least the requested bytes. -/
theorem memory_pool_alloc_holds_request (p p' : memory_pool_t) (n a : Nat)
    (hwrap : n + 7 < SIZE_MOD) (h : memory_pool_alloc p n = (some a, p')) :
    n ≤ block_capacity a p'.first_block 0 := by
  obtain ⟨sz, _, _, hsz, hcap, _⟩ := memory_pool_alloc_some p p' n a h
  have := (align8_round_up n hwrap).1
  omega

/-- C33, evaluation at the failing request `n = 4294967290` (any `n` above `2 ^ 32 - 8` behaves
alike) on the fresh pool: `1 ≤ n ≤ SIZE_MAX`, the rounded size `(n + 7) & ~7` wraps to 0, and
the call returns the non-null pointer 12 to a block it has marked allocated with payload size
0, which is less than `n`. -/
theorem alloc_wrapped_request_gets_empty_block :
    1 ≤ 4294967290 ∧ 4294967290 ≤ SIZE_MAX ∧ align8 4294967290 = 0 ∧
    (memory_pool_alloc memory_pool_init 4294967290).1 = some 12 ∧
    (memory_pool_alloc memory_pool_init 4294967290).2.first_block
      = [{ size := 0, is_free := false }, { size := 12776, is_free := true }] ∧
    block_capacity 12 (memory_pool_alloc memory_pool_init 4294967290).2.first_block 0 = 0 ∧
    block_capacity 12 (memory_pool_alloc memory_pool_init 4294967290).2.first_block 0
      < 4294967290 := by
  decide

/-- C34, evaluation at two failing runs, each a `topic_create_with_config("sensor/humidity",
&sample_config)` at time 777 that returns `ESP_OK` (0). After a
`pubsub_create_topic("sensor/temperature")` that failed in `xQueueCreate`, the call initialises
element 1 of `topic_advanced_data` (slot 0 still carries the name the failed call left) while
`pubsub_create_topic` records the name in registry slot 0. After `pubsub_create_topic("")`,
the call initialises element 0 (the slot of the registered topic `""`) while the name is
recorded in slot 1. In both runs `topic_get_stats("sensor/humidity")` then reads the other
element and reports the time stamp 0, not 777. On the initial state the two indices agree. -/
theorem create_with_config_initialises_other_slot :
    (pubsub_create_topic init_state (some sensor_topic) false true true).1
      = PUBSUB_ERR_NO_MEMORY ∧
    config_summary humidity_topic 777 config_after_failed_create
      = some { code := 0, registry_slot := some 0, initialised_slots := [1],
               reported_timestamp := some 0 } ∧
    (pubsub_create_topic init_state (some []) true true true).1 = PUBSUB_OK ∧
    config_summary humidity_topic 777 config_after_empty_name
      = some { code := 0, registry_slot := some 1, initialised_slots := [0],
               reported_timestamp := some 0 } ∧
    config_summary humidity_topic 777
        (topic_create_with_config init_state advanced_ready false false (some humidity_topic)
          (some sample_config) 777 true true true)
      = some { code := 0, registry_slot := some 0, initialised_slots := [0],
               reported_timestamp := some 777 } := by
  decide

/-! ## MQTT remaining length -/

theorem encode_remaining_length_one (L : Nat) (h : L < 128) : encode_remaining_length L = [L] := by
  have h1 : L % SIZE_MOD = L := Nat.mod_eq_of_lt (by simp only [SIZE_MOD]; omega)
  have h2 : ¬ 0 < L / 128 := by omega
  have h3 : L % 128 = L := by omega
  simp only [encode_remaining_length, h1, encode_remaining_length_from, if_neg h2, h3]

theorem encode_remaining_length_two (L : Nat) (h1 : 128 ≤ L) (h2 : L < 16384) :
    encode_remaining_length L = [L % 128 + 128, L / 128] := by
  have e1 : L % SIZE_MOD = L := Nat.mod_eq_of_lt (by simp only [SIZE_MOD]; omega)
  have e2 : 0 < L / 128 := by omega
  have e3 : ¬ 0 < L / 128 / 128 := by omega
  have e4 : L / 128 % 128 = L / 128 := by omega
  simp only [encode_remaining_length, e1, encode_remaining_length_from, if_pos e2, if_neg e3, e4]

theorem encode_remaining_length_three (L : Nat) (h1 : 16384 ≤ L) (h2 : L < 2097152) :
    encode_remaining_length L = [L % 128 + 128, L / 128 % 128 + 128, L / 16384] := by
  have e1 : L % SIZE_MOD = L := Nat.mod_eq_of_lt (by simp only [SIZE_MOD]; omega)
  have e2 : 0 < L / 128 := by omega
  have e3 : 0 < L / 128 / 128 := by omega
  have e4 : ¬ 0 < L / 128 / 128 / 128 := by omega
  have e5 : L / 128 / 128 % 128 = L / 16384 := by omega
  simp only [encode_remaining_length, e1, encode_remaining_length_from, if_pos e2, if_pos e3,
    if_neg e4, e5]

/-- For a length below `128 ^ 3`, `decode_remaining_length` reads back what
`encode_remaining_length` wrote, whatever follows it in the buffer. -/
theorem remaining_length_roundtrip (L : Nat) (rest : List Nat) (buf_len : Int)
    (h : L < 2097152) (hlen : ((encode_remaining_length L).length : Int) ≤ buf_len) :
    decode_remaining_length (encode_remaining_length L ++ rest) buf_len
      = some (((encode_remaining_length L).length : Int), some L) := by
  by_cases c1 : L < 128
  · rw [encode_remaining_length_one L c1] at hlen ⊢
    simp only [List.length_cons, List.length_nil] at hlen ⊢
    have g1 : ¬ buf_len < 1 := by omega
    have g2 : ¬ buf_len ≤ ((0 : Nat) : Int) := by omega
    have g3 : ¬ (128 * 128 * 128 < 1 * 128) := by omega
    have g4 : ¬ (L % 256 / 128 % 2 ≠ 0) := by omega
    have g5 : (0 + L % 256 % 128 * 1) % SIZE_MOD = L := by simp only [SIZE_MOD]; omega
    simp only [decode_remaining_length, if_neg g1, decode_remaining_length_loop, if_neg g2,
      List.cons_append, List.nil_append, List.getElem?_cons_zero, if_neg g3, if_neg g4, g5]
  · by_cases c2 : L < 16384
    · rw [encode_remaining_length_two L (by omega) c2] at hlen ⊢
      simp only [List.length_cons, List.length_nil] at hlen ⊢
      have g1 : ¬ buf_len < 1 := by omega
      have g2 : ¬ buf_len ≤ ((0 : Nat) : Int) := by omega
      have g2' : ¬ buf_len ≤ ((0 + 1 : Nat) : Int) := by omega
      have g3 : ¬ (128 * 128 * 128 < 1 * 128) := by omega
      have g3' : ¬ (128 * 128 * 128 < 1 * 128 * 128) := by omega
      have g4 : (L % 128 + 128) % 256 / 128 % 2 ≠ 0 := by omega
      have g4' : ¬ (L / 128 % 256 / 128 % 2 ≠ 0) := by omega
      have g5 : ((0 + (L % 128 + 128) % 256 % 128 * 1) % SIZE_MOD
          + L / 128 % 256 % 128 * (1 * 128)) % SIZE_MOD = L := by
        simp only [SIZE_MOD]; omega
      simp only [decode_remaining_length, if_neg g1, decode_remaining_length_loop, if_neg g2,
        if_neg g2', List.cons_append, List.nil_append, List.getElem?_cons_zero,
        List.getElem?_cons_succ, if_neg g3, if_neg g3', if_pos g4, if_neg g4', g5]
    · rw [encode_remaining_length_three L (by omega) h] at hlen ⊢
      simp only [List.length_cons, List.length_nil] at hlen ⊢
      have g1 : ¬ buf_len < 1 := by omega
      have g2 : ¬ buf_len ≤ ((0 : Nat) : Int) := by omega
      have g2' : ¬ buf_len ≤ ((0 + 1 : Nat) : Int) := by omega
      have g2'' : ¬ buf_len ≤ ((0 + 1 + 1 : Nat) : Int) := by omega
      have g3 : ¬ (128 * 128 * 128 < 1 * 128) := by omega
      have g3' : ¬ (128 * 128 * 128 < 1 * 128 * 128) := by omega
      have g3'' : ¬ (128 * 128 * 128 < 1 * 128 * 128 * 128) := by omega
      have g4 : (L % 128 + 128) % 256 / 128 % 2 ≠ 0 := by omega
      have g4' : (L / 128 % 128 + 128) % 256 / 128 % 2 ≠ 0 := by omega
      have g4'' : ¬ (L / 16384 % 256 / 128 % 2 ≠ 0) := by omega
      have g5 : (((0 + (L % 128 + 128) % 256 % 128 * 1) % SIZE_MOD
          + (L / 128 % 128 + 128) % 256 % 128 * (1 * 128)) % SIZE_MOD
          + L / 16384 % 256 % 128 * (1 * 128 * 128)) % SIZE_MOD = L := by
        simp only [SIZE_MOD]; omega
      simp only [decode_remaining_length, if_neg g1, decode_remaining_length_loop, if_neg g2,
        if_neg g2', if_neg g2'', List.cons_append, List.nil_append, List.getElem?_cons_zero,
        List.getElem?_cons_succ, if_neg g3, if_neg g3', if_neg g3'', if_pos g4, if_pos g4',
        if_neg g4'', g5]

/-- C35, evaluation at the failing lengths: `encode_remaining_length` writes four bytes for
`L = 2097152 = 128 ^ 3` and for `L = 268435455`, the first three with the continuation bit set,
and `decode_remaining_length` applied to these four bytes returns -1: after the fourth byte its
`multiplier` is `128 ^ 4`, which the test `multiplier > 128*128*128` rejects. The largest
three-byte length 2097151 is read back. -/
theorem remaining_length_four_bytes_rejected :
    2097152 ≤ 268435455 ∧
    encode_remaining_length 2097152 = [128, 128, 128, 1] ∧
    decode_remaining_length [128, 128, 128, 1] 4 = some (-1, none) ∧
    encode_remaining_length 268435455 = [255, 255, 255, 127] ∧
    decode_remaining_length [255, 255, 255, 127] 4 = some (-1, none) ∧
    encode_remaining_length 2097151 = [255, 255, 127] ∧
    decode_remaining_length [255, 255, 127] 3 = some (3, some 2097151) := by
  decide
/-! ## MQTT encoders and the output buffer -/

/-- C38 (fails in the code): with `buf_len = 2` the calls `mqtt_encode_publish` of the message
with the topic `"ab"`, `mqtt_encode_subscribe` of the filter `"ab"` and
`mqtt_encode_unsubscribe` of the topic `"ab"` return 6, 9 and 8, and with `buf_len = 10` the call
`mqtt_encode_connect` with the client identifier `"client"` returns 20: each return value is
larger than `buf_len`, and that many bytes were written from `buf[0]` on. -/
theorem encoders_write_past_buf_len :
    mqtt_encode_publish (some short_message) 1 true 2 = some (6, [48, 4, 0, 2, 97, 98]) ∧
    mqtt_encode_connect (some short_options) true 10 =
      some (20, [16, 18, 0, 4, 77, 81, 84, 84, 4, 2, 0, 60, 0, 6, 99, 108, 105, 101, 110, 116]) ∧
    mqtt_encode_subscribe 1 (some [{ topic := some (cstr "ab"), qos := 1 }]) 1 true 2 =
      some (9, [130, 7, 0, 1, 0, 2, 97, 98, 1]) ∧
    mqtt_encode_unsubscribe 1 (some [some (cstr "ab")]) 1 true 2 =
      some (8, [162, 6, 0, 1, 0, 2, 97, 98]) ∧
    (2 : Int) < 6 ∧ (10 : Int) < 20 ∧ (2 : Int) < 9 ∧ (2 : Int) < 8 := by
  decide

/-! ## MQTT PUBLISH decoder and the input buffer -/

set_option maxRecDepth 100000 in
/-- C37 (fails in the code): for the 4-byte packet `30 7F 00 00` (`buf_len = 4`), whose fixed
header announces a remaining length of 127, `mqtt_decode_publish` returns 129, which is more
than `buf_len`, and the payload it stores is the 125 bytes that lie behind the packet in memory,
at the indices 4 to 128; when nothing lies behind the packet the copy reads outside the memory
given. -/
theorem decode_publish_reads_past_buf_len :
    short_publish_packet.length = 4 ∧
    decode_publish_summary
        (mqtt_decode_publish (some (short_publish_packet ++ bytes_behind)) 4 true malloc_always
          true) =
      some (129, some (125, some bytes_behind)) ∧
    (4 : Int) < 129 ∧
    mqtt_decode_publish (some short_publish_packet) 4 true malloc_always true = none := by
  decide
/-! ## MQTT PUBLISH round trip -/

theorem encode_remaining_length_length (L : Nat) (h : L < 2097152) :
    1 ≤ (encode_remaining_length L).length ∧ (encode_remaining_length L).length ≤ 3 := by
  by_cases c1 : L < 128
  · rw [encode_remaining_length_one L c1]; simp
  · by_cases c2 : L < 16384
    · rw [encode_remaining_length_two L (by omega) c2]; simp
    · rw [encode_remaining_length_three L (by omega) h]; simp

theorem encode_string_length (s : List Nat) (h : s.length < 65536) :
    (encode_string s).length = s.length + 2 := by
  have e : s.length % 65536 = s.length := Nat.mod_eq_of_lt h
  simp only [encode_string, e, List.take_length, List.length_append, List.length_cons,
    List.length_nil]
  omega

/-- What `decode_string` reads back from the bytes `encode_string` wrote, when the string is
shorter than the destination. -/
theorem decode_string_encode_string (s rest : List Nat) (buf_len : Int) (str_len : Nat)
    (h : s.length < str_len) (hn : str_len ≤ 65536)
    (hb : ((s.length + 2 : Nat) : Int) ≤ buf_len) :
    decode_string (encode_string s ++ rest) buf_len str_len
      = some (((s.length + 2 : Nat) : Int), s) := by
  have e : s.length % 65536 = s.length := Nat.mod_eq_of_lt (by omega)
  have hv : s.length / 256 % 256 * 256 + s.length % 256 % 256 = s.length := by omega
  have g1 : ¬ buf_len < 2 := by omega
  have g2 : ¬ (buf_len < ((s.length + 2 : Nat) : Int) ∨ str_len ≤ s.length) := by omega
  have g3 : ¬ ((s.length / 256 :: s.length % 256 :: (s ++ rest)).length < 2 + s.length) := by
    simp only [List.length_cons, List.length_append]; omega
  simp only [decode_string, encode_string, e, List.take_length, if_neg g1, List.cons_append,
    List.nil_append, List.getElem?_cons_zero, List.getElem?_cons_succ, hv, if_neg g2, if_neg g3,
    List.drop_succ_cons, List.drop_zero, List.take_left]

theorem publish_header_value (d r : Bool) (q : Nat) (h : q ≤ 2) :
    ((((3 <<< 4) ||| (if d then 0x08 else 0)) ||| (q <<< 1)) ||| (if r then 0x01 else 0)) % 256
      = 48 + (if d then 8 else 0) + 2 * q + (if r then 1 else 0) := by
  interval_cases q <;> cases d <;> cases r <;> decide

/-- The fields `mqtt_decode_fixed_header` reads from the first byte of a PUBLISH packet. -/
theorem publish_header_fields (m : mqtt_message_t) (h : m.qos ≤ 2) :
    publish_header m % 256 / 16 % 16 = MQTT_PUBLISH ∧
    publish_header m % 256 / 8 % 2 = (if m.dup then 1 else 0) ∧
    publish_header m % 256 / 2 % 4 = m.qos ∧
    publish_header m % 256 % 2 = (if m.retain then 1 else 0) := by
  simp only [publish_header, MQTT_PUBLISH]
  rw [publish_header_value m.dup m.retain m.qos h]
  cases m.dup <;> cases m.retain <;> simp <;> omega

/-- The fixed header read back from a first byte followed by an encoded remaining length. -/
theorem mqtt_decode_fixed_header_encoded (b0 L : Nat) (rest : List Nat) (buf_len : Int)
    (hL : L < 2097152)
    (hb : (((encode_remaining_length L).length + 1 : Nat) : Int) ≤ buf_len) :
    mqtt_decode_fixed_header (some (b0 :: (encode_remaining_length L ++ rest))) buf_len true
      = some ((((encode_remaining_length L).length + 1 : Nat) : Int),
          some { type := b0 % 256 / 16 % 16, dup_flag := b0 % 256 / 8 % 2,
                 qos_level := b0 % 256 / 2 % 4, retain := b0 % 256 % 2,
                 remaining_length := L }) := by
  have hk := encode_remaining_length_length L hL
  have g1 : ¬ ((true = false) ∨ buf_len < 2) := by
    intro h
    rcases h with h | h
    · cases h
    · omega
  have hr := remaining_length_roundtrip L rest (buf_len - 1) hL (by omega)
  have g2 : ¬ (((encode_remaining_length L).length : Int) < 0) := by omega
  simp only [mqtt_decode_fixed_header, if_neg g1, List.getElem?_cons_zero, List.drop_succ_cons,
    List.drop_zero, hr, if_neg g2, Option.getD_some, Nat.cast_add, Nat.cast_one]

theorem c_string_of_nonzero (s : List Nat) (h : ∀ b ∈ s, b ≠ 0) : c_string s = s := by
  unfold c_string
  rw [List.takeWhile_eq_self_iff]
  intro b hb
  simpa using h b hb

/-- What `mqtt_decode_publish` reads from a buffer that holds a PUBLISH first byte, an encoded
remaining length, an encoded topic, the packet identifier (for QoS above 0) and the payload,
whatever lies behind them. -/
theorem mqtt_decode_publish_layout (b0 : Nat) (topic pid payload rest : List Nat)
    (malloc : Nat → Bool) (buf_len : Int)
    (hty : b0 % 256 / 16 % 16 = MQTT_PUBLISH)
    (hpid : pid.length = if 0 < b0 % 256 / 2 % 4 then 2 else 0)
    (htl : topic.length ≤ 255)
    (hL : 2 + topic.length + pid.length + payload.length < 2097152)
    (hbuf : buf_len =
      (((encode_remaining_length (2 + topic.length + pid.length + payload.length)).length + 1
        + (topic.length + 2) + pid.length + payload.length : Nat) : Int))
    (hm : 0 < payload.length → malloc payload.length = true) :
    mqtt_decode_publish
        (some (b0 :: (encode_remaining_length (2 + topic.length + pid.length + payload.length) ++
          (encode_string topic ++ (pid ++ (payload ++ rest))))))
        buf_len true malloc true
      = some (buf_len,
          some { topic := some (c_string topic),
                 payload := if 0 < payload.length then some payload else none,
                 payload_len := payload.length,
                 qos := b0 % 256 / 2 % 4,
                 retain := decide (b0 % 256 % 2 ≠ 0),
                 dup := decide (b0 % 256 / 8 % 2 ≠ 0) }) := by
  generalize hLd : 2 + topic.length + pid.length + payload.length = L at hL hbuf ⊢
  have hk := encode_remaining_length_length L hL
  generalize hkd : (encode_remaining_length L).length = k at hk hbuf
  have hfh := mqtt_decode_fixed_header_encoded b0 L
    (encode_string topic ++ (pid ++ (payload ++ rest))) buf_len hL (by rw [hkd, hbuf]; omega)
  rw [hkd] at hfh
  have hes := encode_string_length topic (by omega)
  have hds := decode_string_encode_string topic (pid ++ (payload ++ rest))
    (buf_len - ((k + 1 : Nat) : Int)) 256 (by omega) (by omega) (by rw [hbuf]; omega)
  have hdrop : (b0 :: (encode_remaining_length L ++
      (encode_string topic ++ (pid ++ (payload ++ rest))))).drop (((k + 1 : Nat) : Int)).toNat
      = encode_string topic ++ (pid ++ (payload ++ rest)) := by
    rw [Int.toNat_ofNat, List.drop_succ_cons, List.drop_left' hkd]
  have hlen : (b0 :: (encode_remaining_length L ++
      (encode_string topic ++ (pid ++ (payload ++ rest))))).length
      = k + 1 + (topic.length + 2) + pid.length + payload.length + rest.length := by
    simp only [List.length_cons, List.length_append, hkd, hes]; omega
  have g0 : ¬ ((true = false) ∨ buf_len < 4) := by
    intro h
    rcases h with h | h
    · cases h
    · omega
  have g1 : ¬ (((k + 1 : Nat) : Int) < 0) := by omega
  have g2 : ¬ (b0 % 256 / 16 % 16 ≠ MQTT_PUBLISH) := by simp [hty]
  have g3 : ¬ (((topic.length + 2 : Nat) : Int) < 0) := by omega
  simp only [mqtt_decode_publish, if_neg g0, hfh, if_neg g1, if_neg g2, hdrop, hds, if_neg g3,
    hlen]
  have he : (if 0 < b0 % 256 / 2 % 4 then (2 : Int) else 0) = ((pid.length : Nat) : Int) := by
    rw [hpid]; split <;> rfl
  have hp : ((L : Nat) : Int) - ((topic.length + 2 : Nat) : Int) - ((pid.length : Nat) : Int)
      = ((payload.length : Nat) : Int) := by omega
  have hpos : ((k + 1 : Nat) : Int) + ((topic.length + 2 : Nat) : Int) + ((pid.length : Nat) : Int)
      = ((k + 1 + (topic.length + 2) + pid.length : Nat) : Int) := by omega
  have hpos1 : (((k + 1 : Nat) : Int) + ((topic.length + 2 : Nat) : Int)).toNat
      = k + 1 + (topic.length + 2) := by omega
  have hend : ((k + 1 + (topic.length + 2) + pid.length : Nat) : Int)
      + ((payload.length : Nat) : Int) = buf_len := by omega
  have hdrop2 : (b0 :: (encode_remaining_length L ++
      (encode_string topic ++ (pid ++ (payload ++ rest))))).drop
        (k + 1 + (topic.length + 2) + pid.length) = payload ++ rest := by
    have e1 : k + 1 + (topic.length + 2) + pid.length
        = (b0 :: (encode_remaining_length L ++ (encode_string topic ++ pid))).length := by
      simp only [List.length_cons, List.length_append, hkd, hes]; omega
    have e2 : b0 :: (encode_remaining_length L ++
        (encode_string topic ++ (pid ++ (payload ++ rest))))
        = (b0 :: (encode_remaining_length L ++ (encode_string topic ++ pid)))
          ++ (payload ++ rest) := by
      simp only [List.cons_append, List.append_assoc]
    rw [e2, e1, List.drop_left]
  have g4 : ¬ (0 < b0 % 256 / 2 % 4 ∧
      buf_len - (((k + 1 : Nat) : Int) + ((topic.length + 2 : Nat) : Int)) < 2) := by
    intro h
    have h1 := h.1
    rw [if_pos h1] at hpid
    omega
  have g5 : ¬ (0 < b0 % 256 / 2 % 4 ∧
      k + 1 + (topic.length + 2) + pid.length + payload.length + rest.length
        < k + 1 + (topic.length + 2) + 2) := by
    intro h
    have h1 := h.1
    rw [if_pos h1] at hpid
    omega
  have g6 : ¬ (k + 1 + (topic.length + 2) + pid.length + payload.length + rest.length
      < k + 1 + (topic.length + 2) + pid.length + payload.length) := by omega
  simp only [he, hp, hpos, hpos1, hend, Int.toNat_ofNat, hdrop2, List.take_left, if_neg g4,
    if_neg g5, if_neg g6, if_true]
  by_cases hpl : 0 < payload.length
  · have g7 : (0 : Int) < ((payload.length : Nat) : Int) := by omega
    have g8 : ¬ (malloc payload.length = false) := by simp [hm hpl]
    simp only [if_pos g7, if_neg g8, if_pos hpl]
  · have g7 : ¬ ((0 : Int) < ((payload.length : Nat) : Int)) := by omega
    have g9 : payload.length = 0 := by omega
    simp only [if_neg g7, if_neg hpl]
    rw [g9]

theorem packet_id_bytes_length (q packet_id : Nat) :
    (if 0 < q then [packet_id % 65536 / 256, packet_id % 65536 % 256] else []).length
      = if 0 < q then 2 else 0 := by
  split <;> rfl

theorem publish_bytes_length (m : mqtt_message_t) (topic payload : List Nat) (packet_id : Nat)
    (htl : topic.length < 65536) :
    (publish_bytes m topic packet_id payload).length
      = (encode_remaining_length
          (2 + topic.length + (if 0 < m.qos then 2 else 0) + m.payload_len)).length + 1
        + (topic.length + 2) + (if 0 < m.qos then 2 else 0) + payload.length := by
  simp only [publish_bytes, List.length_cons, List.length_append, encode_string_length topic htl,
    packet_id_bytes_length]
  omega

/-- What `mqtt_encode_publish` returns for a message with a topic and payload bytes of the
stated length. -/
theorem mqtt_encode_publish_bytes (m : mqtt_message_t) (topic payload : List Nat)
    (packet_id : Nat) (buf_len : Int) (htopic : m.topic = some topic)
    (hlen : payload.length = m.payload_len)
    (hpay : 0 < m.payload_len → m.payload = some payload) (hbuf : 2 ≤ buf_len) :
    mqtt_encode_publish (some m) packet_id true buf_len
      = some (((publish_bytes m topic packet_id payload).length : Int),
          publish_bytes m topic packet_id payload) := by
  have g0 : ¬ ((true = false) ∨ buf_len < 2) := by
    intro h
    rcases h with h | h
    · cases h
    · omega
  by_cases h0 : m.payload_len = 0
  · have hp : payload = [] := List.length_eq_zero.mp (by omega)
    simp only [mqtt_encode_publish, if_neg g0, htopic, if_pos h0, hp]
  · have hp := hpay (by omega)
    have g1 : ¬ (payload.length < m.payload_len) := by omega
    have ht : payload.take m.payload_len = payload := by rw [← hlen, List.take_length]
    simp only [mqtt_encode_publish, if_neg g0, htopic, if_neg h0, hp, if_neg g1, ht]

/-- C36 (amended): for every MQTT message `m` whose topic is a string of at most 255 bytes,
with payload bytes of the stated length (payload pointer non-null when the length is above 0),
QoS 0..2, any retain and dup flags, and every packet id, if the PUBLISH encoding fits in the
client's 1024-byte buffer then `mqtt_encode_publish` returns the number `n` of bytes it wrote,
and `mqtt_decode_publish` applied to these `n` bytes returns `n`, when its allocations succeed,
and stores a message with the same topic, the same payload bytes (a null pointer for the empty
payload) and payload length, and the same QoS, retain and dup values. -/
theorem mqtt_publish_roundtrip (m : mqtt_message_t) (topic payload : List Nat) (packet_id : Nat)
    (malloc : Nat → Bool)
    (htopic : m.topic = some topic) (hz : ∀ b ∈ topic, b ≠ 0) (htl : topic.length ≤ 255)
    (hlen : payload.length = m.payload_len)
    (hpay : 0 < m.payload_len → m.payload = some payload)
    (hqos : m.qos ≤ 2)
    (hfit : (publish_bytes m topic packet_id payload).length ≤ 1024)
    (hm : 0 < m.payload_len → malloc m.payload_len = true) :
    mqtt_encode_publish (some m) packet_id true 1024
      = some (((publish_bytes m topic packet_id payload).length : Int),
          publish_bytes m topic packet_id payload) ∧
    mqtt_decode_publish (some (publish_bytes m topic packet_id payload))
        ((publish_bytes m topic packet_id payload).length : Int) true malloc true
      = some (((publish_bytes m topic packet_id payload).length : Int),
          some { topic := some topic,
                 payload := if 0 < m.payload_len then some payload else none,
                 payload_len := m.payload_len,
                 qos := m.qos, retain := m.retain, dup := m.dup }) := by
  refine ⟨mqtt_encode_publish_bytes m topic payload packet_id 1024 htopic hlen hpay (by omega), ?_⟩
  obtain ⟨hty, hdup, hq, hret⟩ := publish_header_fields m hqos
  have hbl := publish_bytes_length m topic payload packet_id (by omega)
  have hpl := packet_id_bytes_length m.qos packet_id
  have hform : publish_bytes m topic packet_id payload
      = publish_header m ::
          (encode_remaining_length (2 + topic.length +
              (if 0 < m.qos then [packet_id % 65536 / 256, packet_id % 65536 % 256]
                else []).length + payload.length) ++
            (encode_string topic ++
              ((if 0 < m.qos then [packet_id % 65536 / 256, packet_id % 65536 % 256] else []) ++
                (payload ++ [])))) := by
    simp only [publish_bytes, hpl, hlen, List.append_nil]
  have hL : 2 + topic.length +
      (if 0 < m.qos then [packet_id % 65536 / 256, packet_id % 65536 % 256] else []).length
        + payload.length < 2097152 := by
    rw [hpl]; omega
  have h := mqtt_decode_publish_layout (publish_header m) topic
    (if 0 < m.qos then [packet_id % 65536 / 256, packet_id % 65536 % 256] else []) payload []
    malloc ((publish_bytes m topic packet_id payload).length : Int) hty
    (by rw [hq]; exact hpl) htl hL (by rw [hbl, hpl, hlen]) (by rw [hlen]; exact hm)
  rw [← hform] at h
  rw [h, c_string_of_nonzero topic hz, hq, hret, hdup, hlen]
  cases m.retain <;> cases m.dup <;> rfl

/-- C36, witness: the message with the topic `"t"`, the payload `"25.5"`, QoS 1 and the retain
flag, packet id 7, is encoded in 11 bytes and read back. -/
theorem mqtt_publish_roundtrip_witness :
    publish_bytes temp_mqtt_message (cstr "t") 7 temp_msg
      = [51, 9, 0, 1, 116, 0, 7, 50, 53, 46, 53] ∧
    (mqtt_encode_publish (some temp_mqtt_message) 7 true 1024
      = some (((publish_bytes temp_mqtt_message (cstr "t") 7 temp_msg).length : Int),
          publish_bytes temp_mqtt_message (cstr "t") 7 temp_msg) ∧
    mqtt_decode_publish (some (publish_bytes temp_mqtt_message (cstr "t") 7 temp_msg))
        ((publish_bytes temp_mqtt_message (cstr "t") 7 temp_msg).length : Int) true
        malloc_always true
      = some (((publish_bytes temp_mqtt_message (cstr "t") 7 temp_msg).length : Int),
          some { topic := some (cstr "t"),
                 payload := if 0 < temp_mqtt_message.payload_len then some temp_msg else none,
                 payload_len := temp_mqtt_message.payload_len,
                 qos := temp_mqtt_message.qos, retain := temp_mqtt_message.retain,
                 dup := temp_mqtt_message.dup })) :=
  ⟨by decide,
    mqtt_publish_roundtrip temp_mqtt_message (cstr "t") temp_msg 7 malloc_always rfl (by decide)
      (by decide) rfl (fun _ => rfl) (by decide) (by decide) (fun _ => rfl)⟩

set_option maxRecDepth 100000 in
/-- C36 (fails as stated): the message with a topic of 256 bytes `"aaa...a"`, QoS 0 and no
payload is encoded by `mqtt_encode_publish` in 261 bytes, which fit in the 1024-byte buffer, and
`mqtt_decode_publish` applied to these 261 bytes returns -1: `decode_string` refuses a topic
that does not leave room for the terminator in the 256-byte array `topic`. -/
theorem publish_long_topic_not_decoded :
    long_topic.length = 256 ∧
    (∀ b ∈ long_topic, b ≠ 0) ∧
    mqtt_encode_publish (some long_topic_message) 7 true 1024
      = some (261, publish_bytes long_topic_message long_topic 7 []) ∧
    (publish_bytes long_topic_message long_topic 7 []).length = 261 ∧
    mqtt_decode_publish (some (publish_bytes long_topic_message long_topic 7 [])) 261 true
      malloc_always true = some (-1, none) := by
  decide
/-! ## WebSocket frame round trip -/

theorem be64_value_bytes (P : Nat) (h : P < U64_MOD) : be64_value (be64_bytes P) 0 = P := by
  have hM : U64_MOD = 18446744073709551616 := by norm_num [U64_MOD]
  rw [hM] at h
  simp only [be64_bytes, be64_value, hM]
  norm_num
  omega

theorem ws_header_bytes_length (m : ws_message_t) (P : Nat) :
    (ws_header_bytes m P).length = ws_header_len P := by
  unfold ws_header_bytes ws_header_len be64_bytes
  by_cases h1 : P ≤ 125
  · have h2 : ¬ 125 < P := by omega
    simp only [if_pos h1, if_neg h2, List.length_cons, List.length_nil]
  · have h2 : 125 < P := by omega
    by_cases h3 : P ≤ 0xFFFF
    · simp only [if_neg h1, if_pos h2, if_pos h3, List.length_cons, List.length_nil]
    · simp only [if_neg h1, if_pos h2, if_neg h3, List.length_cons, List.length_nil]

theorem ws_header_len_le (P : Nat) : 2 ≤ ws_header_len P ∧ ws_header_len P ≤ 10 := by
  unfold ws_header_len
  split
  · split <;> omega
  · omega

/-- What `ws_encode_frame` returns and writes when the buffer has room for the frame. -/
theorem ws_encode_frame_bytes (m : ws_message_t) (payload buf : List Nat)
    (hlen : payload.length = m.payload_len)
    (hpay : 0 < m.payload_len → m.payload = some payload)
    (hbuf : ws_header_len m.payload_len + m.payload_len ≤ buf.length)
    (hsz : buf.length < SIZE_MOD) :
    ws_encode_frame (some m) (some buf) true
      = some (ESP_OK,
          some (ws_header_bytes m m.payload_len ++
              (payload ++ buf.drop (ws_header_len m.payload_len + m.payload_len)),
            ws_header_len m.payload_len + m.payload_len)) := by
  have hS : SIZE_MOD = 4294967296 := by norm_num [SIZE_MOD]
  have hM : U64_MOD = 18446744073709551616 := by norm_num [U64_MOD]
  have hh := ws_header_len_le m.payload_len
  have e1 : m.payload_len % U64_MOD = m.payload_len := Nat.mod_eq_of_lt (by omega)
  have e2 : (ws_header_len m.payload_len + m.payload_len) % U64_MOD
      = ws_header_len m.payload_len + m.payload_len := Nat.mod_eq_of_lt (by omega)
  have e3 : m.payload_len % SIZE_MOD = m.payload_len := Nat.mod_eq_of_lt (by omega)
  have e4 : (ws_header_len m.payload_len + m.payload_len) % SIZE_MOD
      = ws_header_len m.payload_len + m.payload_len := Nat.mod_eq_of_lt (by omega)
  have g0 : ¬ (true = false) := by simp
  have g1 : ¬ (buf.length < ws_header_len m.payload_len + m.payload_len) := by omega
  have g2 : ¬ (buf.length < ws_header_len m.payload_len) := by omega
  by_cases h0 : 0 < m.payload_len
  · have hp := hpay h0
    have g3 : ¬ (payload.length < m.payload_len ∨
        buf.length < ws_header_len m.payload_len + m.payload_len) := by omega
    have ht : payload.take m.payload_len = payload := by rw [← hlen, List.take_length]
    simp only [ws_encode_frame, if_neg g0, e1, e2, e3, e4, if_neg g1, if_neg g2, if_pos h0, hp,
      if_neg g3, ht]
  · have hz : m.payload_len = 0 := by omega
    have hp : payload = [] := List.length_eq_zero.mp (by omega)
    have e5 : ws_header_len m.payload_len + m.payload_len = ws_header_len m.payload_len := by
      omega
    simp only [ws_encode_frame, if_neg g0, e1, e2, e3, e4, if_neg g1, if_neg g2, if_neg h0, hp,
      List.nil_append]
    rw [e5]

theorem ws_first_byte_fields (m : ws_message_t) (hop : m.opcode ≤ 15) :
    ¬ ((((if m.is_final then 0x80 else 0) + m.opcode % 16) % 256 / 64 % 2 ≠ 0) ∨
       (((if m.is_final then 0x80 else 0) + m.opcode % 16) % 256 / 32 % 2 ≠ 0) ∨
       (((if m.is_final then 0x80 else 0) + m.opcode % 16) % 256 / 16 % 2 ≠ 0)) ∧
    ((if m.is_final then 0x80 else 0) + m.opcode % 16) % 256 % 16 = m.opcode ∧
    decide (((if m.is_final then 0x80 else 0) + m.opcode % 16) % 256 / 128 % 2 ≠ 0)
      = m.is_final := by
  cases m.is_final
  · refine ⟨?_, ?_, ?_⟩
    · simp only [Bool.false_eq_true, if_false]; omega
    · simp only [Bool.false_eq_true, if_false]; omega
    · simp only [Bool.false_eq_true, if_false, decide_eq_false_iff_not]; omega
  · refine ⟨?_, ?_, ?_⟩
    · simp only [if_true]; omega
    · simp only [if_true]; omega
    · simp only [if_true, decide_eq_true_eq]; omega

/-- What `ws_decode_frame` reads from the bytes of an unmasked frame. -/
theorem ws_decode_frame_bytes (m : ws_message_t) (payload : List Nat) (malloc : Nat → Bool)
    (hop : m.opcode ≤ 15) (hlen : payload.length = m.payload_len)
    (hsz : ws_header_len m.payload_len + m.payload_len < SIZE_MOD)
    (hm : 0 < m.payload_len → malloc m.payload_len = true) :
    ws_decode_frame (some (ws_header_bytes m m.payload_len ++ payload)) true true malloc
      = some (ESP_OK,
          some ({ opcode := m.opcode,
                  payload := if 0 < m.payload_len then some payload else none,
                  payload_len := m.payload_len, is_final := m.is_final },
            ws_header_len m.payload_len + m.payload_len)) := by
  have hS : SIZE_MOD = 4294967296 := by norm_num [SIZE_MOD]
  have hM : U64_MOD = 18446744073709551616 := by norm_num [U64_MOD]
  obtain ⟨hr, ho, hf⟩ := ws_first_byte_fields m hop
  generalize hP : m.payload_len = P at *
  simp only [ws_header_bytes]
  generalize ((if m.is_final then 0x80 else 0) + m.opcode % 16) = b0 at hr ho hf ⊢
  have hh := ws_header_len_le P
  have e3 : P % SIZE_MOD = P := Nat.mod_eq_of_lt (by omega)
  have e4 : (ws_header_len P + P) % SIZE_MOD = ws_header_len P + P := Nat.mod_eq_of_lt (by omega)
  have e2 : (ws_header_len P + P) % U64_MOD = ws_header_len P + P := Nat.mod_eq_of_lt (by omega)
  by_cases c1 : P ≤ 125
  · have hl : ws_header_len P = 2 := by
      unfold ws_header_len; rw [if_neg (by omega)]
    rw [hl] at e2 e4
    have a1 : P % 256 = P := by omega
    have a2 : ¬ (P % 128 = 126 ∧ (b0 :: P :: payload).length < 4) := by omega
    have a3 : ¬ (P % 128 = 127 ∧ (b0 :: P :: payload).length < 10) := by omega
    have a4 : ws_extended_len P = 0 := by
      unfold ws_extended_len; rw [if_neg (by omega), if_neg (by omega)]
    have a5 : ws_frame_header_len P = 2 := by
      unfold ws_frame_header_len; rw [a4, if_neg (by omega)]
    have a6 : ws_announced_len (b0 :: P :: payload) = P := by
      simp only [ws_announced_len, List.getD_cons_succ, List.getD_cons_zero]
      rw [if_neg (by omega), if_neg (by omega)]; omega
    have a7 : ¬ (P / 128 % 2 ≠ 0 ∧ (b0 :: P :: payload).length < 2 + 0 + 4) := by omega
    have a8 : (b0 :: P :: payload).length = 2 + P := by
      simp only [List.length_cons]; omega
    have a9 : ¬ (2 + P < 2 + P) := by omega
    have a10 : ¬ (P / 128 % 2 ≠ 0) := by omega
    have a11 : ((b0 :: P :: payload).drop 2).take P = payload := by
      simp only [List.drop_succ_cons, List.drop_zero]; rw [← hlen, List.take_length]
    have a0 : ¬ (true = false ∨ true = false ∨ (b0 :: P :: payload).length < 2) := by
      simp only [List.length_cons]; simp
    simp only [if_pos c1, List.cons_append, List.nil_append, ws_decode_frame, if_neg a0,
      List.getD_cons_succ, List.getD_cons_zero, a1, if_neg hr, if_neg a2, if_neg a3, a4, if_neg a7,
      a5, a6, ho, hf, hl, e2, e3, e4, a11, if_neg a10]
    simp only [a8, if_neg a9]
    by_cases h0 : 0 < P
    · have a12 : ¬ (malloc P = false) := by simp [hm h0]
      simp only [if_pos h0, if_neg a12]
    · simp only [if_neg h0]
  · by_cases c2 : P ≤ 0xFFFF
    · have hl : ws_header_len P = 4 := by
        unfold ws_header_len; rw [if_pos (by omega), if_pos c2]
      rw [hl] at e2 e4
      have a1 : (126 : Nat) % 256 = 126 := by norm_num
      have a2 : ¬ ((126 : Nat) % 128 = 126 ∧
          (b0 :: 126 :: (P / 256 % 256) :: (P % 256) :: payload).length < 4) := by
        simp only [List.length_cons]; omega
      have a3 : ¬ ((126 : Nat) % 128 = 127 ∧
          (b0 :: 126 :: (P / 256 % 256) :: (P % 256) :: payload).length < 10) := by omega
      have a4 : ws_extended_len 126 = 2 := by decide
      have a5 : ws_frame_header_len 126 = 4 := by decide
      have a6 : ws_announced_len (b0 :: 126 :: (P / 256 % 256) :: (P % 256) :: payload) = P := by
        simp only [ws_announced_len, List.getD_cons_succ, List.getD_cons_zero, if_true]
        omega
      have a7 : ¬ ((126 : Nat) / 128 % 2 ≠ 0 ∧
          (b0 :: 126 :: (P / 256 % 256) :: (P % 256) :: payload).length < 2 + 2 + 4) := by omega
      have a8 : (b0 :: 126 :: (P / 256 % 256) :: (P % 256) :: payload).length = 4 + P := by
        simp only [List.length_cons]; omega
      have a9 : ¬ (4 + P < 4 + P) := by omega
      have a10 : ¬ ((126 : Nat) / 128 % 2 ≠ 0) := by omega
      have a11 : ((b0 :: 126 :: (P / 256 % 256) :: (P % 256) :: payload).drop 4).take P
          = payload := by
        simp only [List.drop_succ_cons, List.drop_zero]; rw [← hlen, List.take_length]
      have a0 : ¬ (true = false ∨ true = false ∨
          (b0 :: 126 :: (P / 256 % 256) :: (P % 256) :: payload).length < 2) := by
        simp only [List.length_cons]; simp
      have h0 : 0 < P := by omega
      have a12 : ¬ (malloc P = false) := by simp [hm h0]
      simp only [if_neg c1, if_pos c2, List.cons_append, List.nil_append, ws_decode_frame,
        if_neg a0, List.getD_cons_succ, List.getD_cons_zero, a1, if_neg hr, if_neg a2, if_neg a3,
        a4, if_neg a7, a5, a6, ho, hf, hl, e2, e3, e4, a11, if_neg a10]
      simp only [a8, if_neg a9, if_pos h0, if_neg a12]
      rw [if_neg (by omega : ¬ (True ∧ 4 + P < 4))]
    · have hl : ws_header_len P = 10 := by
        unfold ws_header_len; rw [if_pos (by omega), if_neg c2]
      rw [hl] at e2 e4
      have hb : (be64_bytes P).length = 8 := rfl
      have a6 : ws_announced_len (b0 :: 127 :: (be64_bytes P ++ payload)) = P := by
        simp only [ws_announced_len, List.getD_cons_succ, List.getD_cons_zero,
          List.drop_succ_cons, List.drop_zero]
        rw [List.take_left' hb]
        simpa using be64_value_bytes P (by omega)
      have a8 : (b0 :: 127 :: (be64_bytes P ++ payload)).length = 10 + P := by
        simp only [List.length_cons, List.length_append, hb]; omega
      have a11 : ((b0 :: 127 :: (be64_bytes P ++ payload)).drop 10).take P = payload := by
        simp only [List.drop_succ_cons]
        rw [List.drop_left' hb, ← hlen, List.take_length]
      have a4 : ws_extended_len 127 = 8 := by decide
      have a5 : ws_frame_header_len 127 = 10 := by decide
      have h0 : 0 < P := by omega
      have a12 : ¬ (malloc P = false) := by simp [hm h0]
      have a9 : ¬ (10 + P < 10 + P) := by omega
      simp only [if_neg c1, if_neg c2, List.cons_append, ws_decode_frame, a8, a6, a11,
        List.getD_cons_succ, List.getD_cons_zero, if_neg hr, ho, hf, a4, a5, e2, e3, e4,
        if_pos h0, if_neg a12, if_neg a9, hl]
      norm_num
      intro h
      omega

/-- C39: for every WebSocket message with an opcode in 0..15, any `is_final` and a payload of
`P = payload_len` bytes (payload pointer non-null when `P > 0`), and every output buffer of at
least `ws_header_len P + P` bytes (header length 2 for `P <= 125`, 4 for `P <= 65535`, otherwise
10), `ws_encode_frame` returns `ESP_OK` with `frame_len = ws_header_len P + P`, and
`ws_decode_frame` applied to those `frame_len` bytes returns `ESP_OK`, when its allocation
succeeds, with the same opcode, `is_final`, payload length and payload bytes (a null pointer for
the empty payload) and the same `frame_len`. -/
theorem ws_frame_roundtrip (m : ws_message_t) (payload buf : List Nat) (malloc : Nat → Bool)
    (hop : m.opcode ≤ 15) (hlen : payload.length = m.payload_len)
    (hpay : 0 < m.payload_len → m.payload = some payload)
    (hbuf : ws_header_len m.payload_len + m.payload_len ≤ buf.length)
    (hsz : buf.length < SIZE_MOD)
    (hm : 0 < m.payload_len → malloc m.payload_len = true) :
    ws_encode_frame (some m) (some buf) true
      = some (ESP_OK,
          some (ws_header_bytes m m.payload_len ++
              (payload ++ buf.drop (ws_header_len m.payload_len + m.payload_len)),
            ws_header_len m.payload_len + m.payload_len)) ∧
    ws_decode_frame
        (some ((ws_header_bytes m m.payload_len ++
            (payload ++ buf.drop (ws_header_len m.payload_len + m.payload_len))).take
          (ws_header_len m.payload_len + m.payload_len)))
        true true malloc
      = some (ESP_OK,
          some ({ opcode := m.opcode,
                  payload := if 0 < m.payload_len then some payload else none,
                  payload_len := m.payload_len, is_final := m.is_final },
            ws_header_len m.payload_len + m.payload_len)) := by
  refine ⟨ws_encode_frame_bytes m payload buf hlen hpay hbuf hsz, ?_⟩
  have ht : (ws_header_bytes m m.payload_len ++
      (payload ++ buf.drop (ws_header_len m.payload_len + m.payload_len))).take
        (ws_header_len m.payload_len + m.payload_len)
      = ws_header_bytes m m.payload_len ++ payload := by
    rw [← List.append_assoc]
    exact List.take_left' (by rw [List.length_append, ws_header_bytes_length, hlen])
  rw [ht]
  exact ws_decode_frame_bytes m payload malloc hop hlen (by omega) hm

/-- C39, witness: the final text message `"hi"` is encoded in the frame `81 02 68 69` and read
back. -/
theorem ws_frame_roundtrip_witness :
    ws_header_bytes ws_text_message 2 ++ cstr "hi" = [129, 2, 104, 105] ∧
    (ws_encode_frame (some ws_text_message) (some ws_out_buffer) true
      = some (ESP_OK,
          some (ws_header_bytes ws_text_message ws_text_message.payload_len ++
              (cstr "hi" ++ ws_out_buffer.drop
                (ws_header_len ws_text_message.payload_len + ws_text_message.payload_len)),
            ws_header_len ws_text_message.payload_len + ws_text_message.payload_len)) ∧
    ws_decode_frame
        (some ((ws_header_bytes ws_text_message ws_text_message.payload_len ++
            (cstr "hi" ++ ws_out_buffer.drop
              (ws_header_len ws_text_message.payload_len + ws_text_message.payload_len))).take
          (ws_header_len ws_text_message.payload_len + ws_text_message.payload_len)))
        true true malloc_always
      = some (ESP_OK,
          some ({ opcode := ws_text_message.opcode,
                  payload := if 0 < ws_text_message.payload_len then some (cstr "hi") else none,
                  payload_len := ws_text_message.payload_len,
                  is_final := ws_text_message.is_final },
            ws_header_len ws_text_message.payload_len + ws_text_message.payload_len))) :=
  ⟨by decide,
    ws_frame_roundtrip ws_text_message (cstr "hi") ws_out_buffer malloc_always (by decide) rfl
      (fun _ => rfl) (by decide) (by decide) (fun _ => rfl)⟩
/-! ## WebSocket frame length -/

theorem be64_value_lt (bs : List Nat) (acc : Nat) (h : acc < U64_MOD) :
    be64_value bs acc < U64_MOD := by
  have hM : U64_MOD = 18446744073709551616 := by norm_num [U64_MOD]
  induction bs generalizing acc with
  | nil => exact h
  | cons b bs ih =>
    simp only [be64_value]
    apply ih
    rw [hM]
    omega

theorem ws_announced_len_lt (buf : List Nat) : ws_announced_len buf < U64_MOD := by
  have hM : U64_MOD = 18446744073709551616 := by norm_num [U64_MOD]
  unfold ws_announced_len
  split
  · rw [hM]; omega
  · split
    · exact be64_value_lt _ 0 (by rw [hM]; omega)
    · rw [hM]; omega

theorem ws_frame_header_len_bounds (b1 : Nat) :
    ws_frame_header_len b1 ≤ 14 ∧
    (b1 % 256 % 128 = 126 → 4 ≤ ws_frame_header_len b1) ∧
    (b1 % 256 % 128 = 127 → 10 ≤ ws_frame_header_len b1) ∧
    ws_frame_header_len b1 ≤ 2 + ws_extended_len b1 + 4 ∧
    (¬ (b1 % 256 / 128 % 2 ≠ 0) → ws_frame_header_len b1 = 2 + ws_extended_len b1) ∧
    (¬ (b1 % 256 % 128 = 126) → ¬ (b1 % 256 % 128 = 127) → ws_extended_len b1 = 0) ∧
    ws_extended_len b1 ≤ 8 ∧
    (b1 % 256 % 128 = 126 → ws_extended_len b1 = 2) := by
  unfold ws_frame_header_len ws_extended_len
  split_ifs <;> omega

theorem ws_error_branch (code : Nat) (hc : code ≠ ESP_OK)
    (P : Option (ws_message_t × Nat) → Prop) (Q : Prop) :
    (∀ r, (some (code, none) : Option (Nat × Option (ws_message_t × Nat))) = some (ESP_OK, r)
      → P r) ∧
    (Q → (some (code, none) : Option (Nat × Option (ws_message_t × Nat))) ≠ none) := by
  refine ⟨fun r h => ?_, fun _ h => by cases h⟩
  simp only [Option.some.injEq, Prod.mk.injEq] at h
  exact absurd h.1 hc

/-- C40: for every input buffer (of a length that `size_t` holds), whenever `ws_decode_frame`
returns `ESP_OK` the reported `frame_len` is at most `buffer_len` and equals the header length
(with the extended length and the 4-byte mask key when the mask bit is set) plus the decoded
`payload_len`, and this sum does not wrap in `uint64_t`; and when every block `malloc` hands out
fits in the address space together with the buffer, the call reads nothing outside the
buffer. -/
theorem ws_decode_frame_len_bounded (buf : List Nat) (message frame_len : Bool)
    (malloc : Nat → Bool) (hsz : buf.length < SIZE_MOD) :
    (∀ r, ws_decode_frame (some buf) message frame_len malloc = some (ESP_OK, r) →
      ∃ m fl, r = some (m, fl) ∧ fl ≤ buf.length ∧
        fl = ws_frame_header_len (buf.getD 1 0 % 256) + m.payload_len ∧
        ws_frame_header_len (buf.getD 1 0 % 256) + m.payload_len < U64_MOD) ∧
    ((∀ n, malloc n = true → n + buf.length < SIZE_MOD) →
      ws_decode_frame (some buf) message frame_len malloc ≠ none) := by
  have hS : SIZE_MOD = 4294967296 := by norm_num [SIZE_MOD]
  have hM : U64_MOD = 18446744073709551616 := by norm_num [U64_MOD]
  have hA := ws_announced_len_lt buf
  obtain ⟨hH, hH126, hH127, hHm, hHn, hE0, hE8, hE2⟩ :=
    ws_frame_header_len_bounds (buf.getD 1 0 % 256)
  have c1 : ESP_ERR_INVALID_ARG ≠ ESP_OK := by decide
  have c2 : ESP_ERR_INVALID_STATE ≠ ESP_OK := by decide
  have c3 : ESP_ERR_INVALID_SIZE ≠ ESP_OK := by decide
  have c4 : ESP_ERR_NO_MEM ≠ ESP_OK := by decide
  unfold ws_decode_frame
  simp only []
  generalize ws_frame_header_len (buf.getD 1 0 % 256) = H at *
  generalize ws_announced_len buf = A at *
  generalize ws_extended_len (buf.getD 1 0 % 256) = E at *
  rw [hS] at hsz
  rw [hM] at hA
  rw [hS, hM]
  by_cases g0 : message = false ∨ frame_len = false ∨ buf.length < 2
  · rw [if_pos g0]
    exact ws_error_branch _ c1 _ _
  · rw [if_neg g0]
    by_cases g1 : buf.getD 0 0 % 256 / 64 % 2 ≠ 0 ∨ buf.getD 0 0 % 256 / 32 % 2 ≠ 0 ∨
        buf.getD 0 0 % 256 / 16 % 2 ≠ 0
    · rw [if_pos g1]
      exact ws_error_branch _ c2 _ _
    · rw [if_neg g1]
      by_cases g2 : buf.getD 1 0 % 256 % 128 = 126 ∧ buf.length < 4
      · rw [if_pos g2]
        exact ws_error_branch _ c3 _ _
      · rw [if_neg g2]
        by_cases g3 : buf.getD 1 0 % 256 % 128 = 127 ∧ buf.length < 10
        · rw [if_pos g3]
          exact ws_error_branch _ c3 _ _
        · rw [if_neg g3]
          by_cases g4 : buf.getD 1 0 % 256 / 128 % 2 ≠ 0 ∧ buf.length < 2 + E + 4
          · rw [if_pos g4]
            exact ws_error_branch _ c3 _ _
          · rw [if_neg g4]
            by_cases g5 : buf.length < (H + A) % 18446744073709551616
            · rw [if_pos g5]
              exact ws_error_branch _ c3 _ _
            · rw [if_neg g5]
              have hHb : H ≤ buf.length := by omega
              by_cases g6 : 0 < A
              · rw [if_pos g6]
                by_cases g7 : malloc (A % 4294967296) = false
                · rw [if_pos g7]
                  exact ws_error_branch _ c4 _ _
                · rw [if_neg g7]
                  by_cases g8 : buf.length < H + A % 4294967296
                  · rw [if_pos g8]
                    refine ⟨fun r h => (by cases h), fun hmal _ => ?_⟩
                    have hb := hmal (A % 4294967296) (by simpa using g7)
                    omega
                  · rw [if_neg g8]
                    refine ⟨fun r h => ?_, fun _ h => by cases h⟩
                    simp only [Option.some.injEq, Prod.mk.injEq, true_and] at h
                    subst h
                    refine ⟨_, _, rfl, ?_, ?_, ?_⟩
                    · omega
                    · show (H + A) % 4294967296 = H + A
                      omega
                    · show H + A < 18446744073709551616
                      omega
              · rw [if_neg g6]
                refine ⟨fun r h => ?_, fun _ h => by cases h⟩
                simp only [Option.some.injEq, Prod.mk.injEq, true_and] at h
                subst h
                refine ⟨_, _, rfl, ?_, ?_, ?_⟩
                · omega
                · show (H + A) % 4294967296 = H + A
                  omega
                · show H + A < 18446744073709551616
                  omega

/-- C40, witness: the masked text frame of 8 bytes is decoded with `frame_len = 8`, the header
length 6 plus the payload length 2. -/
theorem ws_decode_frame_len_bounded_witness :
    ws_decode_frame (some ws_masked_frame) true true malloc_small
      = some (ESP_OK,
          some ({ opcode := 1, payload := some (cstr "hi"), payload_len := 2, is_final := true },
            8)) ∧
    ws_frame_header_len (ws_masked_frame.getD 1 0 % 256) = 6 ∧
    ((∀ r, ws_decode_frame (some ws_masked_frame) true true malloc_small = some (ESP_OK, r) →
      ∃ m fl, r = some (m, fl) ∧ fl ≤ ws_masked_frame.length ∧
        fl = ws_frame_header_len (ws_masked_frame.getD 1 0 % 256) + m.payload_len ∧
        ws_frame_header_len (ws_masked_frame.getD 1 0 % 256) + m.payload_len < U64_MOD) ∧
    ((∀ n, malloc_small n = true → n + ws_masked_frame.length < SIZE_MOD) →
      ws_decode_frame (some ws_masked_frame) true true malloc_small ≠ none)) :=
  ⟨by decide, by decide,
    ws_decode_frame_len_bounded ws_masked_frame true true malloc_small (by decide)⟩

/-- The size check of `ws_decode_frame` on a frame that announces `2 ^ 64 - 10` payload bytes
after a 10-byte header: the sum `header_len + payload_len` wraps to 0 in `uint64_t`, so the check
lets the frame pass; the call then returns `ESP_ERR_NO_MEM` when `malloc` refuses the request of
`2 ^ 32 - 10` bytes, and would copy from outside the buffer if `malloc` served it. -/
theorem ws_decode_frame_wrapped_sum :
    ws_announced_len ws_huge_frame = 18446744073709551606 ∧
    (ws_frame_header_len 127 + ws_announced_len ws_huge_frame) % U64_MOD = 0 ∧
    ws_announced_len ws_huge_frame % SIZE_MOD = 4294967286 ∧
    ws_decode_frame (some ws_huge_frame) true true malloc_never = some (ESP_ERR_NO_MEM, none) ∧
    ws_decode_frame (some ws_huge_frame) true true malloc_always = none := by
  decide

end PubSub
